import Mathlib

/-! # FlexLayout (Yoga fork) : a shallow embedding of the layout engine

The development follows `Sources/yoga/RNYoga.cpp`, `RNYGNode.cpp`, `RNUtils.cpp`,
`RNYGStyle.cpp`, `RNYGLayout.h` and `Yoga-internal.h`.

Modelling conventions:

* A C `float` is an `Option ℚ` : `none` is NaN (the engine's "undefined"), `some q` is an exact
  rational.  Rounding error and the infinities are outside the model; a division by zero yields
  `none` (exact for `0 / 0`).  Comparisons with NaN are false, `fmaxf`/`fminf` drop a NaN operand.
* Arrays indexed by an enum are functions from that enum.
* The enum value `-1` that the cache uses as "no entry" is `none` of an `Option`.
* A node tree is a value: `RNYGNode C` is one node whose children have type `C`, and
  `RNYGTree n` is a tree of height at most `n + 1`.  The `parent_` pointer is kept as the three
  cases the engine distinguishes (null, the node holding this child, some other node).
* A fatal assertion (`RNYGAssertWithNode` failing, which aborts) is `none` of the result.
* The tree-mutation API (`RNYGNodeInsertChild`, style setters, dirty propagation), which works on
  pointers, is embedded over an explicit heap of nodes further below.
-/

/-! ## Floats -/

/-- A C float: `none` is NaN. -/
abbrev YGFloat := Option ℚ

/-- The constant `RNYGUndefined` (NaN). -/
def RNYGUndefined : YGFloat := none

def fadd (a b : YGFloat) : YGFloat :=
  match a, b with
  | some x, some y => some (x + y)
  | _, _ => none

def fsub (a b : YGFloat) : YGFloat :=
  match a, b with
  | some x, some y => some (x - y)
  | _, _ => none

def fmul (a b : YGFloat) : YGFloat :=
  match a, b with
  | some x, some y => some (x * y)
  | _, _ => none

/-- Division; a zero divisor gives NaN (exact for `0 / 0`, the infinities are not modelled). -/
def fdiv (a b : YGFloat) : YGFloat :=
  match a, b with
  | some x, some y => if y = 0 then none else some (x / y)
  | _, _ => none

def fneg (a : YGFloat) : YGFloat :=
  match a with
  | some x => some (-x)
  | none => none

def fabs (a : YGFloat) : YGFloat :=
  match a with
  | some x => some |x|
  | none => none

/-- The C comparison `a < b` (false when an operand is NaN). -/
def flt (a b : YGFloat) : Bool :=
  match a, b with
  | some x, some y => decide (x < y)
  | _, _ => false

/-- The C comparison `a <= b`. -/
def fle (a b : YGFloat) : Bool :=
  match a, b with
  | some x, some y => decide (x ≤ y)
  | _, _ => false

/-- The C comparison `a > b`. -/
def fgt (a b : YGFloat) : Bool := flt b a

/-- The C comparison `a >= b`. -/
def fge (a b : YGFloat) : Bool := fle b a

/-- The C comparison `a == b` (false when an operand is NaN). -/
def feq (a b : YGFloat) : Bool :=
  match a, b with
  | some x, some y => decide (x = y)
  | _, _ => false

/-- The C comparison `a != b` (true when an operand is NaN). -/
def fne (a b : YGFloat) : Bool := !feq a b

/-- The C library `fmaxf` / `fmax`: a NaN operand is dropped. -/
def fmaxf (a b : YGFloat) : YGFloat :=
  match a, b with
  | some x, some y => some (max x y)
  | some x, none => some x
  | none, b => b

/-- The C library `fminf`: a NaN operand is dropped. -/
def fminf (a b : YGFloat) : YGFloat :=
  match a, b with
  | some x, some y => some (min x y)
  | some x, none => some x
  | none, b => b

/-- Truncation toward zero of a rational. -/
def truncQ (x : ℚ) : ℤ := if 0 ≤ x then ⌊x⌋ else ⌈x⌉

/-- The C library `fmodf(x, 1.0)`: `x` minus its truncation toward zero, so the result has the
sign of `x`. -/
def fmodf1 (a : YGFloat) : YGFloat :=
  match a with
  | some x => some (x - truncQ x)
  | none => none

/-- `RNYGFloatIsUndefined` (RNYoga.cpp:120). -/
def RNYGFloatIsUndefined (value : YGFloat) : Bool := value.isNone

/-- `RNYGFloatsEqualWithPrecision` (RNYoga.cpp:791). -/
def RNYGFloatsEqualWithPrecision (a b precision : YGFloat) : Bool :=
  if RNYGFloatIsUndefined a then RNYGFloatIsUndefined b
  else flt (fabs (fsub a b)) precision

/-- `RNYGFloatsEqual` (RNYoga.cpp:800). -/
def RNYGFloatsEqual (a b : YGFloat) : Bool :=
  RNYGFloatsEqualWithPrecision a b (some (1 / 10000))

/-! ## Enumerations -/

inductive RNYGAlign where
  | Auto | FlexStart | Center | FlexEnd | Stretch | Baseline | SpaceBetween | SpaceAround
  deriving DecidableEq, Repr

inductive RNYGDimension where
  | Width | Height
  deriving DecidableEq, Repr

inductive RNYGDirection where
  | Inherit | LTR | RTL
  deriving DecidableEq, Repr

inductive RNYGDisplay where
  | Flex | None
  deriving DecidableEq, Repr

inductive RNYGEdge where
  | Left | Top | Right | Bottom | Start | End | Horizontal | Vertical | All
  deriving DecidableEq, Repr

inductive RNYGFlexDirection where
  | Column | ColumnReverse | Row | RowReverse
  deriving DecidableEq, Repr

inductive RNYGJustify where
  | FlexStart | Center | FlexEnd | SpaceBetween | SpaceAround | SpaceEvenly
  deriving DecidableEq, Repr

inductive RNYGMeasureMode where
  | Undefined | Exactly | AtMost
  deriving DecidableEq, Repr

inductive RNYGNodeType where
  | Default | Text
  deriving DecidableEq, Repr

inductive RNYGOverflow where
  | Visible | Hidden | Scroll
  deriving DecidableEq, Repr

inductive RNYGPositionType where
  | Relative | Absolute
  deriving DecidableEq, Repr

inductive RNYGUnit where
  | Undefined | Point | Percent | Auto
  deriving DecidableEq, Repr

inductive RNYGWrap where
  | NoWrap | Wrap | WrapReverse
  deriving DecidableEq, Repr

/-! ## Values, style, layout, configuration -/

structure RNYGValue where
  value : YGFloat
  unit : RNYGUnit
  deriving DecidableEq, Repr

def RNYGValueZero : RNYGValue := { value := some 0, unit := RNYGUnit.Point }
def RNYGValueUndefined : RNYGValue := { value := RNYGUndefined, unit := RNYGUnit.Undefined }
def RNYGValueAuto : RNYGValue := { value := RNYGUndefined, unit := RNYGUnit.Auto }

structure RNYGStyle where
  direction : RNYGDirection
  flexDirection : RNYGFlexDirection
  justifyContent : RNYGJustify
  alignContent : RNYGAlign
  alignItems : RNYGAlign
  alignSelf : RNYGAlign
  positionType : RNYGPositionType
  flexWrap : RNYGWrap
  overflow : RNYGOverflow
  display : RNYGDisplay
  flex : YGFloat
  flexGrow : YGFloat
  flexShrink : YGFloat
  flexBasis : RNYGValue
  margin : RNYGEdge → RNYGValue
  position : RNYGEdge → RNYGValue
  padding : RNYGEdge → RNYGValue
  border : RNYGEdge → RNYGValue
  dimensions : RNYGDimension → RNYGValue
  minDimensions : RNYGDimension → RNYGValue
  maxDimensions : RNYGDimension → RNYGValue
  aspectRatio : YGFloat

/-- The constructor `RNYGStyle::RNYGStyle()` (RNYGStyle.cpp:32). -/
def RNYGStyle.default : RNYGStyle :=
  { direction := RNYGDirection.Inherit
    flexDirection := RNYGFlexDirection.Column
    justifyContent := RNYGJustify.FlexStart
    alignContent := RNYGAlign.FlexStart
    alignItems := RNYGAlign.Stretch
    alignSelf := RNYGAlign.Auto
    positionType := RNYGPositionType.Relative
    flexWrap := RNYGWrap.NoWrap
    overflow := RNYGOverflow.Visible
    display := RNYGDisplay.Flex
    flex := RNYGUndefined
    flexGrow := RNYGUndefined
    flexShrink := RNYGUndefined
    flexBasis := RNYGValueAuto
    margin := fun _ => RNYGValueUndefined
    position := fun _ => RNYGValueUndefined
    padding := fun _ => RNYGValueUndefined
    border := fun _ => RNYGValueUndefined
    dimensions := fun _ => RNYGValueAuto
    minDimensions := fun _ => RNYGValueUndefined
    maxDimensions := fun _ => RNYGValueUndefined
    aspectRatio := RNYGUndefined }

/-- `RNYGCachedMeasurement` (Yoga-internal.h:44); a measure mode of `-1` is `none`. -/
structure RNYGCachedMeasurement where
  availableWidth : YGFloat
  availableHeight : YGFloat
  widthMeasureMode : Option RNYGMeasureMode
  heightMeasureMode : Option RNYGMeasureMode
  computedWidth : YGFloat
  computedHeight : YGFloat
  deriving DecidableEq, Repr

/-- The constructor `RNYGCachedMeasurement()` (Yoga-internal.h:53). -/
def RNYGCachedMeasurement.default : RNYGCachedMeasurement :=
  { availableWidth := some 0
    availableHeight := some 0
    widthMeasureMode := none
    heightMeasureMode := none
    computedWidth := some (-1)
    computedHeight := some (-1) }

/-- `RNYG_MAX_CACHED_RESULT_COUNT` (Yoga-internal.h:87). -/
def RNYG_MAX_CACHED_RESULT_COUNT : Nat := 16

/-- `RNYGLayout` (RNYGLayout.h:12).  `lastParentDirection` is `none` for the value `-1`. -/
structure RNYGLayout where
  position : RNYGEdge → YGFloat
  dimensions : RNYGDimension → YGFloat
  margin : RNYGEdge → YGFloat
  border : RNYGEdge → YGFloat
  padding : RNYGEdge → YGFloat
  direction : RNYGDirection
  computedFlexBasisGeneration : Nat
  computedFlexBasis : YGFloat
  hadOverflow : Bool
  generationCount : Nat
  lastParentDirection : Option RNYGDirection
  nextCachedMeasurementsIndex : Nat
  cachedMeasurements : Nat → RNYGCachedMeasurement
  measuredDimensions : RNYGDimension → YGFloat
  cachedLayout : RNYGCachedMeasurement
  didUseLegacyFlag : Bool
  doesLegacyStretchFlagAffectsLayout : Bool

/-- Modelled from the spec: the constructor `RNYGLayout::RNYGLayout()`, whose source file
(RNYGLayout.cpp) is not part of the sources.  Positions and resolved edges are zero, the two
dimension pairs and the flex basis are undefined, the caches are empty, and
`lastParentDirection` holds the value `-1`. -/
def RNYGLayout.default : RNYGLayout :=
  { position := fun _ => some 0
    dimensions := fun _ => RNYGUndefined
    margin := fun _ => some 0
    border := fun _ => some 0
    padding := fun _ => some 0
    direction := RNYGDirection.Inherit
    computedFlexBasisGeneration := 0
    computedFlexBasis := RNYGUndefined
    hadOverflow := false
    generationCount := 0
    lastParentDirection := none
    nextCachedMeasurementsIndex := 0
    cachedMeasurements := fun _ => RNYGCachedMeasurement.default
    measuredDimensions := fun _ => RNYGUndefined
    cachedLayout := RNYGCachedMeasurement.default
    didUseLegacyFlag := false
    doesLegacyStretchFlagAffectsLayout := false }

/-- The result of `memset(&layout, 0, sizeof(RNYGLayout))` (RNYoga.cpp:1523): every field is the
all-zero bit pattern (enum value 0, float 0.0, false). -/
def RNYGLayout.zeroed : RNYGLayout :=
  { position := fun _ => some 0
    dimensions := fun _ => some 0
    margin := fun _ => some 0
    border := fun _ => some 0
    padding := fun _ => some 0
    direction := RNYGDirection.Inherit
    computedFlexBasisGeneration := 0
    computedFlexBasis := some 0
    hadOverflow := false
    generationCount := 0
    lastParentDirection := some RNYGDirection.Inherit
    nextCachedMeasurementsIndex := 0
    cachedMeasurements := fun _ =>
      { availableWidth := some 0, availableHeight := some 0,
        widthMeasureMode := some RNYGMeasureMode.Undefined,
        heightMeasureMode := some RNYGMeasureMode.Undefined,
        computedWidth := some 0, computedHeight := some 0 }
    measuredDimensions := fun _ => some 0
    cachedLayout :=
      { availableWidth := some 0, availableHeight := some 0,
        widthMeasureMode := some RNYGMeasureMode.Undefined,
        heightMeasureMode := some RNYGMeasureMode.Undefined,
        computedWidth := some 0, computedHeight := some 0 }
    didUseLegacyFlag := false
    doesLegacyStretchFlagAffectsLayout := false }

/-- `RNYGConfig` (Yoga-internal.h:89), without the logger, the clone callback and the context
pointer.  `experimentalFeatureWebFlexBasis` is `experimentalFeatures[WebFlexBasis]`. -/
structure RNYGConfig where
  experimentalFeatureWebFlexBasis : Bool
  useWebDefaults : Bool
  useLegacyStretchBehaviour : Bool
  shouldDiffLayoutWithoutLegacyStretchBehaviour : Bool
  pointScaleFactor : YGFloat
  deriving DecidableEq, Repr

/-- `gYGConfigDefaults` (RNYoga.cpp:41). -/
def gYGConfigDefaults : RNYGConfig :=
  { experimentalFeatureWebFlexBasis := false
    useWebDefaults := false
    useLegacyStretchBehaviour := false
    shouldDiffLayoutWithoutLegacyStretchBehaviour := false
    pointScaleFactor := some 1 }

def kDefaultFlexGrow : YGFloat := some 0
def kDefaultFlexShrink : YGFloat := some 0
def kWebDefaultFlexShrink : YGFloat := some 1

/-! ## Nodes -/

/-- `RNYGSize`, the result of a measure callback. -/
structure RNYGSize where
  width : YGFloat
  height : YGFloat
  deriving DecidableEq, Repr

/-- A measure callback `measure(node, width, widthMode, height, heightMode)`, as a function of
the constraints it is given. -/
abbrev RNYGMeasureFunc := YGFloat → RNYGMeasureMode → YGFloat → RNYGMeasureMode → RNYGSize

/-- A baseline callback `baseline(node, width, height)`. -/
abbrev RNYGBaselineFunc := YGFloat → YGFloat → YGFloat

/-- What the engine can tell about a `parent_` pointer: it is null, it points to the node whose
child list holds this node, or it points to another node (a shared child). -/
inductive RNYGParentRef where
  | null | owner | other
  deriving DecidableEq, Repr

/-- The class `RNYGNode` (RNYGNode.cpp:377), with children of type `C`.  The context pointer, the
print callback, the dirtied callback and `nextChild_` play no part in layout and are left out. -/
structure RNYGNode (C : Type) where
  hasNewLayout : Bool
  nodeType : RNYGNodeType
  measure : Option RNYGMeasureFunc
  baseline : Option RNYGBaselineFunc
  style : RNYGStyle
  layout : RNYGLayout
  lineIndex : Nat
  parent : RNYGParentRef
  children : List C
  config : RNYGConfig
  isDirty : Bool
  resolvedDimensions : RNYGDimension → RNYGValue

/-- The type of the children of a tree of level `n`: none at level 0, trees of level `n` at
level `n + 1`. -/
def RNYGKids : Nat → Type
  | 0 => PEmpty
  | n + 1 => RNYGNode (RNYGKids n)

/-- A node tree of height at most `n + 1`: at level 0 the child list is necessarily empty, at
level `n + 1` the children are trees of level `n`. -/
abbrev RNYGTree (n : Nat) : Type := RNYGNode (RNYGKids n)

/-- The constructor `RNYGNode::RNYGNode()` (RNYGNode.cpp:377) followed by `setConfig`, as in
`RNYGNodeNewWithConfig` (RNYoga.cpp:224). -/
def RNYGNodeNewWithConfig {C : Type} (config : RNYGConfig) : RNYGNode C :=
  { hasNewLayout := true
    nodeType := RNYGNodeType.Default
    measure := none
    baseline := none
    style :=
      if config.useWebDefaults then
        { RNYGStyle.default with
          flexDirection := RNYGFlexDirection.Row, alignContent := RNYGAlign.Stretch }
      else RNYGStyle.default
    layout := RNYGLayout.default
    lineIndex := 0
    parent := RNYGParentRef.null
    children := []
    config := config
    isDirty := false
    resolvedDimensions := fun _ => RNYGValueUndefined }

/-! ## Helpers of RNUtils.h, whose source is not part of the sources -/

/-- Modelled from the spec: `RNYGResolveValue` (declared in RNUtils.h, absent).  "Resolving a
value against a parent-size P yields: value for point; value * P / 100 for percent (undefined if
P is undefined); undefined for auto or undefined." -/
def RNYGResolveValue (value : RNYGValue) (parentSize : YGFloat) : YGFloat :=
  match value.unit with
  | RNYGUnit.Undefined => RNYGUndefined
  | RNYGUnit.Auto => RNYGUndefined
  | RNYGUnit.Point => value.value
  | RNYGUnit.Percent => fdiv (fmul value.value parentSize) (some 100)

/-- Modelled from the spec: `RNYGResolveValueMargin` (declared in RNUtils.h, absent).  "For
margins only, auto/undefined resolves to 0." -/
def RNYGResolveValueMargin (value : RNYGValue) (parentSize : YGFloat) : YGFloat :=
  match value.unit with
  | RNYGUnit.Auto => some 0
  | RNYGUnit.Undefined => some 0
  | _ => RNYGResolveValue value parentSize

/-- Modelled from the spec: `RNYGFlexDirectionIsRow` (RNUtils.h, absent): `isRow(axis)`. -/
def RNYGFlexDirectionIsRow (flexDirection : RNYGFlexDirection) : Bool :=
  flexDirection = RNYGFlexDirection.Row || flexDirection = RNYGFlexDirection.RowReverse

/-- Modelled from the spec: `RNYGFlexDirectionIsColumn` (RNUtils.h, absent): `isColumn(axis)`. -/
def RNYGFlexDirectionIsColumn (flexDirection : RNYGFlexDirection) : Bool :=
  flexDirection = RNYGFlexDirection.Column || flexDirection = RNYGFlexDirection.ColumnReverse

/-- Modelled from the spec: `RNYGResolveFlexDirection` (RNUtils.h, absent).  "row/row-reverse
swap to their reverse under rtl; column directions are unchanged." -/
def RNYGResolveFlexDirection (flexDirection : RNYGFlexDirection) (direction : RNYGDirection) :
    RNYGFlexDirection :=
  if direction = RNYGDirection.RTL then
    match flexDirection with
    | RNYGFlexDirection.Row => RNYGFlexDirection.RowReverse
    | RNYGFlexDirection.RowReverse => RNYGFlexDirection.Row
    | d => d
  else flexDirection

/-- `RNYGFlexDirectionCross` (RNUtils.cpp:10). -/
def RNYGFlexDirectionCross (flexDirection : RNYGFlexDirection) (direction : RNYGDirection) :
    RNYGFlexDirection :=
  if RNYGFlexDirectionIsColumn flexDirection then
    RNYGResolveFlexDirection RNYGFlexDirection.Row direction
  else RNYGFlexDirection.Column

/-- `RNYGValueEqual` (RNUtils.cpp:18). -/
def RNYGValueEqual (a b : RNYGValue) : Bool :=
  if a.unit ≠ b.unit then false
  else if a.unit = RNYGUnit.Undefined || (a.value.isNone && b.value.isNone) then true
  else flt (fabs (fsub a.value b.value)) (some (1 / 10000))

/-! ## Axis tables (RNYoga.cpp:815) -/

/-- The table `leading`. -/
def leading : RNYGFlexDirection → RNYGEdge
  | RNYGFlexDirection.Column => RNYGEdge.Top
  | RNYGFlexDirection.ColumnReverse => RNYGEdge.Bottom
  | RNYGFlexDirection.Row => RNYGEdge.Left
  | RNYGFlexDirection.RowReverse => RNYGEdge.Right

/-- The table `trailing`. -/
def trailing : RNYGFlexDirection → RNYGEdge
  | RNYGFlexDirection.Column => RNYGEdge.Bottom
  | RNYGFlexDirection.ColumnReverse => RNYGEdge.Top
  | RNYGFlexDirection.Row => RNYGEdge.Right
  | RNYGFlexDirection.RowReverse => RNYGEdge.Left

/-- The table `pos`. -/
def pos : RNYGFlexDirection → RNYGEdge
  | RNYGFlexDirection.Column => RNYGEdge.Top
  | RNYGFlexDirection.ColumnReverse => RNYGEdge.Bottom
  | RNYGFlexDirection.Row => RNYGEdge.Left
  | RNYGFlexDirection.RowReverse => RNYGEdge.Right

/-- The table `dim`. -/
def dim : RNYGFlexDirection → RNYGDimension
  | RNYGFlexDirection.Column => RNYGDimension.Height
  | RNYGFlexDirection.ColumnReverse => RNYGDimension.Height
  | RNYGFlexDirection.Row => RNYGDimension.Width
  | RNYGFlexDirection.RowReverse => RNYGDimension.Width

/-- `RNYGComputedEdgeValue` (RNYoga.cpp:124). -/
def RNYGComputedEdgeValue (edges : RNYGEdge → RNYGValue) (edge : RNYGEdge)
    (defaultValue : RNYGValue) : RNYGValue :=
  if (edges edge).unit ≠ RNYGUnit.Undefined then edges edge
  else if (edge = RNYGEdge.Top || edge = RNYGEdge.Bottom) &&
      (edges RNYGEdge.Vertical).unit ≠ RNYGUnit.Undefined then edges RNYGEdge.Vertical
  else if (edge = RNYGEdge.Left || edge = RNYGEdge.Right || edge = RNYGEdge.Start ||
        edge = RNYGEdge.End) &&
      (edges RNYGEdge.Horizontal).unit ≠ RNYGUnit.Undefined then edges RNYGEdge.Horizontal
  else if (edges RNYGEdge.All).unit ≠ RNYGUnit.Undefined then edges RNYGEdge.All
  else if edge = RNYGEdge.Start || edge = RNYGEdge.End then RNYGValueUndefined
  else defaultValue

/-! ## Node accessors (RNYGNode.cpp) -/

namespace RNYGNode

variable {C : Type}

/-- `RNYGNode::getLeadingPosition` (RNYGNode.cpp:88). -/
def getLeadingPosition (node : RNYGNode C) (axis : RNYGFlexDirection) (axisSize : YGFloat) :
    YGFloat :=
  let startPosition := RNYGComputedEdgeValue node.style.position RNYGEdge.Start RNYGValueUndefined
  if RNYGFlexDirectionIsRow axis && startPosition.unit ≠ RNYGUnit.Undefined then
    RNYGResolveValue startPosition axisSize
  else
    let leadingPosition :=
      RNYGComputedEdgeValue node.style.position (leading axis) RNYGValueUndefined
    if leadingPosition.unit = RNYGUnit.Undefined then some 0
    else RNYGResolveValue leadingPosition axisSize

/-- `RNYGNode::getTrailingPosition` (RNYGNode.cpp:107). -/
def getTrailingPosition (node : RNYGNode C) (axis : RNYGFlexDirection) (axisSize : YGFloat) :
    YGFloat :=
  let endPosition := RNYGComputedEdgeValue node.style.position RNYGEdge.End RNYGValueUndefined
  if RNYGFlexDirectionIsRow axis && endPosition.unit ≠ RNYGUnit.Undefined then
    RNYGResolveValue endPosition axisSize
  else
    let trailingPosition :=
      RNYGComputedEdgeValue node.style.position (trailing axis) RNYGValueUndefined
    if trailingPosition.unit = RNYGUnit.Undefined then some 0
    else RNYGResolveValue trailingPosition axisSize

/-- `RNYGNode::isLeadingPositionDefined` (RNYGNode.cpp:126). -/
def isLeadingPositionDefined (node : RNYGNode C) (axis : RNYGFlexDirection) : Bool :=
  (RNYGFlexDirectionIsRow axis &&
    (RNYGComputedEdgeValue node.style.position RNYGEdge.Start RNYGValueUndefined).unit ≠
      RNYGUnit.Undefined) ||
  (RNYGComputedEdgeValue node.style.position (leading axis) RNYGValueUndefined).unit ≠
    RNYGUnit.Undefined

/-- `RNYGNode::isTrailingPosDefined` (RNYGNode.cpp:134). -/
def isTrailingPosDefined (node : RNYGNode C) (axis : RNYGFlexDirection) : Bool :=
  (RNYGFlexDirectionIsRow axis &&
    (RNYGComputedEdgeValue node.style.position RNYGEdge.End RNYGValueUndefined).unit ≠
      RNYGUnit.Undefined) ||
  (RNYGComputedEdgeValue node.style.position (trailing axis) RNYGValueUndefined).unit ≠
    RNYGUnit.Undefined

/-- `RNYGNode::getLeadingMargin` (RNYGNode.cpp:142). -/
def getLeadingMargin (node : RNYGNode C) (axis : RNYGFlexDirection) (widthSize : YGFloat) :
    YGFloat :=
  if RNYGFlexDirectionIsRow axis && (node.style.margin RNYGEdge.Start).unit ≠ RNYGUnit.Undefined
  then RNYGResolveValueMargin (node.style.margin RNYGEdge.Start) widthSize
  else RNYGResolveValueMargin
    (RNYGComputedEdgeValue node.style.margin (leading axis) RNYGValueZero) widthSize

/-- `RNYGNode::getTrailingMargin` (RNYGNode.cpp:155). -/
def getTrailingMargin (node : RNYGNode C) (axis : RNYGFlexDirection) (widthSize : YGFloat) :
    YGFloat :=
  if RNYGFlexDirectionIsRow axis && (node.style.margin RNYGEdge.End).unit ≠ RNYGUnit.Undefined
  then RNYGResolveValueMargin (node.style.margin RNYGEdge.End) widthSize
  else RNYGResolveValueMargin
    (RNYGComputedEdgeValue node.style.margin (trailing axis) RNYGValueZero) widthSize

/-- `RNYGNode::getMarginForAxis` (RNYGNode.cpp:168). -/
def getMarginForAxis (node : RNYGNode C) (axis : RNYGFlexDirection) (widthSize : YGFloat) :
    YGFloat :=
  fadd (node.getLeadingMargin axis widthSize) (node.getTrailingMargin axis widthSize)

/-- `RNYGNode::setLayoutPosition` (RNYGNode.cpp:316). -/
def setLayoutPosition (node : RNYGNode C) (position : YGFloat) (index : RNYGEdge) : RNYGNode C :=
  { node with layout := { node.layout with
      position := Function.update node.layout.position index position } }

/-- `RNYGNode::setLayoutDimension` (RNYGNode.cpp:333). -/
def setLayoutDimension (node : RNYGNode C) (dimension : YGFloat) (index : RNYGDimension) :
    RNYGNode C :=
  { node with layout := { node.layout with
      dimensions := Function.update node.layout.dimensions index dimension } }

/-- `RNYGNode::setLayoutMeasuredDimension` (RNYGNode.cpp:325). -/
def setLayoutMeasuredDimension (node : RNYGNode C) (measuredDimension : YGFloat)
    (index : RNYGDimension) : RNYGNode C :=
  { node with layout := { node.layout with
      measuredDimensions := Function.update node.layout.measuredDimensions index
        measuredDimension } }

/-- `RNYGNode::setLayoutMargin` (RNYGNode.cpp:296). -/
def setLayoutMargin (node : RNYGNode C) (margin : YGFloat) (index : RNYGEdge) : RNYGNode C :=
  { node with layout := { node.layout with
      margin := Function.update node.layout.margin index margin } }

/-- `RNYGNode::setLayoutBorder` (RNYGNode.cpp:300). -/
def setLayoutBorder (node : RNYGNode C) (border : YGFloat) (index : RNYGEdge) : RNYGNode C :=
  { node with layout := { node.layout with
      border := Function.update node.layout.border index border } }

/-- `RNYGNode::setLayoutPadding` (RNYGNode.cpp:304). -/
def setLayoutPadding (node : RNYGNode C) (padding : YGFloat) (index : RNYGEdge) : RNYGNode C :=
  { node with layout := { node.layout with
      padding := Function.update node.layout.padding index padding } }

/-- `RNYGNode::setLayoutDirection` (RNYGNode.cpp:292). -/
def setLayoutDirection (node : RNYGNode C) (direction : RNYGDirection) : RNYGNode C :=
  { node with layout := { node.layout with direction := direction } }

/-- `RNYGNode::setLayoutComputedFlexBasis` (RNYGNode.cpp:312). -/
def setLayoutComputedFlexBasis (node : RNYGNode C) (computedFlexBasis : YGFloat) : RNYGNode C :=
  { node with layout := { node.layout with computedFlexBasis := computedFlexBasis } }

/-- `RNYGNode::setLayoutComputedFlexBasisGeneration` (RNYGNode.cpp:320). -/
def setLayoutComputedFlexBasisGeneration (node : RNYGNode C) (generation : Nat) : RNYGNode C :=
  { node with layout := { node.layout with computedFlexBasisGeneration := generation } }

/-- `RNYGNode::setLayoutHadOverflow` (RNYGNode.cpp:329). -/
def setLayoutHadOverflow (node : RNYGNode C) (hadOverflow : Bool) : RNYGNode C :=
  { node with layout := { node.layout with hadOverflow := hadOverflow } }

/-- `RNYGNode::setLayoutDidUseLegacyFlag` (RNYGNode.cpp:717). -/
def setLayoutDidUseLegacyFlag (node : RNYGNode C) (didUseLegacyFlag : Bool) : RNYGNode C :=
  { node with layout := { node.layout with didUseLegacyFlag := didUseLegacyFlag } }

/-- `RNYGNode::setLayoutDoesLegacyFlagAffectsLayout` (RNYGNode.cpp:712). -/
def setLayoutDoesLegacyFlagAffectsLayout (node : RNYGNode C) (flag : Bool) : RNYGNode C :=
  { node with layout := { node.layout with doesLegacyStretchFlagAffectsLayout := flag } }

/-- `RNYGNode::setHasNewLayout` (RNYGNode.cpp:184). -/
def setHasNewLayout (node : RNYGNode C) (hasNewLayout : Bool) : RNYGNode C :=
  { node with hasNewLayout := hasNewLayout }

/-- `RNYGNode::setLineIndex` (RNYGNode.cpp:236). -/
def setLineIndex (node : RNYGNode C) (lineIndex : Nat) : RNYGNode C :=
  { node with lineIndex := lineIndex }

/-- `RNYGNode::setDirty` (RNYGNode.cpp:268).  The dirtied callback, which only runs on a change
to `true`, is not part of the tree model. -/
def setDirty (node : RNYGNode C) (isDirty : Bool) : RNYGNode C :=
  if isDirty = node.isDirty then node else { node with isDirty := isDirty }

/-- `RNYGNode::relativePosition` (RNYGNode.cpp:339). -/
def relativePosition (node : RNYGNode C) (axis : RNYGFlexDirection) (axisSize : YGFloat) :
    YGFloat :=
  if node.isLeadingPositionDefined axis then node.getLeadingPosition axis axisSize
  else fneg (node.getTrailingPosition axis axisSize)

/-- `RNYGNode::setPosition` (RNYGNode.cpp:346). -/
def setPosition (node : RNYGNode C) (direction : RNYGDirection)
    (mainSize crossSize parentWidth : YGFloat) : RNYGNode C :=
  let directionRespectingRoot :=
    if node.parent ≠ RNYGParentRef.null then direction else RNYGDirection.LTR
  let mainAxis := RNYGResolveFlexDirection node.style.flexDirection directionRespectingRoot
  let crossAxis := RNYGFlexDirectionCross mainAxis directionRespectingRoot
  let relativePositionMain := node.relativePosition mainAxis mainSize
  let relativePositionCross := node.relativePosition crossAxis crossSize
  let node := node.setLayoutPosition
    (fadd (node.getLeadingMargin mainAxis parentWidth) relativePositionMain) (leading mainAxis)
  let node := node.setLayoutPosition
    (fadd (node.getTrailingMargin mainAxis parentWidth) relativePositionMain) (trailing mainAxis)
  let node := node.setLayoutPosition
    (fadd (node.getLeadingMargin crossAxis parentWidth) relativePositionCross) (leading crossAxis)
  node.setLayoutPosition
    (fadd (node.getTrailingMargin crossAxis parentWidth) relativePositionCross)
    (trailing crossAxis)

/-- `RNYGNode::marginLeadingValue` (RNYGNode.cpp:480). -/
def marginLeadingValue (node : RNYGNode C) (axis : RNYGFlexDirection) : RNYGValue :=
  if RNYGFlexDirectionIsRow axis && (node.style.margin RNYGEdge.Start).unit ≠ RNYGUnit.Undefined
  then node.style.margin RNYGEdge.Start
  else node.style.margin (leading axis)

/-- `RNYGNode::marginTrailingValue` (RNYGNode.cpp:489). -/
def marginTrailingValue (node : RNYGNode C) (axis : RNYGFlexDirection) : RNYGValue :=
  if RNYGFlexDirectionIsRow axis && (node.style.margin RNYGEdge.End).unit ≠ RNYGUnit.Undefined
  then node.style.margin RNYGEdge.End
  else node.style.margin (trailing axis)

/-- `RNYGNode::resolveFlexBasisPtr` (RNYGNode.cpp:498). -/
def resolveFlexBasisPtr (node : RNYGNode C) : RNYGValue :=
  let flexBasis := node.style.flexBasis
  if flexBasis.unit ≠ RNYGUnit.Auto && flexBasis.unit ≠ RNYGUnit.Undefined then flexBasis
  else if !RNYGFloatIsUndefined node.style.flex && fgt node.style.flex (some 0) then
    (if node.config.useWebDefaults then RNYGValueAuto else RNYGValueZero)
  else RNYGValueAuto

/-- `RNYGNode::resolveDimension` (RNYGNode.cpp:509). -/
def resolveDimension (node : RNYGNode C) : RNYGNode C :=
  { node with resolvedDimensions := fun d =>
      if (node.style.maxDimensions d).unit ≠ RNYGUnit.Undefined &&
          RNYGValueEqual (node.style.maxDimensions d) (node.style.minDimensions d)
      then node.style.maxDimensions d
      else node.style.dimensions d }

/-- `RNYGNode::resolveDirection` (RNYGNode.cpp:521). -/
def resolveDirection (node : RNYGNode C) (parentDirection : RNYGDirection) : RNYGDirection :=
  if node.style.direction = RNYGDirection.Inherit then
    (if parentDirection ≠ RNYGDirection.Inherit then parentDirection else RNYGDirection.LTR)
  else node.style.direction

/-- `RNYGNode::resolveFlexGrow` (RNYGNode.cpp:590). -/
def resolveFlexGrow (node : RNYGNode C) : YGFloat :=
  if node.parent = RNYGParentRef.null then some 0
  else if !RNYGFloatIsUndefined node.style.flexGrow then node.style.flexGrow
  else if !RNYGFloatIsUndefined node.style.flex && fgt node.style.flex (some 0) then
    node.style.flex
  else kDefaultFlexGrow

/-- `RNYGNode::resolveFlexShrink` (RNYGNode.cpp:604). -/
def resolveFlexShrink (node : RNYGNode C) : YGFloat :=
  if node.parent = RNYGParentRef.null then some 0
  else if !RNYGFloatIsUndefined node.style.flexShrink then node.style.flexShrink
  else if !node.config.useWebDefaults && !RNYGFloatIsUndefined node.style.flex &&
      flt node.style.flex (some 0) then fneg node.style.flex
  else if node.config.useWebDefaults then kWebDefaultFlexShrink else kDefaultFlexShrink

/-- `RNYGNode::isNodeFlexible` (RNYGNode.cpp:618). -/
def isNodeFlexible (node : RNYGNode C) : Bool :=
  node.style.positionType = RNYGPositionType.Relative &&
    (fne node.resolveFlexGrow (some 0) || fne node.resolveFlexShrink (some 0))

/-- `RNYGNode::getLeadingBorder` (RNYGNode.cpp:624). -/
def getLeadingBorder (node : RNYGNode C) (axis : RNYGFlexDirection) : YGFloat :=
  if RNYGFlexDirectionIsRow axis && (node.style.border RNYGEdge.Start).unit ≠ RNYGUnit.Undefined &&
      fge (node.style.border RNYGEdge.Start).value (some 0)
  then (node.style.border RNYGEdge.Start).value
  else fmaxf (RNYGComputedEdgeValue node.style.border (leading axis) RNYGValueZero).value (some 0)

/-- `RNYGNode::getTrailingBorder` (RNYGNode.cpp:636). -/
def getTrailingBorder (node : RNYGNode C) (flexDirection : RNYGFlexDirection) : YGFloat :=
  if RNYGFlexDirectionIsRow flexDirection &&
      (node.style.border RNYGEdge.End).unit ≠ RNYGUnit.Undefined &&
      fge (node.style.border RNYGEdge.End).value (some 0)
  then (node.style.border RNYGEdge.End).value
  else fmaxf
    (RNYGComputedEdgeValue node.style.border (trailing flexDirection) RNYGValueZero).value (some 0)

/-- `RNYGNode::getLeadingPadding` (RNYGNode.cpp:649). -/
def getLeadingPadding (node : RNYGNode C) (axis : RNYGFlexDirection) (widthSize : YGFloat) :
    YGFloat :=
  if RNYGFlexDirectionIsRow axis && (node.style.padding RNYGEdge.Start).unit ≠ RNYGUnit.Undefined &&
      fge (RNYGResolveValue (node.style.padding RNYGEdge.Start) widthSize) (some 0)
  then RNYGResolveValue (node.style.padding RNYGEdge.Start) widthSize
  else fmaxf
    (RNYGResolveValue (RNYGComputedEdgeValue node.style.padding (leading axis) RNYGValueZero)
      widthSize) (some 0)

/-- `RNYGNode::getTrailingPadding` (RNYGNode.cpp:664). -/
def getTrailingPadding (node : RNYGNode C) (axis : RNYGFlexDirection) (widthSize : YGFloat) :
    YGFloat :=
  if RNYGFlexDirectionIsRow axis && (node.style.padding RNYGEdge.End).unit ≠ RNYGUnit.Undefined &&
      fge (RNYGResolveValue (node.style.padding RNYGEdge.End) widthSize) (some 0)
  then RNYGResolveValue (node.style.padding RNYGEdge.End) widthSize
  else fmaxf
    (RNYGResolveValue (RNYGComputedEdgeValue node.style.padding (trailing axis) RNYGValueZero)
      widthSize) (some 0)

/-- `RNYGNode::getLeadingPaddingAndBorder` (RNYGNode.cpp:679). -/
def getLeadingPaddingAndBorder (node : RNYGNode C) (axis : RNYGFlexDirection)
    (widthSize : YGFloat) : YGFloat :=
  fadd (node.getLeadingPadding axis widthSize) (node.getLeadingBorder axis)

/-- `RNYGNode::getTrailingPaddingAndBorder` (RNYGNode.cpp:685). -/
def getTrailingPaddingAndBorder (node : RNYGNode C) (axis : RNYGFlexDirection)
    (widthSize : YGFloat) : YGFloat :=
  fadd (node.getTrailingPadding axis widthSize) (node.getTrailingBorder axis)

/-- `RNYGNode::cloneChildrenIfNeeded` (RNYGNode.cpp:542) on a tree value: when the first child
is not owned by this node every child is replaced by a copy whose parent is this node.  The
clone callback is not part of the tree model. -/
def cloneChildrenIfNeeded (node : RNYGNode (RNYGNode C)) : RNYGNode (RNYGNode C) :=
  match node.children with
  | [] => node
  | firstChild :: _ =>
    if firstChild.parent = RNYGParentRef.owner then node
    else { node with children :=
      node.children.map (fun oldChild => { oldChild with parent := RNYGParentRef.owner }) }

end RNYGNode

/-! ## Small helpers of RNYoga.cpp -/

variable {C : Type}

/-- `RNYGNodePaddingAndBorderForAxis` (RNYoga.cpp:830). -/
def RNYGNodePaddingAndBorderForAxis (node : RNYGNode C) (axis : RNYGFlexDirection)
    (widthSize : YGFloat) : YGFloat :=
  fadd (node.getLeadingPaddingAndBorder axis widthSize)
    (node.getTrailingPaddingAndBorder axis widthSize)

/-- `RNYGNodeAlignItem` (RNYoga.cpp:837). -/
def RNYGNodeAlignItem {D : Type} (node : RNYGNode C) (child : RNYGNode D) : RNYGAlign :=
  let align :=
    if child.style.alignSelf = RNYGAlign.Auto then node.style.alignItems
    else child.style.alignSelf
  if align = RNYGAlign.Baseline && RNYGFlexDirectionIsColumn node.style.flexDirection then
    RNYGAlign.FlexStart
  else align

/-- `RNYGNodeDimWithMargin` (RNYoga.cpp:907). -/
def RNYGNodeDimWithMargin (node : RNYGNode C) (axis : RNYGFlexDirection) (widthSize : YGFloat) :
    YGFloat :=
  fadd (fadd (node.layout.measuredDimensions (dim axis)) (node.getLeadingMargin axis widthSize))
    (node.getTrailingMargin axis widthSize)

/-- `RNYGNodeIsStyleDimDefined` (RNYoga.cpp:915). -/
def RNYGNodeIsStyleDimDefined (node : RNYGNode C) (axis : RNYGFlexDirection)
    (parentSize : YGFloat) : Bool :=
  !((node.resolvedDimensions (dim axis)).unit = RNYGUnit.Auto ||
    (node.resolvedDimensions (dim axis)).unit = RNYGUnit.Undefined ||
    ((node.resolvedDimensions (dim axis)).unit = RNYGUnit.Point &&
      flt (node.resolvedDimensions (dim axis)).value (some 0)) ||
    ((node.resolvedDimensions (dim axis)).unit = RNYGUnit.Percent &&
      (flt (node.resolvedDimensions (dim axis)).value (some 0) ||
        RNYGFloatIsUndefined parentSize)))

/-- `RNYGNodeIsLayoutDimDefined` (RNYoga.cpp:928). -/
def RNYGNodeIsLayoutDimDefined (node : RNYGNode C) (axis : RNYGFlexDirection) : Bool :=
  let value := node.layout.measuredDimensions (dim axis)
  !RNYGFloatIsUndefined value && fge value (some 0)

/-- `RNYGNodeBoundAxisWithinMinAndMax` (RNYoga.cpp:933). -/
def RNYGNodeBoundAxisWithinMinAndMax (node : RNYGNode C) (axis : RNYGFlexDirection)
    (value axisSize : YGFloat) : YGFloat :=
  let min :=
    if RNYGFlexDirectionIsColumn axis then
      RNYGResolveValue (node.style.minDimensions RNYGDimension.Height) axisSize
    else if RNYGFlexDirectionIsRow axis then
      RNYGResolveValue (node.style.minDimensions RNYGDimension.Width) axisSize
    else RNYGUndefined
  let max :=
    if RNYGFlexDirectionIsColumn axis then
      RNYGResolveValue (node.style.maxDimensions RNYGDimension.Height) axisSize
    else if RNYGFlexDirectionIsRow axis then
      RNYGResolveValue (node.style.maxDimensions RNYGDimension.Width) axisSize
    else RNYGUndefined
  let boundValue := value
  let boundValue :=
    if !RNYGFloatIsUndefined max && fge max (some 0) && fgt boundValue max then max
    else boundValue
  let boundValue :=
    if !RNYGFloatIsUndefined min && fge min (some 0) && flt boundValue min then min
    else boundValue
  boundValue

/-- `RNYGNodeBoundAxis` (RNYoga.cpp:968). -/
def RNYGNodeBoundAxis (node : RNYGNode C) (axis : RNYGFlexDirection)
    (value axisSize widthSize : YGFloat) : YGFloat :=
  fmaxf (RNYGNodeBoundAxisWithinMinAndMax node axis value axisSize)
    (RNYGNodePaddingAndBorderForAxis node axis widthSize)

/-- `RNYGNodeSetChildTrailingPosition` (RNYoga.cpp:977); returns the updated child. -/
def RNYGNodeSetChildTrailingPosition {D : Type} (node : RNYGNode C) (child : RNYGNode D)
    (axis : RNYGFlexDirection) : RNYGNode D :=
  let size := child.layout.measuredDimensions (dim axis)
  child.setLayoutPosition
    (fsub (fsub (node.layout.measuredDimensions (dim axis)) size)
      (child.layout.position (pos axis)))
    (trailing axis)

/-- `RNYGConstrainMaxSizeForMode` (RNYoga.cpp:987); returns the updated `(mode, size)`. -/
def RNYGConstrainMaxSizeForMode (node : RNYGNode C) (axis : RNYGFlexDirection)
    (parentAxisSize parentWidth : YGFloat) (mode : RNYGMeasureMode) (size : YGFloat) :
    RNYGMeasureMode × YGFloat :=
  let maxSize :=
    fadd (RNYGResolveValue (node.style.maxDimensions (dim axis)) parentAxisSize)
      (node.getMarginForAxis axis parentWidth)
  match mode with
  | RNYGMeasureMode.Exactly | RNYGMeasureMode.AtMost =>
    (mode, if RNYGFloatIsUndefined maxSize || flt size maxSize then size else maxSize)
  | RNYGMeasureMode.Undefined =>
    if !RNYGFloatIsUndefined maxSize then (RNYGMeasureMode.AtMost, maxSize) else (mode, size)

/-! ## Cache predicates and pixel-grid rounding of a value (RNYoga.cpp:3124) -/

/-- `RNYGMeasureModeSizeIsExactAndMatchesOldMeasuredSize` (RNYoga.cpp:3124). -/
def RNYGMeasureModeSizeIsExactAndMatchesOldMeasuredSize (sizeMode : RNYGMeasureMode)
    (size lastComputedSize : YGFloat) : Bool :=
  sizeMode = RNYGMeasureMode.Exactly && RNYGFloatsEqual size lastComputedSize

/-- `RNYGMeasureModeOldSizeIsUnspecifiedAndStillFits` (RNYoga.cpp:3130). -/
def RNYGMeasureModeOldSizeIsUnspecifiedAndStillFits (sizeMode : RNYGMeasureMode) (size : YGFloat)
    (lastSizeMode : Option RNYGMeasureMode) (lastComputedSize : YGFloat) : Bool :=
  sizeMode = RNYGMeasureMode.AtMost && lastSizeMode = some RNYGMeasureMode.Undefined &&
    (fge size lastComputedSize || RNYGFloatsEqual size lastComputedSize)

/-- `RNYGMeasureModeNewMeasureSizeIsStricterAndStillValid` (RNYoga.cpp:3138). -/
def RNYGMeasureModeNewMeasureSizeIsStricterAndStillValid (sizeMode : RNYGMeasureMode)
    (size : YGFloat) (lastSizeMode : Option RNYGMeasureMode) (lastSize lastComputedSize : YGFloat) :
    Bool :=
  lastSizeMode = some RNYGMeasureMode.AtMost && sizeMode = RNYGMeasureMode.AtMost &&
    fgt lastSize size && (fle lastComputedSize size || RNYGFloatsEqual size lastComputedSize)

/-- `RNYGRoundValueToPixelGrid` (RNYoga.cpp:3147). -/
def RNYGRoundValueToPixelGrid (value pointScaleFactor : YGFloat) (forceCeil forceFloor : Bool) :
    YGFloat :=
  let roundingError := fmaxf (some (1 / 10000)) (fmul (some (1 / 100)) pointScaleFactor)
  let scaledValue := fmul value pointScaleFactor
  let fractial := fmodf1 scaledValue
  let scaledValue :=
    if RNYGFloatsEqualWithPrecision fractial (some 0) roundingError then
      -- First we check if the value is already rounded
      fsub scaledValue fractial
    else if RNYGFloatsEqualWithPrecision fractial (some 1) roundingError then
      fadd (fsub scaledValue fractial) (some 1)
    else if forceCeil then
      -- Next we check if we need to use forced rounding
      fadd (fsub scaledValue fractial) (some 1)
    else if forceFloor then
      fsub scaledValue fractial
    else
      -- Finally we just round the value
      fadd (fsub scaledValue fractial)
        (if fgt fractial (some (1 / 2)) ||
            RNYGFloatsEqualWithPrecision fractial (some (1 / 2)) roundingError
          then some 1 else some 0)
  fdiv scaledValue pointScaleFactor

/-- `RNYGNodeCanUseCachedMeasurement` (RNYoga.cpp:3172).  The `config` pointer is `none` when
null. -/
def RNYGNodeCanUseCachedMeasurement (widthMode : RNYGMeasureMode) (width : YGFloat)
    (heightMode : RNYGMeasureMode) (height : YGFloat)
    (lastWidthMode : Option RNYGMeasureMode) (lastWidth : YGFloat)
    (lastHeightMode : Option RNYGMeasureMode) (lastHeight : YGFloat)
    (lastComputedWidth lastComputedHeight marginRow marginColumn : YGFloat)
    (config : Option RNYGConfig) : Bool :=
  if flt lastComputedHeight (some 0) || flt lastComputedWidth (some 0) then false
  else
    let useRoundedComparison :=
      match config with
      | some c => fne c.pointScaleFactor (some 0)
      | none => false
    let scale : YGFloat :=
      match config with
      | some c => c.pointScaleFactor
      | none => RNYGUndefined
    let effectiveWidth :=
      if useRoundedComparison then RNYGRoundValueToPixelGrid width scale false false else width
    let effectiveHeight :=
      if useRoundedComparison then RNYGRoundValueToPixelGrid height scale false false else height
    let effectiveLastWidth :=
      if useRoundedComparison then RNYGRoundValueToPixelGrid lastWidth scale false false
      else lastWidth
    let effectiveLastHeight :=
      if useRoundedComparison then RNYGRoundValueToPixelGrid lastHeight scale false false
      else lastHeight
    let hasSameWidthSpec :=
      lastWidthMode = some widthMode && RNYGFloatsEqual effectiveLastWidth effectiveWidth
    let hasSameHeightSpec :=
      lastHeightMode = some heightMode && RNYGFloatsEqual effectiveLastHeight effectiveHeight
    let widthIsCompatible :=
      hasSameWidthSpec ||
      RNYGMeasureModeSizeIsExactAndMatchesOldMeasuredSize widthMode (fsub width marginRow)
        lastComputedWidth ||
      RNYGMeasureModeOldSizeIsUnspecifiedAndStillFits widthMode (fsub width marginRow)
        lastWidthMode lastComputedWidth ||
      RNYGMeasureModeNewMeasureSizeIsStricterAndStillValid widthMode (fsub width marginRow)
        lastWidthMode lastWidth lastComputedWidth
    let heightIsCompatible :=
      hasSameHeightSpec ||
      RNYGMeasureModeSizeIsExactAndMatchesOldMeasuredSize heightMode (fsub height marginColumn)
        lastComputedHeight ||
      RNYGMeasureModeOldSizeIsUnspecifiedAndStillFits heightMode (fsub height marginColumn)
        lastHeightMode lastComputedHeight ||
      RNYGMeasureModeNewMeasureSizeIsStricterAndStillValid heightMode (fsub height marginColumn)
        lastHeightMode lastHeight lastComputedHeight
    widthIsCompatible && heightIsCompatible

/-! ## The recursive driver as seen from a parent

`gCurrentGenerationCount` (RNYoga.cpp:777) is read-only during one layout pass and is passed as
the argument `gen`.  The type of `RNYGLayoutNodeInternal` on children of type `RNYGNode D`, with
the arguments `(node, availableWidth, availableHeight, parentDirection, widthMeasureMode,
heightMeasureMode, parentWidth, parentHeight, performLayout, config)`; the `reason` string only
feeds the log.  The result is the updated node and the returned flag, or `none` when a fatal
assertion aborts. -/
abbrev RNYGLayoutFn (D : Type) :=
  RNYGNode D → YGFloat → YGFloat → RNYGDirection → RNYGMeasureMode → RNYGMeasureMode →
    YGFloat → YGFloat → Bool → RNYGConfig → Option (RNYGNode D × Bool)

/-- `RNYGNodeComputeFlexBasisForChild` (RNYoga.cpp:1011); returns the updated child. -/
def RNYGNodeComputeFlexBasisForChild {D : Type} (gen : Nat) (layoutChild : RNYGLayoutFn D)
    (node : RNYGNode C) (child : RNYGNode D) (width : YGFloat) (widthMode : RNYGMeasureMode)
    (height parentWidth parentHeight : YGFloat) (heightMode : RNYGMeasureMode)
    (direction : RNYGDirection) (config : RNYGConfig) : Option (RNYGNode D) := do
  let mainAxis := RNYGResolveFlexDirection node.style.flexDirection direction
  let isMainAxisRow := RNYGFlexDirectionIsRow mainAxis
  let mainAxisSize := if isMainAxisRow then width else height
  let mainAxisParentSize := if isMainAxisRow then parentWidth else parentHeight
  let resolvedFlexBasis := RNYGResolveValue child.resolveFlexBasisPtr mainAxisParentSize
  let isRowStyleDimDefined := RNYGNodeIsStyleDimDefined child RNYGFlexDirection.Row parentWidth
  let isColumnStyleDimDefined :=
    RNYGNodeIsStyleDimDefined child RNYGFlexDirection.Column parentHeight
  let child ←
    if !RNYGFloatIsUndefined resolvedFlexBasis && !RNYGFloatIsUndefined mainAxisSize then
      if RNYGFloatIsUndefined child.layout.computedFlexBasis ||
          (child.config.experimentalFeatureWebFlexBasis &&
            child.layout.computedFlexBasisGeneration ≠ gen) then
        pure (child.setLayoutComputedFlexBasis
          (fmaxf resolvedFlexBasis (RNYGNodePaddingAndBorderForAxis child mainAxis parentWidth)))
      else pure child
    else if isMainAxisRow && isRowStyleDimDefined then
      -- The width is definite, so use that as the flex basis.
      pure (child.setLayoutComputedFlexBasis
        (fmaxf (RNYGResolveValue (child.resolvedDimensions RNYGDimension.Width) parentWidth)
          (RNYGNodePaddingAndBorderForAxis child RNYGFlexDirection.Row parentWidth)))
    else if !isMainAxisRow && isColumnStyleDimDefined then
      -- The height is definite, so use that as the flex basis.
      pure (child.setLayoutComputedFlexBasis
        (fmaxf (RNYGResolveValue (child.resolvedDimensions RNYGDimension.Height) parentHeight)
          (RNYGNodePaddingAndBorderForAxis child RNYGFlexDirection.Column parentWidth)))
    else
      -- Compute the flex basis and hypothetical main size (i.e. the clamped flex basis).
      let childWidth := RNYGUndefined
      let childHeight := RNYGUndefined
      let childWidthMeasureMode := RNYGMeasureMode.Undefined
      let childHeightMeasureMode := RNYGMeasureMode.Undefined
      let marginRow := child.getMarginForAxis RNYGFlexDirection.Row parentWidth
      let marginColumn := child.getMarginForAxis RNYGFlexDirection.Column parentWidth
      let (childWidth, childWidthMeasureMode) :=
        if isRowStyleDimDefined then
          (fadd (RNYGResolveValue (child.resolvedDimensions RNYGDimension.Width) parentWidth)
            marginRow, RNYGMeasureMode.Exactly)
        else (childWidth, childWidthMeasureMode)
      let (childHeight, childHeightMeasureMode) :=
        if isColumnStyleDimDefined then
          (fadd (RNYGResolveValue (child.resolvedDimensions RNYGDimension.Height) parentHeight)
            marginColumn, RNYGMeasureMode.Exactly)
        else (childHeight, childHeightMeasureMode)
      -- The W3C spec doesn't say anything about the 'overflow' property,
      -- but all major browsers appear to implement the following logic.
      let (childWidth, childWidthMeasureMode) :=
        if ((!isMainAxisRow && node.style.overflow = RNYGOverflow.Scroll) ||
            node.style.overflow ≠ RNYGOverflow.Scroll) &&
            (RNYGFloatIsUndefined childWidth && !RNYGFloatIsUndefined width) then
          (width, RNYGMeasureMode.AtMost)
        else (childWidth, childWidthMeasureMode)
      let (childHeight, childHeightMeasureMode) :=
        if ((isMainAxisRow && node.style.overflow = RNYGOverflow.Scroll) ||
            node.style.overflow ≠ RNYGOverflow.Scroll) &&
            (RNYGFloatIsUndefined childHeight && !RNYGFloatIsUndefined height) then
          (height, RNYGMeasureMode.AtMost)
        else (childHeight, childHeightMeasureMode)
      let (childWidth, childWidthMeasureMode, childHeight, childHeightMeasureMode) :=
        if !RNYGFloatIsUndefined child.style.aspectRatio then
          if !isMainAxisRow && childWidthMeasureMode = RNYGMeasureMode.Exactly then
            (childWidth, childWidthMeasureMode,
              fadd marginColumn (fdiv (fsub childWidth marginRow) child.style.aspectRatio),
              RNYGMeasureMode.Exactly)
          else if isMainAxisRow && childHeightMeasureMode = RNYGMeasureMode.Exactly then
            (fadd marginRow (fmul (fsub childHeight marginColumn) child.style.aspectRatio),
              RNYGMeasureMode.Exactly, childHeight, childHeightMeasureMode)
          else (childWidth, childWidthMeasureMode, childHeight, childHeightMeasureMode)
        else (childWidth, childWidthMeasureMode, childHeight, childHeightMeasureMode)
      -- If child has no defined size in the cross axis and is set to stretch, set the cross
      -- axis to be measured exactly with the available inner width
      let hasExactWidth := !RNYGFloatIsUndefined width && widthMode = RNYGMeasureMode.Exactly
      let childWidthStretch := RNYGNodeAlignItem node child = RNYGAlign.Stretch &&
        childWidthMeasureMode ≠ RNYGMeasureMode.Exactly
      let (childWidth, childWidthMeasureMode, childHeight, childHeightMeasureMode) :=
        if !isMainAxisRow && !isRowStyleDimDefined && hasExactWidth && childWidthStretch then
          if !RNYGFloatIsUndefined child.style.aspectRatio then
            (width, RNYGMeasureMode.Exactly,
              fdiv (fsub width marginRow) child.style.aspectRatio, RNYGMeasureMode.Exactly)
          else (width, RNYGMeasureMode.Exactly, childHeight, childHeightMeasureMode)
        else (childWidth, childWidthMeasureMode, childHeight, childHeightMeasureMode)
      let hasExactHeight := !RNYGFloatIsUndefined height && heightMode = RNYGMeasureMode.Exactly
      let childHeightStretch := RNYGNodeAlignItem node child = RNYGAlign.Stretch &&
        childHeightMeasureMode ≠ RNYGMeasureMode.Exactly
      let (childWidth, childWidthMeasureMode, childHeight, childHeightMeasureMode) :=
        if isMainAxisRow && !isColumnStyleDimDefined && hasExactHeight && childHeightStretch then
          if !RNYGFloatIsUndefined child.style.aspectRatio then
            (fmul (fsub height marginColumn) child.style.aspectRatio, RNYGMeasureMode.Exactly,
              height, RNYGMeasureMode.Exactly)
          else (childWidth, childWidthMeasureMode, height, RNYGMeasureMode.Exactly)
        else (childWidth, childWidthMeasureMode, childHeight, childHeightMeasureMode)
      let (childWidthMeasureMode, childWidth) :=
        RNYGConstrainMaxSizeForMode child RNYGFlexDirection.Row parentWidth parentWidth
          childWidthMeasureMode childWidth
      let (childHeightMeasureMode, childHeight) :=
        RNYGConstrainMaxSizeForMode child RNYGFlexDirection.Column parentHeight parentWidth
          childHeightMeasureMode childHeight
      -- Measure the child
      let (child, _) ← layoutChild child childWidth childHeight direction childWidthMeasureMode
        childHeightMeasureMode parentWidth parentHeight false config
      pure (child.setLayoutComputedFlexBasis
        (fmaxf (child.layout.measuredDimensions (dim mainAxis))
          (RNYGNodePaddingAndBorderForAxis child mainAxis parentWidth)))
  pure (child.setLayoutComputedFlexBasisGeneration gen)

/-- `RNYGNodeAbsoluteLayoutChild` (RNYoga.cpp:1178); returns the updated child. -/
def RNYGNodeAbsoluteLayoutChild {D : Type} (layoutChild : RNYGLayoutFn D)
    (node : RNYGNode C) (child : RNYGNode D) (width : YGFloat) (widthMode : RNYGMeasureMode)
    (height : YGFloat) (direction : RNYGDirection) (config : RNYGConfig) :
    Option (RNYGNode D) := do
  let mainAxis := RNYGResolveFlexDirection node.style.flexDirection direction
  let crossAxis := RNYGFlexDirectionCross mainAxis direction
  let isMainAxisRow := RNYGFlexDirectionIsRow mainAxis
  let childWidth := RNYGUndefined
  let childHeight := RNYGUndefined
  let marginRow := child.getMarginForAxis RNYGFlexDirection.Row width
  let marginColumn := child.getMarginForAxis RNYGFlexDirection.Column width
  let childWidth :=
    if RNYGNodeIsStyleDimDefined child RNYGFlexDirection.Row width then
      fadd (RNYGResolveValue (child.resolvedDimensions RNYGDimension.Width) width) marginRow
    else if child.isLeadingPositionDefined RNYGFlexDirection.Row &&
        child.isTrailingPosDefined RNYGFlexDirection.Row then
      -- If the child doesn't have a specified width, compute the width based on the left/right
      -- offsets if they're defined.
      RNYGNodeBoundAxis child RNYGFlexDirection.Row
        (fsub
          (fsub (node.layout.measuredDimensions RNYGDimension.Width)
            (fadd (node.getLeadingBorder RNYGFlexDirection.Row)
              (node.getTrailingBorder RNYGFlexDirection.Row)))
          (fadd (child.getLeadingPosition RNYGFlexDirection.Row width)
            (child.getTrailingPosition RNYGFlexDirection.Row width)))
        width width
    else childWidth
  let childHeight :=
    if RNYGNodeIsStyleDimDefined child RNYGFlexDirection.Column height then
      fadd (RNYGResolveValue (child.resolvedDimensions RNYGDimension.Height) height) marginColumn
    else if child.isLeadingPositionDefined RNYGFlexDirection.Column &&
        child.isTrailingPosDefined RNYGFlexDirection.Column then
      -- If the child doesn't have a specified height, compute the height based on the
      -- top/bottom offsets if they're defined.
      RNYGNodeBoundAxis child RNYGFlexDirection.Column
        (fsub
          (fsub (node.layout.measuredDimensions RNYGDimension.Height)
            (fadd (node.getLeadingBorder RNYGFlexDirection.Column)
              (node.getTrailingBorder RNYGFlexDirection.Column)))
          (fadd (child.getLeadingPosition RNYGFlexDirection.Column height)
            (child.getTrailingPosition RNYGFlexDirection.Column height)))
        height width
    else childHeight
  -- Exactly one dimension needs to be defined for us to be able to do aspect ratio
  -- calculation. One dimension being the anchor and the other being flexible.
  let (childWidth, childHeight) :=
    if xor (RNYGFloatIsUndefined childWidth) (RNYGFloatIsUndefined childHeight) &&
        !RNYGFloatIsUndefined child.style.aspectRatio then
      if RNYGFloatIsUndefined childWidth then
        (fadd marginRow (fmul (fsub childHeight marginColumn) child.style.aspectRatio),
          childHeight)
      else if RNYGFloatIsUndefined childHeight then
        (childWidth,
          fadd marginColumn (fdiv (fsub childWidth marginRow) child.style.aspectRatio))
      else (childWidth, childHeight)
    else (childWidth, childHeight)
  -- If we're still missing one or the other dimension, measure the content.
  let (child, childWidth, childHeight) ←
    if RNYGFloatIsUndefined childWidth || RNYGFloatIsUndefined childHeight then do
      let childWidthMeasureMode :=
        if RNYGFloatIsUndefined childWidth then RNYGMeasureMode.Undefined
        else RNYGMeasureMode.Exactly
      let childHeightMeasureMode :=
        if RNYGFloatIsUndefined childHeight then RNYGMeasureMode.Undefined
        else RNYGMeasureMode.Exactly
      -- If the size of the parent is defined then try to constrain the absolute child to that
      -- size as well. This allows text within the absolute child to wrap to the size of its
      -- parent. This is the same behavior as many browsers implement.
      let (childWidth, childWidthMeasureMode) :=
        if !isMainAxisRow && RNYGFloatIsUndefined childWidth &&
            widthMode ≠ RNYGMeasureMode.Undefined && fgt width (some 0) then
          (width, RNYGMeasureMode.AtMost)
        else (childWidth, childWidthMeasureMode)
      let (child, _) ← layoutChild child childWidth childHeight direction childWidthMeasureMode
        childHeightMeasureMode childWidth childHeight false config
      pure (child,
        fadd (child.layout.measuredDimensions RNYGDimension.Width)
          (child.getMarginForAxis RNYGFlexDirection.Row width),
        fadd (child.layout.measuredDimensions RNYGDimension.Height)
          (child.getMarginForAxis RNYGFlexDirection.Column width))
    else pure (child, childWidth, childHeight)
  let (child, _) ← layoutChild child childWidth childHeight direction RNYGMeasureMode.Exactly
    RNYGMeasureMode.Exactly childWidth childHeight true config
  let child :=
    if child.isTrailingPosDefined mainAxis && !child.isLeadingPositionDefined mainAxis then
      child.setLayoutPosition
        (fsub
          (fsub
            (fsub
              (fsub (node.layout.measuredDimensions (dim mainAxis))
                (child.layout.measuredDimensions (dim mainAxis)))
              (node.getTrailingBorder mainAxis))
            (child.getTrailingMargin mainAxis width))
          (child.getTrailingPosition mainAxis (if isMainAxisRow then width else height)))
        (leading mainAxis)
    else if !child.isLeadingPositionDefined mainAxis &&
        node.style.justifyContent = RNYGJustify.Center then
      child.setLayoutPosition
        (fdiv
          (fsub (node.layout.measuredDimensions (dim mainAxis))
            (child.layout.measuredDimensions (dim mainAxis)))
          (some 2))
        (leading mainAxis)
    else if !child.isLeadingPositionDefined mainAxis &&
        node.style.justifyContent = RNYGJustify.FlexEnd then
      child.setLayoutPosition
        (fsub (node.layout.measuredDimensions (dim mainAxis))
          (child.layout.measuredDimensions (dim mainAxis)))
        (leading mainAxis)
    else child
  let child :=
    if child.isTrailingPosDefined crossAxis && !child.isLeadingPositionDefined crossAxis then
      child.setLayoutPosition
        (fsub
          (fsub
            (fsub
              (fsub (node.layout.measuredDimensions (dim crossAxis))
                (child.layout.measuredDimensions (dim crossAxis)))
              (node.getTrailingBorder crossAxis))
            (child.getTrailingMargin crossAxis width))
          (child.getTrailingPosition crossAxis (if isMainAxisRow then height else width)))
        (leading crossAxis)
    else if !child.isLeadingPositionDefined crossAxis &&
        RNYGNodeAlignItem node child = RNYGAlign.Center then
      child.setLayoutPosition
        (fdiv
          (fsub (node.layout.measuredDimensions (dim crossAxis))
            (child.layout.measuredDimensions (dim crossAxis)))
          (some 2))
        (leading crossAxis)
    else if !child.isLeadingPositionDefined crossAxis &&
        xor (RNYGNodeAlignItem node child = RNYGAlign.FlexEnd)
          (node.style.flexWrap = RNYGWrap.WrapReverse) then
      child.setLayoutPosition
        (fsub (node.layout.measuredDimensions (dim crossAxis))
          (child.layout.measuredDimensions (dim crossAxis)))
        (leading crossAxis)
    else child
  pure child

/-- `RNYGNodeWithMeasureFuncSetMeasuredDimensions` (RNYoga.cpp:1353).  The opening assertion
that the node has a measure callback is a fatal error when it fails. -/
def RNYGNodeWithMeasureFuncSetMeasuredDimensions (node : RNYGNode C)
    (availableWidth availableHeight : YGFloat) (widthMeasureMode heightMeasureMode : RNYGMeasureMode)
    (parentWidth parentHeight : YGFloat) : Option (RNYGNode C) :=
  match node.measure with
  | none => none
  | some measure =>
    let paddingAndBorderAxisRow :=
      RNYGNodePaddingAndBorderForAxis node RNYGFlexDirection.Row availableWidth
    let paddingAndBorderAxisColumn :=
      RNYGNodePaddingAndBorderForAxis node RNYGFlexDirection.Column availableWidth
    let marginAxisRow := node.getMarginForAxis RNYGFlexDirection.Row availableWidth
    let marginAxisColumn := node.getMarginForAxis RNYGFlexDirection.Column availableWidth
    -- We want to make sure we don't call measure with negative size
    let innerWidth :=
      if RNYGFloatIsUndefined availableWidth then availableWidth
      else fmaxf (some 0) (fsub (fsub availableWidth marginAxisRow) paddingAndBorderAxisRow)
    let innerHeight :=
      if RNYGFloatIsUndefined availableHeight then availableHeight
      else fmaxf (some 0) (fsub (fsub availableHeight marginAxisColumn) paddingAndBorderAxisColumn)
    if widthMeasureMode = RNYGMeasureMode.Exactly && heightMeasureMode = RNYGMeasureMode.Exactly
    then
      -- Don't bother sizing the text if both dimensions are already defined.
      let node := node.setLayoutMeasuredDimension
        (RNYGNodeBoundAxis node RNYGFlexDirection.Row (fsub availableWidth marginAxisRow)
          parentWidth parentWidth) RNYGDimension.Width
      let node := node.setLayoutMeasuredDimension
        (RNYGNodeBoundAxis node RNYGFlexDirection.Column (fsub availableHeight marginAxisColumn)
          parentHeight parentWidth) RNYGDimension.Height
      some node
    else
      -- Measure the text under the current constraints.
      let measuredSize := measure innerWidth widthMeasureMode innerHeight heightMeasureMode
      let node := node.setLayoutMeasuredDimension
        (RNYGNodeBoundAxis node RNYGFlexDirection.Row
          (if widthMeasureMode = RNYGMeasureMode.Undefined ||
              widthMeasureMode = RNYGMeasureMode.AtMost
            then fadd measuredSize.width paddingAndBorderAxisRow
            else fsub availableWidth marginAxisRow)
          parentWidth parentWidth) RNYGDimension.Width
      let node := node.setLayoutMeasuredDimension
        (RNYGNodeBoundAxis node RNYGFlexDirection.Column
          (if heightMeasureMode = RNYGMeasureMode.Undefined ||
              heightMeasureMode = RNYGMeasureMode.AtMost
            then fadd measuredSize.height paddingAndBorderAxisColumn
            else fsub availableHeight marginAxisColumn)
          parentHeight parentWidth) RNYGDimension.Height
      some node

/-- `RNYGNodeEmptyContainerSetMeasuredDimensions` (RNYoga.cpp:1435). -/
def RNYGNodeEmptyContainerSetMeasuredDimensions (node : RNYGNode C)
    (availableWidth availableHeight : YGFloat) (widthMeasureMode heightMeasureMode : RNYGMeasureMode)
    (parentWidth parentHeight : YGFloat) : RNYGNode C :=
  let paddingAndBorderAxisRow :=
    RNYGNodePaddingAndBorderForAxis node RNYGFlexDirection.Row parentWidth
  let paddingAndBorderAxisColumn :=
    RNYGNodePaddingAndBorderForAxis node RNYGFlexDirection.Column parentWidth
  let marginAxisRow := node.getMarginForAxis RNYGFlexDirection.Row parentWidth
  let marginAxisColumn := node.getMarginForAxis RNYGFlexDirection.Column parentWidth
  let node := node.setLayoutMeasuredDimension
    (RNYGNodeBoundAxis node RNYGFlexDirection.Row
      (if widthMeasureMode = RNYGMeasureMode.Undefined ||
          widthMeasureMode = RNYGMeasureMode.AtMost
        then paddingAndBorderAxisRow
        else fsub availableWidth marginAxisRow)
      parentWidth parentWidth) RNYGDimension.Width
  node.setLayoutMeasuredDimension
    (RNYGNodeBoundAxis node RNYGFlexDirection.Column
      (if heightMeasureMode = RNYGMeasureMode.Undefined ||
          heightMeasureMode = RNYGMeasureMode.AtMost
        then paddingAndBorderAxisColumn
        else fsub availableHeight marginAxisColumn)
      parentHeight parentWidth) RNYGDimension.Height

/-- `RNYGNodeFixedSizeSetMeasuredDimensions` (RNYoga.cpp:1476); returns the node and the flag. -/
def RNYGNodeFixedSizeSetMeasuredDimensions (node : RNYGNode C)
    (availableWidth availableHeight : YGFloat) (widthMeasureMode heightMeasureMode : RNYGMeasureMode)
    (parentWidth parentHeight : YGFloat) : RNYGNode C × Bool :=
  if (widthMeasureMode = RNYGMeasureMode.AtMost && fle availableWidth (some 0)) ||
      (heightMeasureMode = RNYGMeasureMode.AtMost && fle availableHeight (some 0)) ||
      (widthMeasureMode = RNYGMeasureMode.Exactly && heightMeasureMode = RNYGMeasureMode.Exactly)
  then
    let marginAxisColumn := node.getMarginForAxis RNYGFlexDirection.Column parentWidth
    let marginAxisRow := node.getMarginForAxis RNYGFlexDirection.Row parentWidth
    let node := node.setLayoutMeasuredDimension
      (RNYGNodeBoundAxis node RNYGFlexDirection.Row
        (if RNYGFloatIsUndefined availableWidth ||
            (widthMeasureMode = RNYGMeasureMode.AtMost && flt availableWidth (some 0))
          then some 0
          else fsub availableWidth marginAxisRow)
        parentWidth parentWidth) RNYGDimension.Width
    let node := node.setLayoutMeasuredDimension
      (RNYGNodeBoundAxis node RNYGFlexDirection.Column
        (if RNYGFloatIsUndefined availableHeight ||
            (heightMeasureMode = RNYGMeasureMode.AtMost && flt availableHeight (some 0))
          then some 0
          else fsub availableHeight marginAxisColumn)
        parentHeight parentWidth) RNYGDimension.Height
    (node, true)
  else (node, false)

/-- `RNYGNodeCalculateAvailableInnerDim` (RNYoga.cpp:1533). -/
def RNYGNodeCalculateAvailableInnerDim (node : RNYGNode C) (axis : RNYGFlexDirection)
    (availableDim parentDim : YGFloat) : YGFloat :=
  let direction :=
    if RNYGFlexDirectionIsRow axis then RNYGFlexDirection.Row else RNYGFlexDirection.Column
  let dimension :=
    if RNYGFlexDirectionIsRow axis then RNYGDimension.Width else RNYGDimension.Height
  let margin := node.getMarginForAxis direction parentDim
  let paddingAndBorder := RNYGNodePaddingAndBorderForAxis node direction parentDim
  let availableInnerDim := fsub (fsub availableDim margin) paddingAndBorder
  -- Max dimension overrides predefined dimension value; Min dimension in turn overrides both
  if !RNYGFloatIsUndefined availableInnerDim then
    let minInnerDim :=
      fsub (RNYGResolveValue (node.style.minDimensions dimension) parentDim) paddingAndBorder
    let maxInnerDim :=
      fsub (RNYGResolveValue (node.style.maxDimensions dimension) parentDim) paddingAndBorder
    fmaxf (fminf availableInnerDim maxInnerDim) minInnerDim
  else availableInnerDim

/-! ## Functions that walk down the tree

Each of them is written once for a node whose children are nodes (`RNYGNode (RNYGNode D)`),
taking the function for the children as an argument, and once for level 0, where the child list
is empty; the tree function is then defined by recursion on the level. -/

/-- The child search of `RNYGBaseline` (RNYoga.cpp:860): the loop over the children that picks
`baselineChild`. -/
def RNYGBaseline.findChild {D : Type} (node : RNYGNode C) :
    List (RNYGNode D) → Option (RNYGNode D) → Option (RNYGNode D)
  | [], baselineChild => baselineChild
  | child :: rest, baselineChild =>
    if child.lineIndex > 0 then baselineChild
    else if child.style.positionType = RNYGPositionType.Absolute then
      RNYGBaseline.findChild node rest baselineChild
    else if RNYGNodeAlignItem node child = RNYGAlign.Baseline then some child
    else RNYGBaseline.findChild node rest (if baselineChild.isNone then some child else baselineChild)

/-- `RNYGBaseline` (RNYoga.cpp:848) for a node whose children are nodes.  A baseline callback
that returns NaN is a fatal error. -/
def RNYGBaseline.step {D : Type} (baselineOfChild : RNYGNode D → Option YGFloat)
    (node : RNYGNode (RNYGNode D)) : Option YGFloat :=
  match node.baseline with
  | some baselineFunc =>
    let baseline := baselineFunc (node.layout.measuredDimensions RNYGDimension.Width)
      (node.layout.measuredDimensions RNYGDimension.Height)
    if RNYGFloatIsUndefined baseline then none else some baseline
  | none =>
    match RNYGBaseline.findChild node node.children none with
    | none => some (node.layout.measuredDimensions RNYGDimension.Height)
    | some baselineChild => do
      let baseline ← baselineOfChild baselineChild
      pure (fadd baseline (baselineChild.layout.position RNYGEdge.Top))

/-- `RNYGBaseline` (RNYoga.cpp:848) for a node without children. -/
def RNYGBaseline.leaf (node : RNYGNode PEmpty) : Option YGFloat :=
  match node.baseline with
  | some baselineFunc =>
    let baseline := baselineFunc (node.layout.measuredDimensions RNYGDimension.Width)
      (node.layout.measuredDimensions RNYGDimension.Height)
    if RNYGFloatIsUndefined baseline then none else some baseline
  | none => some (node.layout.measuredDimensions RNYGDimension.Height)

/-- `RNYGBaseline` (RNYoga.cpp:848). -/
def RNYGBaseline : (n : Nat) → RNYGTree n → Option YGFloat
  | 0 => RNYGBaseline.leaf
  | n + 1 => RNYGBaseline.step (RNYGBaseline n)

/-- `RNYGIsBaselineLayout` (RNYoga.cpp:888). -/
def RNYGIsBaselineLayout {D : Type} (node : RNYGNode C) (children : List (RNYGNode D)) : Bool :=
  if RNYGFlexDirectionIsColumn node.style.flexDirection then false
  else if node.style.alignItems = RNYGAlign.Baseline then true
  else children.any (fun child =>
    child.style.positionType = RNYGPositionType.Relative &&
      child.style.alignSelf = RNYGAlign.Baseline)

/-- `RNYGZeroOutLayoutRecursivly` (RNYoga.cpp:1522) for a node whose children are nodes. -/
def RNYGZeroOutLayoutRecursivly.step {D : Type} (zeroOutChild : RNYGNode D → RNYGNode D)
    (node : RNYGNode (RNYGNode D)) : RNYGNode (RNYGNode D) :=
  let node := { node with layout := RNYGLayout.zeroed }
  let node := node.setHasNewLayout true
  let node := node.cloneChildrenIfNeeded
  { node with children := node.children.map zeroOutChild }

/-- `RNYGZeroOutLayoutRecursivly` (RNYoga.cpp:1522) for a node without children. -/
def RNYGZeroOutLayoutRecursivly.leaf (node : RNYGNode PEmpty) : RNYGNode PEmpty :=
  let node := { node with layout := RNYGLayout.zeroed }
  node.setHasNewLayout true

/-- `RNYGZeroOutLayoutRecursivly` (RNYoga.cpp:1522). -/
def RNYGZeroOutLayoutRecursivly : (n : Nat) → RNYGTree n → RNYGTree n
  | 0 => RNYGZeroOutLayoutRecursivly.leaf
  | n + 1 => RNYGZeroOutLayoutRecursivly.step (RNYGZeroOutLayoutRecursivly n)

/-- The first loop of `RNYGNodeComputeFlexBasisForChildren` (RNYoga.cpp:1585): the index of
`singleFlexChild`, if any. -/
def RNYGNodeComputeFlexBasisForChildren.findSingleFlexChild {D : Type} :
    List (RNYGNode D) → Nat → Option Nat → Option Nat
  | [], _, singleFlexChild => singleFlexChild
  | child :: rest, i, some s =>
    if child.isNodeFlexible then
      -- There is already a flexible child, abort
      none
    else RNYGNodeComputeFlexBasisForChildren.findSingleFlexChild rest (i + 1) (some s)
  | child :: rest, i, none =>
    if fgt child.resolveFlexGrow (some 0) && fgt child.resolveFlexShrink (some 0) then
      RNYGNodeComputeFlexBasisForChildren.findSingleFlexChild rest (i + 1) (some i)
    else RNYGNodeComputeFlexBasisForChildren.findSingleFlexChild rest (i + 1) none

/-- The second loop of `RNYGNodeComputeFlexBasisForChildren` (RNYoga.cpp:1600), over the
children from index `i` on; returns the updated children and `totalOuterFlexBasis`. -/
def RNYGNodeComputeFlexBasisForChildren.loop {D : Type} (gen : Nat)
    (layoutChild : RNYGLayoutFn D) (zeroOutChild : RNYGNode D → RNYGNode D)
    (node : RNYGNode C) (availableInnerWidth availableInnerHeight : YGFloat)
    (widthMeasureMode heightMeasureMode : RNYGMeasureMode) (direction : RNYGDirection)
    (mainAxis : RNYGFlexDirection) (config : RNYGConfig) (performLayout : Bool)
    (singleFlexChild : Option Nat) :
    List (RNYGNode D) → Nat → YGFloat → Option (List (RNYGNode D) × YGFloat)
  | [], _, totalOuterFlexBasis => some ([], totalOuterFlexBasis)
  | child :: rest, i, totalOuterFlexBasis => do
    let child := child.resolveDimension
    if child.style.display = RNYGDisplay.None then
      let child := zeroOutChild child
      let child := child.setHasNewLayout true
      let child := child.setDirty false
      let (rest, total) ← RNYGNodeComputeFlexBasisForChildren.loop gen layoutChild zeroOutChild
        node availableInnerWidth availableInnerHeight widthMeasureMode heightMeasureMode
        direction mainAxis config performLayout singleFlexChild rest (i + 1) totalOuterFlexBasis
      pure (child :: rest, total)
    else
      let child :=
        if performLayout then
          -- Set the initial position (relative to the parent).
          let childDirection := child.resolveDirection direction
          let mainDim :=
            if RNYGFlexDirectionIsRow mainAxis then availableInnerWidth else availableInnerHeight
          let crossDim :=
            if RNYGFlexDirectionIsRow mainAxis then availableInnerHeight else availableInnerWidth
          child.setPosition childDirection mainDim crossDim availableInnerWidth
        else child
      if child.style.positionType = RNYGPositionType.Absolute then
        let (rest, total) ← RNYGNodeComputeFlexBasisForChildren.loop gen layoutChild zeroOutChild
          node availableInnerWidth availableInnerHeight widthMeasureMode heightMeasureMode
          direction mainAxis config performLayout singleFlexChild rest (i + 1) totalOuterFlexBasis
        pure (child :: rest, total)
      else
        let child ←
          if singleFlexChild = some i then
            pure ((child.setLayoutComputedFlexBasisGeneration gen).setLayoutComputedFlexBasis
              (some 0))
          else
            RNYGNodeComputeFlexBasisForChild gen layoutChild node child availableInnerWidth
              widthMeasureMode availableInnerHeight availableInnerWidth availableInnerHeight
              heightMeasureMode direction config
        let totalOuterFlexBasis := fadd totalOuterFlexBasis
          (fadd child.layout.computedFlexBasis
            (child.getMarginForAxis mainAxis availableInnerWidth))
        let (rest, total) ← RNYGNodeComputeFlexBasisForChildren.loop gen layoutChild zeroOutChild
          node availableInnerWidth availableInnerHeight widthMeasureMode heightMeasureMode
          direction mainAxis config performLayout singleFlexChild rest (i + 1) totalOuterFlexBasis
        pure (child :: rest, total)

/-- `RNYGNodeComputeFlexBasisForChildren` (RNYoga.cpp:1566); returns the updated children and
the updated `totalOuterFlexBasis`. -/
def RNYGNodeComputeFlexBasisForChildren {D : Type} (gen : Nat)
    (layoutChild : RNYGLayoutFn D) (zeroOutChild : RNYGNode D → RNYGNode D)
    (node : RNYGNode C) (children : List (RNYGNode D))
    (availableInnerWidth availableInnerHeight : YGFloat)
    (widthMeasureMode heightMeasureMode : RNYGMeasureMode) (direction : RNYGDirection)
    (mainAxis : RNYGFlexDirection) (config : RNYGConfig) (performLayout : Bool)
    (totalOuterFlexBasis : YGFloat) : Option (List (RNYGNode D) × YGFloat) :=
  let measureModeMainDim :=
    if RNYGFlexDirectionIsRow mainAxis then widthMeasureMode else heightMeasureMode
  -- If there is only one child with flexGrow + flexShrink it means we can set the
  -- computedFlexBasis to 0 instead of measuring and shrinking / flexing the child to exactly
  -- match the remaining space
  let singleFlexChild :=
    if measureModeMainDim = RNYGMeasureMode.Exactly then
      RNYGNodeComputeFlexBasisForChildren.findSingleFlexChild children 0 none
    else none
  RNYGNodeComputeFlexBasisForChildren.loop gen layoutChild zeroOutChild node availableInnerWidth
    availableInnerHeight widthMeasureMode heightMeasureMode direction mainAxis config
    performLayout singleFlexChild children 0 totalOuterFlexBasis

/-! ## Line collection and flexible lengths -/

/-- The struct `RNYGCollectFlexItemsRowValues` (its declaration is in a header that is not part
of the sources; the fields are those the engine reads and writes).  `relativeChildren` holds
the indices of the children it points to. -/
structure RNYGCollectFlexItemsRowValues where
  itemsOnLine : Nat
  sizeConsumedOnCurrentLine : YGFloat
  totalFlexGrowFactors : YGFloat
  totalFlexShrinkScaledFactors : YGFloat
  endOfLineIndex : Nat
  relativeChildren : List Nat
  remainingFreeSpace : YGFloat
  mainDim : YGFloat
  crossDim : YGFloat

/-- The value-initialised struct (`= {}`, RNYoga.cpp:1658). -/
def RNYGCollectFlexItemsRowValues.zero : RNYGCollectFlexItemsRowValues :=
  { itemsOnLine := 0
    sizeConsumedOnCurrentLine := some 0
    totalFlexGrowFactors := some 0
    totalFlexShrinkScaledFactors := some 0
    endOfLineIndex := 0
    relativeChildren := []
    remainingFreeSpace := some 0
    mainDim := some 0
    crossDim := some 0 }

/-- The loop of `RNYGCalculateCollectFlexItemsRowValues` (RNYoga.cpp:1668) over the children
from index `endOfLineIndex` on; returns those children (with their line index set), the
accumulated values and the index at which the loop stopped. -/
def RNYGCalculateCollectFlexItemsRowValues.loop {D : Type} (mainAxis : RNYGFlexDirection)
    (isNodeFlexWrap : Bool) (mainAxisParentSize availableInnerWidth availableInnerMainDim : YGFloat)
    (lineCount : Nat) :
    List (RNYGNode D) → Nat → YGFloat → RNYGCollectFlexItemsRowValues →
      List (RNYGNode D) × RNYGCollectFlexItemsRowValues × Nat
  | [], endOfLineIndex, _, values => ([], values, endOfLineIndex)
  | child :: rest, endOfLineIndex, sizeConsumedOnCurrentLineIncludingMinConstraint, values =>
    if child.style.display = RNYGDisplay.None ||
        child.style.positionType = RNYGPositionType.Absolute then
      let (rest, values, stop) := RNYGCalculateCollectFlexItemsRowValues.loop mainAxis
        isNodeFlexWrap mainAxisParentSize availableInnerWidth availableInnerMainDim lineCount
        rest (endOfLineIndex + 1) sizeConsumedOnCurrentLineIncludingMinConstraint values
      (child :: rest, values, stop)
    else
      let child := child.setLineIndex lineCount
      let childMarginMainAxis := child.getMarginForAxis mainAxis availableInnerWidth
      let flexBasisWithMinAndMaxConstraints :=
        RNYGNodeBoundAxisWithinMinAndMax child mainAxis child.layout.computedFlexBasis
          mainAxisParentSize
      -- If this is a multi-line flow and this item pushes us over the available size, we've
      -- hit the end of the current line. Break out of the loop and lay out the current line.
      if fgt (fadd (fadd sizeConsumedOnCurrentLineIncludingMinConstraint
              flexBasisWithMinAndMaxConstraints) childMarginMainAxis) availableInnerMainDim &&
          isNodeFlexWrap && decide (values.itemsOnLine > 0) then
        (child :: rest, values, endOfLineIndex)
      else
        let sizeConsumedOnCurrentLineIncludingMinConstraint :=
          fadd sizeConsumedOnCurrentLineIncludingMinConstraint
            (fadd flexBasisWithMinAndMaxConstraints childMarginMainAxis)
        let values := { values with
          sizeConsumedOnCurrentLine := fadd values.sizeConsumedOnCurrentLine
            (fadd flexBasisWithMinAndMaxConstraints childMarginMainAxis)
          itemsOnLine := values.itemsOnLine + 1 }
        let values :=
          if child.isNodeFlexible then
            { values with
              totalFlexGrowFactors := fadd values.totalFlexGrowFactors child.resolveFlexGrow
              -- Unlike the grow factor, the shrink factor is scaled relative to the child
              -- dimension.
              totalFlexShrinkScaledFactors := fadd values.totalFlexShrinkScaledFactors
                (fmul (fneg child.resolveFlexShrink) child.layout.computedFlexBasis) }
          else values
        let values := { values with
          relativeChildren := values.relativeChildren ++ [endOfLineIndex] }
        let (rest, values, stop) := RNYGCalculateCollectFlexItemsRowValues.loop mainAxis
          isNodeFlexWrap mainAxisParentSize availableInnerWidth availableInnerMainDim lineCount
          rest (endOfLineIndex + 1) sizeConsumedOnCurrentLineIncludingMinConstraint values
        (child :: rest, values, stop)

/-- `RNYGCalculateCollectFlexItemsRowValues` (RNYoga.cpp:1650); returns the children (the
line index of the visited ones is set) and the collected values. -/
def RNYGCalculateCollectFlexItemsRowValues {D : Type} (node : RNYGNode C)
    (children : List (RNYGNode D)) (parentDirection : RNYGDirection)
    (mainAxisParentSize availableInnerWidth availableInnerMainDim : YGFloat)
    (startOfLineIndex lineCount : Nat) :
    List (RNYGNode D) × RNYGCollectFlexItemsRowValues :=
  let mainAxis :=
    RNYGResolveFlexDirection node.style.flexDirection (node.resolveDirection parentDirection)
  let isNodeFlexWrap := decide (node.style.flexWrap ≠ RNYGWrap.NoWrap)
  -- Add items to the current line until it's full or we run out of items.
  let (suffix, values, endOfLineIndex) :=
    RNYGCalculateCollectFlexItemsRowValues.loop mainAxis isNodeFlexWrap mainAxisParentSize
      availableInnerWidth availableInnerMainDim lineCount (children.drop startOfLineIndex)
      startOfLineIndex (some 0) RNYGCollectFlexItemsRowValues.zero
  -- The total flex factor needs to be floored to 1.
  let values :=
    if fgt values.totalFlexGrowFactors (some 0) && flt values.totalFlexGrowFactors (some 1) then
      { values with totalFlexGrowFactors := some 1 }
    else values
  -- The total flex shrink factor needs to be floored to 1.
  let values :=
    if fgt values.totalFlexShrinkScaledFactors (some 0) &&
        flt values.totalFlexShrinkScaledFactors (some 1) then
      { values with totalFlexShrinkScaledFactors := some 1 }
    else values
  (children.take startOfLineIndex ++ suffix, { values with endOfLineIndex := endOfLineIndex })

/-- The body of the loop of `RNYGDistributeFreeSpaceFirstPass` (RNYoga.cpp:1923) for one
child; the state is `(totalFlexShrinkScaledFactors, totalFlexGrowFactors, deltaFreeSpace)`. -/
def RNYGDistributeFreeSpaceFirstPass.body {D : Type} (remainingFreeSpace : YGFloat)
    (mainAxis : RNYGFlexDirection)
    (mainAxisParentSize availableInnerMainDim availableInnerWidth : YGFloat)
    (state : YGFloat × YGFloat × YGFloat) (currentRelativeChild : RNYGNode D) :
    YGFloat × YGFloat × YGFloat :=
  let (totalFlexShrinkScaledFactors, totalFlexGrowFactors, deltaFreeSpace) := state
  let childFlexBasis := RNYGNodeBoundAxisWithinMinAndMax currentRelativeChild mainAxis
    currentRelativeChild.layout.computedFlexBasis mainAxisParentSize
  if flt remainingFreeSpace (some 0) then
    let flexShrinkScaledFactor := fmul (fneg currentRelativeChild.resolveFlexShrink) childFlexBasis
    -- Is this child able to shrink?
    if fne flexShrinkScaledFactor (some 0) then
      let baseMainSize := fadd childFlexBasis
        (fmul (fdiv remainingFreeSpace totalFlexShrinkScaledFactors) flexShrinkScaledFactor)
      let boundMainSize := RNYGNodeBoundAxis currentRelativeChild mainAxis baseMainSize
        availableInnerMainDim availableInnerWidth
      if fne baseMainSize boundMainSize then
        -- By excluding this item's size and flex factor from remaining, this item's min/max
        -- constraints should also trigger in the second pass resulting in the item's size
        -- calculation being identical in the first and second passes.
        (fsub totalFlexShrinkScaledFactors flexShrinkScaledFactor, totalFlexGrowFactors,
          fadd deltaFreeSpace (fsub boundMainSize childFlexBasis))
      else state
    else state
  else if fgt remainingFreeSpace (some 0) then
    let flexGrowFactor := currentRelativeChild.resolveFlexGrow
    -- Is this child able to grow?
    if fne flexGrowFactor (some 0) then
      let baseMainSize := fadd childFlexBasis
        (fmul (fdiv remainingFreeSpace totalFlexGrowFactors) flexGrowFactor)
      let boundMainSize := RNYGNodeBoundAxis currentRelativeChild mainAxis baseMainSize
        availableInnerMainDim availableInnerWidth
      if fne baseMainSize boundMainSize then
        (totalFlexShrinkScaledFactors, fsub totalFlexGrowFactors flexGrowFactor,
          fadd deltaFreeSpace (fsub boundMainSize childFlexBasis))
      else state
    else state
  else state

/-- `RNYGDistributeFreeSpaceFirstPass` (RNYoga.cpp:1911); returns the updated values. -/
def RNYGDistributeFreeSpaceFirstPass {D : Type}
    (collectedFlexItemsValues : RNYGCollectFlexItemsRowValues) (children : List (RNYGNode D))
    (mainAxis : RNYGFlexDirection)
    (mainAxisParentSize availableInnerMainDim availableInnerWidth : YGFloat) :
    RNYGCollectFlexItemsRowValues :=
  let relativeChildren := collectedFlexItemsValues.relativeChildren.filterMap (fun i => children[i]?)
  let (totalFlexShrinkScaledFactors, totalFlexGrowFactors, deltaFreeSpace) :=
    relativeChildren.foldl
      (RNYGDistributeFreeSpaceFirstPass.body collectedFlexItemsValues.remainingFreeSpace mainAxis
        mainAxisParentSize availableInnerMainDim availableInnerWidth)
      (collectedFlexItemsValues.totalFlexShrinkScaledFactors,
        collectedFlexItemsValues.totalFlexGrowFactors, some 0)
  { collectedFlexItemsValues with
    totalFlexShrinkScaledFactors := totalFlexShrinkScaledFactors
    totalFlexGrowFactors := totalFlexGrowFactors
    remainingFreeSpace := fsub collectedFlexItemsValues.remainingFreeSpace deltaFreeSpace }

/-- The body of the loop of `RNYGDistributeFreeSpaceSecondPass` (RNYoga.cpp:1753) for the child
at index `i`; the state is the node, its children and `deltaFreeSpace`. -/
def RNYGDistributeFreeSpaceSecondPass.body {D : Type} (layoutChild : RNYGLayoutFn D)
    (collectedFlexItemsValues : RNYGCollectFlexItemsRowValues)
    (mainAxis crossAxis : RNYGFlexDirection)
    (mainAxisParentSize availableInnerMainDim availableInnerCrossDim availableInnerWidth
      availableInnerHeight : YGFloat)
    (flexBasisOverflows : Bool) (measureModeCrossDim : RNYGMeasureMode) (performLayout : Bool)
    (config : RNYGConfig)
    (state : RNYGNode C × List (RNYGNode D) × YGFloat) (i : Nat) :
    Option (RNYGNode C × List (RNYGNode D) × YGFloat) :=
  let (node, children, deltaFreeSpace) := state
  match children[i]? with
  | none => some state
  | some currentRelativeChild => do
    let isMainAxisRow := RNYGFlexDirectionIsRow mainAxis
    let isNodeFlexWrap := decide (node.style.flexWrap ≠ RNYGWrap.NoWrap)
    let childFlexBasis := RNYGNodeBoundAxisWithinMinAndMax currentRelativeChild mainAxis
      currentRelativeChild.layout.computedFlexBasis mainAxisParentSize
    let updatedMainSize :=
      if flt collectedFlexItemsValues.remainingFreeSpace (some 0) then
        let flexShrinkScaledFactor :=
          fmul (fneg currentRelativeChild.resolveFlexShrink) childFlexBasis
        -- Is this child able to shrink?
        if fne flexShrinkScaledFactor (some 0) then
          let childSize :=
            if feq collectedFlexItemsValues.totalFlexShrinkScaledFactors (some 0) then
              fadd childFlexBasis flexShrinkScaledFactor
            else
              fadd childFlexBasis
                (fmul
                  (fdiv collectedFlexItemsValues.remainingFreeSpace
                    collectedFlexItemsValues.totalFlexShrinkScaledFactors)
                  flexShrinkScaledFactor)
          RNYGNodeBoundAxis currentRelativeChild mainAxis childSize availableInnerMainDim
            availableInnerWidth
        else childFlexBasis
      else if fgt collectedFlexItemsValues.remainingFreeSpace (some 0) then
        let flexGrowFactor := currentRelativeChild.resolveFlexGrow
        -- Is this child able to grow?
        if fne flexGrowFactor (some 0) then
          RNYGNodeBoundAxis currentRelativeChild mainAxis
            (fadd childFlexBasis
              (fmul
                (fdiv collectedFlexItemsValues.remainingFreeSpace
                  collectedFlexItemsValues.totalFlexGrowFactors)
                flexGrowFactor))
            availableInnerMainDim availableInnerWidth
        else childFlexBasis
      else childFlexBasis
    let deltaFreeSpace := fadd deltaFreeSpace (fsub updatedMainSize childFlexBasis)
    let marginMain := currentRelativeChild.getMarginForAxis mainAxis availableInnerWidth
    let marginCross := currentRelativeChild.getMarginForAxis crossAxis availableInnerWidth
    let childMainSize := fadd updatedMainSize marginMain
    let childMainMeasureMode := RNYGMeasureMode.Exactly
    let (childCrossSize, childCrossMeasureMode) :=
      if !RNYGFloatIsUndefined currentRelativeChild.style.aspectRatio then
        (fadd
          (if isMainAxisRow then
            fdiv (fsub childMainSize marginMain) currentRelativeChild.style.aspectRatio
          else fmul (fsub childMainSize marginMain) currentRelativeChild.style.aspectRatio)
          marginCross, RNYGMeasureMode.Exactly)
      else if !RNYGFloatIsUndefined availableInnerCrossDim &&
          !RNYGNodeIsStyleDimDefined currentRelativeChild crossAxis availableInnerCrossDim &&
          measureModeCrossDim = RNYGMeasureMode.Exactly &&
          !(isNodeFlexWrap && flexBasisOverflows) &&
          RNYGNodeAlignItem node currentRelativeChild = RNYGAlign.Stretch &&
          (currentRelativeChild.marginLeadingValue crossAxis).unit ≠ RNYGUnit.Auto &&
          (currentRelativeChild.marginTrailingValue crossAxis).unit ≠ RNYGUnit.Auto then
        (availableInnerCrossDim, RNYGMeasureMode.Exactly)
      else if !RNYGNodeIsStyleDimDefined currentRelativeChild crossAxis availableInnerCrossDim
      then
        (availableInnerCrossDim,
          if RNYGFloatIsUndefined availableInnerCrossDim then RNYGMeasureMode.Undefined
          else RNYGMeasureMode.AtMost)
      else
        let childCrossSize :=
          fadd (RNYGResolveValue (currentRelativeChild.resolvedDimensions (dim crossAxis))
            availableInnerCrossDim) marginCross
        let isLoosePercentageMeasurement :=
          (currentRelativeChild.resolvedDimensions (dim crossAxis)).unit = RNYGUnit.Percent &&
            measureModeCrossDim ≠ RNYGMeasureMode.Exactly
        (childCrossSize,
          if RNYGFloatIsUndefined childCrossSize || isLoosePercentageMeasurement then
            RNYGMeasureMode.Undefined
          else RNYGMeasureMode.Exactly)
    let (childMainMeasureMode, childMainSize) :=
      RNYGConstrainMaxSizeForMode currentRelativeChild mainAxis availableInnerMainDim
        availableInnerWidth childMainMeasureMode childMainSize
    let (childCrossMeasureMode, childCrossSize) :=
      RNYGConstrainMaxSizeForMode currentRelativeChild crossAxis availableInnerCrossDim
        availableInnerWidth childCrossMeasureMode childCrossSize
    let requiresStretchLayout :=
      !RNYGNodeIsStyleDimDefined currentRelativeChild crossAxis availableInnerCrossDim &&
        RNYGNodeAlignItem node currentRelativeChild = RNYGAlign.Stretch &&
        (currentRelativeChild.marginLeadingValue crossAxis).unit ≠ RNYGUnit.Auto &&
        (currentRelativeChild.marginTrailingValue crossAxis).unit ≠ RNYGUnit.Auto
    let childWidth := if isMainAxisRow then childMainSize else childCrossSize
    let childHeight := if !isMainAxisRow then childMainSize else childCrossSize
    let childWidthMeasureMode :=
      if isMainAxisRow then childMainMeasureMode else childCrossMeasureMode
    let childHeightMeasureMode :=
      if !isMainAxisRow then childMainMeasureMode else childCrossMeasureMode
    -- Recursively call the layout algorithm for this child with the updated main size.
    let (currentRelativeChild, _) ← layoutChild currentRelativeChild childWidth childHeight
      node.layout.direction childWidthMeasureMode childHeightMeasureMode availableInnerWidth
      availableInnerHeight (performLayout && !requiresStretchLayout) config
    let node := node.setLayoutHadOverflow
      (node.layout.hadOverflow || currentRelativeChild.layout.hadOverflow)
    pure (node, children.set i currentRelativeChild, deltaFreeSpace)

/-- `RNYGDistributeFreeSpaceSecondPass` (RNYoga.cpp:1732); returns the node, its children and
`deltaFreeSpace`. -/
def RNYGDistributeFreeSpaceSecondPass {D : Type} (layoutChild : RNYGLayoutFn D)
    (collectedFlexItemsValues : RNYGCollectFlexItemsRowValues)
    (node : RNYGNode C) (children : List (RNYGNode D))
    (mainAxis crossAxis : RNYGFlexDirection)
    (mainAxisParentSize availableInnerMainDim availableInnerCrossDim availableInnerWidth
      availableInnerHeight : YGFloat)
    (flexBasisOverflows : Bool) (measureModeCrossDim : RNYGMeasureMode) (performLayout : Bool)
    (config : RNYGConfig) : Option (RNYGNode C × List (RNYGNode D) × YGFloat) :=
  collectedFlexItemsValues.relativeChildren.foldlM
    (RNYGDistributeFreeSpaceSecondPass.body layoutChild collectedFlexItemsValues mainAxis
      crossAxis mainAxisParentSize availableInnerMainDim availableInnerCrossDim
      availableInnerWidth availableInnerHeight flexBasisOverflows measureModeCrossDim
      performLayout config)
    (node, children, some 0)

/-- `RNYGResolveFlexibleLength` (RNYoga.cpp:2014); returns the node, its children and the
updated values. -/
def RNYGResolveFlexibleLength {D : Type} (layoutChild : RNYGLayoutFn D)
    (node : RNYGNode C) (children : List (RNYGNode D))
    (collectedFlexItemsValues : RNYGCollectFlexItemsRowValues)
    (mainAxis crossAxis : RNYGFlexDirection)
    (mainAxisParentSize availableInnerMainDim availableInnerCrossDim availableInnerWidth
      availableInnerHeight : YGFloat)
    (flexBasisOverflows : Bool) (measureModeCrossDim : RNYGMeasureMode) (performLayout : Bool)
    (config : RNYGConfig) :
    Option (RNYGNode C × List (RNYGNode D) × RNYGCollectFlexItemsRowValues) := do
  let originalFreeSpace := collectedFlexItemsValues.remainingFreeSpace
  -- First pass: detect the flex items whose min/max constraints trigger
  let collectedFlexItemsValues := RNYGDistributeFreeSpaceFirstPass collectedFlexItemsValues
    children mainAxis mainAxisParentSize availableInnerMainDim availableInnerWidth
  -- Second pass: resolve the sizes of the flexible items
  let (node, children, distributedFreeSpace) ← RNYGDistributeFreeSpaceSecondPass layoutChild
    collectedFlexItemsValues node children mainAxis crossAxis mainAxisParentSize
    availableInnerMainDim availableInnerCrossDim availableInnerWidth availableInnerHeight
    flexBasisOverflows measureModeCrossDim performLayout config
  pure (node, children, { collectedFlexItemsValues with
    remainingFreeSpace := fsub originalFreeSpace distributedFreeSpace })

/-! ## Main-axis justification -/

/-- The children with index in `[start, stop)`. -/
def lineSegment {α : Type} (children : List α) (start stop : Nat) : List α :=
  (children.drop start).take (stop - start)

/-- The children with those in `[start, stop)` replaced by `segment`. -/
def replaceSegment {α : Type} (children : List α) (start stop : Nat) (segment : List α) :
    List α :=
  children.take start ++ segment ++ children.drop (start + (stop - start))

/-- The first loop of `RNYGJustifyMainAxis` (RNYoga.cpp:2092): the number of auto margins on
the line. -/
def RNYGJustifyMainAxis.countAutoMargins {D : Type} (mainAxis : RNYGFlexDirection)
    (line : List (RNYGNode D)) : Nat :=
  line.foldl (fun numberOfAutoMarginsOnCurrentLine child =>
    if child.style.positionType = RNYGPositionType.Relative then
      let n :=
        if (child.marginLeadingValue mainAxis).unit = RNYGUnit.Auto then
          numberOfAutoMarginsOnCurrentLine + 1
        else numberOfAutoMarginsOnCurrentLine
      if (child.marginTrailingValue mainAxis).unit = RNYGUnit.Auto then n + 1 else n
    else numberOfAutoMarginsOnCurrentLine) 0

/-- The body of the second loop of `RNYGJustifyMainAxis` (RNYoga.cpp:2153) for one child;
returns the child and the updated `(mainDim, crossDim)`. -/
def RNYGJustifyMainAxis.body {D : Type} (node : RNYGNode C)
    (mainAxis crossAxis : RNYGFlexDirection) (measureModeCrossDim : RNYGMeasureMode)
    (availableInnerMainDim availableInnerCrossDim availableInnerWidth : YGFloat)
    (performLayout : Bool) (remainingFreeSpace : YGFloat)
    (numberOfAutoMarginsOnCurrentLine : Nat) (leadingMainDim betweenMainDim : YGFloat)
    (child : RNYGNode D) (mainDim crossDim : YGFloat) : RNYGNode D × YGFloat × YGFloat :=
  let childStyle := child.style
  let childLayout := child.layout
  if childStyle.display = RNYGDisplay.None then (child, mainDim, crossDim)
  else if childStyle.positionType = RNYGPositionType.Absolute &&
      child.isLeadingPositionDefined mainAxis then
    if performLayout then
      -- In case the child is position absolute and has left/top being defined, we override
      -- the position to whatever the user said (and margin/border).
      (child.setLayoutPosition
        (fadd
          (fadd (child.getLeadingPosition mainAxis availableInnerMainDim)
            (node.getLeadingBorder mainAxis))
          (child.getLeadingMargin mainAxis availableInnerWidth))
        (pos mainAxis), mainDim, crossDim)
    else (child, mainDim, crossDim)
  else if childStyle.positionType = RNYGPositionType.Relative then
    -- Now that we placed the element, we need to update the variables. We need to do that
    -- only for relative elements. Absolute elements do not take part in that phase.
    let mainDim :=
      if (child.marginLeadingValue mainAxis).unit = RNYGUnit.Auto then
        fadd mainDim (fdiv remainingFreeSpace (some (numberOfAutoMarginsOnCurrentLine : ℚ)))
      else mainDim
    let child :=
      if performLayout then
        child.setLayoutPosition (fadd (childLayout.position (pos mainAxis)) mainDim)
          (pos mainAxis)
      else child
    let mainDim :=
      if (child.marginTrailingValue mainAxis).unit = RNYGUnit.Auto then
        fadd mainDim (fdiv remainingFreeSpace (some (numberOfAutoMarginsOnCurrentLine : ℚ)))
      else mainDim
    let canSkipFlex := !performLayout && measureModeCrossDim = RNYGMeasureMode.Exactly
    if canSkipFlex then
      -- If we skipped the flex step, then we can't rely on the measuredDims because they
      -- weren't computed. This means we can't call YGNodeDimWithMargin.
      (child,
        fadd mainDim
          (fadd (fadd betweenMainDim (child.getMarginForAxis mainAxis availableInnerWidth))
            childLayout.computedFlexBasis),
        availableInnerCrossDim)
    else
      -- The main dimension is the sum of all the elements dimension plus the spacing.
      -- The cross dimension is the max of the elements dimension since there can only be one
      -- element in that cross dimension.
      (child,
        fadd mainDim
          (fadd betweenMainDim (RNYGNodeDimWithMargin child mainAxis availableInnerWidth)),
        fmaxf crossDim (RNYGNodeDimWithMargin child crossAxis availableInnerWidth))
  else if performLayout then
    (child.setLayoutPosition
      (fadd (fadd (childLayout.position (pos mainAxis)) (node.getLeadingBorder mainAxis))
        leadingMainDim)
      (pos mainAxis), mainDim, crossDim)
  else (child, mainDim, crossDim)

/-- The second loop of `RNYGJustifyMainAxis` (RNYoga.cpp:2153) over the children of the line. -/
def RNYGJustifyMainAxis.loop {D : Type} (node : RNYGNode C)
    (mainAxis crossAxis : RNYGFlexDirection) (measureModeCrossDim : RNYGMeasureMode)
    (availableInnerMainDim availableInnerCrossDim availableInnerWidth : YGFloat)
    (performLayout : Bool) (remainingFreeSpace : YGFloat)
    (numberOfAutoMarginsOnCurrentLine : Nat) (leadingMainDim betweenMainDim : YGFloat) :
    List (RNYGNode D) → YGFloat → YGFloat → List (RNYGNode D) × YGFloat × YGFloat
  | [], mainDim, crossDim => ([], mainDim, crossDim)
  | child :: rest, mainDim, crossDim =>
    let (child, mainDim, crossDim) := RNYGJustifyMainAxis.body node mainAxis crossAxis
      measureModeCrossDim availableInnerMainDim availableInnerCrossDim availableInnerWidth
      performLayout remainingFreeSpace numberOfAutoMarginsOnCurrentLine leadingMainDim
      betweenMainDim child mainDim crossDim
    let (rest, mainDim, crossDim) := RNYGJustifyMainAxis.loop node mainAxis crossAxis
      measureModeCrossDim availableInnerMainDim availableInnerCrossDim availableInnerWidth
      performLayout remainingFreeSpace numberOfAutoMarginsOnCurrentLine leadingMainDim
      betweenMainDim rest mainDim crossDim
    (child :: rest, mainDim, crossDim)

/-- The choice of `(leadingMainDim, betweenMainDim)` in `RNYGJustifyMainAxis`
(RNYoga.cpp:2109). -/
def RNYGJustifyMainAxis.leadingAndBetween (justifyContent : RNYGJustify)
    (numberOfAutoMarginsOnCurrentLine : Nat) (remainingFreeSpace : YGFloat) (itemsOnLine : Nat) :
    YGFloat × YGFloat :=
  if numberOfAutoMarginsOnCurrentLine = 0 then
    match justifyContent with
    | RNYGJustify.Center => (fdiv remainingFreeSpace (some 2), some 0)
    | RNYGJustify.FlexEnd => (remainingFreeSpace, some 0)
    | RNYGJustify.SpaceBetween =>
      if itemsOnLine > 1 then
        (some 0, fdiv (fmaxf remainingFreeSpace (some 0)) (some ((itemsOnLine - 1 : Nat) : ℚ)))
      else (some 0, some 0)
    | RNYGJustify.SpaceEvenly =>
      -- Space is distributed evenly across all elements
      let betweenMainDim := fdiv remainingFreeSpace (some ((itemsOnLine + 1 : Nat) : ℚ))
      (betweenMainDim, betweenMainDim)
    | RNYGJustify.SpaceAround =>
      -- Space on the edges is half of the space between elements
      let betweenMainDim := fdiv remainingFreeSpace (some (itemsOnLine : ℚ))
      (fdiv betweenMainDim (some 2), betweenMainDim)
    | RNYGJustify.FlexStart => (some 0, some 0)
  else (some 0, some 0)

/-- `RNYGJustifyMainAxis` (RNYoga.cpp:2057); returns the children and the updated values. -/
def RNYGJustifyMainAxis {D : Type} (node : RNYGNode C) (children : List (RNYGNode D))
    (collectedFlexItemsValues : RNYGCollectFlexItemsRowValues) (startOfLineIndex : Nat)
    (mainAxis crossAxis : RNYGFlexDirection)
    (measureModeMainDim measureModeCrossDim : RNYGMeasureMode)
    (mainAxisParentSize parentWidth availableInnerMainDim availableInnerCrossDim
      availableInnerWidth : YGFloat)
    (performLayout : Bool) : List (RNYGNode D) × RNYGCollectFlexItemsRowValues :=
  let style := node.style
  -- If we are using "at most" rules in the main axis. Calculate the remaining space when
  -- constraint by the min size defined for the main axis.
  let remainingFreeSpace :=
    if measureModeMainDim = RNYGMeasureMode.AtMost &&
        fgt collectedFlexItemsValues.remainingFreeSpace (some 0) then
      if (style.minDimensions (dim mainAxis)).unit ≠ RNYGUnit.Undefined &&
          fge (RNYGResolveValue (style.minDimensions (dim mainAxis)) mainAxisParentSize) (some 0)
      then
        fmaxf (some 0)
          (fsub (RNYGResolveValue (style.minDimensions (dim mainAxis)) mainAxisParentSize)
            (fsub availableInnerMainDim collectedFlexItemsValues.remainingFreeSpace))
      else some 0
    else collectedFlexItemsValues.remainingFreeSpace
  let line := lineSegment children startOfLineIndex collectedFlexItemsValues.endOfLineIndex
  let numberOfAutoMarginsOnCurrentLine := RNYGJustifyMainAxis.countAutoMargins mainAxis line
  -- In order to position the elements in the main axis, we have two controls. The space
  -- between the beginning and the first element and the space between each two elements.
  let (leadingMainDim, betweenMainDim) :=
    RNYGJustifyMainAxis.leadingAndBetween node.style.justifyContent
      numberOfAutoMarginsOnCurrentLine remainingFreeSpace collectedFlexItemsValues.itemsOnLine
  let leadingPaddingAndBorderMain := node.getLeadingPaddingAndBorder mainAxis parentWidth
  let mainDim := fadd leadingPaddingAndBorderMain leadingMainDim
  let crossDim : YGFloat := some 0
  let (line, mainDim, crossDim) := RNYGJustifyMainAxis.loop node mainAxis crossAxis
    measureModeCrossDim availableInnerMainDim availableInnerCrossDim availableInnerWidth
    performLayout remainingFreeSpace numberOfAutoMarginsOnCurrentLine leadingMainDim
    betweenMainDim line mainDim crossDim
  let mainDim := fadd mainDim (node.getTrailingPaddingAndBorder mainAxis parentWidth)
  (replaceSegment children startOfLineIndex collectedFlexItemsValues.endOfLineIndex line,
    { collectedFlexItemsValues with
      remainingFreeSpace := remainingFreeSpace, mainDim := mainDim, crossDim := crossDim })

/-! ## `RNYGNodelayoutImpl` (RNYoga.cpp:2318) -/

/-- The local constants of `RNYGNodelayoutImpl` that its loops read (STEP 1 to STEP 3), together
with the arguments of the call. -/
structure RNYGNodelayoutImpl.Locals where
  parentDirection : RNYGDirection
  parentWidth : YGFloat
  performLayout : Bool
  config : RNYGConfig
  direction : RNYGDirection
  mainAxis : RNYGFlexDirection
  crossAxis : RNYGFlexDirection
  isMainAxisRow : Bool
  isNodeFlexWrap : Bool
  mainAxisParentSize : YGFloat
  crossAxisParentSize : YGFloat
  leadingPaddingAndBorderCross : YGFloat
  paddingAndBorderAxisCross : YGFloat
  measureModeMainDim : RNYGMeasureMode
  measureModeCrossDim : RNYGMeasureMode
  minInnerMainDim : YGFloat
  maxInnerMainDim : YGFloat
  availableInnerWidth : YGFloat
  availableInnerHeight : YGFloat
  availableInnerCrossDim : YGFloat
  flexBasisOverflows : Bool

/-- STEP 7 of `RNYGNodelayoutImpl` (RNYoga.cpp:2651) for one child of the line: the cross-axis
alignment; returns the updated child. -/
def RNYGNodelayoutImpl.crossAlignChild {D : Type} (layoutChild : RNYGLayoutFn D)
    (l : RNYGNodelayoutImpl.Locals) (node : RNYGNode C) (availableInnerMainDim : YGFloat)
    (crossDim containerCrossAxis totalLineCrossDim : YGFloat) (child : RNYGNode D) :
    Option (RNYGNode D) := do
  if child.style.display = RNYGDisplay.None then pure child
  else if child.style.positionType = RNYGPositionType.Absolute then
    -- If the child is absolutely positioned and has a top/left/bottom/right set, override
    -- all the previously computed positions to set it correctly.
    let isChildLeadingPosDefined := child.isLeadingPositionDefined l.crossAxis
    let child :=
      if isChildLeadingPosDefined then
        child.setLayoutPosition
          (fadd
            (fadd (child.getLeadingPosition l.crossAxis l.availableInnerCrossDim)
              (node.getLeadingBorder l.crossAxis))
            (child.getLeadingMargin l.crossAxis l.availableInnerWidth))
          (pos l.crossAxis)
      else child
    -- If leading position is not defined or calculations result in Nan, default to border +
    -- margin
    if !isChildLeadingPosDefined ||
        RNYGFloatIsUndefined (child.layout.position (pos l.crossAxis)) then
      pure (child.setLayoutPosition
        (fadd (node.getLeadingBorder l.crossAxis)
          (child.getLeadingMargin l.crossAxis l.availableInnerWidth))
        (pos l.crossAxis))
    else pure child
  else
    let leadingCrossDim := l.leadingPaddingAndBorderCross
    -- For a relative children, we're either using alignItems (parent) or alignSelf (child) in
    -- order to determine the position in the cross axis
    let alignItem := RNYGNodeAlignItem node child
    -- If the child uses align stretch, we need to lay it out one more time, this time forcing
    -- the cross-axis size to be the computed cross size for the current line.
    let (child, leadingCrossDim) ←
      if alignItem = RNYGAlign.Stretch &&
          (child.marginLeadingValue l.crossAxis).unit ≠ RNYGUnit.Auto &&
          (child.marginTrailingValue l.crossAxis).unit ≠ RNYGUnit.Auto then
        -- If the child defines a definite size for its cross axis, there's no need to stretch.
        if !RNYGNodeIsStyleDimDefined child l.crossAxis l.availableInnerCrossDim then do
          let childMainSize := child.layout.measuredDimensions (dim l.mainAxis)
          let childCrossSize :=
            if !RNYGFloatIsUndefined child.style.aspectRatio then
              fadd (child.getMarginForAxis l.crossAxis l.availableInnerWidth)
                (if l.isMainAxisRow then fdiv childMainSize child.style.aspectRatio
                else fmul childMainSize child.style.aspectRatio)
            else crossDim
          let childMainSize :=
            fadd childMainSize (child.getMarginForAxis l.mainAxis l.availableInnerWidth)
          let (_, childMainSize) := RNYGConstrainMaxSizeForMode child l.mainAxis
            availableInnerMainDim l.availableInnerWidth RNYGMeasureMode.Exactly childMainSize
          let (_, childCrossSize) := RNYGConstrainMaxSizeForMode child l.crossAxis
            l.availableInnerCrossDim l.availableInnerWidth RNYGMeasureMode.Exactly childCrossSize
          let childWidth := if l.isMainAxisRow then childMainSize else childCrossSize
          let childHeight := if !l.isMainAxisRow then childMainSize else childCrossSize
          let childWidthMeasureMode :=
            if RNYGFloatIsUndefined childWidth then RNYGMeasureMode.Undefined
            else RNYGMeasureMode.Exactly
          let childHeightMeasureMode :=
            if RNYGFloatIsUndefined childHeight then RNYGMeasureMode.Undefined
            else RNYGMeasureMode.Exactly
          let (child, _) ← layoutChild child childWidth childHeight l.direction
            childWidthMeasureMode childHeightMeasureMode l.availableInnerWidth
            l.availableInnerHeight true l.config
          pure (child, leadingCrossDim)
        else pure (child, leadingCrossDim)
      else
        let remainingCrossDim :=
          fsub containerCrossAxis (RNYGNodeDimWithMargin child l.crossAxis l.availableInnerWidth)
        if (child.marginLeadingValue l.crossAxis).unit = RNYGUnit.Auto &&
            (child.marginTrailingValue l.crossAxis).unit = RNYGUnit.Auto then
          pure (child, fadd leadingCrossDim (fmaxf (some 0) (fdiv remainingCrossDim (some 2))))
        else if (child.marginTrailingValue l.crossAxis).unit = RNYGUnit.Auto then
          -- No-Op
          pure (child, leadingCrossDim)
        else if (child.marginLeadingValue l.crossAxis).unit = RNYGUnit.Auto then
          pure (child, fadd leadingCrossDim (fmaxf (some 0) remainingCrossDim))
        else if alignItem = RNYGAlign.FlexStart then
          -- No-Op
          pure (child, leadingCrossDim)
        else if alignItem = RNYGAlign.Center then
          pure (child, fadd leadingCrossDim (fdiv remainingCrossDim (some 2)))
        else pure (child, fadd leadingCrossDim remainingCrossDim)
    -- And we apply the position
    pure (child.setLayoutPosition
      (fadd (fadd (child.layout.position (pos l.crossAxis)) totalLineCrossDim) leadingCrossDim)
      (pos l.crossAxis))

/-- The mutable state of the line loop of `RNYGNodelayoutImpl` (RNYoga.cpp:2498). -/
structure RNYGNodelayoutImpl.LineState (C D : Type) where
  node : RNYGNode C
  children : List (RNYGNode D)
  availableInnerMainDim : YGFloat
  startOfLineIndex : Nat
  endOfLineIndex : Nat
  lineCount : Nat
  totalLineCrossDim : YGFloat
  maxLineMainDim : YGFloat

/-- The body of the line loop of `RNYGNodelayoutImpl` (STEP 4 to STEP 7, RNYoga.cpp:2512) for
the line that starts at `startOfLineIndex`; the loop increments are applied by the caller. -/
def RNYGNodelayoutImpl.lineBody {D : Type} (layoutChild : RNYGLayoutFn D)
    (l : RNYGNodelayoutImpl.Locals) (s : RNYGNodelayoutImpl.LineState C D) :
    Option (RNYGNodelayoutImpl.LineState C D) := do
  let node := s.node
  let availableInnerMainDim := s.availableInnerMainDim
  let (children, collectedFlexItemsValues) := RNYGCalculateCollectFlexItemsRowValues node
    s.children l.parentDirection l.mainAxisParentSize l.availableInnerWidth
    availableInnerMainDim s.startOfLineIndex s.lineCount
  let endOfLineIndex := collectedFlexItemsValues.endOfLineIndex
  -- If we don't need to measure the cross axis, we can skip the entire flex step.
  let canSkipFlex := !l.performLayout && l.measureModeCrossDim = RNYGMeasureMode.Exactly
  -- STEP 5: RESOLVING FLEXIBLE LENGTHS ON MAIN AXIS
  let (node, availableInnerMainDim, sizeBasedOnContent) :=
    -- If we don't measure with exact main dimension we want to ensure we don't violate min
    -- and max
    if l.measureModeMainDim ≠ RNYGMeasureMode.Exactly then
      if !RNYGFloatIsUndefined l.minInnerMainDim &&
          flt collectedFlexItemsValues.sizeConsumedOnCurrentLine l.minInnerMainDim then
        (node, l.minInnerMainDim, false)
      else if !RNYGFloatIsUndefined l.maxInnerMainDim &&
          fgt collectedFlexItemsValues.sizeConsumedOnCurrentLine l.maxInnerMainDim then
        (node, l.maxInnerMainDim, false)
      else
        let availableInnerMainDim :=
          if !node.config.useLegacyStretchBehaviour &&
              (feq collectedFlexItemsValues.totalFlexGrowFactors (some 0) ||
                feq node.resolveFlexGrow (some 0)) then
            -- If we don't have any children to flex or we can't flex the node itself, space
            -- we've used is all space we need. Root node also should be shrunk to minimum
            collectedFlexItemsValues.sizeConsumedOnCurrentLine
          else availableInnerMainDim
        let node :=
          if node.config.useLegacyStretchBehaviour then node.setLayoutDidUseLegacyFlag true
          else node
        (node, availableInnerMainDim, !node.config.useLegacyStretchBehaviour)
    else (node, availableInnerMainDim, false)
  let collectedFlexItemsValues :=
    if !sizeBasedOnContent && !RNYGFloatIsUndefined availableInnerMainDim then
      { collectedFlexItemsValues with
        remainingFreeSpace :=
          fsub availableInnerMainDim collectedFlexItemsValues.sizeConsumedOnCurrentLine }
    else if flt collectedFlexItemsValues.sizeConsumedOnCurrentLine (some 0) then
      -- availableInnerMainDim is indefinite which means the node is being sized based on its
      -- content. sizeConsumedOnCurrentLine is negative which means the node will allocate 0
      -- points for its content. Consequently, remainingFreeSpace is 0 -
      -- sizeConsumedOnCurrentLine.
      { collectedFlexItemsValues with
        remainingFreeSpace := fneg collectedFlexItemsValues.sizeConsumedOnCurrentLine }
    else collectedFlexItemsValues
  let (node, children, collectedFlexItemsValues) ←
    if !canSkipFlex then
      RNYGResolveFlexibleLength layoutChild node children collectedFlexItemsValues l.mainAxis
        l.crossAxis l.mainAxisParentSize availableInnerMainDim l.availableInnerCrossDim
        l.availableInnerWidth l.availableInnerHeight l.flexBasisOverflows l.measureModeCrossDim
        l.performLayout l.config
    else pure (node, children, collectedFlexItemsValues)
  let node := node.setLayoutHadOverflow
    (node.layout.hadOverflow || flt collectedFlexItemsValues.remainingFreeSpace (some 0))
  -- STEP 6: MAIN-AXIS JUSTIFICATION & CROSS-AXIS SIZE DETERMINATION
  let (children, collectedFlexItemsValues) := RNYGJustifyMainAxis node children
    collectedFlexItemsValues s.startOfLineIndex l.mainAxis l.crossAxis l.measureModeMainDim
    l.measureModeCrossDim l.mainAxisParentSize l.parentWidth availableInnerMainDim
    l.availableInnerCrossDim l.availableInnerWidth l.performLayout
  let containerCrossAxis :=
    if l.measureModeCrossDim = RNYGMeasureMode.Undefined ||
        l.measureModeCrossDim = RNYGMeasureMode.AtMost then
      -- Compute the cross axis from the max cross dimension of the children.
      fsub
        (RNYGNodeBoundAxis node l.crossAxis
          (fadd collectedFlexItemsValues.crossDim l.paddingAndBorderAxisCross)
          l.crossAxisParentSize l.parentWidth)
        l.paddingAndBorderAxisCross
    else l.availableInnerCrossDim
  -- If there's no flex wrap, the cross dimension is defined by the container.
  let crossDim :=
    if !l.isNodeFlexWrap && l.measureModeCrossDim = RNYGMeasureMode.Exactly then
      l.availableInnerCrossDim
    else collectedFlexItemsValues.crossDim
  -- Clamp to the min/max size specified on the container.
  let crossDim :=
    fsub
      (RNYGNodeBoundAxis node l.crossAxis (fadd crossDim l.paddingAndBorderAxisCross)
        l.crossAxisParentSize l.parentWidth)
      l.paddingAndBorderAxisCross
  -- STEP 7: CROSS-AXIS ALIGNMENT
  -- We can skip child alignment if we're just measuring the container.
  let children ←
    if l.performLayout then do
      let line ← (lineSegment children s.startOfLineIndex endOfLineIndex).mapM
        (RNYGNodelayoutImpl.crossAlignChild layoutChild l node availableInnerMainDim crossDim
          containerCrossAxis s.totalLineCrossDim)
      pure (replaceSegment children s.startOfLineIndex endOfLineIndex line)
    else pure children
  pure
    { node := node
      children := children
      availableInnerMainDim := availableInnerMainDim
      startOfLineIndex := s.startOfLineIndex
      endOfLineIndex := endOfLineIndex
      lineCount := s.lineCount
      totalLineCrossDim := fadd s.totalLineCrossDim crossDim
      maxLineMainDim := fmaxf s.maxLineMainDim collectedFlexItemsValues.mainDim }

/-- The line loop of `RNYGNodelayoutImpl` (RNYoga.cpp:2510),
`for (; endOfLineIndex < childCount; lineCount++, startOfLineIndex = endOfLineIndex)`.  Every
line consumes at least one child, so `fuel = childCount` iterations are never exceeded. -/
def RNYGNodelayoutImpl.lineLoop {D : Type} (layoutChild : RNYGLayoutFn D)
    (l : RNYGNodelayoutImpl.Locals) (childCount : Nat) :
    Nat → RNYGNodelayoutImpl.LineState C D → Option (RNYGNodelayoutImpl.LineState C D)
  | 0, s => some s
  | fuel + 1, s =>
    if s.endOfLineIndex < childCount then do
      let s ← RNYGNodelayoutImpl.lineBody layoutChild l s
      RNYGNodelayoutImpl.lineLoop layoutChild l childCount fuel
        { s with lineCount := s.lineCount + 1, startOfLineIndex := s.endOfLineIndex }
    else some s

/-- The first inner loop of STEP 8 (RNYoga.cpp:2830), over the children from index `ii` on:
the height of line `i` and the index where the line ends.  Returns
`(endIndex, lineHeight, maxAscentForCurrentLine)`. -/
def RNYGNodelayoutImpl.lineHeightLoop {D : Type} (baselineOfChild : RNYGNode D → Option YGFloat)
    (l : RNYGNodelayoutImpl.Locals) (node : RNYGNode C) (i : Nat) :
    List (RNYGNode D) → Nat → YGFloat → YGFloat → YGFloat → Option (Nat × YGFloat × YGFloat)
  | [], ii, lineHeight, maxAscentForCurrentLine, _ =>
    some (ii, lineHeight, maxAscentForCurrentLine)
  | child :: rest, ii, lineHeight, maxAscentForCurrentLine, maxDescentForCurrentLine =>
    if child.style.display = RNYGDisplay.None then
      RNYGNodelayoutImpl.lineHeightLoop baselineOfChild l node i rest (ii + 1) lineHeight
        maxAscentForCurrentLine maxDescentForCurrentLine
    else if child.style.positionType = RNYGPositionType.Relative then
      if child.lineIndex ≠ i then some (ii, lineHeight, maxAscentForCurrentLine)
      else do
        let lineHeight :=
          if RNYGNodeIsLayoutDimDefined child l.crossAxis then
            fmaxf lineHeight
              (fadd (child.layout.measuredDimensions (dim l.crossAxis))
                (child.getMarginForAxis l.crossAxis l.availableInnerWidth))
          else lineHeight
        if RNYGNodeAlignItem node child = RNYGAlign.Baseline then
          let baseline ← baselineOfChild child
          let ascent :=
            fadd baseline (child.getLeadingMargin RNYGFlexDirection.Column l.availableInnerWidth)
          let descent :=
            fsub
              (fadd (child.layout.measuredDimensions RNYGDimension.Height)
                (child.getMarginForAxis RNYGFlexDirection.Column l.availableInnerWidth))
              ascent
          let maxAscentForCurrentLine := fmaxf maxAscentForCurrentLine ascent
          let maxDescentForCurrentLine := fmaxf maxDescentForCurrentLine descent
          let lineHeight :=
            fmaxf lineHeight (fadd maxAscentForCurrentLine maxDescentForCurrentLine)
          RNYGNodelayoutImpl.lineHeightLoop baselineOfChild l node i rest (ii + 1) lineHeight
            maxAscentForCurrentLine maxDescentForCurrentLine
        else
          RNYGNodelayoutImpl.lineHeightLoop baselineOfChild l node i rest (ii + 1) lineHeight
            maxAscentForCurrentLine maxDescentForCurrentLine
    else
      RNYGNodelayoutImpl.lineHeightLoop baselineOfChild l node i rest (ii + 1) lineHeight
        maxAscentForCurrentLine maxDescentForCurrentLine

/-- The body of the second inner loop of STEP 8 (RNYoga.cpp:2864) for one child of the line;
returns the updated child. -/
def RNYGNodelayoutImpl.alignContentChild {D : Type} (layoutChild : RNYGLayoutFn D)
    (baselineOfChild : RNYGNode D → Option YGFloat) (l : RNYGNodelayoutImpl.Locals)
    (node : RNYGNode C) (currentLead lineHeight maxAscentForCurrentLine : YGFloat)
    (child : RNYGNode D) : Option (RNYGNode D) := do
  if child.style.display = RNYGDisplay.None then pure child
  else if child.style.positionType = RNYGPositionType.Relative then
    match RNYGNodeAlignItem node child with
    | RNYGAlign.FlexStart =>
      pure (child.setLayoutPosition
        (fadd currentLead (child.getLeadingMargin l.crossAxis l.availableInnerWidth))
        (pos l.crossAxis))
    | RNYGAlign.FlexEnd =>
      pure (child.setLayoutPosition
        (fsub
          (fsub (fadd currentLead lineHeight)
            (child.getTrailingMargin l.crossAxis l.availableInnerWidth))
          (child.layout.measuredDimensions (dim l.crossAxis)))
        (pos l.crossAxis))
    | RNYGAlign.Center =>
      let childHeight := child.layout.measuredDimensions (dim l.crossAxis)
      pure (child.setLayoutPosition
        (fadd currentLead (fdiv (fsub lineHeight childHeight) (some 2)))
        (pos l.crossAxis))
    | RNYGAlign.Stretch =>
      let child := child.setLayoutPosition
        (fadd currentLead (child.getLeadingMargin l.crossAxis l.availableInnerWidth))
        (pos l.crossAxis)
      -- Remeasure child with the line height as it as been only measured with the parents
      -- height yet.
      if !RNYGNodeIsStyleDimDefined child l.crossAxis l.availableInnerCrossDim then
        let childWidth :=
          if l.isMainAxisRow then
            fadd (child.layout.measuredDimensions RNYGDimension.Width)
              (child.getMarginForAxis l.mainAxis l.availableInnerWidth)
          else lineHeight
        let childHeight :=
          if !l.isMainAxisRow then
            fadd (child.layout.measuredDimensions RNYGDimension.Height)
              (child.getMarginForAxis l.crossAxis l.availableInnerWidth)
          else lineHeight
        if !(RNYGFloatsEqual childWidth (child.layout.measuredDimensions RNYGDimension.Width) &&
            RNYGFloatsEqual childHeight (child.layout.measuredDimensions RNYGDimension.Height))
        then do
          let (child, _) ← layoutChild child childWidth childHeight l.direction
            RNYGMeasureMode.Exactly RNYGMeasureMode.Exactly l.availableInnerWidth
            l.availableInnerHeight true l.config
          pure child
        else pure child
      else pure child
    | RNYGAlign.Baseline => do
      let baseline ← baselineOfChild child
      pure (child.setLayoutPosition
        (fadd (fsub (fadd currentLead maxAscentForCurrentLine) baseline)
          (child.getLeadingPosition RNYGFlexDirection.Column l.availableInnerCrossDim))
        RNYGEdge.Top)
    | RNYGAlign.Auto => pure child
    | RNYGAlign.SpaceBetween => pure child
    | RNYGAlign.SpaceAround => pure child
  else pure child

/-- The loop over the lines of STEP 8 (RNYoga.cpp:2822), for the lines `i, i + 1, ...`
(`count` of them); the state is the children, `endIndex` and `currentLead`. -/
def RNYGNodelayoutImpl.alignContentLoop {D : Type} (layoutChild : RNYGLayoutFn D)
    (baselineOfChild : RNYGNode D → Option YGFloat) (l : RNYGNodelayoutImpl.Locals)
    (node : RNYGNode C) (crossDimLead : YGFloat) :
    Nat → Nat → List (RNYGNode D) → Nat → YGFloat → Option (List (RNYGNode D))
  | 0, _, children, _, _ => some children
  | count + 1, i, children, endIndex, currentLead => do
    let startIndex := endIndex
    -- compute the line's height and find the endIndex
    let (endIndex, lineHeight, maxAscentForCurrentLine) ←
      RNYGNodelayoutImpl.lineHeightLoop baselineOfChild l node i (children.drop startIndex)
        startIndex (some 0) (some 0) (some 0)
    let lineHeight := fadd lineHeight crossDimLead
    let children ←
      if l.performLayout then do
        let line ← (lineSegment children startIndex endIndex).mapM
          (RNYGNodelayoutImpl.alignContentChild layoutChild baselineOfChild l node currentLead
            lineHeight maxAscentForCurrentLine)
        pure (replaceSegment children startIndex endIndex line)
      else pure children
    RNYGNodelayoutImpl.alignContentLoop layoutChild baselineOfChild l node crossDimLead count
      (i + 1) children endIndex (fadd currentLead lineHeight)

/-- STEP 8 of `RNYGNodelayoutImpl` (RNYoga.cpp:2780): multi-line content alignment; returns the
children. -/
def RNYGNodelayoutImpl.alignContent {D : Type} (layoutChild : RNYGLayoutFn D)
    (baselineOfChild : RNYGNode D → Option YGFloat) (l : RNYGNodelayoutImpl.Locals)
    (node : RNYGNode C) (children : List (RNYGNode D)) (lineCount : Nat)
    (totalLineCrossDim : YGFloat) : Option (List (RNYGNode D)) :=
  if l.performLayout && (decide (lineCount > 1) || RNYGIsBaselineLayout node children) &&
      !RNYGFloatIsUndefined l.availableInnerCrossDim then
    let remainingAlignContentDim := fsub l.availableInnerCrossDim totalLineCrossDim
    let crossDimLead : YGFloat := some 0
    let currentLead := l.leadingPaddingAndBorderCross
    let (crossDimLead, currentLead) :=
      match node.style.alignContent with
      | RNYGAlign.FlexEnd => (crossDimLead, fadd currentLead remainingAlignContentDim)
      | RNYGAlign.Center =>
        (crossDimLead, fadd currentLead (fdiv remainingAlignContentDim (some 2)))
      | RNYGAlign.Stretch =>
        if fgt l.availableInnerCrossDim totalLineCrossDim then
          (fdiv remainingAlignContentDim (some (lineCount : ℚ)), currentLead)
        else (crossDimLead, currentLead)
      | RNYGAlign.SpaceAround =>
        if fgt l.availableInnerCrossDim totalLineCrossDim then
          (if lineCount > 1 then fdiv remainingAlignContentDim (some (lineCount : ℚ))
            else crossDimLead,
            fadd currentLead (fdiv remainingAlignContentDim (some ((2 * lineCount : Nat) : ℚ))))
        else (crossDimLead, fadd currentLead (fdiv remainingAlignContentDim (some 2)))
      | RNYGAlign.SpaceBetween =>
        if fgt l.availableInnerCrossDim totalLineCrossDim && decide (lineCount > 1) then
          (fdiv remainingAlignContentDim (some ((lineCount - 1 : Nat) : ℚ)), currentLead)
        else (crossDimLead, currentLead)
      | RNYGAlign.Auto => (crossDimLead, currentLead)
      | RNYGAlign.FlexStart => (crossDimLead, currentLead)
      | RNYGAlign.Baseline => (crossDimLead, currentLead)
    RNYGNodelayoutImpl.alignContentLoop layoutChild baselineOfChild l node crossDimLead
      lineCount 0 children 0 currentLead
  else some children

/-- The opening of `RNYGNodelayoutImpl` (RNYoga.cpp:2339): the resolved direction, margins,
borders and paddings are stored in the layout. -/
def RNYGNodelayoutImpl.setup (node : RNYGNode C) (parentDirection : RNYGDirection)
    (parentWidth : YGFloat) : RNYGNode C :=
  -- Set the resolved resolution in the node's layout.
  let direction := node.resolveDirection parentDirection
  let node := node.setLayoutDirection direction
  let flexRowDirection := RNYGResolveFlexDirection RNYGFlexDirection.Row direction
  let flexColumnDirection := RNYGResolveFlexDirection RNYGFlexDirection.Column direction
  let node := node.setLayoutMargin (node.getLeadingMargin flexRowDirection parentWidth)
    RNYGEdge.Start
  let node := node.setLayoutMargin (node.getTrailingMargin flexRowDirection parentWidth)
    RNYGEdge.End
  let node := node.setLayoutMargin (node.getLeadingMargin flexColumnDirection parentWidth)
    RNYGEdge.Top
  let node := node.setLayoutMargin (node.getTrailingMargin flexColumnDirection parentWidth)
    RNYGEdge.Bottom
  let node := node.setLayoutBorder (node.getLeadingBorder flexRowDirection) RNYGEdge.Start
  let node := node.setLayoutBorder (node.getTrailingBorder flexRowDirection) RNYGEdge.End
  let node := node.setLayoutBorder (node.getLeadingBorder flexColumnDirection) RNYGEdge.Top
  let node := node.setLayoutBorder (node.getTrailingBorder flexColumnDirection) RNYGEdge.Bottom
  let node := node.setLayoutPadding (node.getLeadingPadding flexRowDirection parentWidth)
    RNYGEdge.Start
  let node := node.setLayoutPadding (node.getTrailingPadding flexRowDirection parentWidth)
    RNYGEdge.End
  let node := node.setLayoutPadding (node.getLeadingPadding flexColumnDirection parentWidth)
    RNYGEdge.Top
  node.setLayoutPadding (node.getTrailingPadding flexColumnDirection parentWidth)
    RNYGEdge.Bottom

/-- The two assertions that open `RNYGNodelayoutImpl` (RNYoga.cpp:2328): an undefined available
size requires the measure mode `Undefined`. -/
def RNYGNodelayoutImpl.assertions (availableWidth availableHeight : YGFloat)
    (widthMeasureMode heightMeasureMode : RNYGMeasureMode) : Bool :=
  (if RNYGFloatIsUndefined availableWidth then
      decide (widthMeasureMode = RNYGMeasureMode.Undefined) else true) &&
  (if RNYGFloatIsUndefined availableHeight then
      decide (heightMeasureMode = RNYGMeasureMode.Undefined) else true)

/-- STEP 9 of `RNYGNodelayoutImpl` (RNYoga.cpp:2963): computing the final dimensions of the
node. -/
def RNYGNodelayoutImpl.finalDimensions (l : RNYGNodelayoutImpl.Locals) (node : RNYGNode C)
    (availableWidth availableHeight parentHeight marginAxisRow marginAxisColumn
      paddingAndBorderAxisMain availableInnerMainDim maxLineMainDim totalLineCrossDim : YGFloat) :
    RNYGNode C :=
  let node := node.setLayoutMeasuredDimension
    (RNYGNodeBoundAxis node RNYGFlexDirection.Row (fsub availableWidth marginAxisRow)
      l.parentWidth l.parentWidth) RNYGDimension.Width
  let node := node.setLayoutMeasuredDimension
    (RNYGNodeBoundAxis node RNYGFlexDirection.Column (fsub availableHeight marginAxisColumn)
      parentHeight l.parentWidth) RNYGDimension.Height
  -- If the user didn't specify a width or height for the node, set the dimensions based on
  -- the children.
  let node :=
    if l.measureModeMainDim = RNYGMeasureMode.Undefined ||
        (node.style.overflow ≠ RNYGOverflow.Scroll &&
          l.measureModeMainDim = RNYGMeasureMode.AtMost) then
      -- Clamp the size to the min/max size, if specified, and make sure it doesn't go below
      -- the padding and border amount.
      node.setLayoutMeasuredDimension
        (RNYGNodeBoundAxis node l.mainAxis maxLineMainDim l.mainAxisParentSize l.parentWidth)
        (dim l.mainAxis)
    else if l.measureModeMainDim = RNYGMeasureMode.AtMost &&
        node.style.overflow = RNYGOverflow.Scroll then
      node.setLayoutMeasuredDimension
        (fmaxf
          (fminf (fadd availableInnerMainDim paddingAndBorderAxisMain)
            (RNYGNodeBoundAxisWithinMinAndMax node l.mainAxis maxLineMainDim
              l.mainAxisParentSize))
          paddingAndBorderAxisMain)
        (dim l.mainAxis)
    else node
  if l.measureModeCrossDim = RNYGMeasureMode.Undefined ||
      (node.style.overflow ≠ RNYGOverflow.Scroll &&
        l.measureModeCrossDim = RNYGMeasureMode.AtMost) then
    -- Clamp the size to the min/max size, if specified, and make sure it doesn't go below
    -- the padding and border amount.
    node.setLayoutMeasuredDimension
      (RNYGNodeBoundAxis node l.crossAxis (fadd totalLineCrossDim l.paddingAndBorderAxisCross)
        l.crossAxisParentSize l.parentWidth)
      (dim l.crossAxis)
  else if l.measureModeCrossDim = RNYGMeasureMode.AtMost &&
      node.style.overflow = RNYGOverflow.Scroll then
    node.setLayoutMeasuredDimension
      (fmaxf
        (fminf (fadd l.availableInnerCrossDim l.paddingAndBorderAxisCross)
          (RNYGNodeBoundAxisWithinMinAndMax node l.crossAxis
            (fadd totalLineCrossDim l.paddingAndBorderAxisCross) l.crossAxisParentSize))
        l.paddingAndBorderAxisCross)
      (dim l.crossAxis)
  else node

/-- STEP 10 and STEP 11 of `RNYGNodelayoutImpl` (RNYoga.cpp:3054), run when `performLayout` is
true: sizing and positioning the absolute children and setting the trailing positions. -/
def RNYGNodelayoutImpl.absoluteAndTrailing {D : Type} (layoutChild : RNYGLayoutFn D)
    (l : RNYGNodelayoutImpl.Locals) (node : RNYGNode C) (children : List (RNYGNode D)) : Option (List (RNYGNode D)) :=
  if l.performLayout then
    -- STEP 10: SIZING AND POSITIONING ABSOLUTE CHILDREN
    (children.mapM (fun child =>
      if child.style.positionType ≠ RNYGPositionType.Absolute then some child
      else RNYGNodeAbsoluteLayoutChild layoutChild node child l.availableInnerWidth
        (if l.isMainAxisRow then l.measureModeMainDim else l.measureModeCrossDim)
        l.availableInnerHeight l.direction l.config)).map (fun children =>
      -- STEP 11: SETTING TRAILING POSITIONS FOR CHILDREN
      let needsMainTrailingPos :=
        l.mainAxis = RNYGFlexDirection.RowReverse || l.mainAxis = RNYGFlexDirection.ColumnReverse
      let needsCrossTrailingPos :=
        l.crossAxis = RNYGFlexDirection.RowReverse ||
          l.crossAxis = RNYGFlexDirection.ColumnReverse
      -- Set trailing position if necessary.
      if needsMainTrailingPos || needsCrossTrailingPos then
        children.map (fun child =>
          if child.style.display = RNYGDisplay.None then child
          else
            let child :=
              if needsMainTrailingPos then
                RNYGNodeSetChildTrailingPosition node child l.mainAxis
              else child
            if needsCrossTrailingPos then
              RNYGNodeSetChildTrailingPosition node child l.crossAxis
            else child)
      else children)
  else some children

/-- STEP 1 to STEP 11 of `RNYGNodelayoutImpl` (RNYoga.cpp:2406), for a node that has children
and no measure callback. -/
def RNYGNodelayoutImpl.container {D : Type} (gen : Nat) (layoutChild : RNYGLayoutFn D)
    (zeroOutChild : RNYGNode D → RNYGNode D) (baselineOfChild : RNYGNode D → Option YGFloat)
    (node : RNYGNode (RNYGNode D)) (availableWidth availableHeight : YGFloat)
    (parentDirection : RNYGDirection) (widthMeasureMode heightMeasureMode : RNYGMeasureMode)
    (parentWidth parentHeight : YGFloat) (performLayout : Bool) (config : RNYGConfig) :
    Option (RNYGNode (RNYGNode D)) := do
  let direction := node.resolveDirection parentDirection
  -- At this point we know we're going to perform work. Ensure that each child has a mutable
  -- copy.
  let node := node.cloneChildrenIfNeeded
  -- Reset layout flags, as they could have changed.
  let node := node.setLayoutHadOverflow false
  -- STEP 1: CALCULATE VALUES FOR REMAINDER OF ALGORITHM
  let mainAxis := RNYGResolveFlexDirection node.style.flexDirection direction
  let crossAxis := RNYGFlexDirectionCross mainAxis direction
  let isMainAxisRow := RNYGFlexDirectionIsRow mainAxis
  let isNodeFlexWrap := decide (node.style.flexWrap ≠ RNYGWrap.NoWrap)
  let mainAxisParentSize := if isMainAxisRow then parentWidth else parentHeight
  let crossAxisParentSize := if isMainAxisRow then parentHeight else parentWidth
  let leadingPaddingAndBorderCross := node.getLeadingPaddingAndBorder crossAxis parentWidth
  let paddingAndBorderAxisMain := RNYGNodePaddingAndBorderForAxis node mainAxis parentWidth
  let paddingAndBorderAxisCross := RNYGNodePaddingAndBorderForAxis node crossAxis parentWidth
  let measureModeMainDim := if isMainAxisRow then widthMeasureMode else heightMeasureMode
  let measureModeCrossDim := if isMainAxisRow then heightMeasureMode else widthMeasureMode
  let paddingAndBorderAxisRow :=
    if isMainAxisRow then paddingAndBorderAxisMain else paddingAndBorderAxisCross
  let paddingAndBorderAxisColumn :=
    if isMainAxisRow then paddingAndBorderAxisCross else paddingAndBorderAxisMain
  let marginAxisRow := node.getMarginForAxis RNYGFlexDirection.Row parentWidth
  let marginAxisColumn := node.getMarginForAxis RNYGFlexDirection.Column parentWidth
  let minInnerWidth :=
    fsub (RNYGResolveValue (node.style.minDimensions RNYGDimension.Width) parentWidth)
      paddingAndBorderAxisRow
  let maxInnerWidth :=
    fsub (RNYGResolveValue (node.style.maxDimensions RNYGDimension.Width) parentWidth)
      paddingAndBorderAxisRow
  let minInnerHeight :=
    fsub (RNYGResolveValue (node.style.minDimensions RNYGDimension.Height) parentHeight)
      paddingAndBorderAxisColumn
  let maxInnerHeight :=
    fsub (RNYGResolveValue (node.style.maxDimensions RNYGDimension.Height) parentHeight)
      paddingAndBorderAxisColumn
  let minInnerMainDim := if isMainAxisRow then minInnerWidth else minInnerHeight
  let maxInnerMainDim := if isMainAxisRow then maxInnerWidth else maxInnerHeight
  -- STEP 2: DETERMINE AVAILABLE SIZE IN MAIN AND CROSS DIRECTIONS
  let availableInnerWidth :=
    RNYGNodeCalculateAvailableInnerDim node RNYGFlexDirection.Row availableWidth parentWidth
  let availableInnerHeight :=
    RNYGNodeCalculateAvailableInnerDim node RNYGFlexDirection.Column availableHeight parentHeight
  let availableInnerMainDim := if isMainAxisRow then availableInnerWidth else availableInnerHeight
  let availableInnerCrossDim :=
    if isMainAxisRow then availableInnerHeight else availableInnerWidth
  -- STEP 3: DETERMINE FLEX BASIS FOR EACH ITEM
  let (children, totalOuterFlexBasis) ← RNYGNodeComputeFlexBasisForChildren gen layoutChild
    zeroOutChild node node.children availableInnerWidth availableInnerHeight widthMeasureMode
    heightMeasureMode direction mainAxis config performLayout (some 0)
  let flexBasisOverflows :=
    if measureModeMainDim = RNYGMeasureMode.Undefined then false
    else fgt totalOuterFlexBasis availableInnerMainDim
  let measureModeMainDim :=
    if isNodeFlexWrap && flexBasisOverflows && measureModeMainDim = RNYGMeasureMode.AtMost then
      RNYGMeasureMode.Exactly
    else measureModeMainDim
  let l : RNYGNodelayoutImpl.Locals :=
    { parentDirection := parentDirection
      parentWidth := parentWidth
      performLayout := performLayout
      config := config
      direction := direction
      mainAxis := mainAxis
      crossAxis := crossAxis
      isMainAxisRow := isMainAxisRow
      isNodeFlexWrap := isNodeFlexWrap
      mainAxisParentSize := mainAxisParentSize
      crossAxisParentSize := crossAxisParentSize
      leadingPaddingAndBorderCross := leadingPaddingAndBorderCross
      paddingAndBorderAxisCross := paddingAndBorderAxisCross
      measureModeMainDim := measureModeMainDim
      measureModeCrossDim := measureModeCrossDim
      minInnerMainDim := minInnerMainDim
      maxInnerMainDim := maxInnerMainDim
      availableInnerWidth := availableInnerWidth
      availableInnerHeight := availableInnerHeight
      availableInnerCrossDim := availableInnerCrossDim
      flexBasisOverflows := flexBasisOverflows }
  -- STEP 4: COLLECT FLEX ITEMS INTO FLEX LINES
  let childCount := children.length
  let s ← RNYGNodelayoutImpl.lineLoop layoutChild l childCount childCount
    { node := node
      children := children
      availableInnerMainDim := availableInnerMainDim
      startOfLineIndex := 0
      endOfLineIndex := 0
      lineCount := 0
      totalLineCrossDim := some 0
      maxLineMainDim := some 0 }
  let node := s.node
  let children := s.children
  let availableInnerMainDim := s.availableInnerMainDim
  let lineCount := s.lineCount
  let totalLineCrossDim := s.totalLineCrossDim
  let maxLineMainDim := s.maxLineMainDim
  -- STEP 8: MULTI-LINE CONTENT ALIGNMENT
  let children ← RNYGNodelayoutImpl.alignContent layoutChild baselineOfChild l node children
    lineCount totalLineCrossDim
  -- STEP 9: COMPUTING FINAL DIMENSIONS
  let node := RNYGNodelayoutImpl.finalDimensions l node availableWidth
    availableHeight parentHeight marginAxisRow marginAxisColumn paddingAndBorderAxisMain
    availableInnerMainDim maxLineMainDim totalLineCrossDim
  -- As we only wrapped in normal direction yet, we need to reverse the positions on
  -- wrap-reverse.
  let children :=
    if performLayout && node.style.flexWrap = RNYGWrap.WrapReverse then
      children.map (fun child =>
        if child.style.positionType = RNYGPositionType.Relative then
          child.setLayoutPosition
            (fsub
              (fsub (node.layout.measuredDimensions (dim crossAxis))
                (child.layout.position (pos crossAxis)))
              (child.layout.measuredDimensions (dim crossAxis)))
            (pos crossAxis)
        else child)
    else children
  (RNYGNodelayoutImpl.absoluteAndTrailing layoutChild l node children).map
    (fun children => { node with children := children })

/-- `RNYGNodelayoutImpl` (RNYoga.cpp:2318) for a node whose children are nodes. -/
def RNYGNodelayoutImpl {D : Type} (gen : Nat) (layoutChild : RNYGLayoutFn D)
    (zeroOutChild : RNYGNode D → RNYGNode D) (baselineOfChild : RNYGNode D → Option YGFloat)
    (node : RNYGNode (RNYGNode D)) (availableWidth availableHeight : YGFloat)
    (parentDirection : RNYGDirection) (widthMeasureMode heightMeasureMode : RNYGMeasureMode)
    (parentWidth parentHeight : YGFloat) (performLayout : Bool) (config : RNYGConfig) :
    Option (RNYGNode (RNYGNode D)) :=
  if !RNYGNodelayoutImpl.assertions availableWidth availableHeight widthMeasureMode
      heightMeasureMode then none
  else
    let node := RNYGNodelayoutImpl.setup node parentDirection parentWidth
    if node.measure.isSome then
      RNYGNodeWithMeasureFuncSetMeasuredDimensions node availableWidth availableHeight
        widthMeasureMode heightMeasureMode parentWidth parentHeight
    else
      let childCount := node.children.length
      if childCount = 0 then
        some (RNYGNodeEmptyContainerSetMeasuredDimensions node availableWidth availableHeight
          widthMeasureMode heightMeasureMode parentWidth parentHeight)
      -- If we're not being asked to perform a full layout we can skip the algorithm if we
      -- already know the size
      else if !performLayout &&
          (RNYGNodeFixedSizeSetMeasuredDimensions node availableWidth availableHeight
            widthMeasureMode heightMeasureMode parentWidth parentHeight).2 then
        some (RNYGNodeFixedSizeSetMeasuredDimensions node availableWidth availableHeight
          widthMeasureMode heightMeasureMode parentWidth parentHeight).1
      else
        RNYGNodelayoutImpl.container gen layoutChild zeroOutChild baselineOfChild node
          availableWidth availableHeight parentDirection widthMeasureMode heightMeasureMode
          parentWidth parentHeight performLayout config

/-- `RNYGNodelayoutImpl` (RNYoga.cpp:2318) for a node of level 0, whose child count is 0: the
code after the `childCount == 0` return is not reached. -/
def RNYGNodelayoutImpl.leaf (node : RNYGNode PEmpty) (availableWidth availableHeight : YGFloat)
    (parentDirection : RNYGDirection) (widthMeasureMode heightMeasureMode : RNYGMeasureMode)
    (parentWidth parentHeight : YGFloat) : Option (RNYGNode PEmpty) :=
  if !RNYGNodelayoutImpl.assertions availableWidth availableHeight widthMeasureMode
      heightMeasureMode then none
  else
    let node := RNYGNodelayoutImpl.setup node parentDirection parentWidth
    if node.measure.isSome then
      RNYGNodeWithMeasureFuncSetMeasuredDimensions node availableWidth availableHeight
        widthMeasureMode heightMeasureMode parentWidth parentHeight
    else
      some (RNYGNodeEmptyContainerSetMeasuredDimensions node availableWidth availableHeight
        widthMeasureMode heightMeasureMode parentWidth parentHeight)

/-! ## `RNYGLayoutNodeInternal` (RNYoga.cpp:3243) -/

/-- The invalidation of the cached results (RNYoga.cpp:3262). -/
def RNYGLayoutNodeInternal.invalidate (layout : RNYGLayout) : RNYGLayout :=
  { layout with
    nextCachedMeasurementsIndex := 0
    cachedLayout := { layout.cachedLayout with
      widthMeasureMode := none
      heightMeasureMode := none
      computedWidth := some (-1)
      computedHeight := some (-1) } }

/-- The cache lookup of `RNYGLayoutNodeInternal` (RNYoga.cpp:3271): the entry `cachedResults`
points to, or `none` for the null pointer. -/
def RNYGLayoutNodeInternal.lookup (node : RNYGNode C) (layout : RNYGLayout)
    (availableWidth availableHeight : YGFloat)
    (widthMeasureMode heightMeasureMode : RNYGMeasureMode) (parentWidth : YGFloat)
    (performLayout : Bool) (config : RNYGConfig) : Option RNYGCachedMeasurement :=
  if node.measure.isSome then
    let marginAxisRow := node.getMarginForAxis RNYGFlexDirection.Row parentWidth
    let marginAxisColumn := node.getMarginForAxis RNYGFlexDirection.Column parentWidth
    -- First, try to use the layout cache.
    if RNYGNodeCanUseCachedMeasurement widthMeasureMode availableWidth heightMeasureMode
        availableHeight layout.cachedLayout.widthMeasureMode layout.cachedLayout.availableWidth
        layout.cachedLayout.heightMeasureMode layout.cachedLayout.availableHeight
        layout.cachedLayout.computedWidth layout.cachedLayout.computedHeight marginAxisRow
        marginAxisColumn (some config) then
      some layout.cachedLayout
    else
      -- Try to use the measurement cache.
      ((List.range layout.nextCachedMeasurementsIndex).find? (fun i =>
        RNYGNodeCanUseCachedMeasurement widthMeasureMode availableWidth heightMeasureMode
          availableHeight (layout.cachedMeasurements i).widthMeasureMode
          (layout.cachedMeasurements i).availableWidth
          (layout.cachedMeasurements i).heightMeasureMode
          (layout.cachedMeasurements i).availableHeight
          (layout.cachedMeasurements i).computedWidth
          (layout.cachedMeasurements i).computedHeight marginAxisRow marginAxisColumn
          (some config))).map layout.cachedMeasurements
  else if performLayout then
    if RNYGFloatsEqual layout.cachedLayout.availableWidth availableWidth &&
        RNYGFloatsEqual layout.cachedLayout.availableHeight availableHeight &&
        layout.cachedLayout.widthMeasureMode = some widthMeasureMode &&
        layout.cachedLayout.heightMeasureMode = some heightMeasureMode then
      some layout.cachedLayout
    else none
  else
    ((List.range layout.nextCachedMeasurementsIndex).find? (fun i =>
      RNYGFloatsEqual (layout.cachedMeasurements i).availableWidth availableWidth &&
        RNYGFloatsEqual (layout.cachedMeasurements i).availableHeight availableHeight &&
        (layout.cachedMeasurements i).widthMeasureMode = some widthMeasureMode &&
        (layout.cachedMeasurements i).heightMeasureMode = some heightMeasureMode)).map
      layout.cachedMeasurements

/-- The storing of a new cache entry (RNYoga.cpp:3425), run when `cachedResults` is null. -/
def RNYGLayoutNodeInternal.store (layout : RNYGLayout)
    (availableWidth availableHeight : YGFloat)
    (widthMeasureMode heightMeasureMode : RNYGMeasureMode) (performLayout : Bool) : RNYGLayout :=
  let layout :=
    if layout.nextCachedMeasurementsIndex = RNYG_MAX_CACHED_RESULT_COUNT then
      { layout with nextCachedMeasurementsIndex := 0 }
    else layout
  let newCacheEntry : RNYGCachedMeasurement :=
    { availableWidth := availableWidth
      availableHeight := availableHeight
      widthMeasureMode := some widthMeasureMode
      heightMeasureMode := some heightMeasureMode
      computedWidth := layout.measuredDimensions RNYGDimension.Width
      computedHeight := layout.measuredDimensions RNYGDimension.Height }
  if performLayout then
    -- Use the single layout cache entry.
    { layout with cachedLayout := newCacheEntry }
  else
    -- Allocate a new measurement cache entry.
    { layout with
      cachedMeasurements :=
        Function.update layout.cachedMeasurements layout.nextCachedMeasurementsIndex newCacheEntry
      nextCachedMeasurementsIndex := layout.nextCachedMeasurementsIndex + 1 }

/-- The branch of `RNYGLayoutNodeInternal` taken when the node need not be visited and a cache
entry serves the request (RNYoga.cpp:3346): the measured dimensions are read from the entry. -/
def RNYGLayoutNodeInternal.hit (node : RNYGNode C) (cached : RNYGCachedMeasurement) :
    RNYGNode C :=
  let node := node.setLayoutMeasuredDimension cached.computedWidth RNYGDimension.Width
  node.setLayoutMeasuredDimension cached.computedHeight RNYGDimension.Height

/-- The statements of `RNYGLayoutNodeInternal` that follow the call of `RNYGNodelayoutImpl`
(RNYoga.cpp:3423): the parent direction is recorded and, when `cachedResults` is null, the
request and its result are stored. -/
def RNYGLayoutNodeInternal.miss (node : RNYGNode C) (cachedResults : Option RNYGCachedMeasurement)
    (availableWidth availableHeight : YGFloat) (parentDirection : RNYGDirection)
    (widthMeasureMode heightMeasureMode : RNYGMeasureMode) (performLayout : Bool) : RNYGNode C :=
  let node := { node with
    layout := { node.layout with lastParentDirection := some parentDirection } }
  if cachedResults.isNone then
    { node with
      layout := RNYGLayoutNodeInternal.store node.layout availableWidth availableHeight
        widthMeasureMode heightMeasureMode performLayout }
  else node

/-- The end of `RNYGLayoutNodeInternal` (RNYoga.cpp:3452). -/
def RNYGLayoutNodeInternal.epilogue (gen : Nat) (node : RNYGNode C) (performLayout : Bool) :
    RNYGNode C :=
  let node :=
    if performLayout then
      let node := node.setLayoutDimension (node.layout.measuredDimensions RNYGDimension.Width)
        RNYGDimension.Width
      let node := node.setLayoutDimension (node.layout.measuredDimensions RNYGDimension.Height)
        RNYGDimension.Height
      let node := node.setHasNewLayout true
      node.setDirty false
    else node
  { node with layout := { node.layout with generationCount := gen } }

/-- `RNYGLayoutNodeInternal` (RNYoga.cpp:3243), the cache-aware wrapper, given the function
`impl` that stands for the call of `RNYGNodelayoutImpl` on this node.  Returns the node and the
returned flag; `none` when `impl` aborts. -/
def RNYGLayoutNodeInternal.core (gen : Nat)
    (impl : RNYGNode C → YGFloat → YGFloat → RNYGDirection → RNYGMeasureMode →
      RNYGMeasureMode → YGFloat → YGFloat → Bool → RNYGConfig → Option (RNYGNode C))
    (node : RNYGNode C) (availableWidth availableHeight : YGFloat)
    (parentDirection : RNYGDirection) (widthMeasureMode heightMeasureMode : RNYGMeasureMode)
    (parentWidth parentHeight : YGFloat) (performLayout : Bool) (config : RNYGConfig) :
    Option (RNYGNode C × Bool) :=
  let needToVisitNode :=
    (node.isDirty && decide (node.layout.generationCount ≠ gen)) ||
      decide (node.layout.lastParentDirection ≠ some parentDirection)
  let node :=
    if needToVisitNode then
      -- Invalidate the cached results.
      { node with layout := RNYGLayoutNodeInternal.invalidate node.layout }
    else node
  -- Determine whether the results are already cached.
  let cachedResults := RNYGLayoutNodeInternal.lookup node node.layout availableWidth
    availableHeight widthMeasureMode heightMeasureMode parentWidth performLayout config
  let computed : Option (RNYGNode C) :=
    match needToVisitNode, cachedResults with
    | false, some cached => some (RNYGLayoutNodeInternal.hit node cached)
    | _, _ =>
      (impl node availableWidth availableHeight parentDirection widthMeasureMode
        heightMeasureMode parentWidth parentHeight performLayout config).map (fun node =>
          RNYGLayoutNodeInternal.miss node cachedResults availableWidth availableHeight
            parentDirection widthMeasureMode heightMeasureMode performLayout)
  computed.map (fun node =>
    (RNYGLayoutNodeInternal.epilogue gen node performLayout,
      needToVisitNode || cachedResults.isNone))

/-- `RNYGLayoutNodeInternal` (RNYoga.cpp:3243) on a tree of level `n`. -/
def RNYGLayoutNodeInternal (gen : Nat) : (n : Nat) → RNYGLayoutFn (RNYGKids n)
  | 0 =>
    RNYGLayoutNodeInternal.core gen
      (fun node availableWidth availableHeight parentDirection widthMeasureMode
          heightMeasureMode parentWidth parentHeight _ _ =>
        RNYGNodelayoutImpl.leaf node availableWidth availableHeight parentDirection
          widthMeasureMode heightMeasureMode parentWidth parentHeight)
  | n + 1 =>
    RNYGLayoutNodeInternal.core gen
      (RNYGNodelayoutImpl gen (RNYGLayoutNodeInternal gen n) (RNYGZeroOutLayoutRecursivly n)
        (RNYGBaseline n))

/-! ## Pixel-grid rounding of a tree (RNYoga.cpp:3481) -/

/-- The part of `RNYGRoundToPixelGrid` (RNYoga.cpp:3489) that rounds the node itself, for a
scale factor that is not `0`. -/
def RNYGRoundToPixelGrid.node (node : RNYGNode C)
    (pointScaleFactor absoluteLeft absoluteTop : YGFloat) : RNYGNode C :=
  let nodeLeft := node.layout.position RNYGEdge.Left
  let nodeTop := node.layout.position RNYGEdge.Top
  let nodeWidth := node.layout.dimensions RNYGDimension.Width
  let nodeHeight := node.layout.dimensions RNYGDimension.Height
  let absoluteNodeLeft := fadd absoluteLeft nodeLeft
  let absoluteNodeTop := fadd absoluteTop nodeTop
  let absoluteNodeRight := fadd absoluteNodeLeft nodeWidth
  let absoluteNodeBottom := fadd absoluteNodeTop nodeHeight
  -- If a node has a custom measure function we never want to round down its size as this
  -- could lead to unwanted text truncation.
  let textRounding := decide (node.nodeType = RNYGNodeType.Text)
  let node := node.setLayoutPosition
    (RNYGRoundValueToPixelGrid nodeLeft pointScaleFactor false textRounding) RNYGEdge.Left
  let node := node.setLayoutPosition
    (RNYGRoundValueToPixelGrid nodeTop pointScaleFactor false textRounding) RNYGEdge.Top
  -- We multiply dimension by scale factor and if the result is close to the whole number, we
  -- don't have any fraction. To verify if the result is close to whole number we want to
  -- check both floor and ceil numbers
  let hasFractionalWidth :=
    !RNYGFloatsEqual (fmodf1 (fmul nodeWidth pointScaleFactor)) (some 0) &&
      !RNYGFloatsEqual (fmodf1 (fmul nodeWidth pointScaleFactor)) (some 1)
  let hasFractionalHeight :=
    !RNYGFloatsEqual (fmodf1 (fmul nodeHeight pointScaleFactor)) (some 0) &&
      !RNYGFloatsEqual (fmodf1 (fmul nodeHeight pointScaleFactor)) (some 1)
  let node := node.setLayoutDimension
    (fsub
      (RNYGRoundValueToPixelGrid absoluteNodeRight pointScaleFactor
        (textRounding && hasFractionalWidth) (textRounding && !hasFractionalWidth))
      (RNYGRoundValueToPixelGrid absoluteNodeLeft pointScaleFactor false textRounding))
    RNYGDimension.Width
  node.setLayoutDimension
    (fsub
      (RNYGRoundValueToPixelGrid absoluteNodeBottom pointScaleFactor
        (textRounding && hasFractionalHeight) (textRounding && !hasFractionalHeight))
      (RNYGRoundValueToPixelGrid absoluteNodeTop pointScaleFactor false textRounding))
    RNYGDimension.Height

/-- `RNYGRoundToPixelGrid` (RNYoga.cpp:3481) for a node whose children are nodes. -/
def RNYGRoundToPixelGrid.step {D : Type}
    (roundChild : RNYGNode D → YGFloat → YGFloat → YGFloat → RNYGNode D)
    (node : RNYGNode (RNYGNode D)) (pointScaleFactor absoluteLeft absoluteTop : YGFloat) :
    RNYGNode (RNYGNode D) :=
  if feq pointScaleFactor (some 0) then node
  else
    let absoluteNodeLeft := fadd absoluteLeft (node.layout.position RNYGEdge.Left)
    let absoluteNodeTop := fadd absoluteTop (node.layout.position RNYGEdge.Top)
    let node := RNYGRoundToPixelGrid.node node pointScaleFactor absoluteLeft absoluteTop
    { node with children := node.children.map (fun child =>
        roundChild child pointScaleFactor absoluteNodeLeft absoluteNodeTop) }

/-- `RNYGRoundToPixelGrid` (RNYoga.cpp:3481) for a node without children. -/
def RNYGRoundToPixelGrid.leaf (node : RNYGNode PEmpty)
    (pointScaleFactor absoluteLeft absoluteTop : YGFloat) : RNYGNode PEmpty :=
  if feq pointScaleFactor (some 0) then node
  else RNYGRoundToPixelGrid.node node pointScaleFactor absoluteLeft absoluteTop

/-- `RNYGRoundToPixelGrid` (RNYoga.cpp:3481). -/
def RNYGRoundToPixelGrid : (n : Nat) → RNYGTree n → YGFloat → YGFloat → YGFloat → RNYGTree n
  | 0 => RNYGRoundToPixelGrid.leaf
  | n + 1 => RNYGRoundToPixelGrid.step (RNYGRoundToPixelGrid n)

/-! ## `RNYGNodeCalculateLayout` (RNYoga.cpp:3547) -/

/-- `RNYGNode::didUseLegacyFlag` (RNYGNode.cpp:691) for a node whose children are nodes. -/
def RNYGNode.didUseLegacyFlag {D : Type} (node : RNYGNode (RNYGNode D)) : Bool :=
  node.layout.didUseLegacyFlag || node.children.any (fun child => child.layout.didUseLegacyFlag)

/-- `RNYGNode::didUseLegacyFlag` (RNYGNode.cpp:691) on a tree. -/
def RNYGTree.didUseLegacyFlag : (n : Nat) → RNYGTree n → Bool
  | 0 => fun node => node.layout.didUseLegacyFlag
  | _ + 1 => fun node => RNYGNode.didUseLegacyFlag node

/-- `RNYGNodeDeepClone` (RNYoga.cpp:263) on a tree value: the copy has a null parent, its
children are deep copies whose parent is the copy; each copy has its own copy of the
configuration. -/
def RNYGNodeDeepClone : (n : Nat) → RNYGTree n → RNYGTree n
  | 0 => fun oldNode => { oldNode with parent := RNYGParentRef.null }
  | n + 1 => fun oldNode =>
    { oldNode with
      parent := RNYGParentRef.null
      children := oldNode.children.map (fun item =>
        let childNode : RNYGNode (RNYGKids n) := RNYGNodeDeepClone n item
        { childNode with parent := RNYGParentRef.owner }) }

/-- `RNYGNode::markDirtyAndPropogateDownwards` (RNYGNode.cpp:583). -/
def RNYGTree.markDirtyAndPropogateDownwards : (n : Nat) → RNYGTree n → RNYGTree n
  | 0 => fun node => { node with isDirty := true }
  | n + 1 => fun node =>
    { node with
      isDirty := true
      children := node.children.map (RNYGTree.markDirtyAndPropogateDownwards n) }

/-- `RNYGNode::setAndPropogateUseLegacyFlag` (RNYGNode.cpp:705) on a deep copy, where every
node has its own configuration: the flag is set on the node and on its direct children. -/
def RNYGTree.setAndPropogateUseLegacyFlag : (n : Nat) → RNYGTree n → Bool → RNYGTree n
  | 0 => fun node useLegacyFlag =>
    { node with config := { node.config with useLegacyStretchBehaviour := useLegacyFlag } }
  | _ + 1 => fun node useLegacyFlag =>
    { node with
      config := { node.config with useLegacyStretchBehaviour := useLegacyFlag }
      children := node.children.map (fun childNode =>
        { childNode with
          config := { childNode.config with useLegacyStretchBehaviour := useLegacyFlag } }) }

/-- `RNYGNode::isLayoutTreeEqualToNode` (RNYGNode.cpp:721).  The comparison
`RNYGLayout::operator==` is defined in RNYGLayout.cpp, which is not part of the sources, and is
the argument `layoutEq`. -/
def RNYGTree.isLayoutTreeEqualToNode (layoutEq : RNYGLayout → RNYGLayout → Bool) :
    (n : Nat) → RNYGTree n → RNYGTree n → Bool
  | 0 => fun self node => layoutEq self.layout node.layout
  | n + 1 => fun self node =>
    if self.children.length ≠ node.children.length then false
    else if !layoutEq self.layout node.layout then false
    else if self.children.length = 0 then true
    else (self.children.zip node.children).all (fun p =>
      RNYGTree.isLayoutTreeEqualToNode layoutEq n p.1 p.2)

/-- The width and its measure mode that `RNYGNodeCalculateLayout` resolves for the root
(RNYoga.cpp:3558), for a node whose dimensions have been resolved. -/
def RNYGNodeCalculateLayout.rootWidth (node : RNYGNode C) (parentWidth : YGFloat) :
    YGFloat × RNYGMeasureMode :=
  if RNYGNodeIsStyleDimDefined node RNYGFlexDirection.Row parentWidth then
    (fadd (RNYGResolveValue (node.resolvedDimensions (dim RNYGFlexDirection.Row)) parentWidth)
      (node.getMarginForAxis RNYGFlexDirection.Row parentWidth), RNYGMeasureMode.Exactly)
  else if fge (RNYGResolveValue (node.style.maxDimensions RNYGDimension.Width) parentWidth)
      (some 0) then
    (RNYGResolveValue (node.style.maxDimensions RNYGDimension.Width) parentWidth,
      RNYGMeasureMode.AtMost)
  else
    (parentWidth,
      if RNYGFloatIsUndefined parentWidth then RNYGMeasureMode.Undefined
      else RNYGMeasureMode.Exactly)

/-- The height and its measure mode that `RNYGNodeCalculateLayout` resolves for the root
(RNYoga.cpp:3578). -/
def RNYGNodeCalculateLayout.rootHeight (node : RNYGNode C) (parentWidth parentHeight : YGFloat) :
    YGFloat × RNYGMeasureMode :=
  if RNYGNodeIsStyleDimDefined node RNYGFlexDirection.Column parentHeight then
    (fadd
      (RNYGResolveValue (node.resolvedDimensions (dim RNYGFlexDirection.Column)) parentHeight)
      (node.getMarginForAxis RNYGFlexDirection.Column parentWidth), RNYGMeasureMode.Exactly)
  else if fge (RNYGResolveValue (node.style.maxDimensions RNYGDimension.Height) parentHeight)
      (some 0) then
    (RNYGResolveValue (node.style.maxDimensions RNYGDimension.Height) parentHeight,
      RNYGMeasureMode.AtMost)
  else
    (parentHeight,
      if RNYGFloatIsUndefined parentHeight then RNYGMeasureMode.Undefined
      else RNYGMeasureMode.Exactly)

/-- The second part of `RNYGNodeCalculateLayout` (RNYoga.cpp:3630): the layout is run again on
a deep copy without the legacy stretch behaviour and the node records whether the two layouts
differ.  `gen` is `gCurrentGenerationCount` after its second increment; `width`, `height` and
the two modes are the ones resolved for the first run. -/
def RNYGNodeCalculateLayout.legacyDiff (layoutEq : RNYGLayout → RNYGLayout → Bool) (n : Nat)
    (gen : Nat) (node : RNYGTree n) (width height : YGFloat)
    (widthMeasureMode heightMeasureMode : RNYGMeasureMode) (parentWidth parentHeight : YGFloat)
    (parentDirection : RNYGDirection) : Option (RNYGTree n) := do
  let originalNode := RNYGNodeDeepClone n node
  let originalNode := originalNode.resolveDimension
  -- Recursively mark nodes as dirty
  let originalNode := RNYGTree.markDirtyAndPropogateDownwards n originalNode
  -- Rerun the layout, and calculate the diff
  let originalNode := RNYGTree.setAndPropogateUseLegacyFlag n originalNode false
  let (originalNode, didLayout) ← RNYGLayoutNodeInternal gen n originalNode width height
    parentDirection widthMeasureMode heightMeasureMode parentWidth parentHeight true
    originalNode.config
  if didLayout then
    let originalNode := originalNode.setPosition originalNode.layout.direction parentWidth
      parentHeight parentWidth
    let originalNode := RNYGRoundToPixelGrid n originalNode originalNode.config.pointScaleFactor
      (some 0) (some 0)
    -- Set whether the two layouts are different or not.
    pure (node.setLayoutDoesLegacyFlagAffectsLayout
      (!RNYGTree.isLayoutTreeEqualToNode layoutEq n originalNode node))
  else pure node

/-- The end of `RNYGNodeCalculateLayout` (RNYoga.cpp:3610 to 3676), run on what the recursive
driver returns: the root position, the pixel-grid rounding and the legacy-stretch diff.  `gen`
is `gCurrentGenerationCount` after its first increment. -/
def RNYGNodeCalculateLayout.finish (layoutEq : RNYGLayout → RNYGLayout → Bool) (n : Nat)
    (gen : Nat) (width height : YGFloat) (widthMeasureMode heightMeasureMode : RNYGMeasureMode)
    (parentWidth parentHeight : YGFloat) (parentDirection : RNYGDirection)
    (result : RNYGTree n × Bool) : Option (RNYGTree n × Nat) :=
  let node := result.1
  let node :=
    if result.2 then
      let node := node.setPosition node.layout.direction parentWidth parentHeight parentWidth
      RNYGRoundToPixelGrid n node node.config.pointScaleFactor (some 0) (some 0)
    else node
  if node.config.shouldDiffLayoutWithoutLegacyStretchBehaviour &&
      RNYGTree.didUseLegacyFlag n node then
    let gen := (gen + 1) % 2 ^ 32
    (RNYGNodeCalculateLayout.legacyDiff layoutEq n gen node width height widthMeasureMode
      heightMeasureMode parentWidth parentHeight parentDirection).map (fun node => (node, gen))
  else some (node, gen)

/-- `RNYGNodeCalculateLayout` (RNYoga.cpp:3547).  The argument `gCurrentGenerationCount` is the
value of the global counter (a `uint32_t`) before the call; the result is the tree and the
value of the counter after the call, or `none` when a fatal assertion aborts. -/
def RNYGNodeCalculateLayout (layoutEq : RNYGLayout → RNYGLayout → Bool) (n : Nat)
    (gCurrentGenerationCount : Nat) (node : RNYGTree n) (parentWidth parentHeight : YGFloat)
    (parentDirection : RNYGDirection) : Option (RNYGTree n × Nat) :=
  -- Increment the generation count. This will force the recursive routine to visit all dirty
  -- nodes at least once. Subsequent visits will be skipped if the input parameters don't
  -- change.
  let gen := (gCurrentGenerationCount + 1) % 2 ^ 32
  let node := node.resolveDimension
  let width := (RNYGNodeCalculateLayout.rootWidth node parentWidth).1
  let widthMeasureMode := (RNYGNodeCalculateLayout.rootWidth node parentWidth).2
  let height := (RNYGNodeCalculateLayout.rootHeight node parentWidth parentHeight).1
  let heightMeasureMode := (RNYGNodeCalculateLayout.rootHeight node parentWidth parentHeight).2
  (RNYGLayoutNodeInternal gen n node width height parentDirection widthMeasureMode
    heightMeasureMode parentWidth parentHeight true node.config).bind
    (RNYGNodeCalculateLayout.finish layoutEq n gen width height widthMeasureMode
      heightMeasureMode parentWidth parentHeight parentDirection)

/-! ## The tree-mutation API over a heap of nodes

The functions of this part work on `RNYGNodeRef` pointers.  A heap is a list of slots; the
pointer `r` is live when slot `r` holds a node.  An operation returns `none` when a fatal
assertion aborts or when it dereferences a pointer that is not live.  The callbacks are
recorded: `dirtiedLog` lists the nodes passed to a dirtied callback and `clonedLog` the
arguments `(oldChild, newChild, parent, index)` passed to the clone callback, oldest first. -/

/-- A node pointer. -/
abbrev RNYGNodeRef := Nat

/-- The class `RNYGNode` (RNYGNode.cpp:377) with its pointers: `parent` is `none` for null,
`hasDirtied` tells that `dirtied_` is set and `hasCloneNodeCallback` that the configuration
has a clone callback. -/
structure RNYGHeapNode where
  hasNewLayout : Bool
  nodeType : RNYGNodeType
  measure : Option RNYGMeasureFunc
  baseline : Option RNYGBaselineFunc
  hasDirtied : Bool
  style : RNYGStyle
  layout : RNYGLayout
  lineIndex : Nat
  parent : Option RNYGNodeRef
  children : List RNYGNodeRef
  config : RNYGConfig
  hasCloneNodeCallback : Bool
  isDirty : Bool
  resolvedDimensions : RNYGDimension → RNYGValue

structure RNYGHeap where
  nodes : List (Option RNYGHeapNode)
  dirtiedLog : List RNYGNodeRef
  clonedLog : List (RNYGNodeRef × RNYGNodeRef × RNYGNodeRef × Nat)

namespace RNYGHeap

/-- The node a pointer points to, if the pointer is live. -/
def get (h : RNYGHeap) (r : RNYGNodeRef) : Option RNYGHeapNode :=
  match h.nodes[r]? with
  | some (some node) => some node
  | _ => none

/-- A write through a pointer. -/
def set (h : RNYGHeap) (r : RNYGNodeRef) (node : RNYGHeapNode) : RNYGHeap :=
  { h with nodes := h.nodes.set r (some node) }

/-- The operator `new`: the node is stored in a fresh slot. -/
def alloc (h : RNYGHeap) (node : RNYGHeapNode) : RNYGHeap × RNYGNodeRef :=
  ({ h with nodes := h.nodes ++ [some node] }, h.nodes.length)

/-- `RNYGNode::setDirty` (RNYGNode.cpp:268). -/
def setDirty (h : RNYGHeap) (this : RNYGNodeRef) (isDirty : Bool) : RNYGHeap :=
  match h.get this with
  | none => h
  | some node =>
    if isDirty = node.isDirty then h
    else
      let h := h.set this { node with isDirty := isDirty }
      if isDirty && node.hasDirtied then { h with dirtiedLog := h.dirtiedLog ++ [this] } else h

/-- `RNYGNode::setLayoutComputedFlexBasis` (RNYGNode.cpp:312). -/
def setLayoutComputedFlexBasis (h : RNYGHeap) (this : RNYGNodeRef)
    (computedFlexBasis : YGFloat) : RNYGHeap :=
  match h.get this with
  | none => h
  | some node =>
    h.set this { node with layout := { node.layout with computedFlexBasis := computedFlexBasis } }

/-- `RNYGNode::markDirtyAndPropogate` (RNYGNode.cpp:573) with a bound on the recursion depth.
Every recursive call follows a call that turned a clean node dirty, so the depth never exceeds
the number of slots of the heap. -/
def markDirtyAndPropogateAux : Nat → RNYGHeap → RNYGNodeRef → RNYGHeap
  | 0, h, _ => h
  | fuel + 1, h, this =>
    match h.get this with
    | none => h
    | some node =>
      if !node.isDirty then
        let h := h.setDirty this true
        let h := h.setLayoutComputedFlexBasis this RNYGUndefined
        match node.parent with
        | some parent => markDirtyAndPropogateAux fuel h parent
        | none => h
      else h

/-- `RNYGNode::markDirtyAndPropogate` (RNYGNode.cpp:573). -/
def markDirtyAndPropogate (h : RNYGHeap) (this : RNYGNodeRef) : RNYGHeap :=
  markDirtyAndPropogateAux (h.nodes.length + 1) h this

/-- `RNYGNodeClone` (RNYoga.cpp:242): a copy of the node with a null parent. -/
def RNYGNodeClone (h : RNYGHeap) (oldNode : RNYGNodeRef) : Option (RNYGHeap × RNYGNodeRef) :=
  match h.get oldNode with
  | none => none
  | some node => some (h.alloc { node with parent := none })

/-- The loop of `RNYGNode::cloneChildrenIfNeeded` (RNYGNode.cpp:562) from index `i` on, over
the old children that remain. -/
def cloneChildrenLoop (this : RNYGNodeRef) (cloneNodeCallback : Bool) :
    List RNYGNodeRef → Nat → RNYGHeap → Option RNYGHeap
  | [], _, h => some h
  | oldChild :: rest, i, h => do
    let (h, newChild) ← h.RNYGNodeClone oldChild
    let node ← h.get this
    -- replaceChild(newChild, i)
    let h := h.set this { node with children := node.children.set i newChild }
    -- newChild->setParent(this)
    let newNode ← h.get newChild
    let h := h.set newChild { newNode with parent := some this }
    let h :=
      if cloneNodeCallback then
        { h with clonedLog := h.clonedLog ++ [(oldChild, newChild, this, i)] }
      else h
    cloneChildrenLoop this cloneNodeCallback rest (i + 1) h

/-- `RNYGNode::cloneChildrenIfNeeded` (RNYGNode.cpp:542). -/
def cloneChildrenIfNeeded (h : RNYGHeap) (this : RNYGNodeRef) : Option RNYGHeap := do
  let node ← h.get this
  match node.children with
  | [] =>
    -- This is an empty set. Nothing to clone.
    pure h
  | firstChildRef :: _ =>
    let firstChild ← h.get firstChildRef
    if firstChild.parent = some this then
      -- If the first child has this node as its parent, we assume that it is already unique.
      pure h
    else cloneChildrenLoop this node.hasCloneNodeCallback node.children 0 h

/-- `RNYGNodeInsertChild` (RNYoga.cpp:380).  The two assertions are fatal; an index beyond the
end of the child vector is outside the contract of `std::vector::insert`. -/
def RNYGNodeInsertChild (h : RNYGHeap) (node child : RNYGNodeRef) (index : Nat) :
    Option RNYGHeap := do
  let nodeData ← h.get node
  let childData ← h.get child
  if childData.parent.isSome then none
  else if nodeData.measure.isSome then none
  else
    let h ← h.cloneChildrenIfNeeded node
    let nodeData ← h.get node
    if index > nodeData.children.length then none
    else
      -- node->insertChild(child, index)
      let h := h.set node { nodeData with children := nodeData.children.insertIdx index child }
      -- child->setParent(node)
      let childData ← h.get child
      let h := h.set child { childData with parent := some node }
      pure (h.markDirtyAndPropogate node)

/-- The cloning loop of `RNYGNodeRemoveChild` (RNYoga.cpp:423) from index `i` on, over the old
children that remain; returns the heap and `nextInsertIndex`. -/
def removeChildCloneLoop (parent excludedChild : RNYGNodeRef) (cloneNodeCallback : Bool) :
    List RNYGNodeRef → Nat → RNYGHeap → Option (RNYGHeap × Nat)
  | [], nextInsertIndex, h => some (h, nextInsertIndex)
  | oldChild :: rest, nextInsertIndex, h =>
    if excludedChild = oldChild then
      -- Ignore the deleted child. Don't reset its layout or parent since it is still valid in
      -- the other parent. However, since this parent has now changed, we need to mark it as
      -- dirty.
      removeChildCloneLoop parent excludedChild cloneNodeCallback rest nextInsertIndex
        (h.markDirtyAndPropogate parent)
    else do
      let (h, newChild) ← h.RNYGNodeClone oldChild
      let parentData ← h.get parent
      let h := h.set parent
        { parentData with children := parentData.children.set nextInsertIndex newChild }
      let newNode ← h.get newChild
      let h := h.set newChild { newNode with parent := some parent }
      let h :=
        if cloneNodeCallback then
          { h with clonedLog := h.clonedLog ++ [(oldChild, newChild, parent, nextInsertIndex)] }
        else h
      removeChildCloneLoop parent excludedChild cloneNodeCallback rest (nextInsertIndex + 1) h

/-- The final loop of `RNYGNodeRemoveChild` (RNYoga.cpp:440):
`while (nextInsertIndex < childCount) { parent->removeChild(nextInsertIndex); nextInsertIndex++; }`
with `count = childCount - nextInsertIndex` iterations left. -/
def removeChildTrimLoop : Nat → Nat → List RNYGNodeRef → List RNYGNodeRef
  | 0, _, children => children
  | count + 1, nextInsertIndex, children =>
    removeChildTrimLoop count (nextInsertIndex + 1) (children.eraseIdx nextInsertIndex)

/-- `RNYGNodeRemoveChild` (RNYoga.cpp:396); the flag tells whether the child was found and
removed. -/
def RNYGNodeRemoveChild (h : RNYGHeap) (parent excludedChild : RNYGNodeRef) :
    Option (RNYGHeap × Bool) := do
  let parentData ← h.get parent
  match parentData.children with
  | [] =>
    -- This is an empty set. Nothing to remove.
    pure (h, false)
  | firstChildRef :: _ =>
    let firstChild ← h.get firstChildRef
    if firstChild.parent = some parent then
      -- If the first child has this node as its parent, we assume that it is already unique.
      -- We can now try to delete a child in this list.
      if excludedChild ∈ parentData.children then do
        -- parent->removeChild(excludedChild)
        let h := h.set parent
          { parentData with children := parentData.children.erase excludedChild }
        let excludedData ← h.get excludedChild
        -- layout is no longer valid
        let h := h.set excludedChild
          { excludedData with layout := RNYGLayout.default, parent := none }
        pure (h.markDirtyAndPropogate parent, true)
      else pure (h, false)
    else do
      -- Otherwise we have to clone the node list except for the child we're trying to delete.
      let childCount := parentData.children.length
      let found := decide (excludedChild ∈ parentData.children)
      let (h, nextInsertIndex) ← removeChildCloneLoop parent excludedChild
        parentData.hasCloneNodeCallback parentData.children 0 h
      let newParentData ← h.get parent
      let h := h.set parent { newParentData with
        children := removeChildTrimLoop (childCount - nextInsertIndex) nextInsertIndex
          newParentData.children }
      pure (h, found)

/-! ### Style setters (RNYoga.cpp:514 to 762)

Each setter macro is a function of the accessors of the style field it is instantiated with. -/

/-- The macro `RNYG_NODE_STYLE_PROPERTY_SETTER_IMPL` (RNYoga.cpp:514); `ne` is the operator
`!=` of the property type. -/
def RNYG_NODE_STYLE_PROPERTY_SETTER_IMPL {α : Type} (ne : α → α → Bool)
    (getField : RNYGStyle → α) (setField : RNYGStyle → α → RNYGStyle)
    (h : RNYGHeap) (node : RNYGNodeRef) (paramName : α) : Option RNYGHeap := do
  let nodeData ← h.get node
  if ne (getField nodeData.style) paramName then
    let h := h.set node { nodeData with style := setField nodeData.style paramName }
    pure (h.markDirtyAndPropogate node)
  else pure h

/-- The setter `RNYGNodeStyleSet##name` of the macros
`RNYG_NODE_STYLE_PROPERTY_SETTER_UNIT_IMPL` (RNYoga.cpp:527),
`RNYG_NODE_STYLE_PROPERTY_SETTER_UNIT_AUTO_IMPL` (RNYoga.cpp:562),
`RNYG_NODE_STYLE_EDGE_PROPERTY_UNIT_IMPL` (RNYoga.cpp:637) and
`RNYG_NODE_STYLE_EDGE_PROPERTY_IMPL` (RNYoga.cpp:676), and with `unit = Percent` the setter
`RNYGNodeStyleSet##name##Percent` of the first and the third (RNYoga.cpp:542, 653). -/
def RNYG_NODE_STYLE_PROPERTY_SETTER_UNIT_IMPL (unit : RNYGUnit)
    (getField : RNYGStyle → RNYGValue) (setField : RNYGStyle → RNYGValue → RNYGStyle)
    (h : RNYGHeap) (node : RNYGNodeRef) (paramName : YGFloat) : Option RNYGHeap := do
  let nodeData ← h.get node
  let value : RNYGValue :=
    { value := paramName
      unit := if RNYGFloatIsUndefined paramName then RNYGUnit.Undefined else unit }
  if (fne (getField nodeData.style).value value.value && value.unit ≠ RNYGUnit.Undefined) ||
      (getField nodeData.style).unit ≠ value.unit then
    let h := h.set node { nodeData with style := setField nodeData.style value }
    pure (h.markDirtyAndPropogate node)
  else pure h

/-- The setter `RNYGNodeStyleSet##name##Percent` of the macro
`RNYG_NODE_STYLE_PROPERTY_SETTER_UNIT_AUTO_IMPL` (RNYoga.cpp:577). -/
def RNYG_NODE_STYLE_PROPERTY_SETTER_UNIT_AUTO_IMPL_Percent
    (getField : RNYGStyle → RNYGValue) (setField : RNYGStyle → RNYGValue → RNYGStyle)
    (h : RNYGHeap) (node : RNYGNodeRef) (paramName : YGFloat) : Option RNYGHeap := do
  let nodeData ← h.get node
  if fne (getField nodeData.style).value paramName ||
      (getField nodeData.style).unit ≠ RNYGUnit.Percent then
    let value : RNYGValue :=
      { value := paramName
        unit := if RNYGFloatIsUndefined paramName then RNYGUnit.Auto else RNYGUnit.Percent }
    let h := h.set node { nodeData with style := setField nodeData.style value }
    pure (h.markDirtyAndPropogate node)
  else pure h

/-- The setter `RNYGNodeStyleSet##name##Auto` of the macros
`RNYG_NODE_STYLE_PROPERTY_SETTER_UNIT_AUTO_IMPL` (RNYoga.cpp:590) and
`RNYG_NODE_STYLE_EDGE_PROPERTY_UNIT_AUTO_IMPL` (RNYoga.cpp:624). -/
def RNYG_NODE_STYLE_PROPERTY_SETTER_UNIT_AUTO_IMPL_Auto
    (getField : RNYGStyle → RNYGValue) (setField : RNYGStyle → RNYGValue → RNYGStyle)
    (h : RNYGHeap) (node : RNYGNodeRef) : Option RNYGHeap := do
  let nodeData ← h.get node
  if (getField nodeData.style).unit ≠ RNYGUnit.Auto then
    let value : RNYGValue := { value := RNYGUndefined, unit := RNYGUnit.Auto }
    let h := h.set node { nodeData with style := setField nodeData.style value }
    pure (h.markDirtyAndPropogate node)
  else pure h

/-- The operator `!=` on an enum. -/
def enumNe {α : Type} [DecidableEq α] (a b : α) : Bool := decide (a ≠ b)

/-- A call of one of the style setters instantiated at RNYoga.cpp:732 to 762, with its
arguments. -/
inductive RNYGStyleSetterCall where
  | Direction (direction : RNYGDirection)
  | FlexDirection (flexDirection : RNYGFlexDirection)
  | JustifyContent (justifyContent : RNYGJustify)
  | AlignContent (alignContent : RNYGAlign)
  | AlignItems (alignItems : RNYGAlign)
  | AlignSelf (alignSelf : RNYGAlign)
  | PositionType (positionType : RNYGPositionType)
  | FlexWrap (flexWrap : RNYGWrap)
  | Overflow (overflow : RNYGOverflow)
  | Display (display : RNYGDisplay)
  | Flex (flex : YGFloat)
  | FlexGrow (flexGrow : YGFloat)
  | FlexShrink (flexShrink : YGFloat)
  | AspectRatio (aspectRatio : YGFloat)
  | FlexBasis (flexBasis : YGFloat)
  | FlexBasisPercent (flexBasis : YGFloat)
  | FlexBasisAuto
  | Position (edge : RNYGEdge) (position : YGFloat)
  | PositionPercent (edge : RNYGEdge) (position : YGFloat)
  | Margin (edge : RNYGEdge) (margin : YGFloat)
  | MarginPercent (edge : RNYGEdge) (margin : YGFloat)
  | MarginAuto (edge : RNYGEdge)
  | Padding (edge : RNYGEdge) (padding : YGFloat)
  | PaddingPercent (edge : RNYGEdge) (padding : YGFloat)
  | Border (edge : RNYGEdge) (border : YGFloat)
  | Dimension (d : RNYGDimension) (value : YGFloat)
  | DimensionPercent (d : RNYGDimension) (value : YGFloat)
  | DimensionAuto (d : RNYGDimension)
  | MinDimension (d : RNYGDimension) (value : YGFloat)
  | MinDimensionPercent (d : RNYGDimension) (value : YGFloat)
  | MaxDimension (d : RNYGDimension) (value : YGFloat)
  | MaxDimensionPercent (d : RNYGDimension) (value : YGFloat)

/-- The style setters `RNYGNodeStyleSet...` (RNYoga.cpp:732 to 762).  `Dimension Width` is
`RNYGNodeStyleSetWidth`, `MinDimension Height` is `RNYGNodeStyleSetMinHeight`, and so on. -/
def RNYGNodeStyleSet (h : RNYGHeap) (node : RNYGNodeRef) : RNYGStyleSetterCall → Option RNYGHeap
  | .Direction v => RNYG_NODE_STYLE_PROPERTY_SETTER_IMPL enumNe (·.direction)
      (fun s x => { s with direction := x }) h node v
  | .FlexDirection v => RNYG_NODE_STYLE_PROPERTY_SETTER_IMPL enumNe (·.flexDirection)
      (fun s x => { s with flexDirection := x }) h node v
  | .JustifyContent v => RNYG_NODE_STYLE_PROPERTY_SETTER_IMPL enumNe (·.justifyContent)
      (fun s x => { s with justifyContent := x }) h node v
  | .AlignContent v => RNYG_NODE_STYLE_PROPERTY_SETTER_IMPL enumNe (·.alignContent)
      (fun s x => { s with alignContent := x }) h node v
  | .AlignItems v => RNYG_NODE_STYLE_PROPERTY_SETTER_IMPL enumNe (·.alignItems)
      (fun s x => { s with alignItems := x }) h node v
  | .AlignSelf v => RNYG_NODE_STYLE_PROPERTY_SETTER_IMPL enumNe (·.alignSelf)
      (fun s x => { s with alignSelf := x }) h node v
  | .PositionType v => RNYG_NODE_STYLE_PROPERTY_SETTER_IMPL enumNe (·.positionType)
      (fun s x => { s with positionType := x }) h node v
  | .FlexWrap v => RNYG_NODE_STYLE_PROPERTY_SETTER_IMPL enumNe (·.flexWrap)
      (fun s x => { s with flexWrap := x }) h node v
  | .Overflow v => RNYG_NODE_STYLE_PROPERTY_SETTER_IMPL enumNe (·.overflow)
      (fun s x => { s with overflow := x }) h node v
  | .Display v => RNYG_NODE_STYLE_PROPERTY_SETTER_IMPL enumNe (·.display)
      (fun s x => { s with display := x }) h node v
  | .Flex v => RNYG_NODE_STYLE_PROPERTY_SETTER_IMPL fne (·.flex)
      (fun s x => { s with flex := x }) h node v
  | .FlexGrow v => RNYG_NODE_STYLE_PROPERTY_SETTER_IMPL fne (·.flexGrow)
      (fun s x => { s with flexGrow := x }) h node v
  | .FlexShrink v => RNYG_NODE_STYLE_PROPERTY_SETTER_IMPL fne (·.flexShrink)
      (fun s x => { s with flexShrink := x }) h node v
  | .AspectRatio v => RNYG_NODE_STYLE_PROPERTY_SETTER_IMPL fne (·.aspectRatio)
      (fun s x => { s with aspectRatio := x }) h node v
  | .FlexBasis v => RNYG_NODE_STYLE_PROPERTY_SETTER_UNIT_IMPL RNYGUnit.Point (·.flexBasis)
      (fun s x => { s with flexBasis := x }) h node v
  | .FlexBasisPercent v => RNYG_NODE_STYLE_PROPERTY_SETTER_UNIT_AUTO_IMPL_Percent (·.flexBasis)
      (fun s x => { s with flexBasis := x }) h node v
  | .FlexBasisAuto => RNYG_NODE_STYLE_PROPERTY_SETTER_UNIT_AUTO_IMPL_Auto (·.flexBasis)
      (fun s x => { s with flexBasis := x }) h node
  | .Position e v => RNYG_NODE_STYLE_PROPERTY_SETTER_UNIT_IMPL RNYGUnit.Point (·.position e)
      (fun s x => { s with position := Function.update s.position e x }) h node v
  | .PositionPercent e v =>
    RNYG_NODE_STYLE_PROPERTY_SETTER_UNIT_IMPL RNYGUnit.Percent (·.position e)
      (fun s x => { s with position := Function.update s.position e x }) h node v
  | .Margin e v => RNYG_NODE_STYLE_PROPERTY_SETTER_UNIT_IMPL RNYGUnit.Point (·.margin e)
      (fun s x => { s with margin := Function.update s.margin e x }) h node v
  | .MarginPercent e v => RNYG_NODE_STYLE_PROPERTY_SETTER_UNIT_IMPL RNYGUnit.Percent (·.margin e)
      (fun s x => { s with margin := Function.update s.margin e x }) h node v
  | .MarginAuto e => RNYG_NODE_STYLE_PROPERTY_SETTER_UNIT_AUTO_IMPL_Auto (·.margin e)
      (fun s x => { s with margin := Function.update s.margin e x }) h node
  | .Padding e v => RNYG_NODE_STYLE_PROPERTY_SETTER_UNIT_IMPL RNYGUnit.Point (·.padding e)
      (fun s x => { s with padding := Function.update s.padding e x }) h node v
  | .PaddingPercent e v =>
    RNYG_NODE_STYLE_PROPERTY_SETTER_UNIT_IMPL RNYGUnit.Percent (·.padding e)
      (fun s x => { s with padding := Function.update s.padding e x }) h node v
  | .Border e v => RNYG_NODE_STYLE_PROPERTY_SETTER_UNIT_IMPL RNYGUnit.Point (·.border e)
      (fun s x => { s with border := Function.update s.border e x }) h node v
  | .Dimension d v => RNYG_NODE_STYLE_PROPERTY_SETTER_UNIT_IMPL RNYGUnit.Point (·.dimensions d)
      (fun s x => { s with dimensions := Function.update s.dimensions d x }) h node v
  | .DimensionPercent d v =>
    RNYG_NODE_STYLE_PROPERTY_SETTER_UNIT_AUTO_IMPL_Percent (·.dimensions d)
      (fun s x => { s with dimensions := Function.update s.dimensions d x }) h node v
  | .DimensionAuto d => RNYG_NODE_STYLE_PROPERTY_SETTER_UNIT_AUTO_IMPL_Auto (·.dimensions d)
      (fun s x => { s with dimensions := Function.update s.dimensions d x }) h node
  | .MinDimension d v =>
    RNYG_NODE_STYLE_PROPERTY_SETTER_UNIT_IMPL RNYGUnit.Point (·.minDimensions d)
      (fun s x => { s with minDimensions := Function.update s.minDimensions d x }) h node v
  | .MinDimensionPercent d v =>
    RNYG_NODE_STYLE_PROPERTY_SETTER_UNIT_IMPL RNYGUnit.Percent (·.minDimensions d)
      (fun s x => { s with minDimensions := Function.update s.minDimensions d x }) h node v
  | .MaxDimension d v =>
    RNYG_NODE_STYLE_PROPERTY_SETTER_UNIT_IMPL RNYGUnit.Point (·.maxDimensions d)
      (fun s x => { s with maxDimensions := Function.update s.maxDimensions d x }) h node v
  | .MaxDimensionPercent d v =>
    RNYG_NODE_STYLE_PROPERTY_SETTER_UNIT_IMPL RNYGUnit.Percent (·.maxDimensions d)
      (fun s x => { s with maxDimensions := Function.update s.maxDimensions d x }) h node v

/-- The constructor `RNYGNode::RNYGNode()` (RNYGNode.cpp:377) followed by `setConfig`, as in
`RNYGNodeNewWithConfig` (RNYoga.cpp:224), as a heap node. -/
def newNode (config : RNYGConfig) : RNYGHeapNode :=
  { hasNewLayout := true
    nodeType := RNYGNodeType.Default
    measure := none
    baseline := none
    hasDirtied := false
    style :=
      if config.useWebDefaults then
        { RNYGStyle.default with
          flexDirection := RNYGFlexDirection.Row, alignContent := RNYGAlign.Stretch }
      else RNYGStyle.default
    layout := RNYGLayout.default
    lineIndex := 0
    parent := none
    children := []
    config := config
    hasCloneNodeCallback := false
    isDirty := false
    resolvedDimensions := fun _ => RNYGValueUndefined }

end RNYGHeap

/-! ## Properties of trees and the statements of the specification -/

/-- The request for one axis that the specification gives for the root (section 4.10, step 2):
"if style dimension is defined, use value + margin, mode exactly; else if max dimension
resolves to >= 0, use that, mode at-most; else use parentSize, mode exactly if defined else
undefined". -/
def rootAxisRequestSpec (styleDimDefined : Bool)
    (resolvedStyleDim margin resolvedMaxDim parentSize : YGFloat) : YGFloat × RNYGMeasureMode :=
  if styleDimDefined then (fadd resolvedStyleDim margin, RNYGMeasureMode.Exactly)
  else if fge resolvedMaxDim (some 0) then (resolvedMaxDim, RNYGMeasureMode.AtMost)
  else
    match parentSize with
    | some p => (some p, RNYGMeasureMode.Exactly)
    | none => (RNYGUndefined, RNYGMeasureMode.Undefined)

/-- The size a cache comparison uses: rounded to the pixel grid when the configuration has a
scale factor other than 0 (section 4.9, "Rounding uses config.pointScaleFactor if > 0"). -/
def cacheEffectiveSize (config : Option RNYGConfig) (size : YGFloat) : YGFloat :=
  match config with
  | some c =>
    if fne c.pointScaleFactor (some 0) then
      RNYGRoundValueToPixelGrid size c.pointScaleFactor false false
    else size
  | none => size

/-- The reuse predicate of the specification for one axis, as the claim words it: (1) same mode
and same rounded size, (2) new mode exactly and new size minus margin equal to the last computed
size, (3) new mode at-most, last mode undefined and new size minus margin at least the last
computed size (or equal within 0.0001), (4) both modes at-most, new size smaller than the last
size and last computed size at most the new size.  "Equal" is the engine's equality of floats
(`RNYGFloatsEqual`). -/
def CacheAxisCompatibleAsClaimed (config : Option RNYGConfig) (mode : RNYGMeasureMode)
    (size : YGFloat) (lastMode : Option RNYGMeasureMode)
    (lastSize lastComputed margin : YGFloat) : Prop :=
  (lastMode = some mode ∧
    RNYGFloatsEqual (cacheEffectiveSize config lastSize) (cacheEffectiveSize config size) = true) ∨
  (mode = RNYGMeasureMode.Exactly ∧ RNYGFloatsEqual (fsub size margin) lastComputed = true) ∨
  (mode = RNYGMeasureMode.AtMost ∧ lastMode = some RNYGMeasureMode.Undefined ∧
    (fge (fsub size margin) lastComputed = true ∨
      RNYGFloatsEqual (fsub size margin) lastComputed = true)) ∨
  (mode = RNYGMeasureMode.AtMost ∧ lastMode = some RNYGMeasureMode.AtMost ∧
    flt size lastSize = true ∧ fle lastComputed size = true)

/-- The reuse predicate for one axis as the code computes it: in case (4) the new size is
taken minus the margin and the last computed size may exceed it by less than 0.0001. -/
def CacheAxisCompatible (config : Option RNYGConfig) (mode : RNYGMeasureMode)
    (size : YGFloat) (lastMode : Option RNYGMeasureMode)
    (lastSize lastComputed margin : YGFloat) : Prop :=
  (lastMode = some mode ∧
    RNYGFloatsEqual (cacheEffectiveSize config lastSize) (cacheEffectiveSize config size) = true) ∨
  (mode = RNYGMeasureMode.Exactly ∧ RNYGFloatsEqual (fsub size margin) lastComputed = true) ∨
  (mode = RNYGMeasureMode.AtMost ∧ lastMode = some RNYGMeasureMode.Undefined ∧
    (fge (fsub size margin) lastComputed = true ∨
      RNYGFloatsEqual (fsub size margin) lastComputed = true)) ∨
  (mode = RNYGMeasureMode.AtMost ∧ lastMode = some RNYGMeasureMode.AtMost ∧
    flt (fsub size margin) lastSize = true ∧
    (fle lastComputed (fsub size margin) = true ∨
      RNYGFloatsEqual (fsub size margin) lastComputed = true))

/-- The snapping tolerance of `RNYGRoundValueToPixelGrid`, `max(0.0001, 0.01 * s)`. -/
def roundingTolerance (s : ℚ) : ℚ := max (1 / 10000) (s / 100)

/-- A dirty root without children whose style asks for width 100.4 and height 10. -/
def fractionalRoot : RNYGTree 0 :=
  let node : RNYGTree 0 := RNYGNodeNewWithConfig gYGConfigDefaults
  { node with
    isDirty := true
    style :=
      { node.style with
        dimensions := fun d =>
          match d with
          | RNYGDimension.Width => { value := some (502 / 5), unit := RNYGUnit.Point }
          | RNYGDimension.Height => { value := some 10, unit := RNYGUnit.Point } } }

/-- A node of type text without children whose layout has the given left position and width,
top position 0 and height 1. -/
def textNodeAt (left width : ℚ) : RNYGTree 0 :=
  let node : RNYGTree 0 := RNYGNodeNewWithConfig gYGConfigDefaults
  { node with
    nodeType := RNYGNodeType.Text
    layout :=
      { node.layout with
        position := fun e =>
          match e with
          | RNYGEdge.Left => some left
          | _ => some 0
        dimensions := fun d =>
          match d with
          | RNYGDimension.Width => some width
          | RNYGDimension.Height => some 1 } }

/-- The cache of a node: the layout-cache entry, the measurement entries and
`nextCachedMeasurementsIndex`. -/
def RNYGNode.cacheState (node : RNYGNode C) :
    RNYGCachedMeasurement × (Nat → RNYGCachedMeasurement) × Nat :=
  (node.layout.cachedLayout, node.layout.cachedMeasurements,
    node.layout.nextCachedMeasurementsIndex)

/-- The condition `needToVisitNode` of `RNYGLayoutNodeInternal` (RNYoga.cpp:3258). -/
def RNYGLayoutNodeInternal.needToVisitNode (gen : Nat) (node : RNYGNode C)
    (parentDirection : RNYGDirection) : Bool :=
  (node.isDirty && decide (node.layout.generationCount ≠ gen)) ||
    decide (node.layout.lastParentDirection ≠ some parentDirection)

/-- The index at which `RNYGLayoutNodeInternal` stores a new measurement entry: the value of
`nextCachedMeasurementsIndex` after the invalidation (0 when the node must be visited) and
after the reset to 0 that happens when it equals `RNYG_MAX_CACHED_RESULT_COUNT`. -/
def RNYGLayoutNodeInternal.storeIndex (gen : Nat) (node : RNYGNode C)
    (parentDirection : RNYGDirection) : Nat :=
  let index :=
    if RNYGLayoutNodeInternal.needToVisitNode gen node parentDirection then 0
    else node.layout.nextCachedMeasurementsIndex
  if index = RNYG_MAX_CACHED_RESULT_COUNT then 0 else index

/-- The cache entry that records a request and the measured dimensions of the node `result`. -/
def RNYGLayoutNodeInternal.newCacheEntry (availableWidth availableHeight : YGFloat)
    (widthMeasureMode heightMeasureMode : RNYGMeasureMode) (result : RNYGNode C) :
    RNYGCachedMeasurement :=
  { availableWidth := availableWidth
    availableHeight := availableHeight
    widthMeasureMode := some widthMeasureMode
    heightMeasureMode := some heightMeasureMode
    computedWidth := result.layout.measuredDimensions RNYGDimension.Width
    computedHeight := result.layout.measuredDimensions RNYGDimension.Height }

/-- The calls `RNYGLayoutNodeInternal(node, k, 10, LTR, exactly, exactly, 100, 100, false)` for
`k = count, ..., 1` in generation 1 on a node without children: `count` measurements with
different available widths. -/
def measureRepeatedly : Nat → RNYGTree 0 → Option (RNYGTree 0)
  | 0, node => some node
  | k + 1, node =>
    (RNYGLayoutNodeInternal 1 0 node (some (k + 1 : ℚ)) (some 10) RNYGDirection.LTR
      RNYGMeasureMode.Exactly RNYGMeasureMode.Exactly (some 100) (some 100) false
      gYGConfigDefaults).bind (fun r => measureRepeatedly k r.1)

/-- A new node without children. -/
def freshLeaf : RNYGTree 0 := RNYGNodeNewWithConfig gYGConfigDefaults

namespace RNYGHeap

/-- Every parent pointer of a live node points to a slot of the heap. -/
def ParentsInBounds (h : RNYGHeap) : Prop :=
  ∀ (r : Nat) (n : RNYGHeapNode) (p : Nat),
    h.get r = some n → n.parent = some p → p < h.nodes.length

/-- The parent of a dirty node is dirty, unless the parent is the node `except`: for all live
nodes `r` with live parent `p`, if `r` is dirty then `p` is dirty or `p` is `except`. -/
def DirtyClosedExcept (h : RNYGHeap) (except : Option RNYGNodeRef) : Prop :=
  ∀ r n p pn, h.get r = some n → n.isDirty = true → n.parent = some p → h.get p = some pn →
    pn.isDirty = true ∨ except = some p

/-- The parent of a dirty node is dirty. -/
def DirtyClosed (h : RNYGHeap) : Prop := h.DirtyClosedExcept none

/-- `IsAncestorOrSelf h a r`: the node `a` is `r` or is reached from `r` by following parent
pointers of live nodes. -/
inductive IsAncestorOrSelf (h : RNYGHeap) : RNYGNodeRef → RNYGNodeRef → Prop where
  | self (r : RNYGNodeRef) : IsAncestorOrSelf h r r
  | parent (a r p : RNYGNodeRef) (n : RNYGHeapNode) :
      h.get r = some n → n.parent = some p → IsAncestorOrSelf h a p → IsAncestorOrSelf h a r

/-- The node `r` is live and dirty, and so is every live node reached from it by following
parent pointers. -/
def DirtyUpToRoot (h : RNYGHeap) (r : RNYGNodeRef) : Prop :=
  (∃ n, h.get r = some n ∧ n.isDirty = true) ∧
  ∀ a an, h.IsAncestorOrSelf a r → h.get a = some an → an.isDirty = true

/-- The number of live nodes that are not dirty. -/
def cleanCount (h : RNYGHeap) : Nat :=
  h.nodes.countP (fun slot =>
    match slot with
    | some n => !n.isDirty
    | none => false)

/-- The heap `h'` has the slots of `h`, with the same live nodes and the same parent
pointers, and every node that is dirty in `h` is dirty in `h'`. -/
def DirtyExtends (h h' : RNYGHeap) : Prop :=
  h'.nodes.length = h.nodes.length ∧
  ∀ r, (h.get r = none ∧ h'.get r = none) ∨
    ∃ n n', h.get r = some n ∧ h'.get r = some n' ∧ n'.parent = n.parent ∧
      (n.isDirty = true → n'.isDirty = true)

/-- What a style setter does: nothing, or a write of the style followed by
`markDirtyAndPropogate`. -/
def SetterShape (h : RNYGHeap) (node : RNYGNodeRef) (h' : RNYGHeap) : Prop :=
  h' = h ∨ ∃ nd st, h.get node = some nd ∧
    h' = (h.set node { nd with style := st }).markDirtyAndPropogate node

end RNYGHeap

namespace RNYGHeap

/-- A heap with one new node, which is clean. -/
def singleNodeHeap : RNYGHeap :=
  { nodes := [some (newNode gYGConfigDefaults)], dirtiedLog := [], clonedLog := [] }

/-- A heap with a root (slot 0) and its child (slot 1); `childDirty` is the dirty flag of the
child, the root is clean. -/
def familyHeap (childDirty : Bool) : RNYGHeap :=
  { nodes :=
      [some { newNode gYGConfigDefaults with children := [1] },
       some { newNode gYGConfigDefaults with parent := some 0, isDirty := childDirty }]
    dirtiedLog := []
    clonedLog := [] }

/-- The dirty flag of the node in slot `r`. -/
def dirtyFlag (h : RNYGHeap) (r : RNYGNodeRef) : Option Bool := (h.get r).map (fun n => n.isDirty)

end RNYGHeap

/-! ## Edge lookup, callbacks, ownership and flexible lengths -/

/-- The values that the specification lists for an edge, in the order of the lookup: the edge
itself, then `vertical` for top and bottom or `horizontal` for left, right, start and end, then
`all`. -/
def RNYGComputedEdgeValue.candidates (edges : RNYGEdge → RNYGValue) : RNYGEdge → List RNYGValue
  | RNYGEdge.Top => [edges RNYGEdge.Top, edges RNYGEdge.Vertical, edges RNYGEdge.All]
  | RNYGEdge.Bottom => [edges RNYGEdge.Bottom, edges RNYGEdge.Vertical, edges RNYGEdge.All]
  | RNYGEdge.Left => [edges RNYGEdge.Left, edges RNYGEdge.Horizontal, edges RNYGEdge.All]
  | RNYGEdge.Right => [edges RNYGEdge.Right, edges RNYGEdge.Horizontal, edges RNYGEdge.All]
  | RNYGEdge.Start => [edges RNYGEdge.Start, edges RNYGEdge.Horizontal, edges RNYGEdge.All]
  | RNYGEdge.End => [edges RNYGEdge.End, edges RNYGEdge.Horizontal, edges RNYGEdge.All]
  | e => [edges e, edges RNYGEdge.All]

/-- The first value of a list whose unit is not undefined. -/
def firstDefinedValue (values : List RNYGValue) : Option RNYGValue :=
  values.find? (fun v => decide (v.unit ≠ RNYGUnit.Undefined))

/-- An edge array without any value. -/
def noEdges : RNYGEdge → RNYGValue := fun _ => RNYGValueUndefined

/-- A measure callback that returns NaN for the width and for the height. -/
def nanMeasure : RNYGMeasureFunc := fun _ _ _ _ => { width := RNYGUndefined, height := RNYGUndefined }

/-- A dirty root without children whose style has the width 100 points and the left margin
10 percent. -/
def percentMarginRoot : RNYGTree 0 :=
  let node : RNYGTree 0 := RNYGNodeNewWithConfig gYGConfigDefaults
  { node with
    isDirty := true
    style :=
      { node.style with
        dimensions := Function.update node.style.dimensions RNYGDimension.Width
          { value := some 100, unit := RNYGUnit.Point }
        margin := Function.update node.style.margin RNYGEdge.Left
          { value := some 10, unit := RNYGUnit.Percent } } }

/-! ## More of the node API over the heap -/

namespace RNYGHeap

/-- `RNYGNode::markDirtyAndPropogateDownwards` (RNYGNode.cpp:583) with a bound on the recursion
depth: `none` when the bound is reached or when a child pointer is not live. -/
def markDirtyAndPropogateDownwardsAux : Nat → RNYGHeap → RNYGNodeRef → Option RNYGHeap
  | 0, _, _ => none
  | fuel + 1, h, this =>
    (h.get this).bind (fun node =>
      -- isDirty_ = true
      node.children.foldlM (fun h childNode => markDirtyAndPropogateDownwardsAux fuel h childNode)
        (h.set this { node with isDirty := true }))

/-- `RNYGNode::markDirtyAndPropogateDownwards` (RNYGNode.cpp:583); in a tree the depth of the
recursion is at most the number of slots of the heap. -/
def markDirtyAndPropogateDownwards (h : RNYGHeap) (this : RNYGNodeRef) : Option RNYGHeap :=
  markDirtyAndPropogateDownwardsAux (h.nodes.length + 1) h this

/-- `RNYGNode::setMeasureFunc` (RNYGNode.cpp:200), called by `RNYGNodeSetMeasureFunc`
(RNYoga.cpp:165).  The assertion that the node has no children is fatal. -/
def setMeasureFunc (h : RNYGHeap) (this : RNYGNodeRef) (measureFunc : Option RNYGMeasureFunc) :
    Option RNYGHeap :=
  (h.get this).bind (fun node =>
    (match measureFunc with
      | none => some { node with measure := none, nodeType := RNYGNodeType.Default }
      | some f =>
        if node.children.length ≠ 0 then none
        else some { node with measure := some f, nodeType := RNYGNodeType.Text }).map
      (fun (node : RNYGHeapNode) => h.set this { node with measure := measureFunc }))

/-- `RNYGNodeSetMeasureFunc` (RNYoga.cpp:165). -/
def RNYGNodeSetMeasureFunc (h : RNYGHeap) (node : RNYGNodeRef)
    (measureFunc : Option RNYGMeasureFunc) : Option RNYGHeap :=
  h.setMeasureFunc node measureFunc

/-- The loop of `RNYGNodeRemoveAllChildren` (RNYoga.cpp:455) over the children that remain. -/
def removeAllChildrenLoop : List RNYGNodeRef → RNYGHeap → Option RNYGHeap
  | [], h => some h
  | oldChild :: rest, h =>
    (h.get oldChild).bind (fun oldData =>
      -- layout is no longer valid
      removeAllChildrenLoop rest
        (h.set oldChild { oldData with layout := RNYGLayout.default, parent := none }))

/-- `RNYGNodeRemoveAllChildren` (RNYoga.cpp:447). -/
def RNYGNodeRemoveAllChildren (h : RNYGHeap) (parent : RNYGNodeRef) : Option RNYGHeap :=
  (h.get parent).bind (fun parentData =>
    match parentData.children with
    | [] =>
      -- This is an empty set already. Nothing to do.
      some h
    | firstChildRef :: _ =>
      (h.get firstChildRef).bind (fun firstChild =>
        if firstChild.parent = some parent then
          -- If the first child has this node as its parent, we assume that this child set is
          -- unique.
          (removeAllChildrenLoop parentData.children h).bind (fun h =>
            (h.get parent).map (fun parentData =>
              (h.set parent { parentData with children := [] }).markDirtyAndPropogate parent))
        else
          -- Otherwise, we are not the owner of the child set. We don't have to do anything to
          -- clear it.
          some ((h.set parent { parentData with children := [] }).markDirtyAndPropogate parent)))

/-- The operator `delete`: the slot no longer holds a node. -/
def free (h : RNYGHeap) (r : RNYGNodeRef) : RNYGHeap :=
  { h with nodes := h.nodes.set r none }

/-- The first statement of `RNYGNodeFree` (RNYoga.cpp:287): the node is removed from the child
list of its parent and its parent pointer is reset. -/
def detachFromParent (h : RNYGHeap) (node : RNYGNodeRef) : Option RNYGHeap :=
  (h.get node).bind (fun nodeData =>
    match nodeData.parent with
    | none => some h
    | some parent =>
      (h.get parent).bind (fun parentData =>
        -- node->getParent()->removeChild(node)
        let h := h.set parent { parentData with children := parentData.children.erase node }
        -- node->setParent(nullptr)
        (h.get node).map (fun nodeData => h.set node { nodeData with parent := none })))

/-- The loop of `RNYGNodeFree` (RNYoga.cpp:292) over the children that remain:
`child->setParent(nullptr)`. -/
def freeChildrenLoop : List RNYGNodeRef → RNYGHeap → Option RNYGHeap
  | [], h => some h
  | child :: rest, h =>
    (h.get child).bind (fun childData =>
      freeChildrenLoop rest (h.set child { childData with parent := none }))

/-- `RNYGNodeFree` (RNYoga.cpp:286). -/
def RNYGNodeFree (h : RNYGHeap) (node : RNYGNodeRef) : Option RNYGHeap :=
  (h.detachFromParent node).bind (fun h =>
    (h.get node).bind (fun nodeData =>
      -- node->clearChildren(); delete node
      (freeChildrenLoop nodeData.children h).map (fun h => h.free node)))

/-- `RNYGNodeFreeRecursive` (RNYoga.cpp:314) with a bound on the number of nested calls and
loop iterations; an iteration of the `while` loop that does not break is followed by the rest
of the function on the same root.  `none` when the bound is reached or a pointer is not
live. -/
def RNYGNodeFreeRecursiveAux : Nat → RNYGHeap → RNYGNodeRef → Option RNYGHeap
  | 0, _, _ => none
  | fuel + 1, h, root =>
    (h.get root).bind (fun rootData =>
      match rootData.children with
      | [] => h.RNYGNodeFree root
      | child :: _ =>
        (h.get child).bind (fun childData =>
          if childData.parent ≠ some root then
            -- Don't free shared nodes that we don't own.
            h.RNYGNodeFree root
          else
            (h.RNYGNodeRemoveChild root child).bind (fun r =>
              (RNYGNodeFreeRecursiveAux fuel r.1 child).bind (fun h =>
                RNYGNodeFreeRecursiveAux fuel h root))))

/-- `RNYGNodeFreeRecursive` (RNYoga.cpp:314). -/
def RNYGNodeFreeRecursive (h : RNYGHeap) (root : RNYGNodeRef) : Option RNYGHeap :=
  RNYGNodeFreeRecursiveAux (2 * h.nodes.length + 1) h root

end RNYGHeap

namespace RNYGHeap

/-- The node `r` has a dirtied callback and its dirty flag is false in `h` and true in `h'`. -/
def dirtiedTransition (h h' : RNYGHeap) (r : RNYGNodeRef) : Bool :=
  match h.get r, h'.get r with
  | some n, some n' => n.hasDirtied && !n.isDirty && n'.isDirty
  | _, _ => false

/-- A heap with one new node, which is clean and has a dirtied callback. -/
def watchedNodeHeap : RNYGHeap :=
  { nodes := [some { newNode gYGConfigDefaults with hasDirtied := true }]
    dirtiedLog := []
    clonedLog := [] }

/-- What `markDirtyAndPropogate` leaves alone: the slots and the clone log are the same, every
live node keeps all its fields but the dirty flag and the layout, and a dirty node stays
dirty. -/
def MarkFrame (h h' : RNYGHeap) : Prop :=
  h'.nodes.length = h.nodes.length ∧ h'.clonedLog = h.clonedLog ∧
  ∀ r, (h.get r = none ∧ h'.get r = none) ∨
    ∃ n n', h.get r = some n ∧ h'.get r = some n' ∧
      (∃ dirty layout, n' = { n with isDirty := dirty, layout := layout }) ∧
      (n.isDirty = true → n'.isDirty = true)

end RNYGHeap

namespace RNYGHeap

/-- No live node has both a measure callback and a child. -/
def MeasureLeaf (h : RNYGHeap) : Prop :=
  ∀ r n, h.get r = some n → n.measure.isSome = true → n.children = []

/-- The node `this` is live and has no measure callback. -/
def NoMeasure (h : RNYGHeap) (this : RNYGNodeRef) : Prop :=
  ∃ nd, h.get this = some nd ∧ nd.measure = none

/-- A heap without any node. -/
def emptyHeap : RNYGHeap := { nodes := [], dirtiedLog := [], clonedLog := [] }

/-- The heaps that are reached from new nodes (`RNYGNodeNewWithConfig`) through
`RNYGNodeInsertChild`, `RNYGNodeRemoveChild`, `RNYGNodeRemoveAllChildren` and
`RNYGNodeSetMeasureFunc`; an operation that aborts reaches nothing. -/
inductive ReachableByChildOps : RNYGHeap → Prop where
  | empty : ReachableByChildOps emptyHeap
  | newNode (h : RNYGHeap) (config : RNYGConfig) :
      ReachableByChildOps h → ReachableByChildOps (h.alloc (newNode config)).1
  | insertChild (h : RNYGHeap) (node child : RNYGNodeRef) (index : Nat) (h' : RNYGHeap) :
      ReachableByChildOps h → h.RNYGNodeInsertChild node child index = some h' →
      ReachableByChildOps h'
  | removeChild (h : RNYGHeap) (parent excludedChild : RNYGNodeRef) (r : RNYGHeap × Bool) :
      ReachableByChildOps h → h.RNYGNodeRemoveChild parent excludedChild = some r →
      ReachableByChildOps r.1
  | removeAllChildren (h : RNYGHeap) (parent : RNYGNodeRef) (h' : RNYGHeap) :
      ReachableByChildOps h → h.RNYGNodeRemoveAllChildren parent = some h' →
      ReachableByChildOps h'
  | setMeasureFunc (h : RNYGHeap) (node : RNYGNodeRef) (measureFunc : Option RNYGMeasureFunc)
      (h' : RNYGHeap) :
      ReachableByChildOps h → h.RNYGNodeSetMeasureFunc node measureFunc = some h' →
      ReachableByChildOps h'

/-- A heap with one new node that was given the measure callback `nanMeasure`. -/
def measuredNodeHeap : RNYGHeap :=
  { nodes := [some { newNode gYGConfigDefaults with
      measure := some nanMeasure, nodeType := RNYGNodeType.Text }]
    dirtiedLog := []
    clonedLog := [] }

end RNYGHeap

namespace RNYGHeap

/-- The heap `familyHeap false` after `RNYGNodeClone` of its root: the root (slot 0) owns the
child (slot 1), and the clone of the root (slot 2) shares this child. -/
def sharedChildHeap : RNYGHeap :=
  { nodes :=
      [some { newNode gYGConfigDefaults with children := [1] },
       some { newNode gYGConfigDefaults with parent := some 0 },
       some { newNode gYGConfigDefaults with children := [1] }]
    dirtiedLog := []
    clonedLog := [] }

/-- The parent pointer of the node in slot `r`. -/
def parentOf (h : RNYGHeap) (r : RNYGNodeRef) : Option (Option RNYGNodeRef) :=
  (h.get r).map (fun n => n.parent)

/-- The child list of the node in slot `r`. -/
def childrenOf (h : RNYGHeap) (r : RNYGNodeRef) : Option (List RNYGNodeRef) :=
  (h.get r).map (fun n => n.children)

/-- The slot `r` holds a node. -/
def isLive (h : RNYGHeap) (r : RNYGNodeRef) : Bool := (h.get r).isSome

end RNYGHeap

namespace RNYGHeap

/-- The arguments `(oldChild, newChild, parent, index)` of the calls of the clone callback for
the children `l` from index `i` on, when the clones are stored from slot `base` on. -/
def clonedEntries (this : RNYGNodeRef) :
    List RNYGNodeRef → Nat → Nat → List (RNYGNodeRef × RNYGNodeRef × RNYGNodeRef × Nat)
  | [], _, _ => []
  | oldChild :: rest, i, base => (oldChild, base, this, i) :: clonedEntries this rest (i + 1) (base + 1)

/-- The heap `sharedChildHeap` when the configuration of the clone in slot 2 has a clone
callback. -/
def sharedChildHeapWithCallback : RNYGHeap :=
  { nodes :=
      [some { newNode gYGConfigDefaults with children := [1] },
       some { newNode gYGConfigDefaults with parent := some 0 },
       some { newNode gYGConfigDefaults with children := [1], hasCloneNodeCallback := true }]
    dirtiedLog := []
    clonedLog := [] }

end RNYGHeap

namespace RNYGHeap

/-- The invariant of the parent links: every live node either has a null parent and is in the
child list of no live node, or has a live parent whose child list contains it. -/
def ParentLinked (h : RNYGHeap) : Prop :=
  ∀ n nd, h.get n = some nd →
    (nd.parent = none ∧ ∀ p pd, h.get p = some pd → n ∉ pd.children) ∨
    ∃ p pd, nd.parent = some p ∧ h.get p = some pd ∧ n ∈ pd.children

/-- A heap without shared children: every entry of the child list of a live node `p` is a live
node whose parent is `p`, every live node with a parent is in the child list of this parent,
which is live, and no child list has an entry twice. -/
def Owned (h : RNYGHeap) : Prop :=
  (∀ p pd c, h.get p = some pd → c ∈ pd.children →
    ∃ cd, h.get c = some cd ∧ cd.parent = some p) ∧
  (∀ n nd p, h.get n = some nd → nd.parent = some p →
    ∃ pd, h.get p = some pd ∧ n ∈ pd.children) ∧
  ∀ p pd, h.get p = some pd → pd.children.Nodup

end RNYGHeap

/-- In a request for one axis, the measure mode undefined comes with an undefined available
size. -/
def undefinedModeHasUndefinedSize (mode : RNYGMeasureMode) (size : YGFloat) : Bool :=
  decide (mode ≠ RNYGMeasureMode.Undefined) || RNYGFloatIsUndefined size

/-- The layout function that aborts on a request that has, on an axis selected by `onWidth` or
`onHeight`, the measure mode undefined with a defined available size, and is `layoutChild` on
every other request. -/
def checkedLayoutFn {D : Type} (onWidth onHeight : Bool) (layoutChild : RNYGLayoutFn D) :
    RNYGLayoutFn D :=
  fun node availableWidth availableHeight parentDirection widthMeasureMode heightMeasureMode
      parentWidth parentHeight performLayout config =>
    if (!onWidth || undefinedModeHasUndefinedSize widthMeasureMode availableWidth) &&
        (!onHeight || undefinedModeHasUndefinedSize heightMeasureMode availableHeight) then
      layoutChild node availableWidth availableHeight parentDirection widthMeasureMode
        heightMeasureMode parentWidth parentHeight performLayout config
    else none

/-- A layout function that accepts exactly the request with the given available sizes and
measure modes, and returns the node as it is. -/
def expectRequest {D : Type} (availableWidth availableHeight : YGFloat)
    (widthMeasureMode heightMeasureMode : RNYGMeasureMode) : RNYGLayoutFn D :=
  fun node aw ah _ wm hm _ _ _ _ =>
    if aw = availableWidth ∧ ah = availableHeight ∧ wm = widthMeasureMode ∧
        hm = heightMeasureMode then some (node, true)
    else none

/-- A container with flex direction row. -/
def rowContainer : RNYGTree 0 :=
  let node : RNYGTree 0 := RNYGNodeNewWithConfig gYGConfigDefaults
  { node with style := { node.style with flexDirection := RNYGFlexDirection.Row } }

/-- A child whose height is 50 percent, with the flex basis 100 computed for it. -/
def percentHeightChild : RNYGTree 0 :=
  let node : RNYGTree 0 := RNYGNodeNewWithConfig gYGConfigDefaults
  let node : RNYGTree 0 :=
    { node with
      style :=
        { node.style with
          dimensions := Function.update node.style.dimensions RNYGDimension.Height
            { value := some 50, unit := RNYGUnit.Percent } }
      layout := { node.layout with computedFlexBasis := some 100 } }
  node.resolveDimension

/-- A layout function that never aborts and returns the node as it is. -/
def keepLayoutFn {D : Type} : RNYGLayoutFn D :=
  fun node _ _ _ _ _ _ _ _ _ => some (node, true)

/-- The left position, top position, width and height of the layout of a node. -/
def RNYGNode.layoutBox {C : Type} (node : RNYGNode C) : List YGFloat :=
  [node.layout.position RNYGEdge.Left, node.layout.position RNYGEdge.Top,
    node.layout.dimensions RNYGDimension.Width, node.layout.dimensions RNYGDimension.Height]

/-! ## Justification, alignment, lines and flex basis: statements and concrete trees -/

/-- The pair `(leadingMainDim, betweenMainDim)` in the words of the specification, for a line
of `n` items with the remaining free space `rem` and no auto margin. -/
def leadingAndBetweenAsClaimed (justifyContent : RNYGJustify) (rem : ℚ) (n : Nat) : ℚ × ℚ :=
  match justifyContent with
  | RNYGJustify.FlexStart => (0, 0)
  | RNYGJustify.Center => (rem / 2, 0)
  | RNYGJustify.FlexEnd => (rem, 0)
  | RNYGJustify.SpaceBetween => (0, if n ≤ 1 then 0 else rem / ((n : ℚ) - 1))
  | RNYGJustify.SpaceAround => (rem / (2 * (n : ℚ)), rem / (n : ℚ))
  | RNYGJustify.SpaceEvenly => (rem / ((n : ℚ) + 1), rem / ((n : ℚ) + 1))

/-- The pair of `leadingAndBetweenAsClaimed` with the free space of space-between floored
at 0. -/
def leadingAndBetweenFloored (justifyContent : RNYGJustify) (rem : ℚ) (n : Nat) : ℚ × ℚ :=
  match justifyContent with
  | RNYGJustify.SpaceBetween => (0, if n ≤ 1 then 0 else max rem 0 / ((n : ℚ) - 1))
  | _ => leadingAndBetweenAsClaimed justifyContent rem n

/-- A dirty child without children of the given width and height (`none` is auto). -/
def sizedChild (width height : Option ℚ) : RNYGTree 0 :=
  let node : RNYGTree 0 := RNYGNodeNewWithConfig gYGConfigDefaults
  { node with
    isDirty := true
    parent := RNYGParentRef.owner
    style :=
      { node.style with
        dimensions := fun d =>
          match d with
          | RNYGDimension.Width =>
            (match width with
              | some w => { value := some w, unit := RNYGUnit.Point }
              | none => RNYGValueAuto)
          | RNYGDimension.Height =>
            (match height with
              | some h => { value := some h, unit := RNYGUnit.Point }
              | none => RNYGValueAuto) } }

/-- A dirty root of the given width and height with the given children and the default
style (direction inherit, flex direction column, no wrap, justify flex-start). -/
def sizedRoot (width height : ℚ) (children : List (RNYGTree 0)) : RNYGTree 1 :=
  let node : RNYGTree 1 := RNYGNodeNewWithConfig gYGConfigDefaults
  { node with
    isDirty := true
    children := children
    style :=
      { node.style with
        dimensions := fun d =>
          match d with
          | RNYGDimension.Width => { value := some width, unit := RNYGUnit.Point }
          | RNYGDimension.Height => { value := some height, unit := RNYGUnit.Point } } }

/-- The layout boxes of the children of the root after `RNYGNodeCalculateLayout` with
undefined parent sizes and the parent direction LTR. -/
def childBoxesAfterLayout (root : RNYGTree 1) : Option (List (List YGFloat)) :=
  (RNYGNodeCalculateLayout (fun _ _ => true) 1 0 root RNYGUndefined RNYGUndefined
    RNYGDirection.LTR).map (fun r => r.1.children.map RNYGNode.layoutBox)

/-- A row of 200 by 50 with space-between and two children of width 40. -/
def spaceBetweenRow : RNYGTree 1 :=
  let node := sizedRoot 200 50 [sizedChild (some 40) none, sizedChild (some 40) none]
  { node with
    style :=
      { node.style with
        flexDirection := RNYGFlexDirection.Row
        justifyContent := RNYGJustify.SpaceBetween } }

/-- The node with the given measured width and height. -/
def withMeasuredDimensions {C : Type} (node : RNYGNode C) (width height : YGFloat) :
    RNYGNode C :=
  { node with
    layout :=
      { node.layout with
        measuredDimensions := fun d =>
          match d with
          | RNYGDimension.Width => width
          | RNYGDimension.Height => height } }

/-- The local constants of `RNYGNodelayoutImpl` for a column container of 100 by 100 without
padding and border that is laid out with both measure modes exactly. -/
def columnLocals : RNYGNodelayoutImpl.Locals :=
  { parentDirection := RNYGDirection.LTR
    parentWidth := RNYGUndefined
    performLayout := true
    config := gYGConfigDefaults
    direction := RNYGDirection.LTR
    mainAxis := RNYGFlexDirection.Column
    crossAxis := RNYGFlexDirection.Row
    isMainAxisRow := false
    isNodeFlexWrap := false
    mainAxisParentSize := RNYGUndefined
    crossAxisParentSize := RNYGUndefined
    leadingPaddingAndBorderCross := some 0
    paddingAndBorderAxisCross := some 0
    measureModeMainDim := RNYGMeasureMode.Exactly
    measureModeCrossDim := RNYGMeasureMode.Exactly
    minInnerMainDim := RNYGUndefined
    maxInnerMainDim := RNYGUndefined
    availableInnerWidth := some 100
    availableInnerHeight := some 100
    availableInnerCrossDim := some 100
    flexBasisOverflows := false }

/-- The condition under which `RNYGNodeComputeFlexBasisForChild` overwrites the computed flex
basis with a resolved flex basis (RNYoga.cpp:1038): the computed flex basis is undefined, or
the experimental feature web-flex-basis is on and the basis was computed in another
generation. -/
def flexBasisIsRecomputed {D : Type} (gen : Nat) (child : RNYGNode D) : Bool :=
  RNYGFloatIsUndefined child.layout.computedFlexBasis ||
    (child.config.experimentalFeatureWebFlexBasis &&
      decide (child.layout.computedFlexBasisGeneration ≠ gen))

/-- A child with the flex basis 50 percent whose computed flex basis is 10, as after a layout
in a container of main size 20. -/
def staleBasisChild : RNYGTree 0 :=
  let child := sizedChild none none
  { child with
    isDirty := false
    style := { child.style with flexBasis := { value := some 50, unit := RNYGUnit.Percent } }
    layout := { child.layout with computedFlexBasis := some 10 } }

/-- An in-flow child: it is displayed and its position type is relative. -/
def isInFlow {D : Type} (child : RNYGNode D) : Bool :=
  decide (child.style.display ≠ RNYGDisplay.None) &&
    decide (child.style.positionType = RNYGPositionType.Relative)

/-- The sum over the in-flow children of the line of `dimWithMargin(child, main axis)`. -/
def lineDimWithMarginSum {D : Type} (mainAxis : RNYGFlexDirection)
    (availableInnerWidth : YGFloat) (line : List (RNYGNode D)) : YGFloat :=
  line.foldr (fun child sum =>
    if isInFlow child then
      fadd (RNYGNodeDimWithMargin child mainAxis availableInnerWidth) sum
    else sum) (some 0)

/-- The `mainDim` of a line in the words of the specification: the sum over the in-flow
children of `dimWithMargin(child, main)` plus the leading and trailing padding and border of
the container. -/
def mainDimAsClaimed {C D : Type} (node : RNYGNode C) (mainAxis : RNYGFlexDirection)
    (parentWidth availableInnerWidth : YGFloat) (line : List (RNYGNode D)) : YGFloat :=
  fadd
    (fadd (node.getLeadingPaddingAndBorder mainAxis parentWidth)
      (lineDimWithMarginSum mainAxis availableInnerWidth line))
    (node.getTrailingPaddingAndBorder mainAxis parentWidth)

/-- What an in-flow child adds to `mainDim`: the share of the free space of each of its auto
margins, the space between two items, and its size with margins (its margins and computed flex
basis when the flex step was skipped). -/
def justifyContribution {D : Type} (mainAxis : RNYGFlexDirection)
    (availableInnerWidth : YGFloat) (canSkipFlex : Bool) (remainingFreeSpace : YGFloat)
    (numberOfAutoMarginsOnCurrentLine : Nat) (betweenMainDim : YGFloat) (child : RNYGNode D) :
    YGFloat :=
  fadd
    (fadd
      (if (child.marginLeadingValue mainAxis).unit = RNYGUnit.Auto then
        fdiv remainingFreeSpace (some (numberOfAutoMarginsOnCurrentLine : ℚ))
      else some 0)
      (if (child.marginTrailingValue mainAxis).unit = RNYGUnit.Auto then
        fdiv remainingFreeSpace (some (numberOfAutoMarginsOnCurrentLine : ℚ))
      else some 0))
    (if canSkipFlex then
      fadd (fadd betweenMainDim (child.getMarginForAxis mainAxis availableInnerWidth))
        child.layout.computedFlexBasis
    else fadd betweenMainDim (RNYGNodeDimWithMargin child mainAxis availableInnerWidth))

/-- The sum of `justifyContribution` over the in-flow children of the line. -/
def lineSpacedSum {D : Type} (mainAxis : RNYGFlexDirection)
    (availableInnerWidth : YGFloat) (canSkipFlex : Bool) (remainingFreeSpace : YGFloat)
    (numberOfAutoMarginsOnCurrentLine : Nat) (betweenMainDim : YGFloat)
    (line : List (RNYGNode D)) : YGFloat :=
  line.foldr (fun child sum =>
    if isInFlow child then
      fadd (justifyContribution mainAxis availableInnerWidth canSkipFlex remainingFreeSpace
        numberOfAutoMarginsOnCurrentLine betweenMainDim child) sum
    else sum) (some 0)

/-- A row of 200 by 50 with justify center. -/
def centerRow : RNYGTree 1 :=
  let node := sizedRoot 200 50 []
  { node with
    style :=
      { node.style with
        flexDirection := RNYGFlexDirection.Row
        justifyContent := RNYGJustify.Center } }

/-- A line of two children of width 40 that are measured 40 by 50. -/
def measuredLine : List (RNYGTree 0) :=
  [withMeasuredDimensions (sizedChild (some 40) none) (some 40) (some 50),
    withMeasuredDimensions (sizedChild (some 40) none) (some 40) (some 50)]

/-- The values of the line `measuredLine` in a row of inner width 200: two items, the consumed
size 80 and the remaining free space 120. -/
def measuredLineValues : RNYGCollectFlexItemsRowValues :=
  { RNYGCollectFlexItemsRowValues.zero with
    itemsOnLine := 2
    sizeConsumedOnCurrentLine := some 80
    endOfLineIndex := 2
    relativeChildren := [0, 1]
    remainingFreeSpace := some 120 }

/-- A row of 200 by 50 with justify flex-start. -/
def startRow : RNYGTree 1 :=
  let node := sizedRoot 200 50 []
  { node with style := { node.style with flexDirection := RNYGFlexDirection.Row } }

/-- The condition under which an in-flow child ends the current line, in the words of the
specification: flex-wrap is enabled, the line already holds at least one item, and the size
consumed so far plus the child's main-axis margin plus its bounded flex basis exceeds
`availableInnerMainDim`. -/
def endsLineAsClaimed (isNodeFlexWrap : Bool) (itemsOnLine : Nat)
    (sizeConsumed margin boundedBasis availableInnerMainDim : YGFloat) : Bool :=
  isNodeFlexWrap && decide (1 ≤ itemsOnLine) &&
    fgt (fadd (fadd sizeConsumed margin) boundedBasis) availableInnerMainDim

/-- A child of 60 by 50 with the computed flex basis 60. -/
def basis60Child : RNYGTree 0 :=
  let child := sizedChild (some 60) (some 50)
  { child with layout := { child.layout with computedFlexBasis := some 60 } }

/-- A row of 100 by 200 with wrap and three children of 60 by 50. -/
def wrapRow : RNYGTree 1 :=
  let node := sizedRoot 100 200
    [sizedChild (some 60) (some 50), sizedChild (some 60) (some 50),
      sizedChild (some 60) (some 50)]
  { node with
    style :=
      { node.style with
        flexDirection := RNYGFlexDirection.Row
        flexWrap := RNYGWrap.Wrap } }

/-- The direction and the margins of the layout of a node. -/
def RNYGNode.layoutEdges {C : Type} (node : RNYGNode C) : RNYGDirection × (RNYGEdge → YGFloat) :=
  (node.layout.direction, node.layout.margin)

/-- `RNYGNodeLayoutGetMargin` (`RNYG_NODE_LAYOUT_RESOLVED_PROPERTY_IMPL`, RNYoga.cpp:701); `none`
when the assertion `edge <= RNYGEdgeEnd` fails. -/
def RNYGNodeLayoutGetMargin {C : Type} (node : RNYGNode C) (edge : RNYGEdge) : Option YGFloat :=
  if edge = RNYGEdge.Horizontal ∨ edge = RNYGEdge.Vertical ∨ edge = RNYGEdge.All then none
  else if edge = RNYGEdge.Left then
    if node.layout.direction = RNYGDirection.RTL then some (node.layout.margin RNYGEdge.End)
    else some (node.layout.margin RNYGEdge.Start)
  else if edge = RNYGEdge.Right then
    if node.layout.direction = RNYGDirection.RTL then some (node.layout.margin RNYGEdge.Start)
    else some (node.layout.margin RNYGEdge.End)
  else some (node.layout.margin edge)

/-- The margin of a physical edge resolved against the parent width: the value of the edge,
else of `horizontal` or `vertical`, else of `all`, else zero. -/
def resolvedMargin {C : Type} (node : RNYGNode C) (edge : RNYGEdge) (parentWidth : YGFloat) :
    YGFloat :=
  RNYGResolveValueMargin (RNYGComputedEdgeValue node.style.margin edge RNYGValueZero) parentWidth

/-- A dirty root of 100 by 50 with the direction RTL, the left margin 10 and the right margin
20. -/
def rtlMarginRoot : RNYGTree 0 :=
  let node := sizedChild (some 100) (some 50)
  { node with
    parent := RNYGParentRef.null
    style :=
      { node.style with
        direction := RNYGDirection.RTL
        margin := Function.update
          (Function.update node.style.margin RNYGEdge.Left
            { value := some 10, unit := RNYGUnit.Point })
          RNYGEdge.Right { value := some 20, unit := RNYGUnit.Point } } }

/-- The style of a node (what `RNYGNodeBoundAxis` and the margin accessors read). -/
def RNYGNode.frameStyle {C : Type} (node : RNYGNode C) : RNYGStyle := node.style

/-- The cross size of a stretched child in the words of the specification: the inner cross
size of the container minus the cross-axis margins of the child. -/
def stretchedCrossSizeAsClaimed {D : Type} (innerCross availableInnerWidth : YGFloat)
    (crossAxis : RNYGFlexDirection) (child : RNYGNode D) : YGFloat :=
  fsub innerCross (child.getMarginForAxis crossAxis availableInnerWidth)

/-- The measure mode of a size that STEP 7 requests of a stretched child (RNYoga.cpp:2726):
exactly, or undefined for an undefined size. -/
def stretchRequestMode (size : YGFloat) : RNYGMeasureMode :=
  if RNYGFloatIsUndefined size then RNYGMeasureMode.Undefined else RNYGMeasureMode.Exactly

/-- The width and the height that STEP 7 requests of a stretched child without aspect ratio
(RNYoga.cpp:2695): on the main axis the measured size of the child plus its margins, on the
cross axis the cross size `crossDim` of the line, each capped by
`RNYGConstrainMaxSizeForMode`. -/
def stretchRequest {D : Type} (l : RNYGNodelayoutImpl.Locals)
    (availableInnerMainDim crossDim : YGFloat) (child : RNYGNode D) : YGFloat × YGFloat :=
  let childMainSize :=
    fadd (child.layout.measuredDimensions (dim l.mainAxis))
      (child.getMarginForAxis l.mainAxis l.availableInnerWidth)
  let childMainSize := (RNYGConstrainMaxSizeForMode child l.mainAxis availableInnerMainDim
    l.availableInnerWidth RNYGMeasureMode.Exactly childMainSize).2
  let childCrossSize := (RNYGConstrainMaxSizeForMode child l.crossAxis
    l.availableInnerCrossDim l.availableInnerWidth RNYGMeasureMode.Exactly crossDim).2
  (if l.isMainAxisRow then childMainSize else childCrossSize,
    if !l.isMainAxisRow then childMainSize else childCrossSize)

/-- The cross size that the stretch request of STEP 7 gives the child: the requested cross
size minus the cross-axis margins of the child, bounded by the minimum and maximum of the
child and floored at its padding and border (`RNYGNodeBoundAxis`).  A child with a measure
callback resolves its margins against the requested width, the others against the inner
width of the container. -/
def stretchedCrossSize {D : Type} (l : RNYGNodelayoutImpl.Locals)
    (availableInnerMainDim crossDim : YGFloat) (child : RNYGNode D) : YGFloat :=
  let request := stretchRequest l availableInnerMainDim crossDim child
  let marginBase := if child.measure.isSome then request.1 else l.availableInnerWidth
  if l.isMainAxisRow then
    RNYGNodeBoundAxis child RNYGFlexDirection.Column
      (fsub request.2 (child.getMarginForAxis RNYGFlexDirection.Column marginBase))
      l.availableInnerHeight l.availableInnerWidth
  else
    RNYGNodeBoundAxis child RNYGFlexDirection.Row
      (fsub request.1 (child.getMarginForAxis RNYGFlexDirection.Row marginBase))
      l.availableInnerWidth l.availableInnerWidth

/-- A dirty child without dimensions whose maximum width is 50. -/
def cappedWidthChild : RNYGTree 0 :=
  let child := sizedChild none none
  { child with
    style :=
      { child.style with
        maxDimensions := Function.update child.style.maxDimensions RNYGDimension.Width
          { value := some 50, unit := RNYGUnit.Point } } }

/-- A column root of 100 by 100 with the child `cappedWidthChild`. -/
def cappedWidthColumn : RNYGTree 1 := sizedRoot 100 100 [cappedWidthChild]

/-- A column root of 100 by 100 with one child without dimensions. -/
def plainColumn : RNYGTree 1 := sizedRoot 100 100 [sizedChild none none]

/-- The positions of the layout of a node. -/
def RNYGNode.framePosition {C : Type} (node : RNYGNode C) : RNYGEdge → YGFloat :=
  node.layout.position

/-- The span between the leading and the trailing position of an absolute child on `axis`
(RNYoga.cpp:1209): the measured size of the parent minus its leading and trailing border and
minus the leading and the trailing position of the child. -/
def absoluteSpan {C D : Type} (node : RNYGNode C) (child : RNYGNode D)
    (axis : RNYGFlexDirection) (axisSize : YGFloat) : YGFloat :=
  fsub
    (fsub (node.layout.measuredDimensions (dim axis))
      (fadd (node.getLeadingBorder axis) (node.getTrailingBorder axis)))
    (fadd (child.getLeadingPosition axis axisSize) (child.getTrailingPosition axis axisSize))

/-- The size of an absolute child on `axis` in the words of the specification: the span,
clamped by the minimum and maximum of the child and by its padding and border. -/
def absoluteSizeAsClaimed {C D : Type} (node : RNYGNode C) (child : RNYGNode D)
    (axis : RNYGFlexDirection) (axisSize width : YGFloat) : YGFloat :=
  RNYGNodeBoundAxis child axis (absoluteSpan node child axis axisSize) axisSize width

/-- The value of `childWidth` (`axis = Row`, `axisSize = width`) or `childHeight`
(`axis = Column`, `axisSize = height`) that `RNYGNodeAbsoluteLayoutChild` computes from the
style of the child (RNYoga.cpp:1199): the style dimension plus the margins when it is
definite, else the bounded span when both positions are defined, else undefined. -/
def absoluteOuterSize {C D : Type} (node : RNYGNode C) (child : RNYGNode D)
    (axis : RNYGFlexDirection) (axisSize width : YGFloat) : YGFloat :=
  if RNYGNodeIsStyleDimDefined child axis axisSize then
    fadd (RNYGResolveValue (child.resolvedDimensions (dim axis)) axisSize)
      (child.getMarginForAxis axis width)
  else if child.isLeadingPositionDefined axis && child.isTrailingPosDefined axis then
    RNYGNodeBoundAxis child axis (absoluteSpan node child axis axisSize) axisSize width
  else RNYGUndefined

/-- The width and the height that the lay-out of an absolute child gives it when
`RNYGNodeAbsoluteLayoutChild` knows both outer sizes: the outer size minus the margins of the
child on that axis, bounded by `RNYGNodeBoundAxis`; the outer sizes stand for the sizes of the
parent. -/
def absoluteSize {C D : Type} (node : RNYGNode C) (child : RNYGNode D)
    (width height : YGFloat) : YGFloat × YGFloat :=
  let childWidth := absoluteOuterSize node child RNYGFlexDirection.Row width width
  let childHeight := absoluteOuterSize node child RNYGFlexDirection.Column height width
  (RNYGNodeBoundAxis child RNYGFlexDirection.Row
      (fsub childWidth (child.getMarginForAxis RNYGFlexDirection.Row childWidth))
      childWidth childWidth,
    RNYGNodeBoundAxis child RNYGFlexDirection.Column
      (fsub childHeight (child.getMarginForAxis RNYGFlexDirection.Column childWidth))
      childHeight childWidth)

/-- A dirty absolute child without dimensions with left 10, right 20, top 5, bottom 15 and the
given left margin (`none` is no margin). -/
def absoluteChild (marginLeft : Option ℚ) : RNYGTree 0 :=
  let child := sizedChild none none
  { child with
    style :=
      { child.style with
        positionType := RNYGPositionType.Absolute
        position := fun e =>
          match e with
          | RNYGEdge.Left => { value := some 10, unit := RNYGUnit.Point }
          | RNYGEdge.Right => { value := some 20, unit := RNYGUnit.Point }
          | RNYGEdge.Top => { value := some 5, unit := RNYGUnit.Point }
          | RNYGEdge.Bottom => { value := some 15, unit := RNYGUnit.Point }
          | _ => RNYGValueUndefined
        margin := fun e =>
          match e, marginLeft with
          | RNYGEdge.Left, some m => { value := some m, unit := RNYGUnit.Point }
          | _, _ => RNYGValueUndefined } }

/-- A column root of 100 by 100 with the child `absoluteChild marginLeft`. -/
def absoluteRoot (marginLeft : Option ℚ) : RNYGTree 1 :=
  sizedRoot 100 100 [absoluteChild marginLeft]

/-- The lefts of the children of an RTL row in the words of the specification: the left of the
`k`-th child is `W - (w1 + ... + wk)`. -/
def rtlLeftsAsClaimed (W : ℚ) (ws : List ℚ) : List ℚ :=
  (List.range ws.length).map (fun k => W - (ws.take (k + 1)).sum)

/-- The lefts of the children of widths `ws` that are placed from the right edge of a
container of width `W`, the first one at the distance `offset` from that edge: the left of a
child is `W` minus its width and minus its distance from the right edge. -/
def rtlLefts (W : ℚ) : ℚ → List ℚ → List ℚ
  | _, [] => []
  | offset, w :: ws => (W - w - offset) :: rtlLefts W (offset + w) ws

/-- A child that the main-axis justification places as a fixed box of size `w`: it is
displayed and relative, has no auto margin and no margin on the main axis, its measured size
on the main axis is `w`, and its position on the main axis was initialised to 0 (no margin, no
position offset). -/
def isFixedBox {D : Type} (mainAxis : RNYGFlexDirection) (availableInnerWidth : YGFloat)
    (child : RNYGNode D) (w : ℚ) : Prop :=
  child.style.display ≠ RNYGDisplay.None ∧
  child.style.positionType = RNYGPositionType.Relative ∧
  (child.marginLeadingValue mainAxis).unit ≠ RNYGUnit.Auto ∧
  (child.marginTrailingValue mainAxis).unit ≠ RNYGUnit.Auto ∧
  child.getLeadingMargin mainAxis availableInnerWidth = some 0 ∧
  child.getTrailingMargin mainAxis availableInnerWidth = some 0 ∧
  child.layout.measuredDimensions (dim mainAxis) = some w ∧
  child.layout.position (pos mainAxis) = some 0

/-- A root of 100 by 50 with direction RTL, flex direction row, the given right padding
(`none` is no padding) and two children of width 30. -/
def rtlRow (paddingRight : Option ℚ) : RNYGTree 1 :=
  let node := sizedRoot 100 50 [sizedChild (some 30) none, sizedChild (some 30) none]
  { node with
    style :=
      { node.style with
        direction := RNYGDirection.RTL
        flexDirection := RNYGFlexDirection.Row
        padding := fun e =>
          match e, paddingRight with
          | RNYGEdge.Right, some p => { value := some p, unit := RNYGUnit.Point }
          | _, _ => RNYGValueUndefined } }

/-- The two children of `rtlRow` as the main-axis justification finds them: measured 30 by 50,
positions initialised to 0. -/
def rtlLine : List (RNYGTree 0) :=
  let child := withMeasuredDimensions (sizedChild (some 30) none) (some 30) (some 50)
  let child :=
    { child with
      layout := { child.layout with position := fun _ => some 0 } }
  [child, child]

/-- The values of the line `rtlLine` in a row of inner width 90: two items, the consumed
size 60 and the remaining free space 30. -/
def rtlLineValues : RNYGCollectFlexItemsRowValues :=
  { RNYGCollectFlexItemsRowValues.zero with
    itemsOnLine := 2
    sizeConsumedOnCurrentLine := some 60
    endOfLineIndex := 2
    relativeChildren := [0, 1]
    remainingFreeSpace := some 30 }

/-! ## Edge getters, bounds, lines, caches and rounding: statements and concrete inputs -/

/-- The leading position of a node on a row axis whose start slot is not set, in the words of
the specification: the effective value of the physical leading edge (the edge itself, then
horizontal, then all), resolved, or 0 when that is undefined. -/
def leadingPositionAsClaimed {C : Type} (node : RNYGNode C) (axis : RNYGFlexDirection)
    (axisSize : YGFloat) : YGFloat :=
  let leadingPosition :=
    RNYGComputedEdgeValue node.style.position (leading axis) RNYGValueUndefined
  if leadingPosition.unit = RNYGUnit.Undefined then some 0
  else RNYGResolveValue leadingPosition axisSize

/-- The trailing position of a node on a row axis whose end slot is not set, in the words of
the specification. -/
def trailingPositionAsClaimed {C : Type} (node : RNYGNode C) (axis : RNYGFlexDirection)
    (axisSize : YGFloat) : YGFloat :=
  let trailingPosition :=
    RNYGComputedEdgeValue node.style.position (trailing axis) RNYGValueUndefined
  if trailingPosition.unit = RNYGUnit.Undefined then some 0
  else RNYGResolveValue trailingPosition axisSize

/-- The edges with left 10 and horizontal 20 (points), every other slot undefined. -/
def leftAndHorizontalEdges : RNYGEdge → RNYGValue := fun e =>
  match e with
  | RNYGEdge.Left => { value := some 10, unit := RNYGUnit.Point }
  | RNYGEdge.Horizontal => { value := some 20, unit := RNYGUnit.Point }
  | _ => RNYGValueUndefined

/-- A child of 30 by 30 whose position edges are `leftAndHorizontalEdges`. -/
def leftAndHorizontalChild : RNYGTree 0 :=
  let child := sizedChild (some 30) (some 30)
  { child with style := { child.style with position := leftAndHorizontalEdges } }

/-- A child of 30 by 30 whose margin edges are `leftAndHorizontalEdges`. -/
def leftAndHorizontalMarginChild : RNYGTree 0 :=
  let child := sizedChild (some 30) (some 30)
  { child with style := { child.style with margin := leftAndHorizontalEdges } }

/-- The clamp of a value to a maximum, applied only when the maximum is defined and not
negative. -/
def clampToMax (max value : YGFloat) : YGFloat :=
  if !RNYGFloatIsUndefined max && fge max (some 0) && fgt value max then max else value

/-- The clamp of a value to a minimum, applied only when the minimum is defined and not
negative. -/
def clampToMin (min value : YGFloat) : YGFloat :=
  if !RNYGFloatIsUndefined min && fge min (some 0) && flt value min then min else value

/-- `RNYGNodeBoundAxis` in the words of the specification: `max(c, padding+border)`, where `c`
is the value clamped first to the resolved maximum dimension of the axis and then to the
resolved minimum dimension. -/
def boundAxisAsClaimed {C : Type} (node : RNYGNode C) (axis : RNYGFlexDirection)
    (value axisSize widthSize : YGFloat) : YGFloat :=
  let min := RNYGResolveValue (node.style.minDimensions (dim axis)) axisSize
  let max := RNYGResolveValue (node.style.maxDimensions (dim axis)) axisSize
  fmaxf (clampToMin min (clampToMax max value))
    (RNYGNodePaddingAndBorderForAxis node axis widthSize)

/-- A node without padding and border whose minimum width is 20. -/
def minWidthNode : RNYGTree 0 :=
  let node := sizedChild none none
  { node with
    style :=
      { node.style with
        minDimensions := Function.update node.style.minDimensions RNYGDimension.Width
          { value := some 20, unit := RNYGUnit.Point } } }

/-- A node without padding and border whose minimum width 20 is above its maximum width 10. -/
def minAboveMaxNode : RNYGTree 0 :=
  let node := sizedChild none none
  { node with
    style :=
      { node.style with
        minDimensions := Function.update node.style.minDimensions RNYGDimension.Width
          { value := some 20, unit := RNYGUnit.Point }
        maxDimensions := Function.update node.style.maxDimensions RNYGDimension.Width
          { value := some 10, unit := RNYGUnit.Point } } }

/-- `RNYGNodeIsStyleDimDefined` in the words of the specification: the resolved dimension of the
axis resolves, against the parent size, to a defined number that is not negative. -/
def isStyleDimDefinedAsClaimed {C : Type} (node : RNYGNode C) (axis : RNYGFlexDirection)
    (parentSize : YGFloat) : Bool :=
  let resolved := RNYGResolveValue (node.resolvedDimensions (dim axis)) parentSize
  !RNYGFloatIsUndefined resolved && fge resolved (some 0)

/-- A node of width 50 % and automatic height, with its dimensions resolved. -/
def halfWidthNode : RNYGTree 0 :=
  let node := sizedChild none none
  RNYGNode.resolveDimension
    { node with
      style :=
        { node.style with
          dimensions := Function.update node.style.dimensions RNYGDimension.Width
            { value := some 50, unit := RNYGUnit.Percent } } }

/-- A dirty child of the given width and automatic height with the given flex-grow and
flex-shrink. -/
def flexChild (width grow shrink : ℚ) : RNYGTree 0 :=
  let node := sizedChild (some width) none
  { node with style := { node.style with flexGrow := some grow, flexShrink := some shrink } }

/-- A row of 100 by 50 with the given children. -/
def flexRow (children : List (RNYGTree 0)) : RNYGTree 1 :=
  let node := sizedRoot 100 50 children
  { node with style := { node.style with flexDirection := RNYGFlexDirection.Row } }

/-- The computed flex bases of the children of the root after `RNYGNodeCalculateLayout` with
undefined parent sizes and the parent direction LTR. -/
def childFlexBasesAfterLayout (root : RNYGTree 1) : Option (List YGFloat) :=
  (RNYGNodeCalculateLayout (fun _ _ => true) 1 0 root RNYGUndefined RNYGUndefined
    RNYGDirection.LTR).map (fun r => r.1.children.map (fun c => c.layout.computedFlexBasis))

namespace RNYGHeap

/-- The node owns its children: every entry of its child list is a live node whose parent is
the node. -/
def OwnsChildren (h : RNYGHeap) (node : RNYGNodeRef) : Prop :=
  ∀ nd c, h.get node = some nd → c ∈ nd.children →
    ∃ cd, h.get c = some cd ∧ cd.parent = some node

/-- A heap with a node that has a measure callback (slot 0) and a new node (slot 1). -/
def measureAndOrphanHeap : RNYGHeap :=
  { nodes :=
      [some { newNode gYGConfigDefaults with
        measure := some nanMeasure, nodeType := RNYGNodeType.Text },
       some (newNode gYGConfigDefaults)]
    dirtiedLog := []
    clonedLog := [] }

/-- A heap with a root (slot 0), its two children (slots 1 and 2) and a new node (slot 3). -/
def familyAndOrphanHeap : RNYGHeap :=
  { nodes :=
      [some { newNode gYGConfigDefaults with children := [1, 2] },
       some { newNode gYGConfigDefaults with parent := some 0 },
       some { newNode gYGConfigDefaults with parent := some 0 },
       some (newNode gYGConfigDefaults)]
    dirtiedLog := []
    clonedLog := [] }

end RNYGHeap

/-- The states of a node of a tree of level `n` that are reached from a newly constructed node:
through calls of `RNYGLayoutNodeInternal` on the node that return, and through the other
operations on a node, which leave `nextCachedMeasurementsIndex` as it is (the style setters, the
child operations and the setters that `RNYGNodelayoutImpl` of the parent calls) or set it to 0
(`RNYGZeroOutLayoutRecursivly` and a new `RNYGLayout`). -/
inductive RNYGLayoutNodeInternal.Reachable : (n : Nat) → RNYGTree n → Prop where
  | fresh (n : Nat) (config : RNYGConfig) :
    RNYGLayoutNodeInternal.Reachable n (RNYGNodeNewWithConfig config)
  | other (n : Nat) (node node' : RNYGTree n) :
    RNYGLayoutNodeInternal.Reachable n node →
    (node'.layout.nextCachedMeasurementsIndex = node.layout.nextCachedMeasurementsIndex ∨
      node'.layout.nextCachedMeasurementsIndex = 0) →
    RNYGLayoutNodeInternal.Reachable n node'
  | call (gen n : Nat) (node : RNYGTree n) (availableWidth availableHeight : YGFloat)
    (parentDirection : RNYGDirection) (widthMeasureMode heightMeasureMode : RNYGMeasureMode)
    (parentWidth parentHeight : YGFloat) (performLayout : Bool) (config : RNYGConfig)
    (r : RNYGTree n) (flag : Bool) :
    RNYGLayoutNodeInternal.Reachable n node →
    RNYGLayoutNodeInternal gen n node availableWidth availableHeight parentDirection
      widthMeasureMode heightMeasureMode parentWidth parentHeight performLayout config
        = some (r, flag) →
    RNYGLayoutNodeInternal.Reachable n r

/-! ## Theorems -/

/-! ### Helpers on `Option` -/

theorem Option.map_eq_some_of_forall {α β : Type} (o : Option α) (f : α → β) (v : β)
    (hs : o.isSome = true) (h : ∀ r, o = some r → f r = v) : o.map f = some v := by
  cases o with
  | none => simp at hs
  | some r => simp [h r rfl]

theorem Option.map_fst_eq_some_of_forall {α β : Type} (o : Option (α × Bool)) (f : α → β)
    (v : β) (hflag : o.map Prod.snd = some true) (h : ∀ r, o = some (r, true) → f r = v) :
    o.map (fun p => f p.1) = some v := by
  cases o with
  | none => simp at hflag
  | some p =>
    obtain ⟨r, b⟩ := p
    simp only [Option.map_some', Option.some.injEq] at hflag
    subst hflag
    simp [h r rfl]

theorem Option.get_of_map_eq_some {α β : Type} (o : Option α) (g : α → β) (v : β)
    (hmap : o.map g = some v) (hx : o.isSome = true) : g (o.get hx) = v := by
  cases o with
  | none => simp at hx
  | some a => simpa using hmap


/-! ### Rounding of a value to the pixel grid -/

theorem truncQ_zero : truncQ 0 = 0 := by simp [truncQ]

theorem RNYGRoundValueToPixelGrid_zero_scale (v : YGFloat) (fc ff : Bool) :
    RNYGRoundValueToPixelGrid v (some 0) fc ff = none := by
  cases v with
  | none =>
    simp [RNYGRoundValueToPixelGrid, fmul, fmodf1, RNYGFloatsEqualWithPrecision,
      RNYGFloatIsUndefined, fsub, fadd, fdiv]
  | some x =>
    simp [RNYGRoundValueToPixelGrid, fmul, fmodf1, RNYGFloatsEqualWithPrecision,
      RNYGFloatIsUndefined, fsub, fadd, fdiv, truncQ_zero, fabs, flt, fmaxf]

theorem RNYGRoundToPixelGrid_zero_scale (n : Nat) (node : RNYGTree n) (l t : YGFloat) :
    RNYGRoundToPixelGrid n node (some 0) l t = node := by
  cases n with
  | zero => simp [RNYGRoundToPixelGrid, RNYGRoundToPixelGrid.leaf, feq]
  | succ n => simp [RNYGRoundToPixelGrid, RNYGRoundToPixelGrid.step, feq]

/-! ### The root request of `RNYGNodeCalculateLayout` -/

theorem RNYGNodeCalculateLayout.rootWidth_eq_spec (node : RNYGNode C) (parentWidth : YGFloat) :
    RNYGNodeCalculateLayout.rootWidth node parentWidth =
      rootAxisRequestSpec (RNYGNodeIsStyleDimDefined node RNYGFlexDirection.Row parentWidth)
        (RNYGResolveValue (node.resolvedDimensions RNYGDimension.Width) parentWidth)
        (node.getMarginForAxis RNYGFlexDirection.Row parentWidth)
        (RNYGResolveValue (node.style.maxDimensions RNYGDimension.Width) parentWidth)
        parentWidth := by
  unfold RNYGNodeCalculateLayout.rootWidth rootAxisRequestSpec
  cases parentWidth <;> simp [dim, RNYGFloatIsUndefined, RNYGUndefined]

theorem RNYGNodeCalculateLayout.rootHeight_eq_spec (node : RNYGNode C)
    (parentWidth parentHeight : YGFloat) :
    RNYGNodeCalculateLayout.rootHeight node parentWidth parentHeight =
      rootAxisRequestSpec (RNYGNodeIsStyleDimDefined node RNYGFlexDirection.Column parentHeight)
        (RNYGResolveValue (node.resolvedDimensions RNYGDimension.Height) parentHeight)
        (node.getMarginForAxis RNYGFlexDirection.Column parentWidth)
        (RNYGResolveValue (node.style.maxDimensions RNYGDimension.Height) parentHeight)
        parentHeight := by
  unfold RNYGNodeCalculateLayout.rootHeight rootAxisRequestSpec
  cases parentHeight <;> simp [dim, RNYGFloatIsUndefined, RNYGUndefined]

/-- C2: for every root node, every generation count and every parent width, height and
direction, `RNYGNodeCalculateLayout` calls the recursive driver `RNYGLayoutNodeInternal` on
the node (with its dimensions resolved) with, for each axis, the size and the mode that the
specification gives: (resolved style dimension + margin of the axis, exactly) if the style
dimension is defined, else (resolved max dimension, at-most) if the max dimension resolves to
a value >= 0, else (parent size, exactly) if the parent size is defined and (undefined,
undefined) if it is not; `performLayout` is true, and the rest of the function runs on what
the driver returns. -/
theorem RNYGNodeCalculateLayout_passes_root_request
    (layoutEq : RNYGLayout → RNYGLayout → Bool) (n : Nat) (gCurrentGenerationCount : Nat)
    (node : RNYGTree n) (parentWidth parentHeight : YGFloat) (parentDirection : RNYGDirection) :
    RNYGNodeCalculateLayout layoutEq n gCurrentGenerationCount node parentWidth parentHeight
        parentDirection =
      (RNYGLayoutNodeInternal ((gCurrentGenerationCount + 1) % 2 ^ 32) n node.resolveDimension
        (rootAxisRequestSpec
          (RNYGNodeIsStyleDimDefined node.resolveDimension RNYGFlexDirection.Row parentWidth)
          (RNYGResolveValue (node.resolveDimension.resolvedDimensions RNYGDimension.Width)
            parentWidth)
          (node.resolveDimension.getMarginForAxis RNYGFlexDirection.Row parentWidth)
          (RNYGResolveValue (node.resolveDimension.style.maxDimensions RNYGDimension.Width)
            parentWidth)
          parentWidth).1
        (rootAxisRequestSpec
          (RNYGNodeIsStyleDimDefined node.resolveDimension RNYGFlexDirection.Column parentHeight)
          (RNYGResolveValue (node.resolveDimension.resolvedDimensions RNYGDimension.Height)
            parentHeight)
          (node.resolveDimension.getMarginForAxis RNYGFlexDirection.Column parentWidth)
          (RNYGResolveValue (node.resolveDimension.style.maxDimensions RNYGDimension.Height)
            parentHeight)
          parentHeight).1
        parentDirection
        (rootAxisRequestSpec
          (RNYGNodeIsStyleDimDefined node.resolveDimension RNYGFlexDirection.Row parentWidth)
          (RNYGResolveValue (node.resolveDimension.resolvedDimensions RNYGDimension.Width)
            parentWidth)
          (node.resolveDimension.getMarginForAxis RNYGFlexDirection.Row parentWidth)
          (RNYGResolveValue (node.resolveDimension.style.maxDimensions RNYGDimension.Width)
            parentWidth)
          parentWidth).2
        (rootAxisRequestSpec
          (RNYGNodeIsStyleDimDefined node.resolveDimension RNYGFlexDirection.Column parentHeight)
          (RNYGResolveValue (node.resolveDimension.resolvedDimensions RNYGDimension.Height)
            parentHeight)
          (node.resolveDimension.getMarginForAxis RNYGFlexDirection.Column parentWidth)
          (RNYGResolveValue (node.resolveDimension.style.maxDimensions RNYGDimension.Height)
            parentHeight)
          parentHeight).2
        parentWidth parentHeight true node.resolveDimension.config).bind
      (RNYGNodeCalculateLayout.finish layoutEq n ((gCurrentGenerationCount + 1) % 2 ^ 32)
        (RNYGNodeCalculateLayout.rootWidth node.resolveDimension parentWidth).1
        (RNYGNodeCalculateLayout.rootHeight node.resolveDimension parentWidth parentHeight).1
        (RNYGNodeCalculateLayout.rootWidth node.resolveDimension parentWidth).2
        (RNYGNodeCalculateLayout.rootHeight node.resolveDimension parentWidth parentHeight).2
        parentWidth parentHeight parentDirection) := by
  rw [← RNYGNodeCalculateLayout.rootWidth_eq_spec, ← RNYGNodeCalculateLayout.rootHeight_eq_spec]
  rfl

/-! ### The reuse predicate of the measurement cache -/

/-- C3 (counterexample): an invalidated cache entry (modes -1, computed sizes -1) and the
request (exactly, 9) on both axes with margins 10: on each axis the new size minus the margin
equals the last computed size, which is case (2) of the claim, and the code returns false.
The two axes have the same arguments, so one statement of the claimed condition covers both. -/
theorem RNYGNodeCanUseCachedMeasurement_not_as_claimed :
    RNYGNodeCanUseCachedMeasurement RNYGMeasureMode.Exactly (some 9) RNYGMeasureMode.Exactly
        (some 9) none (some 0) none (some 0) (some (-1)) (some (-1)) (some 10) (some 10) none
      = false ∧
    CacheAxisCompatibleAsClaimed none RNYGMeasureMode.Exactly (some 9) none (some 0) (some (-1))
      (some 10) := by
  refine ⟨by decide!, Or.inr (Or.inl ⟨rfl, by decide!⟩)⟩

/-- C3 (amended): `RNYGNodeCanUseCachedMeasurement` returns true if and only if neither last
computed size is below 0 and, for the width axis and for the height axis, one of these holds:
(1) the last mode equals the new mode and the two sizes, rounded to the pixel grid when the
configuration has a scale factor other than 0, are equal; (2) the new mode is exactly and the
new size minus margin equals the last computed size; (3) the new mode is at-most, the last mode
is undefined and the new size minus margin is >= the last computed size or equal to it; (4)
both modes are at-most, the new size minus margin is smaller than the last size and the last
computed size is <= the new size minus margin or equal to it.  Equal means `RNYGFloatsEqual`. -/
theorem RNYGNodeCanUseCachedMeasurement_iff (widthMode : RNYGMeasureMode) (width : YGFloat)
    (heightMode : RNYGMeasureMode) (height : YGFloat)
    (lastWidthMode : Option RNYGMeasureMode) (lastWidth : YGFloat)
    (lastHeightMode : Option RNYGMeasureMode) (lastHeight : YGFloat)
    (lastComputedWidth lastComputedHeight marginRow marginColumn : YGFloat)
    (config : Option RNYGConfig) :
    RNYGNodeCanUseCachedMeasurement widthMode width heightMode height lastWidthMode lastWidth
        lastHeightMode lastHeight lastComputedWidth lastComputedHeight marginRow marginColumn
        config = true ↔
      flt lastComputedHeight (some 0) = false ∧ flt lastComputedWidth (some 0) = false ∧
      CacheAxisCompatible config widthMode width lastWidthMode lastWidth lastComputedWidth
        marginRow ∧
      CacheAxisCompatible config heightMode height lastHeightMode lastHeight lastComputedHeight
        marginColumn := by
  unfold RNYGNodeCanUseCachedMeasurement CacheAxisCompatible cacheEffectiveSize
  cases config with
  | none =>
    simp only [RNYGMeasureModeSizeIsExactAndMatchesOldMeasuredSize,
      RNYGMeasureModeOldSizeIsUnspecifiedAndStillFits,
      RNYGMeasureModeNewMeasureSizeIsStricterAndStillValid, fgt]
    by_cases h1 : flt lastComputedHeight (some 0) = true <;>
    by_cases h2 : flt lastComputedWidth (some 0) = true <;>
    simp [h1, h2, and_assoc, or_assoc, and_left_comm]
  | some c =>
    simp only [RNYGMeasureModeSizeIsExactAndMatchesOldMeasuredSize,
      RNYGMeasureModeOldSizeIsUnspecifiedAndStillFits,
      RNYGMeasureModeNewMeasureSizeIsStricterAndStillValid, fgt]
    by_cases h1 : flt lastComputedHeight (some 0) = true <;>
    by_cases h2 : flt lastComputedWidth (some 0) = true <;>
    by_cases h3 : fne c.pointScaleFactor (some 0) = true <;>
    simp [h1, h2, h3, and_assoc, or_assoc, and_left_comm]

/-! ### Claims on `RNYGRoundValueToPixelGrid` -/

/-- C5 (the code at the failing input): at scale 1 the value -0.7 is rounded to 0, not to the
nearest multiple -1; its distance 0.7 from the value exceeds 1/(2s) plus the snapping
tolerance. -/
theorem RNYGRoundValueToPixelGrid_negative_not_nearest :
    RNYGRoundValueToPixelGrid (some (-7 / 10)) (some 1) false false = some 0 ∧
    1 / (2 * 1) + roundingTolerance 1 / 1 < |(-7 / 10 : ℚ) - 0| := by
  refine ⟨by decide!, ?_⟩
  unfold roundingTolerance
  rw [abs_of_neg (by norm_num)]
  norm_num

/-- C8 (counterexample): with scale factor 0 the value 1 is not returned unchanged; the result
is undefined (the quotient 0 / 0). -/
theorem RNYGRoundValueToPixelGrid_scale_zero_changes_value :
    RNYGRoundValueToPixelGrid (some 1) (some 0) false false ≠ some 1 ∧
    RNYGRoundValueToPixelGrid (some 1) (some 0) false false = RNYGUndefined := by
  refine ⟨by decide!, by decide!⟩

/-- C8 (amended): for every value and every choice of `forceCeil` and `forceFloor`,
`RNYGRoundValueToPixelGrid` with scale factor 0 returns the undefined value; it is
`RNYGRoundToPixelGrid` that a scale factor of 0 disables: it returns the tree unchanged. -/
theorem RNYGRoundValueToPixelGrid_scale_zero (v : YGFloat) (forceCeil forceFloor : Bool)
    (n : Nat) (node : RNYGTree n) (absoluteLeft absoluteTop : YGFloat) :
    RNYGRoundValueToPixelGrid v (some 0) forceCeil forceFloor = RNYGUndefined ∧
    RNYGRoundToPixelGrid n node (some 0) absoluteLeft absoluteTop = node :=
  ⟨RNYGRoundValueToPixelGrid_zero_scale v forceCeil forceFloor,
    RNYGRoundToPixelGrid_zero_scale n node absoluteLeft absoluteTop⟩

/-! ### Evaluations of the layout on concrete trees -/

/-- C1 (the code at the failing input): a root without children with style width 100.4 and
height 10, default configuration (scale factor 1).  After the first `RNYGNodeCalculateLayout`
the layout width is 100; after a second call with the same arguments it is 100.4. -/
theorem RNYGNodeCalculateLayout_second_call_changes_root_width :
    (RNYGNodeCalculateLayout (fun _ _ => true) 0 0 fractionalRoot none none
        RNYGDirection.LTR).map (fun r => r.1.layout.dimensions RNYGDimension.Width)
      = some (some 100) ∧
    ((RNYGNodeCalculateLayout (fun _ _ => true) 0 0 fractionalRoot none none
        RNYGDirection.LTR).bind (fun r =>
          RNYGNodeCalculateLayout (fun _ _ => true) 0 r.2 r.1 none none
            RNYGDirection.LTR)).map (fun r => r.1.layout.dimensions RNYGDimension.Width)
      = some (some (502 / 5)) := by
  refine ⟨by decide!, by decide!⟩

/-- C7 (the code at the failing inputs): at scale 1 and absolute origin (0, 0), a text node at
left -0.5 of width 1 gets the width 0, and a text node at left 0.995 of width 1.01 gets the
width 1. -/
theorem RNYGRoundToPixelGrid_text_width_rounded_down :
    (RNYGRoundToPixelGrid 0 (textNodeAt (-1 / 2) 1) (some 1) (some 0) (some 0)).layout.dimensions
        RNYGDimension.Width = some 0 ∧
    (RNYGRoundToPixelGrid 0 (textNodeAt (199 / 200) (101 / 100)) (some 1) (some 0)
        (some 0)).layout.dimensions RNYGDimension.Width = some 1 := by
  refine ⟨by decide!, by decide!⟩

theorem RNYGNode.setPosition_isDirty (node : RNYGNode C) (direction : RNYGDirection)
    (mainSize crossSize parentWidth : YGFloat) :
    (node.setPosition direction mainSize crossSize parentWidth).isDirty = node.isDirty := rfl

theorem RNYGNode.setLayoutDirection_cacheState (node : RNYGNode C) (d : RNYGDirection) :
    (node.setLayoutDirection d).cacheState = node.cacheState := rfl

theorem RNYGNode.setLayoutMargin_cacheState (node : RNYGNode C) (v : YGFloat) (e : RNYGEdge) :
    (node.setLayoutMargin v e).cacheState = node.cacheState := rfl

theorem RNYGNode.setLayoutBorder_cacheState (node : RNYGNode C) (v : YGFloat) (e : RNYGEdge) :
    (node.setLayoutBorder v e).cacheState = node.cacheState := rfl

theorem RNYGNode.setLayoutPadding_cacheState (node : RNYGNode C) (v : YGFloat) (e : RNYGEdge) :
    (node.setLayoutPadding v e).cacheState = node.cacheState := rfl

theorem RNYGNode.setLayoutMeasuredDimension_cacheState (node : RNYGNode C) (v : YGFloat)
    (d : RNYGDimension) : (node.setLayoutMeasuredDimension v d).cacheState = node.cacheState :=
  rfl

theorem RNYGNode.setLayoutHadOverflow_cacheState (node : RNYGNode C) (b : Bool) :
    (node.setLayoutHadOverflow b).cacheState = node.cacheState := rfl

theorem RNYGNode.setLayoutDidUseLegacyFlag_cacheState (node : RNYGNode C) (b : Bool) :
    (node.setLayoutDidUseLegacyFlag b).cacheState = node.cacheState := rfl

theorem RNYGNodelayoutImpl.setup_cacheState (node : RNYGNode C) (pd : RNYGDirection)
    (pw : YGFloat) : (RNYGNodelayoutImpl.setup node pd pw).cacheState = node.cacheState := by
  simp only [RNYGNodelayoutImpl.setup, RNYGNode.setLayoutDirection_cacheState,
    RNYGNode.setLayoutMargin_cacheState, RNYGNode.setLayoutBorder_cacheState,
    RNYGNode.setLayoutPadding_cacheState]

theorem RNYGNodeWithMeasureFuncSetMeasuredDimensions_cacheState (node r : RNYGNode C)
    (aw ah : YGFloat) (wm hm : RNYGMeasureMode) (pw ph : YGFloat)
    (h : RNYGNodeWithMeasureFuncSetMeasuredDimensions node aw ah wm hm pw ph = some r) :
    r.cacheState = node.cacheState := by
  unfold RNYGNodeWithMeasureFuncSetMeasuredDimensions at h
  split at h
  · exact absurd h (by simp)
  · simp only at h
    split_ifs at h <;> simp only [Option.some.injEq] at h <;> rw [← h] <;> rfl

theorem RNYGNodeEmptyContainerSetMeasuredDimensions_cacheState (node : RNYGNode C)
    (aw ah : YGFloat) (wm hm : RNYGMeasureMode) (pw ph : YGFloat) :
    (RNYGNodeEmptyContainerSetMeasuredDimensions node aw ah wm hm pw ph).cacheState =
      node.cacheState := rfl

theorem RNYGNodeFixedSizeSetMeasuredDimensions_cacheState (node : RNYGNode C)
    (aw ah : YGFloat) (wm hm : RNYGMeasureMode) (pw ph : YGFloat) :
    (RNYGNodeFixedSizeSetMeasuredDimensions node aw ah wm hm pw ph).1.cacheState =
      node.cacheState := by
  unfold RNYGNodeFixedSizeSetMeasuredDimensions
  split_ifs <;> rfl

theorem RNYGNode.cloneChildrenIfNeeded_cacheState {D : Type} (node : RNYGNode (RNYGNode D)) :
    node.cloneChildrenIfNeeded.cacheState = node.cacheState := by
  unfold RNYGNode.cloneChildrenIfNeeded
  split
  · rfl
  · split_ifs <;> rfl

theorem RNYGNodelayoutImpl.leaf_cacheState (node r : RNYGNode PEmpty) (aw ah : YGFloat)
    (pd : RNYGDirection) (wm hm : RNYGMeasureMode) (pw ph : YGFloat)
    (h : RNYGNodelayoutImpl.leaf node aw ah pd wm hm pw ph = some r) :
    r.cacheState = node.cacheState := by
  unfold RNYGNodelayoutImpl.leaf at h
  simp only at h
  split_ifs at h
  · rw [RNYGNodeWithMeasureFuncSetMeasuredDimensions_cacheState _ _ _ _ _ _ _ _ h]
    exact RNYGNodelayoutImpl.setup_cacheState _ _ _
  · simp only [Option.some.injEq] at h
    rw [← h]
    exact (RNYGNodeEmptyContainerSetMeasuredDimensions_cacheState _ _ _ _ _ _ _).trans
      (RNYGNodelayoutImpl.setup_cacheState _ _ _)

theorem RNYGDistributeFreeSpaceSecondPass.body_cacheState {D : Type}
    (layoutChild : RNYGLayoutFn D) (values : RNYGCollectFlexItemsRowValues)
    (mainAxis crossAxis : RNYGFlexDirection) (a1 a2 a3 a4 a5 : YGFloat) (fbo : Bool)
    (mm : RNYGMeasureMode) (pl : Bool) (config : RNYGConfig)
    (state state' : RNYGNode C × List (RNYGNode D) × YGFloat) (i : Nat)
    (h : RNYGDistributeFreeSpaceSecondPass.body layoutChild values mainAxis crossAxis a1 a2 a3
      a4 a5 fbo mm pl config state i = some state') :
    state'.1.cacheState = state.1.cacheState := by
  obtain ⟨node, children, d⟩ := state
  unfold RNYGDistributeFreeSpaceSecondPass.body at h
  simp only at h
  split at h
  · simp only [Option.some.injEq] at h
    rw [← h]
  · simp only [bind, Option.bind_eq_some, pure] at h
    obtain ⟨a, -, h2⟩ := h
    simp only [Option.some.injEq] at h2
    rw [← h2]
    rfl

theorem RNYGDistributeFreeSpaceSecondPass.foldlM_cacheState {D : Type}
    (f : RNYGNode C × List (RNYGNode D) × YGFloat → Nat →
      Option (RNYGNode C × List (RNYGNode D) × YGFloat))
    (hf : ∀ s i s', f s i = some s' → s'.1.cacheState = s.1.cacheState) :
    ∀ (l : List Nat) (s s' : RNYGNode C × List (RNYGNode D) × YGFloat),
      l.foldlM f s = some s' → s'.1.cacheState = s.1.cacheState
  | [], s, s', h => by
    simp only [List.foldlM, pure, Option.some.injEq] at h
    rw [← h]
  | i :: l, s, s', h => by
    simp only [List.foldlM, bind, Option.bind_eq_some] at h
    obtain ⟨s1, h1, h2⟩ := h
    rw [RNYGDistributeFreeSpaceSecondPass.foldlM_cacheState f hf l s1 s' h2, hf s i s1 h1]

theorem RNYGDistributeFreeSpaceSecondPass_cacheState {D : Type}
    (layoutChild : RNYGLayoutFn D) (values : RNYGCollectFlexItemsRowValues)
    (node : RNYGNode C) (children : List (RNYGNode D))
    (mainAxis crossAxis : RNYGFlexDirection) (a1 a2 a3 a4 a5 : YGFloat) (fbo : Bool)
    (mm : RNYGMeasureMode) (pl : Bool) (config : RNYGConfig)
    (r : RNYGNode C × List (RNYGNode D) × YGFloat)
    (h : RNYGDistributeFreeSpaceSecondPass layoutChild values node children mainAxis crossAxis
      a1 a2 a3 a4 a5 fbo mm pl config = some r) :
    r.1.cacheState = node.cacheState :=
  RNYGDistributeFreeSpaceSecondPass.foldlM_cacheState _
    (fun s i s' hs => RNYGDistributeFreeSpaceSecondPass.body_cacheState layoutChild values
      mainAxis crossAxis a1 a2 a3 a4 a5 fbo mm pl config s s' i hs)
    values.relativeChildren (node, children, some 0) r h

theorem RNYGResolveFlexibleLength_cacheState {D : Type}
    (layoutChild : RNYGLayoutFn D) (node : RNYGNode C) (children : List (RNYGNode D))
    (values : RNYGCollectFlexItemsRowValues)
    (mainAxis crossAxis : RNYGFlexDirection) (a1 a2 a3 a4 a5 : YGFloat) (fbo : Bool)
    (mm : RNYGMeasureMode) (pl : Bool) (config : RNYGConfig)
    (r : RNYGNode C × List (RNYGNode D) × RNYGCollectFlexItemsRowValues)
    (h : RNYGResolveFlexibleLength layoutChild node children values mainAxis crossAxis
      a1 a2 a3 a4 a5 fbo mm pl config = some r) :
    r.1.cacheState = node.cacheState := by
  unfold RNYGResolveFlexibleLength at h
  simp only [bind, Option.bind_eq_some, pure] at h
  obtain ⟨x, hx, h2⟩ := h
  simp only [Option.some.injEq] at h2
  rw [← h2]
  exact RNYGDistributeFreeSpaceSecondPass_cacheState _ _ _ _ _ _ _ _ _ _ _ _ _ _ _ _ hx

theorem RNYGNodelayoutImpl.lineBody_cacheState {D : Type} (layoutChild : RNYGLayoutFn D)
    (l : RNYGNodelayoutImpl.Locals) (s s' : RNYGNodelayoutImpl.LineState C D)
    (h : RNYGNodelayoutImpl.lineBody layoutChild l s = some s') :
    s'.node.cacheState = s.node.cacheState := by
  unfold RNYGNodelayoutImpl.lineBody at h
  simp only [bind, pure] at h
  by_cases hc : (!(!l.performLayout && decide (l.measureModeCrossDim = RNYGMeasureMode.Exactly)))
      = true
  · rw [if_pos hc] at h
    simp only [Option.bind_eq_some] at h
    obtain ⟨a, ha, h2⟩ := h
    have h3 := RNYGResolveFlexibleLength_cacheState _ _ _ _ _ _ _ _ _ _ _ _ _ _ _ _ ha
    have h4 : s'.node.cacheState = a.1.cacheState := by
      by_cases hp : l.performLayout = true
      · rw [if_pos hp] at h2
        simp only [Option.bind_eq_some, Option.some.injEq] at h2
        obtain ⟨_, -, _, -, rfl⟩ := h2
        rfl
      · rw [if_neg hp] at h2
        simp only [Option.bind_eq_some, Option.some.injEq] at h2
        obtain ⟨_, -, rfl⟩ := h2
        rfl
    refine h4.trans (h3.trans ?_)
    split_ifs <;> rfl
  · rw [if_neg hc] at h
    simp only [Option.bind_eq_some] at h
    obtain ⟨a, ha, h2⟩ := h
    simp only [Option.some.injEq] at ha
    have h4 : s'.node.cacheState = a.1.cacheState := by
      by_cases hp : l.performLayout = true
      · rw [if_pos hp] at h2
        simp only [Option.bind_eq_some, Option.some.injEq] at h2
        obtain ⟨_, -, _, -, rfl⟩ := h2
        rfl
      · rw [if_neg hp] at h2
        simp only [Option.bind_eq_some, Option.some.injEq] at h2
        obtain ⟨_, -, rfl⟩ := h2
        rfl
    refine h4.trans ?_
    rw [← ha]
    simp only
    split_ifs <;> rfl

theorem RNYGNodelayoutImpl.lineLoop_cacheState {D : Type} (layoutChild : RNYGLayoutFn D)
    (l : RNYGNodelayoutImpl.Locals) (childCount : Nat) :
    ∀ (fuel : Nat) (s s' : RNYGNodelayoutImpl.LineState C D),
      RNYGNodelayoutImpl.lineLoop layoutChild l childCount fuel s = some s' →
      s'.node.cacheState = s.node.cacheState
  | 0, s, s', h => by
    simp only [RNYGNodelayoutImpl.lineLoop, Option.some.injEq] at h
    rw [← h]
  | fuel + 1, s, s', h => by
    unfold RNYGNodelayoutImpl.lineLoop at h
    by_cases hlt : s.endOfLineIndex < childCount
    · rw [if_pos hlt] at h
      simp only [bind, Option.bind_eq_some] at h
      obtain ⟨s1, h1, h2⟩ := h
      rw [RNYGNodelayoutImpl.lineLoop_cacheState layoutChild l childCount fuel _ s' h2]
      exact RNYGNodelayoutImpl.lineBody_cacheState layoutChild l s s1 h1
    · rw [if_neg hlt] at h
      simp only [Option.some.injEq] at h
      rw [← h]

theorem RNYGNode.ite_cacheState (c : Prop) [Decidable c] (a b n : RNYGNode C)
    (ha : a.cacheState = n.cacheState) (hb : b.cacheState = n.cacheState) :
    (if c then a else b).cacheState = n.cacheState := by
  split_ifs
  · exact ha
  · exact hb

theorem RNYGNodelayoutImpl.finalDimensions_cacheState (l : RNYGNodelayoutImpl.Locals)
    (node : RNYGNode C) (a1 a2 a3 a4 a5 a6 a7 a8 a9 : YGFloat) :
    (RNYGNodelayoutImpl.finalDimensions l node a1 a2 a3 a4 a5 a6 a7 a8 a9).cacheState =
      node.cacheState := by
  unfold RNYGNodelayoutImpl.finalDimensions
  simp only
  repeat' first
    | apply RNYGNode.ite_cacheState
    | rw [RNYGNode.setLayoutMeasuredDimension_cacheState]

theorem RNYGNodelayoutImpl.container_cacheState {D : Type} (gen : Nat)
    (layoutChild : RNYGLayoutFn D) (zeroOutChild : RNYGNode D → RNYGNode D)
    (baselineOfChild : RNYGNode D → Option YGFloat) (node r : RNYGNode (RNYGNode D))
    (aw ah : YGFloat) (pd : RNYGDirection) (wm hm : RNYGMeasureMode) (pw ph : YGFloat)
    (pl : Bool) (config : RNYGConfig)
    (h : RNYGNodelayoutImpl.container gen layoutChild zeroOutChild baselineOfChild node aw ah pd
      wm hm pw ph pl config = some r) :
    r.cacheState = node.cacheState := by
  unfold RNYGNodelayoutImpl.container at h
  simp only [bind, Option.bind_eq_some, pure, Option.map_eq_some'] at h
  obtain ⟨x, hx, s1, hs1, c, hc, c2, -, rfl⟩ := h
  have hloop := RNYGNodelayoutImpl.lineLoop_cacheState _ _ _ _ _ _ hs1
  exact (RNYGNodelayoutImpl.finalDimensions_cacheState _ _ _ _ _ _ _ _ _ _ _).trans
    (hloop.trans ((RNYGNode.setLayoutHadOverflow_cacheState _ _).trans
      (RNYGNode.cloneChildrenIfNeeded_cacheState _)))

theorem RNYGNodelayoutImpl_cacheState {D : Type} (gen : Nat)
    (layoutChild : RNYGLayoutFn D) (zeroOutChild : RNYGNode D → RNYGNode D)
    (baselineOfChild : RNYGNode D → Option YGFloat) (node r : RNYGNode (RNYGNode D))
    (aw ah : YGFloat) (pd : RNYGDirection) (wm hm : RNYGMeasureMode) (pw ph : YGFloat)
    (pl : Bool) (config : RNYGConfig)
    (h : RNYGNodelayoutImpl gen layoutChild zeroOutChild baselineOfChild node aw ah pd
      wm hm pw ph pl config = some r) :
    r.cacheState = node.cacheState := by
  unfold RNYGNodelayoutImpl at h
  simp only at h
  split_ifs at h
  · rw [RNYGNodeWithMeasureFuncSetMeasuredDimensions_cacheState _ _ _ _ _ _ _ _ h]
    exact RNYGNodelayoutImpl.setup_cacheState _ _ _
  · simp only [Option.some.injEq] at h
    rw [← h]
    exact (RNYGNodeEmptyContainerSetMeasuredDimensions_cacheState _ _ _ _ _ _ _).trans
      (RNYGNodelayoutImpl.setup_cacheState _ _ _)
  · simp only [Option.some.injEq] at h
    rw [← h]
    exact (RNYGNodeFixedSizeSetMeasuredDimensions_cacheState _ _ _ _ _ _ _).trans
      (RNYGNodelayoutImpl.setup_cacheState _ _ _)
  · rw [RNYGNodelayoutImpl.container_cacheState _ _ _ _ _ _ _ _ _ _ _ _ _ _ _ h]
    exact RNYGNodelayoutImpl.setup_cacheState _ _ _

/-! ### What `RNYGLayoutNodeInternal` stores in the cache -/

theorem RNYGLayoutNodeInternal.lookup_invalidate (node : RNYGNode C) (layout : RNYGLayout)
    (aw ah : YGFloat) (wm hm : RNYGMeasureMode) (pw : YGFloat) (pl : Bool)
    (config : RNYGConfig) :
    RNYGLayoutNodeInternal.lookup node (RNYGLayoutNodeInternal.invalidate layout) aw ah wm hm pw
      pl config = none := by
  have hguard : ∀ (lw lh : YGFloat) (mr mc : YGFloat) (c : Option RNYGConfig),
      RNYGNodeCanUseCachedMeasurement wm aw hm ah none lw none lh (some (-1)) (some (-1)) mr mc c
        = false := by
    intro lw lh mr mc c
    unfold RNYGNodeCanUseCachedMeasurement
    have : flt (some (-1)) (some 0) = true := by decide!
    simp [this]
  unfold RNYGLayoutNodeInternal.lookup
  simp only [RNYGLayoutNodeInternal.invalidate, hguard, List.range_zero, List.find?_nil,
    Option.map_none', Bool.false_eq_true, if_false]
  split_ifs <;> simp_all

theorem RNYGLayoutNodeInternal.core_flag (gen : Nat)
    (impl : RNYGNode C → YGFloat → YGFloat → RNYGDirection → RNYGMeasureMode →
      RNYGMeasureMode → YGFloat → YGFloat → Bool → RNYGConfig → Option (RNYGNode C))
    (node : RNYGNode C) (aw ah : YGFloat) (pd : RNYGDirection) (wm hm : RNYGMeasureMode)
    (pw ph : YGFloat) (pl : Bool) (config : RNYGConfig) (r : RNYGNode C)
    (h : RNYGLayoutNodeInternal.core gen impl node aw ah pd wm hm pw ph pl config =
      some (r, true)) :
    ∃ b, impl (if RNYGLayoutNodeInternal.needToVisitNode gen node pd = true then
          { node with layout := RNYGLayoutNodeInternal.invalidate node.layout } else node)
        aw ah pd wm hm pw ph pl config = some b ∧
      r = RNYGLayoutNodeInternal.epilogue gen
        (RNYGLayoutNodeInternal.miss b none aw ah pd wm hm pl) pl := by
  unfold RNYGLayoutNodeInternal.core at h
  simp only [Option.map_eq_some', Prod.mk.injEq] at h
  obtain ⟨a, ha, hr, hflag⟩ := h
  by_cases hv : RNYGLayoutNodeInternal.needToVisitNode gen node pd = true
  · have hv' := hv
    unfold RNYGLayoutNodeInternal.needToVisitNode at hv'
    simp only [hv', if_true, RNYGLayoutNodeInternal.lookup_invalidate,
      Option.map_eq_some'] at ha
    obtain ⟨b, hb, rfl⟩ := ha
    exact ⟨b, by simpa only [hv, if_true] using hb, hr.symm⟩
  · have hv' := hv
    unfold RNYGLayoutNodeInternal.needToVisitNode at hv'
    simp only [Bool.not_eq_true] at hv hv'
    simp only [hv', Bool.false_eq_true, if_false, Bool.false_or, Option.isNone_iff_eq_none]
      at ha hflag
    simp only [hflag, Option.map_eq_some'] at ha
    obtain ⟨b, hb, rfl⟩ := ha
    exact ⟨b, by simpa only [hv, Bool.false_eq_true, if_false] using hb, hr.symm⟩

theorem RNYGLayoutNodeInternal.epilogue_layout (gen : Nat) (node : RNYGNode C) (pl : Bool) :
    (RNYGLayoutNodeInternal.epilogue gen node pl).cacheState = node.cacheState ∧
    (RNYGLayoutNodeInternal.epilogue gen node pl).layout.measuredDimensions =
      node.layout.measuredDimensions := by
  unfold RNYGLayoutNodeInternal.epilogue RNYGNode.setDirty
  cases pl
  · exact ⟨rfl, rfl⟩
  · simp only [if_true]
    split_ifs <;> exact ⟨rfl, rfl⟩

theorem RNYGLayoutNodeInternal.core_store (gen : Nat)
    (impl : RNYGNode C → YGFloat → YGFloat → RNYGDirection → RNYGMeasureMode →
      RNYGMeasureMode → YGFloat → YGFloat → Bool → RNYGConfig → Option (RNYGNode C))
    (himpl : ∀ n aw ah pd wm hm pw ph pl config b,
      impl n aw ah pd wm hm pw ph pl config = some b → b.cacheState = n.cacheState)
    (node : RNYGNode C) (aw ah : YGFloat) (pd : RNYGDirection) (wm hm : RNYGMeasureMode)
    (pw ph : YGFloat) (pl : Bool) (config : RNYGConfig) (r : RNYGNode C)
    (h : RNYGLayoutNodeInternal.core gen impl node aw ah pd wm hm pw ph pl config =
      some (r, true)) :
    (pl = true →
      r.layout.cachedLayout = RNYGLayoutNodeInternal.newCacheEntry aw ah wm hm r ∧
      r.layout.cachedMeasurements = node.layout.cachedMeasurements ∧
      r.layout.nextCachedMeasurementsIndex = RNYGLayoutNodeInternal.storeIndex gen node pd) ∧
    (pl = false →
      r.layout.cachedMeasurements =
        Function.update node.layout.cachedMeasurements
          (RNYGLayoutNodeInternal.storeIndex gen node pd)
          (RNYGLayoutNodeInternal.newCacheEntry aw ah wm hm r) ∧
      r.layout.nextCachedMeasurementsIndex =
        RNYGLayoutNodeInternal.storeIndex gen node pd + 1 ∧
      r.layout.cachedLayout =
        if RNYGLayoutNodeInternal.needToVisitNode gen node pd = true then
          (RNYGLayoutNodeInternal.invalidate node.layout).cachedLayout
        else node.layout.cachedLayout) := by
  obtain ⟨b, hb, rfl⟩ := RNYGLayoutNodeInternal.core_flag gen impl node aw ah pd wm hm pw ph pl
    config r h
  have hframe := himpl _ _ _ _ _ _ _ _ _ _ _ hb
  obtain ⟨he1, he2⟩ := RNYGLayoutNodeInternal.epilogue_layout gen
    (RNYGLayoutNodeInternal.miss b none aw ah pd wm hm pl) pl
  simp only [RNYGNode.cacheState, Prod.mk.injEq] at he1 hframe
  obtain ⟨e1, e2, e3⟩ := he1
  obtain ⟨f1, f2, f3⟩ := hframe
  simp only [RNYGLayoutNodeInternal.newCacheEntry, RNYGLayoutNodeInternal.storeIndex, e1, e2, e3,
    he2]
  by_cases hv : RNYGLayoutNodeInternal.needToVisitNode gen node pd = true
  · simp only [hv, if_true] at f1 f2 f3 ⊢
    constructor
    · intro hp
      subst hp
      simp [RNYGLayoutNodeInternal.miss, RNYGLayoutNodeInternal.store, f1, f2, f3,
        RNYGLayoutNodeInternal.invalidate, RNYG_MAX_CACHED_RESULT_COUNT]
    · intro hp
      subst hp
      simp [RNYGLayoutNodeInternal.miss, RNYGLayoutNodeInternal.store, f1, f2, f3,
        RNYGLayoutNodeInternal.invalidate, RNYG_MAX_CACHED_RESULT_COUNT]
  · simp only [Bool.not_eq_true] at hv
    simp only [hv, Bool.false_eq_true, if_false] at f1 f2 f3 ⊢
    constructor
    · intro hp
      subst hp
      simp only [RNYGLayoutNodeInternal.miss, RNYGLayoutNodeInternal.store, Option.isNone_none,
        if_true, f3]
      split_ifs <;> simp [f2]
    · intro hp
      subst hp
      simp only [RNYGLayoutNodeInternal.miss, RNYGLayoutNodeInternal.store, Option.isNone_none,
        if_true, f3, Bool.false_eq_true, if_false]
      split_ifs <;> simp [f1, f2]

/-- C4 (counterexample): a node without children is measured 16 times with different
available widths (`performLayout` false), which fills the 16 measurement entries:
`nextCachedMeasurementsIndex` is 16.  A call with `performLayout` true and a request that no
entry serves then sets `nextCachedMeasurementsIndex` to 0. -/
theorem RNYGLayoutNodeInternal_layout_store_resets_index :
    (measureRepeatedly 16 freshLeaf).map (fun node => node.layout.nextCachedMeasurementsIndex)
      = some 16 ∧
    ((measureRepeatedly 16 freshLeaf).bind (fun node =>
      RNYGLayoutNodeInternal 1 0 node (some 50) (some 10) RNYGDirection.LTR
        RNYGMeasureMode.Exactly RNYGMeasureMode.Exactly (some 100) (some 100) true
        gYGConfigDefaults)).map (fun r => (r.1.layout.nextCachedMeasurementsIndex, r.2))
      = some (0, true) := by
  refine ⟨by decide!, by decide!⟩

/-- C4 (amended): when `RNYGLayoutNodeInternal` returns the flag true (no cache entry served
the request), let `i` be `nextCachedMeasurementsIndex` after the
invalidation (0 if the node had to be visited, else its value before the call) and after the
reset to 0 that happens when it equals 16.  If `performLayout` is true the request and the
measured dimensions are written to the single layout-cache entry, the measurement entries are
those before the call and `nextCachedMeasurementsIndex` is `i`.  If `performLayout` is false
they are written to the measurement entry `i`, the other measurement entries are those before
the call, `nextCachedMeasurementsIndex` is `i + 1`, and the layout-cache entry is the one
before the call, invalidated if the node had to be visited. -/
theorem RNYGLayoutNodeInternal_store_on_miss (gen n : Nat) (node : RNYGTree n)
    (availableWidth availableHeight : YGFloat) (parentDirection : RNYGDirection)
    (widthMeasureMode heightMeasureMode : RNYGMeasureMode) (parentWidth parentHeight : YGFloat)
    (performLayout : Bool) (config : RNYGConfig) (r : RNYGTree n)
    (h : RNYGLayoutNodeInternal gen n node availableWidth availableHeight parentDirection
      widthMeasureMode heightMeasureMode parentWidth parentHeight performLayout config =
        some (r, true)) :
    (performLayout = true →
      r.layout.cachedLayout = RNYGLayoutNodeInternal.newCacheEntry availableWidth
        availableHeight widthMeasureMode heightMeasureMode r ∧
      r.layout.cachedMeasurements = node.layout.cachedMeasurements ∧
      r.layout.nextCachedMeasurementsIndex =
        RNYGLayoutNodeInternal.storeIndex gen node parentDirection) ∧
    (performLayout = false →
      r.layout.cachedMeasurements =
        Function.update node.layout.cachedMeasurements
          (RNYGLayoutNodeInternal.storeIndex gen node parentDirection)
          (RNYGLayoutNodeInternal.newCacheEntry availableWidth availableHeight widthMeasureMode
            heightMeasureMode r) ∧
      r.layout.nextCachedMeasurementsIndex =
        RNYGLayoutNodeInternal.storeIndex gen node parentDirection + 1 ∧
      r.layout.cachedLayout =
        if RNYGLayoutNodeInternal.needToVisitNode gen node parentDirection = true then
          (RNYGLayoutNodeInternal.invalidate node.layout).cachedLayout
        else node.layout.cachedLayout) := by
  cases n with
  | zero =>
    exact RNYGLayoutNodeInternal.core_store gen _
      (fun _ _ _ _ _ _ _ _ _ _ _ hb => RNYGNodelayoutImpl.leaf_cacheState _ _ _ _ _ _ _ _ _ hb)
      node _ _ _ _ _ _ _ _ _ r h
  | succ n =>
    exact RNYGLayoutNodeInternal.core_store gen _
      (fun _ _ _ _ _ _ _ _ _ _ _ hb =>
        RNYGNodelayoutImpl_cacheState _ _ _ _ _ _ _ _ _ _ _ _ _ _ _ hb)
      node _ _ _ _ _ _ _ _ _ r h

theorem RNYGLayoutNodeInternal_store_on_miss_witness :
    (RNYGLayoutNodeInternal 1 0 freshLeaf (some 50) (some 10) RNYGDirection.LTR
      RNYGMeasureMode.Exactly RNYGMeasureMode.Exactly (some 100) (some 100) false
      gYGConfigDefaults).map Prod.snd = some true ∧
    (RNYGLayoutNodeInternal 1 0 freshLeaf (some 50) (some 10) RNYGDirection.LTR
      RNYGMeasureMode.Exactly RNYGMeasureMode.Exactly (some 100) (some 100) false
      gYGConfigDefaults).map (fun p => p.1.layout.nextCachedMeasurementsIndex) =
        some (RNYGLayoutNodeInternal.storeIndex 1 freshLeaf RNYGDirection.LTR + 1) :=
  ⟨by decide!, Option.map_fst_eq_some_of_forall _ _ _ (by decide!) (fun r hr =>
    ((RNYGLayoutNodeInternal_store_on_miss 1 0 freshLeaf (some 50) (some 10) RNYGDirection.LTR
      RNYGMeasureMode.Exactly RNYGMeasureMode.Exactly (some 100) (some 100) false
      gYGConfigDefaults r hr).2 rfl).2.1)⟩

/-! ### Dirty flags on the heap -/

namespace RNYGHeap

theorem get_eq_some {h : RNYGHeap} {r : RNYGNodeRef} {n : RNYGHeapNode} :
    h.get r = some n ↔ h.nodes[r]? = some (some n) := by
  unfold get
  split
  · rename_i m hm
    rw [hm]
    simp
  · rename_i hne
    constructor
    · intro hc
      exact absurd hc (by simp)
    · intro hc
      exact absurd hc (hne n)

theorem lt_of_get {h : RNYGHeap} {r : Nat} {n : RNYGHeapNode} (hg : h.get r = some n) :
    r < h.nodes.length := by
  rw [get_eq_some] at hg
  by_contra hlt
  rw [List.getElem?_eq_none (Nat.le_of_not_lt hlt)] at hg
  exact absurd hg (by simp)

theorem get_set_self {h : RNYGHeap} {r : RNYGNodeRef} {old : RNYGHeapNode}
    (hg : h.get r = some old) (nd : RNYGHeapNode) : (h.set r nd).get r = some nd := by
  rw [get_eq_some]
  simp only [set]
  rw [List.getElem?_set_self]
  simp [lt_of_get hg]

theorem get_set_of_ne (h : RNYGHeap) {r r' : RNYGNodeRef} (hne : r' ≠ r) (nd : RNYGHeapNode) :
    (h.set r nd).get r' = h.get r' := by
  unfold get
  simp only [set]
  rw [List.getElem?_set_ne (Ne.symm hne)]

theorem length_set (h : RNYGHeap) (r : RNYGNodeRef) (nd : RNYGHeapNode) :
    (h.set r nd).nodes.length = h.nodes.length := by
  simp [set]

theorem get_alloc_self (h : RNYGHeap) (nd : RNYGHeapNode) :
    (h.alloc nd).1.get (h.alloc nd).2 = some nd := by
  rw [get_eq_some]
  simp [alloc]

theorem get_alloc_of_lt (h : RNYGHeap) (nd : RNYGHeapNode) {r : Nat}
    (hlt : r < h.nodes.length) : (h.alloc nd).1.get r = h.get r := by
  unfold get
  simp only [alloc]
  rw [List.getElem?_append_left hlt]

theorem get_alloc_of_ne (h : RNYGHeap) (nd : RNYGHeapNode) {r : Nat}
    (hne : r ≠ h.nodes.length) : (h.alloc nd).1.get r = h.get r := by
  rcases Nat.lt_or_gt_of_ne hne with hlt | hgt
  · exact get_alloc_of_lt h nd hlt
  · have h1 : (h.alloc nd).1.get r = none := by
      cases hg : (h.alloc nd).1.get r with
      | none => rfl
      | some n =>
        have hlt : r < (h.alloc nd).1.nodes.length := lt_of_get hg
        simp only [alloc, List.length_append, List.length_singleton] at hlt
        omega
    have h2 : h.get r = none := by
      cases hg : h.get r with
      | none => rfl
      | some n =>
        have hlt : r < h.nodes.length := lt_of_get hg
        omega
    rw [h1, h2]

theorem length_alloc (h : RNYGHeap) (nd : RNYGHeapNode) :
    (h.alloc nd).1.nodes.length = h.nodes.length + 1 := by
  simp [alloc]

end RNYGHeap

namespace RNYGHeap

theorem countP_set {α : Type} (p : α → Bool) :
    ∀ (l : List α) (i : Nat) (x a : α), l[i]? = some x →
      (l.set i a).countP p + (if p x then 1 else 0) = l.countP p + (if p a then 1 else 0)
  | [], i, x, a, hx => by simp at hx
  | y :: l, 0, x, a, hx => by
    simp only [List.getElem?_cons_zero, Option.some.injEq] at hx
    subst hx
    simp only [List.set_cons_zero, List.countP_cons]
    omega
  | y :: l, i + 1, x, a, hx => by
    simp only [List.getElem?_cons_succ] at hx
    have ih := countP_set p l i x a hx
    simp only [List.set_cons_succ, List.countP_cons]
    omega

theorem cleanCount_set {h : RNYGHeap} {r : RNYGNodeRef} {old : RNYGHeapNode}
    (hg : h.get r = some old) (nd : RNYGHeapNode) :
    (h.set r nd).cleanCount + (if !old.isDirty then 1 else 0) =
      h.cleanCount + (if !nd.isDirty then 1 else 0) := by
  rw [get_eq_some] at hg
  exact countP_set _ h.nodes r (some old) (some nd) hg

theorem cleanCount_le (h : RNYGHeap) : h.cleanCount ≤ h.nodes.length :=
  List.countP_le_length _

theorem DirtyExtends.refl (h : RNYGHeap) : h.DirtyExtends h := by
  refine ⟨rfl, fun r => ?_⟩
  cases hg : h.get r with
  | none => exact Or.inl ⟨rfl, rfl⟩
  | some n => exact Or.inr ⟨n, n, rfl, rfl, rfl, id⟩

theorem DirtyExtends.trans {h1 h2 h3 : RNYGHeap} (h12 : h1.DirtyExtends h2)
    (h23 : h2.DirtyExtends h3) : h1.DirtyExtends h3 := by
  refine ⟨h23.1.trans h12.1, fun r => ?_⟩
  rcases h12.2 r with ⟨a, b⟩ | ⟨n, n', a, b, c, d⟩
  · rcases h23.2 r with ⟨a', b'⟩ | ⟨m, m', a', b', c', d'⟩
    · exact Or.inl ⟨a, b'⟩
    · rw [b] at a'
      exact absurd a' (by simp)
  · rcases h23.2 r with ⟨a', b'⟩ | ⟨m, m', a', b', c', d'⟩
    · rw [b] at a'
      exact absurd a' (by simp)
    · rw [b] at a'
      simp only [Option.some.injEq] at a'
      subst a'
      exact Or.inr ⟨n, m', a, b', c'.trans c, fun hd => d' (d hd)⟩

/-- A write that keeps the parent pointer of a live node and does not clean it. -/
theorem DirtyExtends.set {h : RNYGHeap} {r : RNYGNodeRef} {old : RNYGHeapNode}
    (hg : h.get r = some old) (nd : RNYGHeapNode) (hp : nd.parent = old.parent)
    (hd : old.isDirty = true → nd.isDirty = true) : h.DirtyExtends (h.set r nd) := by
  refine ⟨length_set h r nd, fun r' => ?_⟩
  by_cases hr : r' = r
  · subst hr
    exact Or.inr ⟨old, nd, hg, get_set_self hg nd, hp, hd⟩
  · rw [get_set_of_ne h hr nd]
    cases hg' : h.get r' with
    | none => exact Or.inl ⟨rfl, rfl⟩
    | some n => exact Or.inr ⟨n, n, rfl, rfl, rfl, id⟩

end RNYGHeap

namespace RNYGHeap

theorem get_congr {h1 h2 : RNYGHeap} (hn : h1.nodes = h2.nodes) (r : RNYGNodeRef) :
    h1.get r = h2.get r := by
  unfold get
  rw [hn]

theorem cleanCount_congr {h1 h2 : RNYGHeap} (hn : h1.nodes = h2.nodes) :
    h1.cleanCount = h2.cleanCount := by
  unfold cleanCount
  rw [hn]

theorem setDirty_true_nodes {h : RNYGHeap} {this : RNYGNodeRef} {node : RNYGHeapNode}
    (hg : h.get this = some node) (hclean : node.isDirty = false) :
    (h.setDirty this true).nodes = (h.set this { node with isDirty := true }).nodes := by
  have hne : ¬ (true = node.isDirty) := by rw [hclean]; simp
  unfold setDirty
  rw [hg]
  simp only [hne, if_false]
  split_ifs <;> rfl

theorem setLayoutComputedFlexBasis_eq {h : RNYGHeap} {this : RNYGNodeRef} {node : RNYGHeapNode}
    (hg : h.get this = some node) (v : YGFloat) :
    h.setLayoutComputedFlexBasis this v =
      h.set this { node with layout := { node.layout with computedFlexBasis := v } } := by
  unfold setLayoutComputedFlexBasis
  rw [hg]

/-- The first two statements of `markDirtyAndPropogate` on a clean live node. -/
theorem markStep {h : RNYGHeap} {this : RNYGNodeRef} {node : RNYGHeapNode}
    (hg : h.get this = some node) (hclean : node.isDirty = false) :
    ∃ nd', ((h.setDirty this true).setLayoutComputedFlexBasis this RNYGUndefined).get this
        = some nd' ∧
      nd'.isDirty = true ∧ nd'.parent = node.parent ∧
      (∀ r, r ≠ this →
        ((h.setDirty this true).setLayoutComputedFlexBasis this RNYGUndefined).get r = h.get r) ∧
      ((h.setDirty this true).setLayoutComputedFlexBasis this RNYGUndefined).nodes.length =
        h.nodes.length ∧
      ((h.setDirty this true).setLayoutComputedFlexBasis this RNYGUndefined).cleanCount + 1 =
        h.cleanCount := by
  have hn := setDirty_true_nodes hg hclean
  have hself := get_set_self hg { node with isDirty := true }
  have hg1 : (h.setDirty this true).get this = some { node with isDirty := true } := by
    rw [get_congr hn]
    exact hself
  rw [setLayoutComputedFlexBasis_eq hg1]
  refine ⟨_, get_set_self hg1 _, rfl, rfl, ?_, ?_, ?_⟩
  · intro r hr
    rw [get_set_of_ne _ hr, get_congr hn, get_set_of_ne _ hr]
  · rw [length_set, hn, length_set]
  · have key : ∀ nd : RNYGHeapNode, nd.isDirty = true →
        ((h.setDirty this true).set this nd).cleanCount + 1 = h.cleanCount := by
      intro nd hnd
      have e1 := cleanCount_set hg { node with isDirty := true }
      have e2 := cleanCount_set hg1 nd
      have e3 := cleanCount_congr hn
      simp only [hclean, hnd, Bool.not_false, Bool.not_true, if_true, Bool.false_eq_true,
        if_false] at e1 e2
      omega
    exact key _ rfl

end RNYGHeap

namespace RNYGHeap

theorem markDirtyAndPropogateAux_spec :
    ∀ (fuel : Nat) (h : RNYGHeap) (this : RNYGNodeRef),
      h.cleanCount < fuel → h.DirtyClosedExcept (some this) →
      (markDirtyAndPropogateAux fuel h this).DirtyClosed ∧
      h.DirtyExtends (markDirtyAndPropogateAux fuel h this) ∧
      ∀ n, h.get this = some n →
        ∃ n', (markDirtyAndPropogateAux fuel h this).get this = some n' ∧ n'.isDirty = true
  | 0, h, this, hfuel, _ => absurd hfuel (Nat.not_lt_zero _)
  | fuel + 1, h, this, hfuel, hclosed => by
    unfold markDirtyAndPropogateAux
    cases hg : h.get this with
    | none =>
      simp only
      refine ⟨?_, DirtyExtends.refl h, fun n hn => absurd hn (by simp)⟩
      intro r n p pn hr hd hp hpn
      rcases hclosed r n p pn hr hd hp hpn with hdirty | hex
      · exact Or.inl hdirty
      · simp only [Option.some.injEq] at hex
        subst hex
        rw [hg] at hpn
        exact absurd hpn (by simp)
    | some node =>
      simp only
      by_cases hdirty : node.isDirty = true
      · simp only [hdirty, Bool.not_true, Bool.false_eq_true, if_false]
        refine ⟨?_, DirtyExtends.refl h, fun n hn => ⟨node, hg, hdirty⟩⟩
        intro r n p pn hr hd hp hpn
        rcases hclosed r n p pn hr hd hp hpn with hdirty' | hex
        · exact Or.inl hdirty'
        · simp only [Option.some.injEq] at hex
          subst hex
          rw [hg] at hpn
          simp only [Option.some.injEq] at hpn
          subst hpn
          exact Or.inl hdirty
      · simp only [Bool.not_eq_true] at hdirty
        simp only [hdirty, Bool.not_false, if_true]
        obtain ⟨nd', hself, hnd, hpar, hother, hlen, hcount⟩ := markStep hg hdirty
        generalize (h.setDirty this true).setLayoutComputedFlexBasis this RNYGUndefined = h2
          at hself hother hlen hcount ⊢
        -- the heap after the step extends `h`, and is closed except at the parent of `this`
        have hext : h.DirtyExtends h2 := by
          refine ⟨hlen, fun r => ?_⟩
          by_cases hr : r = this
          · subst hr
            exact Or.inr ⟨node, nd', hg, hself, hpar, fun _ => hnd⟩
          · rw [hother r hr]
            cases hg' : h.get r with
            | none => exact Or.inl ⟨rfl, rfl⟩
            | some n => exact Or.inr ⟨n, n, rfl, rfl, rfl, id⟩
        have hclosed2 : h2.DirtyClosedExcept node.parent := by
          intro r n p pn hr hd hp hpn
          by_cases hrt : r = this
          · subst hrt
            rw [hself] at hr
            simp only [Option.some.injEq] at hr
            subst hr
            exact Or.inr (hpar.symm.trans hp)
          · rw [hother r hrt] at hr
            by_cases hpt : p = this
            · subst hpt
              rw [hself] at hpn
              simp only [Option.some.injEq] at hpn
              subst hpn
              exact Or.inl hnd
            · rw [hother p hpt] at hpn
              rcases hclosed r n p pn hr hd hp hpn with hdirty' | hex
              · exact Or.inl hdirty'
              · simp only [Option.some.injEq] at hex
                exact absurd hex.symm hpt
        cases hparent : node.parent with
        | none =>
          simp only
          rw [hparent] at hclosed2
          exact ⟨hclosed2, hext, fun n _ => ⟨nd', hself, hnd⟩⟩
        | some parent =>
          simp only
          rw [hparent] at hclosed2
          obtain ⟨ih1, ih2, -⟩ := markDirtyAndPropogateAux_spec fuel h2 parent (by omega) hclosed2
          refine ⟨ih1, hext.trans ih2, fun n _ => ?_⟩
          rcases ih2.2 this with ⟨a, -⟩ | ⟨m, m', a, b, -, d⟩
          · rw [hself] at a
            exact absurd a (by simp)
          · rw [hself] at a
            simp only [Option.some.injEq] at a
            subst a
            exact ⟨m', b, d hnd⟩

theorem markDirtyAndPropogate_spec (h : RNYGHeap) (this : RNYGNodeRef)
    (hclosed : h.DirtyClosedExcept (some this)) :
    (h.markDirtyAndPropogate this).DirtyClosed ∧
    h.DirtyExtends (h.markDirtyAndPropogate this) ∧
    ∀ n, h.get this = some n →
      ∃ n', (h.markDirtyAndPropogate this).get this = some n' ∧ n'.isDirty = true :=
  markDirtyAndPropogateAux_spec (h.nodes.length + 1) h this
    (Nat.lt_succ_of_le (cleanCount_le h)) hclosed

end RNYGHeap

namespace RNYGHeap

theorem dirty_of_isAncestorOrSelf {h : RNYGHeap} (hc : h.DirtyClosed) {a r : RNYGNodeRef}
    (hanc : h.IsAncestorOrSelf a r) :
    ∀ n, h.get r = some n → n.isDirty = true → ∀ an, h.get a = some an → an.isDirty = true := by
  induction hanc with
  | self =>
    intro n hn hd an han
    rw [hn] at han
    simp only [Option.some.injEq] at han
    subst han
    exact hd
  | parent r p n0 hget hpar hanc ih =>
    intro n hn hd an han
    rw [hget] at hn
    simp only [Option.some.injEq] at hn
    subst hn
    cases hp : h.get p with
    | none =>
      cases hanc with
      | self => rw [hp] at han; exact absurd han (by simp)
      | parent _ q m hm _ _ => rw [hp] at hm; exact absurd hm (by simp)
    | some pn =>
      rcases hc r n0 p pn hget hd hpar hp with hpd | hex
      · exact ih pn hp hpd an han
      · exact absurd hex (by simp)

theorem DirtyUpToRoot.of_closed {h : RNYGHeap} (hc : h.DirtyClosed) {r : RNYGNodeRef}
    {n : RNYGHeapNode} (hn : h.get r = some n) (hd : n.isDirty = true) : h.DirtyUpToRoot r :=
  ⟨⟨n, hn, hd⟩, fun _ an hanc han => dirty_of_isAncestorOrSelf hc hanc n hn hd an han⟩

/-- A heap that is closed except at a dirty node is closed. -/
theorem DirtyClosedExcept.closed {h : RNYGHeap} {this : RNYGNodeRef}
    (hc : h.DirtyClosedExcept (some this)) {n : RNYGHeapNode} (hn : h.get this = some n)
    (hd : n.isDirty = true) : h.DirtyClosed := by
  intro r m p pn hr hm hp hpn
  rcases hc r m p pn hr hm hp hpn with hdirty | hex
  · exact Or.inl hdirty
  · simp only [Option.some.injEq] at hex
    subst hex
    rw [hn] at hpn
    simp only [Option.some.injEq] at hpn
    subst hpn
    exact Or.inl hd

theorem DirtyClosed.except {h : RNYGHeap} (hc : h.DirtyClosed) (e : Option RNYGNodeRef) :
    h.DirtyClosedExcept e := by
  intro r m p pn hr hm hp hpn
  rcases hc r m p pn hr hm hp hpn with hdirty | hex
  · exact Or.inl hdirty
  · exact absurd hex (by simp)

theorem markDirtyAndPropogate_dirtyUpToRoot {h : RNYGHeap} {this : RNYGNodeRef}
    (hclosed : h.DirtyClosedExcept (some this)) {n : RNYGHeapNode} (hn : h.get this = some n) :
    (h.markDirtyAndPropogate this).DirtyUpToRoot this := by
  obtain ⟨h1, -, h3⟩ := markDirtyAndPropogate_spec h this hclosed
  obtain ⟨n', hn', hd⟩ := h3 n hn
  exact DirtyUpToRoot.of_closed h1 hn' hd

/-- The invariant of the mutations on the node `this`: parent pointers are in bounds and
dirtiness is closed except at `this`. -/
theorem inv_set {h : RNYGHeap} {this r : RNYGNodeRef} {old : RNYGHeapNode}
    (hb : h.ParentsInBounds) (hc : h.DirtyClosedExcept (some this))
    (hg : h.get r = some old) (nd : RNYGHeapNode) (hd : nd.isDirty = old.isDirty)
    (hp : nd.parent = old.parent ∨ nd.parent = some this ∨ nd.parent = none)
    (hthis : this < h.nodes.length) :
    (h.set r nd).ParentsInBounds ∧ (h.set r nd).DirtyClosedExcept (some this) := by
  constructor
  · intro r' n p hr' hpar
    rw [length_set]
    by_cases hr : r' = r
    · subst hr
      rw [get_set_self hg] at hr'
      simp only [Option.some.injEq] at hr'
      subst hr'
      rcases hp with hp | hp | hp
      · exact hb r' old p hg (hp.symm.trans hpar)
      · rw [hp] at hpar
        simp only [Option.some.injEq] at hpar
        subst hpar
        exact hthis
      · rw [hp] at hpar
        exact absurd hpar (by simp)
    · rw [get_set_of_ne h hr] at hr'
      exact hb r' n p hr' hpar
  · intro r' n p pn hr' hdirty hpar hpn
    -- the parent node in the old heap has the same dirty flag
    have hpold : ∃ pold, h.get p = some pold ∧ pold.isDirty = pn.isDirty := by
      by_cases hpr : p = r
      · subst hpr
        rw [get_set_self hg] at hpn
        simp only [Option.some.injEq] at hpn
        subst hpn
        exact ⟨old, hg, hd.symm⟩
      · rw [get_set_of_ne h hpr] at hpn
        exact ⟨pn, hpn, rfl⟩
    obtain ⟨pold, hpold, hpd⟩ := hpold
    by_cases hr : r' = r
    · subst hr
      rw [get_set_self hg] at hr'
      simp only [Option.some.injEq] at hr'
      subst hr'
      rcases hp with hp | hp | hp
      · rcases hc r' old p pold hg (hd.symm.trans hdirty) (hp.symm.trans hpar) hpold with h1 | h1
        · exact Or.inl (hpd.symm.trans h1)
        · exact Or.inr h1
      · exact Or.inr (hp.symm.trans hpar)
      · rw [hp] at hpar
        exact absurd hpar (by simp)
    · rw [get_set_of_ne h hr] at hr'
      rcases hc r' n p pold hr' hdirty hpar hpold with h1 | h1
      · exact Or.inl (hpd.symm.trans h1)
      · exact Or.inr h1

theorem inv_alloc {h : RNYGHeap} {this : RNYGNodeRef}
    (hb : h.ParentsInBounds) (hc : h.DirtyClosedExcept (some this))
    (nd : RNYGHeapNode) (hp : nd.parent = none) :
    (h.alloc nd).1.ParentsInBounds ∧ (h.alloc nd).1.DirtyClosedExcept (some this) := by
  have hnew : ∀ (r : Nat) (n : RNYGHeapNode), (h.alloc nd).1.get r = some n →
      n.parent ≠ none → h.get r = some n := by
    intro r n hr hnp
    by_cases hrl : r = h.nodes.length
    · subst hrl
      have : (h.alloc nd).1.get h.nodes.length = some nd := get_alloc_self h nd
      rw [this] at hr
      simp only [Option.some.injEq] at hr
      subst hr
      exact absurd hp hnp
    · rw [get_alloc_of_ne h nd hrl] at hr
      exact hr
  constructor
  · intro r n p hr hpar
    rw [length_alloc]
    have := hb r n p (hnew r n hr (by rw [hpar]; simp)) hpar
    omega
  · intro r n p pn hr hdirty hpar hpn
    have hr' := hnew r n hr (by rw [hpar]; simp)
    have hplt := hb r n p hr' hpar
    rw [get_alloc_of_lt h nd hplt] at hpn
    exact hc r n p pn hr' hdirty hpar hpn

theorem inv_congr {h h2 : RNYGHeap} {this : RNYGNodeRef} (hn : h2.nodes = h.nodes)
    (hb : h.ParentsInBounds) (hc : h.DirtyClosedExcept (some this)) :
    h2.ParentsInBounds ∧ h2.DirtyClosedExcept (some this) := by
  constructor
  · intro r n p hr hpar
    rw [hn]
    rw [get_congr hn] at hr
    exact hb r n p hr hpar
  · intro r n p pn hr hdirty hpar hpn
    rw [get_congr hn] at hr hpn
    exact hc r n p pn hr hdirty hpar hpn

end RNYGHeap

namespace RNYGHeap

theorem RNYG_NODE_STYLE_PROPERTY_SETTER_IMPL_shape {α : Type} (ne : α → α → Bool)
    (getField : RNYGStyle → α) (setField : RNYGStyle → α → RNYGStyle)
    (h : RNYGHeap) (node : RNYGNodeRef) (v : α) (h' : RNYGHeap)
    (hs : RNYG_NODE_STYLE_PROPERTY_SETTER_IMPL ne getField setField h node v = some h') :
    SetterShape h node h' := by
  unfold RNYG_NODE_STYLE_PROPERTY_SETTER_IMPL at hs
  simp only [bind, Option.bind_eq_some, pure] at hs
  obtain ⟨nd, hnd, h2⟩ := hs
  split_ifs at h2
  · simp only [Option.some.injEq] at h2
    exact Or.inr ⟨nd, _, hnd, h2.symm⟩
  · simp only [Option.some.injEq] at h2
    exact Or.inl h2.symm

theorem RNYG_NODE_STYLE_PROPERTY_SETTER_UNIT_IMPL_shape (unit : RNYGUnit)
    (getField : RNYGStyle → RNYGValue) (setField : RNYGStyle → RNYGValue → RNYGStyle)
    (h : RNYGHeap) (node : RNYGNodeRef) (v : YGFloat) (h' : RNYGHeap)
    (hs : RNYG_NODE_STYLE_PROPERTY_SETTER_UNIT_IMPL unit getField setField h node v = some h') :
    SetterShape h node h' := by
  unfold RNYG_NODE_STYLE_PROPERTY_SETTER_UNIT_IMPL at hs
  simp only [bind, Option.bind_eq_some, pure] at hs
  obtain ⟨nd, hnd, h2⟩ := hs
  split_ifs at h2
  all_goals first
    | (simp only [Option.some.injEq] at h2; exact Or.inr ⟨nd, _, hnd, h2.symm⟩)
    | (simp only [Option.some.injEq] at h2; exact Or.inl h2.symm)

theorem RNYG_NODE_STYLE_PROPERTY_SETTER_UNIT_AUTO_IMPL_Percent_shape
    (getField : RNYGStyle → RNYGValue) (setField : RNYGStyle → RNYGValue → RNYGStyle)
    (h : RNYGHeap) (node : RNYGNodeRef) (v : YGFloat) (h' : RNYGHeap)
    (hs : RNYG_NODE_STYLE_PROPERTY_SETTER_UNIT_AUTO_IMPL_Percent getField setField h node v
      = some h') :
    SetterShape h node h' := by
  unfold RNYG_NODE_STYLE_PROPERTY_SETTER_UNIT_AUTO_IMPL_Percent at hs
  simp only [bind, Option.bind_eq_some, pure] at hs
  obtain ⟨nd, hnd, h2⟩ := hs
  split_ifs at h2
  all_goals first
    | (simp only [Option.some.injEq] at h2; exact Or.inr ⟨nd, _, hnd, h2.symm⟩)
    | (simp only [Option.some.injEq] at h2; exact Or.inl h2.symm)

theorem RNYG_NODE_STYLE_PROPERTY_SETTER_UNIT_AUTO_IMPL_Auto_shape
    (getField : RNYGStyle → RNYGValue) (setField : RNYGStyle → RNYGValue → RNYGStyle)
    (h : RNYGHeap) (node : RNYGNodeRef) (h' : RNYGHeap)
    (hs : RNYG_NODE_STYLE_PROPERTY_SETTER_UNIT_AUTO_IMPL_Auto getField setField h node
      = some h') :
    SetterShape h node h' := by
  unfold RNYG_NODE_STYLE_PROPERTY_SETTER_UNIT_AUTO_IMPL_Auto at hs
  simp only [bind, Option.bind_eq_some, pure] at hs
  obtain ⟨nd, hnd, h2⟩ := hs
  split_ifs at h2
  all_goals first
    | (simp only [Option.some.injEq] at h2; exact Or.inr ⟨nd, _, hnd, h2.symm⟩)
    | (simp only [Option.some.injEq] at h2; exact Or.inl h2.symm)

theorem RNYGNodeStyleSet_shape (h : RNYGHeap) (node : RNYGNodeRef) (call : RNYGStyleSetterCall)
    (h' : RNYGHeap) (hs : RNYGNodeStyleSet h node call = some h') : SetterShape h node h' := by
  cases call <;> simp only [RNYGNodeStyleSet] at hs <;> first
    | exact RNYG_NODE_STYLE_PROPERTY_SETTER_IMPL_shape _ _ _ _ _ _ _ hs
    | exact RNYG_NODE_STYLE_PROPERTY_SETTER_UNIT_IMPL_shape _ _ _ _ _ _ _ hs
    | exact RNYG_NODE_STYLE_PROPERTY_SETTER_UNIT_AUTO_IMPL_Percent_shape _ _ _ _ _ _ hs
    | exact RNYG_NODE_STYLE_PROPERTY_SETTER_UNIT_AUTO_IMPL_Auto_shape _ _ _ _ _ hs

theorem RNYGNodeStyleSet_dirtyUpToRoot {h : RNYGHeap} (hb : h.ParentsInBounds)
    (hc : h.DirtyClosed) (node : RNYGNodeRef) (call : RNYGStyleSetterCall) (h' : RNYGHeap)
    (hs : RNYGNodeStyleSet h node call = some h') (hne : h' ≠ h) : h'.DirtyUpToRoot node := by
  rcases RNYGNodeStyleSet_shape h node call h' hs with heq | ⟨nd, st, hnd, rfl⟩
  · exact absurd heq hne
  · obtain ⟨-, hc1⟩ := inv_set hb (hc.except (some node)) hnd { nd with style := st } rfl
      (Or.inl rfl) (lt_of_get hnd)
    exact markDirtyAndPropogate_dirtyUpToRoot hc1 (get_set_self hnd _)

end RNYGHeap

namespace RNYGHeap

theorem RNYGNodeClone_inv {h : RNYGHeap} {this oldNode : RNYGNodeRef}
    (hb : h.ParentsInBounds) (hc : h.DirtyClosedExcept (some this))
    {h1 : RNYGHeap} {newNode : RNYGNodeRef}
    (hclone : h.RNYGNodeClone oldNode = some (h1, newNode)) :
    h1.ParentsInBounds ∧ h1.DirtyClosedExcept (some this) ∧
    h1.nodes.length = h.nodes.length + 1 ∧
    (∀ r : Nat, r < h.nodes.length → h1.get r = h.get r) ∧
    ∃ nd, h1.get newNode = some nd ∧ nd.parent = none := by
  unfold RNYGNodeClone at hclone
  split at hclone
  · exact absurd hclone (by simp)
  · rename_i node hnode
    simp only [Option.some.injEq] at hclone
    have e1 : h1 = (h.alloc { node with parent := none }).1 := by rw [hclone]
    have e2 : newNode = (h.alloc { node with parent := none }).2 := by rw [hclone]
    subst e1 e2
    obtain ⟨a, b⟩ := inv_alloc hb hc { node with parent := none } rfl
    exact ⟨a, b, length_alloc h _, fun r hr => get_alloc_of_lt h _ hr,
      _, get_alloc_self h _, rfl⟩

theorem cloneChildrenLoop_inv (this : RNYGNodeRef) (cb : Bool) :
    ∀ (l : List RNYGNodeRef) (i : Nat) (h h' : RNYGHeap),
      h.ParentsInBounds → h.DirtyClosedExcept (some this) →
      cloneChildrenLoop this cb l i h = some h' →
      h'.ParentsInBounds ∧ h'.DirtyClosedExcept (some this)
  | [], i, h, h', hb, hc, hl => by
    simp only [cloneChildrenLoop, Option.some.injEq] at hl
    subst hl
    exact ⟨hb, hc⟩
  | oldChild :: rest, i, h, h', hb, hc, hl => by
    unfold cloneChildrenLoop at hl
    simp only [bind, Option.bind_eq_some, pure] at hl
    obtain ⟨⟨h1, newChild⟩, hclone, node, hnode, newNode, hnew, hrest⟩ := hl
    simp only at hnode hnew hrest
    obtain ⟨hb1, hc1, -, -, -⟩ := RNYGNodeClone_inv hb hc hclone
    have hthis : (this : Nat) < h1.nodes.length := lt_of_get hnode
    obtain ⟨hb2, hc2⟩ := inv_set hb1 hc1 hnode
      { node with children := node.children.set i newChild } rfl (Or.inl rfl) hthis
    have hthis2 : (this : Nat) <
        (h1.set this { node with children := node.children.set i newChild }).nodes.length := by
      rw [length_set]
      exact hthis
    obtain ⟨hb3, hc3⟩ := inv_set hb2 hc2 hnew { newNode with parent := some this } rfl
      (Or.inr (Or.inl rfl)) hthis2
    refine cloneChildrenLoop_inv this cb rest (i + 1) _ h' ?_ ?_ hrest
    · split_ifs
      · exact (inv_congr rfl hb3 hc3).1
      · exact hb3
    · split_ifs
      · exact (inv_congr rfl hb3 hc3).2
      · exact hc3

theorem cloneChildrenIfNeeded_inv {h h' : RNYGHeap} {this : RNYGNodeRef}
    (hb : h.ParentsInBounds) (hc : h.DirtyClosedExcept (some this))
    (hl : h.cloneChildrenIfNeeded this = some h') :
    h'.ParentsInBounds ∧ h'.DirtyClosedExcept (some this) := by
  unfold cloneChildrenIfNeeded at hl
  simp only [bind, Option.bind_eq_some, pure] at hl
  obtain ⟨node, hnode, h2⟩ := hl
  split at h2
  · simp only [Option.some.injEq] at h2
    subst h2
    exact ⟨hb, hc⟩
  · simp only [Option.bind_eq_some] at h2
    obtain ⟨firstChild, -, h3⟩ := h2
    split_ifs at h3
    · simp only [Option.some.injEq] at h3
      subst h3
      exact ⟨hb, hc⟩
    · exact cloneChildrenLoop_inv this _ _ _ _ _ hb hc h3

theorem RNYGNodeInsertChild_dirtyUpToRoot {h : RNYGHeap} (hb : h.ParentsInBounds)
    (hc : h.DirtyClosed) (node child : RNYGNodeRef) (index : Nat) (h' : RNYGHeap)
    (hs : h.RNYGNodeInsertChild node child index = some h') : h'.DirtyUpToRoot node := by
  unfold RNYGNodeInsertChild at hs
  simp only [bind, Option.bind_eq_some, pure] at hs
  obtain ⟨nodeData, -, childData, -, h2⟩ := hs
  split_ifs at h2
  simp only [Option.bind_eq_some] at h2
  obtain ⟨h1, hclone, nodeData1, hnode1, h3⟩ := h2
  split_ifs at h3
  simp only [Option.bind_eq_some, Option.some.injEq] at h3
  obtain ⟨childData1, hchild1, rfl⟩ := h3
  obtain ⟨hb1, hc1⟩ := cloneChildrenIfNeeded_inv hb (hc.except (some node)) hclone
  have hthis : (node : Nat) < h1.nodes.length := lt_of_get hnode1
  obtain ⟨hb2, hc2⟩ := inv_set hb1 hc1 hnode1
    { nodeData1 with children := nodeData1.children.insertIdx index child } rfl (Or.inl rfl)
    hthis
  have hthis2 : (node : Nat) < (h1.set node
      { nodeData1 with children := nodeData1.children.insertIdx index child }).nodes.length := by
    rw [length_set]
    exact hthis
  obtain ⟨-, hc3⟩ := inv_set hb2 hc2 hchild1 { childData1 with parent := some node } rfl
    (Or.inr (Or.inl rfl)) hthis2
  -- the node is live in the heap that `markDirtyAndPropogate` receives
  have hlive : ∃ n, ((h1.set node
      { nodeData1 with children := nodeData1.children.insertIdx index child }).set child
        { childData1 with parent := some node }).get node = some n := by
    by_cases hnc : node = child
    · subst hnc
      exact ⟨_, get_set_self hchild1 _⟩
    · rw [get_set_of_ne _ hnc]
      exact ⟨_, get_set_self hnode1 _⟩
  obtain ⟨n, hn⟩ := hlive
  exact markDirtyAndPropogate_dirtyUpToRoot hc3 hn

end RNYGHeap

namespace RNYGHeap

theorem keeps_set (P : Bool → Prop) {h : RNYGHeap} {p r : RNYGNodeRef} {old : RNYGHeapNode}
    (hp : ∃ n, h.get p = some n ∧ P n.isDirty) (hg : h.get r = some old) (nd : RNYGHeapNode)
    (hd : nd.isDirty = old.isDirty) : ∃ n, (h.set r nd).get p = some n ∧ P n.isDirty := by
  obtain ⟨n, hn, hP⟩ := hp
  by_cases hpr : p = r
  · subst hpr
    rw [hg] at hn
    simp only [Option.some.injEq] at hn
    subst hn
    exact ⟨nd, get_set_self hg nd, by rw [hd]; exact hP⟩
  · exact ⟨n, by rw [get_set_of_ne h hpr]; exact hn, hP⟩

theorem keeps_alloc (P : Bool → Prop) {h : RNYGHeap} {p : RNYGNodeRef}
    (hp : ∃ n, h.get p = some n ∧ P n.isDirty) (nd : RNYGHeapNode) :
    ∃ n, (h.alloc nd).1.get p = some n ∧ P n.isDirty := by
  obtain ⟨n, hn, hP⟩ := hp
  exact ⟨n, by rw [get_alloc_of_lt h nd (lt_of_get hn)]; exact hn, hP⟩

theorem keeps_congr (P : Bool → Prop) {h h2 : RNYGHeap} {p : RNYGNodeRef}
    (hn : h2.nodes = h.nodes) (hp : ∃ n, h.get p = some n ∧ P n.isDirty) :
    ∃ n, h2.get p = some n ∧ P n.isDirty := by
  obtain ⟨n, hg, hP⟩ := hp
  exact ⟨n, by rw [get_congr hn]; exact hg, hP⟩

theorem ParentsInBounds.of_extends {h h' : RNYGHeap} (hb : h.ParentsInBounds)
    (he : h.DirtyExtends h') : h'.ParentsInBounds := by
  intro r n p hr hpar
  rw [he.1]
  rcases he.2 r with ⟨-, b⟩ | ⟨m, m', a, b, c, -⟩
  · rw [hr] at b
    exact absurd b (by simp)
  · rw [hr] at b
    simp only [Option.some.injEq] at b
    subst b
    exact hb r m p a (c.symm.trans hpar)

theorem removeChildCloneLoop_inv (parent excludedChild : RNYGNodeRef) (cb : Bool) :
    ∀ (l : List RNYGNodeRef) (i : Nat) (h : RNYGHeap) (r : RNYGHeap × Nat),
      h.ParentsInBounds → h.DirtyClosedExcept (some parent) →
      (∃ n, h.get parent = some n ∧ True) →
      removeChildCloneLoop parent excludedChild cb l i h = some r →
      r.1.ParentsInBounds ∧ r.1.DirtyClosedExcept (some parent) ∧
      (((∃ n, h.get parent = some n ∧ n.isDirty = true) ∨ excludedChild ∈ l) →
        ∃ n, r.1.get parent = some n ∧ n.isDirty = true)
  | [], i, h, r, hb, hc, hlive, hl => by
    simp only [removeChildCloneLoop, Option.some.injEq] at hl
    subst hl
    refine ⟨hb, hc, fun hd => ?_⟩
    rcases hd with hd | hmem
    · exact hd
    · exact absurd hmem (List.not_mem_nil _)
  | oldChild :: rest, i, h, r, hb, hc, hlive, hl => by
    unfold removeChildCloneLoop at hl
    by_cases hex : excludedChild = oldChild
    · rw [if_pos hex] at hl
      obtain ⟨m1, m2, m3⟩ := markDirtyAndPropogate_spec h parent hc
      obtain ⟨n, hn, -⟩ := hlive
      obtain ⟨n', hn', hd'⟩ := m3 n hn
      obtain ⟨a, b, c⟩ := removeChildCloneLoop_inv parent excludedChild cb rest i _ r
        (hb.of_extends m2) (m1.except (some parent)) ⟨n', hn', trivial⟩ hl
      exact ⟨a, b, fun _ => c (Or.inl ⟨n', hn', hd'⟩)⟩
    · rw [if_neg hex] at hl
      simp only [bind, Option.bind_eq_some, pure] at hl
      obtain ⟨⟨h1, newChild⟩, hclone, parentData, hparent, newNode, hnew, hrest⟩ := hl
      simp only at hparent hnew hrest
      obtain ⟨hb1, hc1, -, hsame, -⟩ := RNYGNodeClone_inv hb hc hclone
      have hthis : (parent : Nat) < h1.nodes.length := lt_of_get hparent
      obtain ⟨hb2, hc2⟩ := inv_set hb1 hc1 hparent
        { parentData with children := parentData.children.set i newChild } rfl (Or.inl rfl)
        hthis
      have hthis2 : (parent : Nat) < (h1.set parent
          { parentData with children := parentData.children.set i newChild }).nodes.length := by
        rw [length_set]
        exact hthis
      obtain ⟨hb3, hc3⟩ := inv_set hb2 hc2 hnew { newNode with parent := some parent } rfl
        (Or.inr (Or.inl rfl)) hthis2
      -- what holds of the parent in `h` holds of it after the three writes
      have hkeep : ∀ P : Bool → Prop, (∃ n, h.get parent = some n ∧ P n.isDirty) →
          ∃ n, ((h1.set parent
            { parentData with children := parentData.children.set i newChild }).set newChild
              { newNode with parent := some parent }).get parent = some n ∧ P n.isDirty := by
        intro P hP
        have h1P : ∃ n, h1.get parent = some n ∧ P n.isDirty := by
          obtain ⟨n, hn, hPn⟩ := hP
          exact ⟨n, by rw [hsame parent (lt_of_get hn)]; exact hn, hPn⟩
        exact keeps_set P (keeps_set P h1P hparent
          { parentData with children := parentData.children.set i newChild } rfl) hnew
          { newNode with parent := some parent } rfl
      have hrec := removeChildCloneLoop_inv parent excludedChild cb rest (i + 1) _ r
        (by split_ifs
            · exact (inv_congr rfl hb3 hc3).1
            · exact hb3)
        (by split_ifs
            · exact (inv_congr rfl hb3 hc3).2
            · exact hc3)
        (by split_ifs
            · exact keeps_congr (fun _ => True) rfl (hkeep (fun _ => True) hlive)
            · exact hkeep (fun _ => True) hlive)
        hrest
      obtain ⟨a, b, c⟩ := hrec
      refine ⟨a, b, fun hd => c ?_⟩
      rcases hd with hd | hmem
      · left
        split_ifs
        · exact keeps_congr (fun d => d = true) rfl (hkeep (fun d => d = true) hd)
        · exact hkeep (fun d => d = true) hd
      · rcases List.mem_cons.mp hmem with heq | hmem'
        · exact absurd heq hex
        · exact Or.inr hmem'

end RNYGHeap

namespace RNYGHeap

theorem RNYGNodeRemoveChild_dirtyUpToRoot {h : RNYGHeap} (hb : h.ParentsInBounds)
    (hc : h.DirtyClosed) (parent excludedChild : RNYGNodeRef) (h' : RNYGHeap)
    (hs : h.RNYGNodeRemoveChild parent excludedChild = some (h', true)) :
    h'.DirtyUpToRoot parent := by
  unfold RNYGNodeRemoveChild at hs
  simp only [bind, Option.bind_eq_some, pure] at hs
  obtain ⟨parentData, hparent, h2⟩ := hs
  split at h2
  · simp only [Option.some.injEq, Prod.mk.injEq, Bool.false_eq_true, and_false] at h2
  · simp only [Option.bind_eq_some] at h2
    obtain ⟨firstChild, -, h3⟩ := h2
    have hthis : (parent : Nat) < h.nodes.length := lt_of_get hparent
    by_cases hown : firstChild.parent = some parent
    · rw [if_pos hown] at h3
      by_cases hmem : excludedChild ∈ parentData.children
      · rw [if_pos hmem] at h3
        simp only [Option.bind_eq_some, Option.some.injEq, Prod.mk.injEq, and_true] at h3
        obtain ⟨excludedData, hexcluded, rfl⟩ := h3
        obtain ⟨hb1, hc1⟩ := inv_set hb (hc.except (some parent)) hparent
          { parentData with children := parentData.children.erase excludedChild } rfl
          (Or.inl rfl) hthis
        have hthis1 : (parent : Nat) < (h.set parent
            { parentData with
              children := parentData.children.erase excludedChild }).nodes.length := by
          rw [length_set]
          exact hthis
        obtain ⟨-, hc2⟩ := inv_set hb1 hc1 hexcluded
          { excludedData with layout := RNYGLayout.default, parent := none } rfl
          (Or.inr (Or.inr rfl)) hthis1
        obtain ⟨n, hn, -⟩ := keeps_set (fun _ => True) ⟨_, get_set_self hparent
          { parentData with children := parentData.children.erase excludedChild }, trivial⟩
          hexcluded { excludedData with layout := RNYGLayout.default, parent := none } rfl
        exact markDirtyAndPropogate_dirtyUpToRoot hc2 hn
      · rw [if_neg hmem] at h3
        simp only [Option.some.injEq, Prod.mk.injEq, Bool.false_eq_true, and_false] at h3
    · rw [if_neg hown] at h3
      simp only [Option.bind_eq_some, Option.some.injEq, Prod.mk.injEq, decide_eq_true_eq]
        at h3
      obtain ⟨⟨h1, nextInsertIndex⟩, hloop, newParentData, hnewParent, rfl, hfound⟩ := h3
      simp only at hnewParent
      obtain ⟨hb1, hc1, hd1⟩ := removeChildCloneLoop_inv parent excludedChild _ _ 0 h
        (h1, nextInsertIndex) hb (hc.except (some parent)) ⟨parentData, hparent, trivial⟩ hloop
      have hdirty := hd1 (Or.inr hfound)
      have hthis1 : (parent : Nat) < h1.nodes.length := lt_of_get hnewParent
      obtain ⟨-, hc2⟩ := inv_set hb1 hc1 hnewParent
        { newParentData with
          children := removeChildTrimLoop (parentData.children.length - nextInsertIndex)
            nextInsertIndex newParentData.children } rfl (Or.inl rfl) hthis1
      obtain ⟨n, hn, hnd⟩ := keeps_set (fun d => d = true) hdirty hnewParent
        { newParentData with
          children := removeChildTrimLoop (parentData.children.length - nextInsertIndex)
            nextInsertIndex newParentData.children } rfl
      exact DirtyUpToRoot.of_closed (hc2.closed hn hnd) hn hnd

end RNYGHeap

/-- C9 (counterexample): `RNYGNodeStyleSetFlexDirection(node, column)` on a new node, whose
flex direction is column already, leaves the node clean; and
`RNYGNodeStyleSetFlexGrow(child, 1)` on a dirty child of a clean root leaves the root clean. -/
theorem RNYGNodeStyleSet_leaves_clean :
    (RNYGHeap.singleNodeHeap.RNYGNodeStyleSet 0
        (RNYGHeap.RNYGStyleSetterCall.FlexDirection RNYGFlexDirection.Column)).map
      (fun h => h.dirtyFlag 0) = some (some false) ∧
    ((RNYGHeap.familyHeap true).RNYGNodeStyleSet 1
        (RNYGHeap.RNYGStyleSetterCall.FlexGrow (some 1))).map
      (fun h => (h.dirtyFlag 1, h.dirtyFlag 0)) = some (some true, some false) := by
  refine ⟨by decide!, by decide!⟩

/-- C9 (amended): in a heap where parent pointers point to slots of the heap and the parent of
every dirty node is dirty, after a style setter call on a node that changes the heap, after
`RNYGNodeInsertChild` on a node and after a `RNYGNodeRemoveChild` on a node that removes the
child, that node is dirty and so is every node reached from it by following parent
pointers. -/
theorem RNYGHeap.mutation_dirtyUpToRoot (h : RNYGHeap) (hb : h.ParentsInBounds)
    (hc : h.DirtyClosed) :
    (∀ (node : RNYGNodeRef) (call : RNYGHeap.RNYGStyleSetterCall) (h' : RNYGHeap),
      h.RNYGNodeStyleSet node call = some h' → h' ≠ h → h'.DirtyUpToRoot node) ∧
    (∀ (node child : RNYGNodeRef) (index : Nat) (h' : RNYGHeap),
      h.RNYGNodeInsertChild node child index = some h' → h'.DirtyUpToRoot node) ∧
    (∀ (parent excludedChild : RNYGNodeRef) (h' : RNYGHeap),
      h.RNYGNodeRemoveChild parent excludedChild = some (h', true) →
        h'.DirtyUpToRoot parent) :=
  ⟨fun node call h' hs hne => RNYGHeap.RNYGNodeStyleSet_dirtyUpToRoot hb hc node call h' hs hne,
    fun node child index h' hs =>
      RNYGHeap.RNYGNodeInsertChild_dirtyUpToRoot hb hc node child index h' hs,
    fun parent excludedChild h' hs =>
      RNYGHeap.RNYGNodeRemoveChild_dirtyUpToRoot hb hc parent excludedChild h' hs⟩

theorem RNYGHeap.familyHeap_parentsInBounds : (RNYGHeap.familyHeap false).ParentsInBounds := by
  intro r n p hr hp
  have hlt := RNYGHeap.lt_of_get hr
  have hlen : (RNYGHeap.familyHeap false).nodes.length = 2 := rfl
  rw [hlen] at hlt ⊢
  rw [RNYGHeap.get_eq_some] at hr
  interval_cases r
  · simp only [RNYGHeap.familyHeap, List.getElem?_cons_zero, Option.some.injEq] at hr
    subst hr
    simp [RNYGHeap.newNode] at hp
  · simp only [RNYGHeap.familyHeap, List.getElem?_cons_succ, List.getElem?_cons_zero,
      Option.some.injEq] at hr
    subst hr
    simp only [Option.some.injEq] at hp
    rw [← hp]
    exact Nat.zero_lt_two

theorem RNYGHeap.familyHeap_dirtyClosed : (RNYGHeap.familyHeap false).DirtyClosed := by
  intro r n p pn hr hd hp hpn
  have hlt := RNYGHeap.lt_of_get hr
  have hlen : (RNYGHeap.familyHeap false).nodes.length = 2 := rfl
  rw [hlen] at hlt
  rw [RNYGHeap.get_eq_some] at hr
  interval_cases r
  · simp only [RNYGHeap.familyHeap, List.getElem?_cons_zero, Option.some.injEq] at hr
    subst hr
    simp [RNYGHeap.newNode] at hd
  · simp only [RNYGHeap.familyHeap, List.getElem?_cons_succ, List.getElem?_cons_zero,
      Option.some.injEq] at hr
    subst hr
    simp at hd

theorem RNYGHeap.mutation_dirtyUpToRoot_witness :
    (RNYGHeap.familyHeap false).ParentsInBounds ∧ (RNYGHeap.familyHeap false).DirtyClosed ∧
    ((RNYGHeap.familyHeap false).RNYGNodeStyleSet 1
        (RNYGHeap.RNYGStyleSetterCall.FlexGrow (some 1))).map
      (fun h => (h.dirtyFlag 1, h.dirtyFlag 0)) = some (some true, some true) ∧
    ∀ hx : ((RNYGHeap.familyHeap false).RNYGNodeStyleSet 1
        (RNYGHeap.RNYGStyleSetterCall.FlexGrow (some 1))).isSome = true,
      (((RNYGHeap.familyHeap false).RNYGNodeStyleSet 1
        (RNYGHeap.RNYGStyleSetterCall.FlexGrow (some 1))).get hx).DirtyUpToRoot 1 :=
  ⟨RNYGHeap.familyHeap_parentsInBounds, RNYGHeap.familyHeap_dirtyClosed, by decide!,
    fun hx => (RNYGHeap.mutation_dirtyUpToRoot (RNYGHeap.familyHeap false)
      RNYGHeap.familyHeap_parentsInBounds RNYGHeap.familyHeap_dirtyClosed).1 1
        (RNYGHeap.RNYGStyleSetterCall.FlexGrow (some 1)) _ (Option.some_get hx).symm
        (fun heq => by
          have h1 := Option.get_of_map_eq_some _ (fun h => h.dirtyFlag 1) (some true)
            (by decide!) hx
          rw [heq] at h1
          exact absurd h1 (by decide!))⟩

/-! ### The edge lookup -/

/-- C19, counterexample: with no edge set, the lookup of `start` with the default zero returns
the undefined value, not the default. -/
theorem RNYGComputedEdgeValue_start_ignores_default :
    firstDefinedValue (RNYGComputedEdgeValue.candidates noEdges RNYGEdge.Start) = none ∧
    RNYGComputedEdgeValue noEdges RNYGEdge.Start RNYGValueZero = RNYGValueUndefined ∧
    RNYGValueUndefined ≠ RNYGValueZero := by
  decide!

/-- C19, amended: `RNYGComputedEdgeValue(edges, e, d)` returns the first value that is defined
among `edges[e]`, then `edges[vertical]` for top and bottom or `edges[horizontal]` for left,
right, start and end, then `edges[all]`; when none of these is defined it returns `d` for left,
top, right and bottom, and the undefined value for start and end. -/
theorem RNYGComputedEdgeValue_first_defined (edges : RNYGEdge → RNYGValue) (e : RNYGEdge)
    (d : RNYGValue) :
    RNYGComputedEdgeValue edges e d =
      (firstDefinedValue (RNYGComputedEdgeValue.candidates edges e)).getD
        (if e = RNYGEdge.Start ∨ e = RNYGEdge.End then RNYGValueUndefined else d) := by
  cases e <;>
    simp only [RNYGComputedEdgeValue, RNYGComputedEdgeValue.candidates, firstDefinedValue,
      List.find?] <;>
    (repeat' split) <;> simp_all

/-! ### A measure callback that returns NaN -/

/-- C18 (the code at the failing input): for a root of width 100 points with a left margin of
10 percent and an undefined parent width, `RNYGNodeCalculateLayout` resolves the undefined
width with the measure mode exactly, the assertion of `RNYGNodelayoutImpl` fails on this pair
and the layout aborts. -/
theorem RNYGNodeCalculateLayout_percent_margin_root_aborts :
    RNYGNodeCalculateLayout.rootWidth percentMarginRoot.resolveDimension RNYGUndefined =
      (RNYGUndefined, RNYGMeasureMode.Exactly) ∧
    RNYGNodelayoutImpl.assertions RNYGUndefined RNYGUndefined RNYGMeasureMode.Exactly
      RNYGMeasureMode.Undefined = false ∧
    (RNYGNodeCalculateLayout (fun _ _ => true) 0 0 percentMarginRoot RNYGUndefined RNYGUndefined
      RNYGDirection.LTR).isSome = false := by
  refine ⟨by decide!, by decide!, by decide!⟩

/-! ### The dirtied callback -/

namespace RNYGHeap

theorem setDirty_true_eq {h : RNYGHeap} {this : RNYGNodeRef} {node : RNYGHeapNode}
    (hg : h.get this = some node) (hclean : node.isDirty = false) :
    h.setDirty this true =
      { nodes := (h.set this { node with isDirty := true }).nodes
        dirtiedLog := h.dirtiedLog ++ (if node.hasDirtied = true then [this] else [])
        clonedLog := h.clonedLog } := by
  have hne : ¬ (true = node.isDirty) := by rw [hclean]; simp
  unfold setDirty
  rw [hg]
  simp only [hne, if_false, Bool.true_and]
  by_cases hd : node.hasDirtied = true
  · rw [if_pos hd, if_pos hd]
    rfl
  · rw [if_neg hd, if_neg hd, List.append_nil]
    rfl

/-- The heap after the first two statements of `markDirtyAndPropogate` on a clean live node. -/
theorem markStep_eq {h : RNYGHeap} {this : RNYGNodeRef} {node : RNYGHeapNode}
    (hg : h.get this = some node) (hclean : node.isDirty = false) :
    ∃ h2, (h.setDirty this true).setLayoutComputedFlexBasis this RNYGUndefined = h2 ∧
      h2.get this = some { node with
        isDirty := true, layout := { node.layout with computedFlexBasis := RNYGUndefined } } ∧
      (∀ r, r ≠ this → h2.get r = h.get r) ∧
      h2.nodes.length = h.nodes.length ∧ h2.clonedLog = h.clonedLog ∧
      h2.dirtiedLog = h.dirtiedLog ++ (if node.hasDirtied = true then [this] else []) := by
  have hself := get_set_self hg { node with isDirty := true }
  have hg1 : (h.setDirty this true).get this = some { node with isDirty := true } := by
    rw [setDirty_true_eq hg hclean]
    exact hself
  refine ⟨_, rfl, ?_, ?_, ?_, ?_, ?_⟩
  · rw [setLayoutComputedFlexBasis_eq hg1]
    exact get_set_self hg1 _
  · intro r hr
    rw [setLayoutComputedFlexBasis_eq hg1, get_set_of_ne _ hr, setDirty_true_eq hg hclean]
    exact get_set_of_ne _ hr _
  · rw [setLayoutComputedFlexBasis_eq hg1, length_set, setDirty_true_eq hg hclean]
    exact length_set _ _ _
  · rw [setLayoutComputedFlexBasis_eq hg1, setDirty_true_eq hg hclean]
    rfl
  · rw [setLayoutComputedFlexBasis_eq hg1, setDirty_true_eq hg hclean]
    rfl

theorem MarkFrame.frame_refl (h : RNYGHeap) : h.MarkFrame h := by
  refine ⟨rfl, rfl, fun r => ?_⟩
  cases hg : h.get r with
  | none => exact Or.inl ⟨rfl, rfl⟩
  | some n => exact Or.inr ⟨n, n, rfl, rfl, ⟨_, _, rfl⟩, id⟩

theorem MarkFrame.frame_trans {h1 h2 h3 : RNYGHeap} (h12 : h1.MarkFrame h2) (h23 : h2.MarkFrame h3) :
    h1.MarkFrame h3 := by
  refine ⟨h23.1.trans h12.1, h23.2.1.trans h12.2.1, fun r => ?_⟩
  rcases h12.2.2 r with ⟨a, b⟩ | ⟨n, n', a, b, c, d⟩
  · rcases h23.2.2 r with ⟨_, b'⟩ | ⟨m, m', a', _⟩
    · exact Or.inl ⟨a, b'⟩
    · rw [b] at a'
      exact absurd a' (by simp)
  · rcases h23.2.2 r with ⟨a', _⟩ | ⟨m, m', a', b', c', d'⟩
    · rw [b] at a'
      exact absurd a' (by simp)
    · rw [b] at a'
      simp only [Option.some.injEq] at a'
      subst a'
      obtain ⟨d1, l1, c⟩ := c
      obtain ⟨d2, l2, c'⟩ := c'
      refine Or.inr ⟨n, m', a, b', ⟨d2, l2, ?_⟩, fun hn => d' (d hn)⟩
      rw [c', c]

theorem markDirtyAndPropogateAux_frame :
    ∀ (fuel : Nat) (h : RNYGHeap) (this : RNYGNodeRef),
      h.MarkFrame (markDirtyAndPropogateAux fuel h this)
  | 0, h, _ => MarkFrame.frame_refl h
  | fuel + 1, h, this => by
    unfold markDirtyAndPropogateAux
    cases hg : h.get this with
    | none => exact MarkFrame.frame_refl h
    | some node =>
      simp only
      by_cases hdirty : node.isDirty = true
      · simp only [hdirty, Bool.not_true, Bool.false_eq_true, if_false]
        exact MarkFrame.frame_refl h
      · simp only [Bool.not_eq_true] at hdirty
        simp only [hdirty, Bool.not_false, if_true]
        obtain ⟨h2, he, hself, hother, hlen, hcl, -⟩ := markStep_eq hg hdirty
        rw [he]
        have hstep : h.MarkFrame h2 := by
          refine ⟨hlen, hcl, fun r => ?_⟩
          by_cases hr : r = this
          · subst hr
            exact Or.inr ⟨node, _, hg, hself, ⟨_, _, rfl⟩, fun _ => rfl⟩
          · rw [hother r hr]
            cases hg' : h.get r with
            | none => exact Or.inl ⟨rfl, rfl⟩
            | some n => exact Or.inr ⟨n, n, rfl, rfl, ⟨_, _, rfl⟩, id⟩
        cases hparent : node.parent with
        | none => exact hstep
        | some parent => exact hstep.frame_trans (markDirtyAndPropogateAux_frame fuel h2 parent)

theorem markDirtyAndPropogate_frame (h : RNYGHeap) (this : RNYGNodeRef) :
    h.MarkFrame (h.markDirtyAndPropogate this) :=
  markDirtyAndPropogateAux_frame _ h this

end RNYGHeap

namespace RNYGHeap

theorem dirtiedTransition_of_get_eq {h h' : RNYGHeap} {r : RNYGNodeRef}
    (hg : h'.get r = h.get r) : dirtiedTransition h h' r = false := by
  unfold dirtiedTransition
  rw [hg]
  cases h.get r with
  | none => rfl
  | some n => cases hd : n.isDirty <;> simp [hd]

theorem dirtiedTransition_of_dirty {h h' : RNYGHeap} {r : RNYGNodeRef} {n : RNYGHeapNode}
    (hg : h.get r = some n) (hd : n.isDirty = true) : dirtiedTransition h h' r = false := by
  unfold dirtiedTransition
  rw [hg]
  cases h'.get r with
  | none => rfl
  | some n' => simp [hd]

theorem dirtiedTransition_congr {h1 h2 h' : RNYGHeap} {r : RNYGNodeRef}
    (hg : h2.get r = h1.get r) : dirtiedTransition h2 h' r = dirtiedTransition h1 h' r := by
  unfold dirtiedTransition
  rw [hg]

theorem count_append_mark (log : List RNYGNodeRef) (this r : RNYGNodeRef) (c : Prop)
    [Decidable c] :
    (log ++ (if c then [this] else [])).count r =
      log.count r + (if c ∧ r = this then 1 else 0) := by
  by_cases hc : c
  · by_cases hr : r = this
    · subst hr
      simp [hc]
    · have hne : ¬ (this = r) := fun e => hr e.symm
      simp [hc, hr, List.count_cons, hne]
  · simp [hc]

theorem setDirty_dirtied_count (h : RNYGHeap) (this : RNYGNodeRef) (isDirty : Bool)
    (r : RNYGNodeRef) :
    (h.setDirty this isDirty).dirtiedLog.count r =
      h.dirtiedLog.count r +
        (if dirtiedTransition h (h.setDirty this isDirty) r = true then 1 else 0) := by
  cases hg : h.get this with
  | none =>
    have e : h.setDirty this isDirty = h := by
      unfold setDirty
      rw [hg]
    rw [e, dirtiedTransition_of_get_eq rfl]
    simp
  | some node =>
    by_cases hsame : isDirty = node.isDirty
    · have e : h.setDirty this isDirty = h := by
        unfold setDirty
        rw [hg]
        simp only [hsame, if_true]
      rw [e, dirtiedTransition_of_get_eq rfl]
      simp
    · cases isDirty with
      | false =>
        have hd : node.isDirty = true := by
          cases hn : node.isDirty with
          | false => exact absurd hn.symm hsame
          | true => rfl
        have e : h.setDirty this false = h.set this { node with isDirty := false } := by
          unfold setDirty
          rw [hg]
          simp only [hsame, if_false, Bool.false_and, Bool.false_eq_true]
        rw [e]
        have ht : dirtiedTransition h (h.set this { node with isDirty := false }) r = false := by
          by_cases hr : r = this
          · subst hr
            exact dirtiedTransition_of_dirty hg hd
          · exact dirtiedTransition_of_get_eq (get_set_of_ne _ hr _)
        rw [ht]
        simp [set]
      | true =>
        have hclean : node.isDirty = false := by
          cases hn : node.isDirty with
          | false => rfl
          | true => exact absurd hn.symm hsame
        rw [setDirty_true_eq hg hclean]
        simp only
        rw [count_append_mark]
        by_cases hr : r = this
        · subst hr
          have ht : dirtiedTransition h
              { nodes := (h.set r { node with isDirty := true }).nodes
                dirtiedLog := h.dirtiedLog ++ (if node.hasDirtied = true then [r] else [])
                clonedLog := h.clonedLog } r = node.hasDirtied := by
            have hg2 : RNYGHeap.get
                { nodes := (h.set r { node with isDirty := true }).nodes
                  dirtiedLog := h.dirtiedLog ++ (if node.hasDirtied = true then [r] else [])
                  clonedLog := h.clonedLog } r = some { node with isDirty := true } :=
              get_set_self hg _
            unfold dirtiedTransition
            rw [hg, hg2]
            simp [hclean]
          rw [ht]
          simp
        · have ht : dirtiedTransition h
              { nodes := (h.set this { node with isDirty := true }).nodes
                dirtiedLog := h.dirtiedLog ++ (if node.hasDirtied = true then [this] else [])
                clonedLog := h.clonedLog } r = false :=
            dirtiedTransition_of_get_eq (get_set_of_ne h hr _)
          rw [ht]
          simp [hr]

theorem markDirtyAndPropogateAux_dirtied_count :
    ∀ (fuel : Nat) (h : RNYGHeap) (this r : RNYGNodeRef),
      (markDirtyAndPropogateAux fuel h this).dirtiedLog.count r =
        h.dirtiedLog.count r +
          (if dirtiedTransition h (markDirtyAndPropogateAux fuel h this) r = true then 1 else 0)
  | 0, h, this, r => by
    unfold markDirtyAndPropogateAux
    rw [dirtiedTransition_of_get_eq rfl]
    simp
  | fuel + 1, h, this, r => by
    have hframe := markDirtyAndPropogateAux_frame (fuel + 1) h this
    revert hframe
    unfold markDirtyAndPropogateAux
    cases hg : h.get this with
    | none =>
      intro _
      simp only
      rw [dirtiedTransition_of_get_eq rfl]
      simp
    | some node =>
      simp only
      by_cases hdirty : node.isDirty = true
      · simp only [hdirty, Bool.not_true, Bool.false_eq_true, if_false]
        intro _
        rw [dirtiedTransition_of_get_eq rfl]
        simp
      · simp only [Bool.not_eq_true] at hdirty
        simp only [hdirty, Bool.not_false, if_true]
        obtain ⟨h2, he, hself, hother, -, -, hlog⟩ := markStep_eq hg hdirty
        rw [he]
        -- the rest of the call, from the heap `h2` after the step
        have hrest : ∀ h' : RNYGHeap, h2.MarkFrame h' →
            h'.dirtiedLog.count r =
              h2.dirtiedLog.count r + (if dirtiedTransition h2 h' r = true then 1 else 0) →
            h'.dirtiedLog.count r =
              h.dirtiedLog.count r + (if dirtiedTransition h h' r = true then 1 else 0) := by
          intro h' hfr hc
          rw [hc, hlog, count_append_mark]
          by_cases hr : r = this
          · subst hr
            rw [dirtiedTransition_of_dirty hself rfl]
            rcases hfr.2.2 r with ⟨a, -⟩ | ⟨m, m', a, b, -, d⟩
            · rw [hself] at a
              exact absurd a (by simp)
            · rw [hself] at a
              simp only [Option.some.injEq] at a
              subst a
              have ht : dirtiedTransition h h' r = node.hasDirtied := by
                unfold dirtiedTransition
                rw [hg, b]
                simp [hdirty, d rfl]
              rw [ht]
              simp
          · rw [dirtiedTransition_congr (hother r hr)]
            simp [hr]
        cases hparent : node.parent with
        | none =>
          intro _
          simp only
          refine hrest h2 (MarkFrame.frame_refl h2) ?_
          rw [dirtiedTransition_of_get_eq rfl]
          simp
        | some parent =>
          intro _
          simp only
          exact hrest _ (markDirtyAndPropogateAux_frame fuel h2 parent)
            (markDirtyAndPropogateAux_dirtied_count fuel h2 parent r)

theorem foldlM_dirtiedLog (f : RNYGHeap → RNYGNodeRef → Option RNYGHeap)
    (hf : ∀ h c h', f h c = some h' → h'.dirtiedLog = h.dirtiedLog) :
    ∀ (l : List RNYGNodeRef) (h h' : RNYGHeap), l.foldlM f h = some h' →
      h'.dirtiedLog = h.dirtiedLog
  | [], h, h', e => by
    simp only [List.foldlM_nil, pure, Option.some.injEq] at e
    rw [← e]
  | c :: l, h, h', e => by
    simp only [List.foldlM_cons, bind, Option.bind_eq_some] at e
    obtain ⟨h1, e1, e2⟩ := e
    rw [foldlM_dirtiedLog f hf l h1 h' e2, hf h c h1 e1]

theorem markDirtyAndPropogateDownwardsAux_dirtiedLog :
    ∀ (fuel : Nat) (h : RNYGHeap) (this : RNYGNodeRef) (h' : RNYGHeap),
      markDirtyAndPropogateDownwardsAux fuel h this = some h' → h'.dirtiedLog = h.dirtiedLog
  | 0, h, this, h', e => by
    simp [markDirtyAndPropogateDownwardsAux] at e
  | fuel + 1, h, this, h', e => by
    unfold markDirtyAndPropogateDownwardsAux at e
    simp only [Option.bind_eq_some] at e
    obtain ⟨node, -, e⟩ := e
    rw [foldlM_dirtiedLog _ (fun a c b => markDirtyAndPropogateDownwardsAux_dirtiedLog fuel a c b)
      _ _ _ e]
    rfl

end RNYGHeap

/-- C11 (the code at the failing input): `markDirtyAndPropogateDownwards` on a clean node with
a dirtied callback turns the flag from false to true and does not invoke the callback. -/
theorem markDirtyAndPropogateDownwards_skips_dirtied :
    (RNYGHeap.watchedNodeHeap.markDirtyAndPropogateDownwards 0).map (fun h =>
        (RNYGHeap.dirtiedTransition RNYGHeap.watchedNodeHeap h 0, h.dirtiedLog.count 0))
      = some (true, 0) := by
  decide!

/-- The dirtied callback per operation: for every node `r`, `setDirty` and
`markDirtyAndPropogate` invoke the dirtied callback of `r` exactly once when `r` has a callback
and its dirty flag changes from false to true, and not at all otherwise;
`markDirtyAndPropogateDownwards` writes the flags and leaves the log of the callback as it
is. -/
theorem RNYGHeap.dirtied_once_per_transition (h : RNYGHeap) (this r : RNYGNodeRef)
    (isDirty : Bool) :
    ((h.setDirty this isDirty).dirtiedLog.count r =
      h.dirtiedLog.count r +
        (if RNYGHeap.dirtiedTransition h (h.setDirty this isDirty) r = true then 1 else 0)) ∧
    ((h.markDirtyAndPropogate this).dirtiedLog.count r =
      h.dirtiedLog.count r +
        (if RNYGHeap.dirtiedTransition h (h.markDirtyAndPropogate this) r = true then 1
          else 0)) ∧
    ∀ h', h.markDirtyAndPropogateDownwards this = some h' → h'.dirtiedLog = h.dirtiedLog :=
  ⟨RNYGHeap.setDirty_dirtied_count h this isDirty r,
    RNYGHeap.markDirtyAndPropogateAux_dirtied_count _ h this r,
    fun h' e => RNYGHeap.markDirtyAndPropogateDownwardsAux_dirtiedLog _ h this h' e⟩

/-! ### Measure callbacks and children -/

namespace RNYGHeap

theorem measureLeaf_set {h : RNYGHeap} {r : RNYGNodeRef} {old : RNYGHeapNode}
    (hm : h.MeasureLeaf) (hg : h.get r = some old) (nd : RNYGHeapNode)
    (hnd : nd.measure.isSome = true → nd.children = []) : (h.set r nd).MeasureLeaf := by
  intro r' n hr' hn
  by_cases hr : r' = r
  · subst hr
    rw [get_set_self hg] at hr'
    simp only [Option.some.injEq] at hr'
    subst hr'
    exact hnd hn
  · rw [get_set_of_ne h hr] at hr'
    exact hm r' n hr' hn

theorem measureLeaf_alloc {h : RNYGHeap} (hm : h.MeasureLeaf) (nd : RNYGHeapNode)
    (hnd : nd.measure.isSome = true → nd.children = []) : (h.alloc nd).1.MeasureLeaf := by
  intro r n hr hn
  by_cases hrl : r = h.nodes.length
  · subst hrl
    have e : (h.alloc nd).1.get h.nodes.length = some nd := get_alloc_self h nd
    rw [e] at hr
    simp only [Option.some.injEq] at hr
    subst hr
    exact hnd hn
  · rw [get_alloc_of_ne h nd hrl] at hr
    exact hm r n hr hn

theorem measureLeaf_congr {h h2 : RNYGHeap} (hn : h2.nodes = h.nodes) (hm : h.MeasureLeaf) :
    h2.MeasureLeaf := by
  intro r n hr hmeas
  rw [get_congr hn] at hr
  exact hm r n hr hmeas

theorem MeasureLeaf.measureLeaf_frame {h h' : RNYGHeap} (hm : h.MeasureLeaf) (hf : h.MarkFrame h') :
    h'.MeasureLeaf := by
  intro r n hr hmeas
  rcases hf.2.2 r with ⟨-, b⟩ | ⟨m, m', a, b, ⟨d, l, c⟩, -⟩
  · rw [hr] at b
    exact absurd b (by simp)
  · rw [hr] at b
    simp only [Option.some.injEq] at b
    subst b
    subst c
    exact hm r m a hmeas

theorem noMeasure_set {h : RNYGHeap} {this r : RNYGNodeRef} {old : RNYGHeapNode}
    (hn : h.NoMeasure this) (hg : h.get r = some old) (nd : RNYGHeapNode)
    (hnd : nd.measure = old.measure) : (h.set r nd).NoMeasure this := by
  obtain ⟨n, hget, hnone⟩ := hn
  by_cases hr : this = r
  · subst hr
    rw [hg] at hget
    simp only [Option.some.injEq] at hget
    subst hget
    exact ⟨nd, get_set_self hg nd, hnd.trans hnone⟩
  · exact ⟨n, by rw [get_set_of_ne h hr]; exact hget, hnone⟩

theorem noMeasure_alloc {h : RNYGHeap} {this : RNYGNodeRef} (hn : h.NoMeasure this)
    (nd : RNYGHeapNode) : (h.alloc nd).1.NoMeasure this := by
  obtain ⟨n, hget, hnone⟩ := hn
  exact ⟨n, by rw [get_alloc_of_lt h nd (lt_of_get hget)]; exact hget, hnone⟩

theorem noMeasure_congr {h h2 : RNYGHeap} {this : RNYGNodeRef} (hn : h2.nodes = h.nodes)
    (hm : h.NoMeasure this) : h2.NoMeasure this := by
  obtain ⟨n, hget, hnone⟩ := hm
  exact ⟨n, by rw [get_congr hn]; exact hget, hnone⟩

theorem NoMeasure.noMeasure_frame {h h' : RNYGHeap} {this : RNYGNodeRef} (hm : h.NoMeasure this)
    (hf : h.MarkFrame h') : h'.NoMeasure this := by
  obtain ⟨n, hget, hnone⟩ := hm
  rcases hf.2.2 this with ⟨a, -⟩ | ⟨m, m', a, b, ⟨d, l, c⟩, -⟩
  · rw [hget] at a
    exact absurd a (by simp)
  · rw [hget] at a
    simp only [Option.some.injEq] at a
    subst a
    subst c
    exact ⟨_, b, hnone⟩

/-- A clone of a live node in a heap where measured nodes have no children. -/
theorem RNYGNodeClone_measure {h : RNYGHeap} {this oldNode : RNYGNodeRef}
    (hm : h.MeasureLeaf) (hn : h.NoMeasure this) {h1 : RNYGHeap} {newNode : RNYGNodeRef}
    (hclone : h.RNYGNodeClone oldNode = some (h1, newNode)) :
    h1.MeasureLeaf ∧ h1.NoMeasure this ∧ newNode ≠ this := by
  unfold RNYGNodeClone at hclone
  split at hclone
  · exact absurd hclone (by simp)
  · rename_i node hnode
    simp only [Option.some.injEq] at hclone
    have e1 : h1 = (h.alloc { node with parent := none }).1 := by rw [hclone]
    have e2 : newNode = (h.alloc { node with parent := none }).2 := by rw [hclone]
    subst e1 e2
    refine ⟨measureLeaf_alloc hm _ (hm oldNode node hnode), noMeasure_alloc hn _, ?_⟩
    obtain ⟨n, hget, -⟩ := hn
    have hlt : (this : Nat) < h.nodes.length := lt_of_get hget
    intro e
    have e' : h.nodes.length = this := e
    rw [← e'] at hlt
    exact absurd hlt (Nat.lt_irrefl _)

end RNYGHeap

namespace RNYGHeap

/-- Two writes of the copy-on-write loops: the child list of `this` and the parent of a live
node. -/
theorem measure_write_pair {h : RNYGHeap} {this newChild : RNYGNodeRef}
    (hm : h.MeasureLeaf) (hn : h.NoMeasure this) {node newNode : RNYGHeapNode}
    (children : List RNYGNodeRef) (parent : Option RNYGNodeRef)
    (hnode : h.get this = some node)
    (hnew : (h.set this { node with children := children }).get newChild = some newNode) :
    ((h.set this { node with children := children }).set newChild
        { newNode with parent := parent }).MeasureLeaf ∧
      ((h.set this { node with children := children }).set newChild
        { newNode with parent := parent }).NoMeasure this := by
  have hnone : node.measure = none := by
    obtain ⟨nd, hget, hnone⟩ := hn
    rw [hnode] at hget
    simp only [Option.some.injEq] at hget
    subst hget
    exact hnone
  have hm2 : (h.set this { node with children := children }).MeasureLeaf :=
    measureLeaf_set hm hnode _ (fun hs => by simp [hnone] at hs)
  have hn2 : (h.set this { node with children := children }).NoMeasure this :=
    noMeasure_set hn hnode _ rfl
  exact ⟨measureLeaf_set hm2 hnew _ (hm2 newChild newNode hnew), noMeasure_set hn2 hnew _ rfl⟩

theorem cloneChildrenLoop_measure (this : RNYGNodeRef) (cb : Bool) :
    ∀ (l : List RNYGNodeRef) (i : Nat) (h h' : RNYGHeap),
      h.MeasureLeaf → h.NoMeasure this →
      cloneChildrenLoop this cb l i h = some h' → h'.MeasureLeaf ∧ h'.NoMeasure this
  | [], i, h, h', hm, hn, hl => by
    simp only [cloneChildrenLoop, Option.some.injEq] at hl
    subst hl
    exact ⟨hm, hn⟩
  | oldChild :: rest, i, h, h', hm, hn, hl => by
    unfold cloneChildrenLoop at hl
    simp only [bind, Option.bind_eq_some, pure] at hl
    obtain ⟨⟨h1, newChild⟩, hclone, node, hnode, newNode, hnew, hrest⟩ := hl
    simp only at hnode hnew hrest
    obtain ⟨hm1, hn1, -⟩ := RNYGNodeClone_measure hm hn hclone
    obtain ⟨hm3, hn3⟩ := measure_write_pair hm1 hn1 (node.children.set i newChild) (some this)
      hnode hnew
    refine cloneChildrenLoop_measure this cb rest (i + 1) _ h' ?_ ?_ hrest
    · split_ifs
      · exact measureLeaf_congr rfl hm3
      · exact hm3
    · split_ifs
      · exact noMeasure_congr rfl hn3
      · exact hn3

theorem cloneChildrenIfNeeded_measure {h h' : RNYGHeap} {this : RNYGNodeRef}
    (hm : h.MeasureLeaf) (hn : h.NoMeasure this)
    (hl : h.cloneChildrenIfNeeded this = some h') : h'.MeasureLeaf ∧ h'.NoMeasure this := by
  unfold cloneChildrenIfNeeded at hl
  simp only [bind, Option.bind_eq_some, pure] at hl
  obtain ⟨node, hnode, h2⟩ := hl
  split at h2
  · simp only [Option.some.injEq] at h2
    subst h2
    exact ⟨hm, hn⟩
  · simp only [Option.bind_eq_some] at h2
    obtain ⟨firstChild, -, h3⟩ := h2
    split_ifs at h3
    · simp only [Option.some.injEq] at h3
      subst h3
      exact ⟨hm, hn⟩
    · exact cloneChildrenLoop_measure this _ _ _ _ _ hm hn h3

theorem RNYGNodeInsertChild_measure {h : RNYGHeap} (hm : h.MeasureLeaf)
    (node child : RNYGNodeRef) (index : Nat) (h' : RNYGHeap)
    (hs : h.RNYGNodeInsertChild node child index = some h') : h'.MeasureLeaf := by
  unfold RNYGNodeInsertChild at hs
  simp only [bind, Option.bind_eq_some, pure] at hs
  obtain ⟨nodeData, hnode, childData, -, h2⟩ := hs
  split_ifs at h2 with hpar hmeas
  simp only [Option.bind_eq_some] at h2
  obtain ⟨h1, hclone, nodeData1, hnode1, h3⟩ := h2
  split_ifs at h3
  simp only [Option.bind_eq_some, Option.some.injEq] at h3
  obtain ⟨childData1, hchild1, rfl⟩ := h3
  have hn : h.NoMeasure node := by
    refine ⟨nodeData, hnode, ?_⟩
    cases hmm : nodeData.measure with
    | none => rfl
    | some f => simp [hmm] at hmeas
  obtain ⟨hm1, hn1⟩ := cloneChildrenIfNeeded_measure hm hn hclone
  obtain ⟨hm3, -⟩ := measure_write_pair hm1 hn1 (nodeData1.children.insertIdx index child)
    (some node) hnode1 hchild1
  exact hm3.measureLeaf_frame (markDirtyAndPropogate_frame _ node)

theorem removeChildCloneLoop_measure (parent excludedChild : RNYGNodeRef) (cb : Bool) :
    ∀ (l : List RNYGNodeRef) (i : Nat) (h : RNYGHeap) (r : RNYGHeap × Nat),
      h.MeasureLeaf → h.NoMeasure parent →
      removeChildCloneLoop parent excludedChild cb l i h = some r →
      r.1.MeasureLeaf ∧ r.1.NoMeasure parent
  | [], i, h, r, hm, hn, hl => by
    simp only [removeChildCloneLoop, Option.some.injEq] at hl
    subst hl
    exact ⟨hm, hn⟩
  | oldChild :: rest, i, h, r, hm, hn, hl => by
    unfold removeChildCloneLoop at hl
    by_cases hex : excludedChild = oldChild
    · rw [if_pos hex] at hl
      exact removeChildCloneLoop_measure parent excludedChild cb rest i _ r
        (hm.measureLeaf_frame (markDirtyAndPropogate_frame h parent))
        (hn.noMeasure_frame (markDirtyAndPropogate_frame h parent)) hl
    · rw [if_neg hex] at hl
      simp only [bind, Option.bind_eq_some, pure] at hl
      obtain ⟨⟨h1, newChild⟩, hclone, parentData, hparent, newNode, hnew, hrest⟩ := hl
      simp only at hparent hnew hrest
      obtain ⟨hm1, hn1, -⟩ := RNYGNodeClone_measure hm hn hclone
      obtain ⟨hm3, hn3⟩ := measure_write_pair hm1 hn1 (parentData.children.set i newChild)
        (some parent) hparent hnew
      refine removeChildCloneLoop_measure parent excludedChild cb rest (i + 1) _ r ?_ ?_ hrest
      · split_ifs
        · exact measureLeaf_congr rfl hm3
        · exact hm3
      · split_ifs
        · exact noMeasure_congr rfl hn3
        · exact hn3

theorem RNYGNodeRemoveChild_measure {h : RNYGHeap} (hm : h.MeasureLeaf)
    (parent excludedChild : RNYGNodeRef) (r : RNYGHeap × Bool)
    (hs : h.RNYGNodeRemoveChild parent excludedChild = some r) : r.1.MeasureLeaf := by
  unfold RNYGNodeRemoveChild at hs
  simp only [bind, Option.bind_eq_some, pure] at hs
  obtain ⟨parentData, hparent, h2⟩ := hs
  split at h2
  · simp only [Option.some.injEq] at h2
    subst h2
    exact hm
  · rename_i firstChildRef tail hchildren
    have hn : h.NoMeasure parent := by
      refine ⟨parentData, hparent, ?_⟩
      cases hmm : parentData.measure with
      | none => rfl
      | some f =>
        have := hm parent parentData hparent (by simp [hmm])
        rw [hchildren] at this
        exact absurd this (by simp)
    simp only [Option.bind_eq_some] at h2
    obtain ⟨firstChild, -, h3⟩ := h2
    by_cases hown : firstChild.parent = some parent
    · rw [if_pos hown] at h3
      by_cases hmem : excludedChild ∈ parentData.children
      · rw [if_pos hmem] at h3
        simp only [Option.bind_eq_some, Option.some.injEq] at h3
        obtain ⟨excludedData, hexcluded, rfl⟩ := h3
        have hm1 : (h.set parent { parentData with
            children := parentData.children.erase excludedChild }).MeasureLeaf :=
          measureLeaf_set hm hparent _ (fun hs => by
            obtain ⟨nd, hget, hnone⟩ := hn
            rw [hparent] at hget
            simp only [Option.some.injEq] at hget
            subst hget
            simp [hnone] at hs)
        have hm2 := measureLeaf_set hm1 hexcluded
          { excludedData with layout := RNYGLayout.default, parent := none }
          (hm1 excludedChild excludedData hexcluded)
        exact hm2.measureLeaf_frame (markDirtyAndPropogate_frame _ parent)
      · rw [if_neg hmem] at h3
        simp only [Option.some.injEq] at h3
        subst h3
        exact hm
    · rw [if_neg hown] at h3
      simp only [Option.bind_eq_some, Option.some.injEq] at h3
      obtain ⟨⟨h1, nextInsertIndex⟩, hloop, newParentData, hnewParent, rfl⟩ := h3
      simp only at hnewParent
      obtain ⟨hm1, hn1⟩ := removeChildCloneLoop_measure parent excludedChild _ _ 0 h
        (h1, nextInsertIndex) hm hn hloop
      refine measureLeaf_set hm1 hnewParent _ (fun hs => ?_)
      obtain ⟨nd, hget, hnone⟩ := hn1
      rw [hnewParent] at hget
      simp only [Option.some.injEq] at hget
      subst hget
      simp [hnone] at hs

end RNYGHeap

namespace RNYGHeap

theorem removeAllChildrenLoop_measure :
    ∀ (l : List RNYGNodeRef) (h h' : RNYGHeap), h.MeasureLeaf →
      removeAllChildrenLoop l h = some h' → h'.MeasureLeaf
  | [], h, h', hm, hl => by
    simp only [removeAllChildrenLoop, Option.some.injEq] at hl
    subst hl
    exact hm
  | oldChild :: rest, h, h', hm, hl => by
    unfold removeAllChildrenLoop at hl
    simp only [Option.bind_eq_some] at hl
    obtain ⟨oldData, hold, hrest⟩ := hl
    exact removeAllChildrenLoop_measure rest _ h'
      (measureLeaf_set hm hold { oldData with layout := RNYGLayout.default, parent := none }
        (hm oldChild oldData hold)) hrest

theorem RNYGNodeRemoveAllChildren_measure {h : RNYGHeap} (hm : h.MeasureLeaf)
    (parent : RNYGNodeRef) (h' : RNYGHeap)
    (hs : h.RNYGNodeRemoveAllChildren parent = some h') : h'.MeasureLeaf := by
  unfold RNYGNodeRemoveAllChildren at hs
  simp only [Option.bind_eq_some] at hs
  obtain ⟨parentData, hparent, h2⟩ := hs
  split at h2
  · simp only [Option.some.injEq] at h2
    subst h2
    exact hm
  · simp only [Option.bind_eq_some] at h2
    obtain ⟨firstChild, -, h3⟩ := h2
    by_cases hown : firstChild.parent = some parent
    · rw [if_pos hown] at h3
      simp only [Option.bind_eq_some, Option.map_eq_some'] at h3
      obtain ⟨h1, hloop, parentData1, hparent1, rfl⟩ := h3
      have hm1 := removeAllChildrenLoop_measure _ h h1 hm hloop
      exact (measureLeaf_set hm1 hparent1 { parentData1 with children := [] }
        (fun _ => rfl)).measureLeaf_frame (markDirtyAndPropogate_frame _ parent)
    · rw [if_neg hown] at h3
      simp only [Option.some.injEq] at h3
      subst h3
      exact (measureLeaf_set hm hparent { parentData with children := [] }
        (fun _ => rfl)).measureLeaf_frame (markDirtyAndPropogate_frame _ parent)

theorem setMeasureFunc_measure {h : RNYGHeap} (hm : h.MeasureLeaf) (this : RNYGNodeRef)
    (measureFunc : Option RNYGMeasureFunc) (h' : RNYGHeap)
    (hs : h.setMeasureFunc this measureFunc = some h') : h'.MeasureLeaf := by
  unfold setMeasureFunc at hs
  simp only [Option.bind_eq_some, Option.map_eq_some'] at hs
  obtain ⟨node, hnode, node1, hnode1, rfl⟩ := hs
  cases measureFunc with
  | none =>
    exact measureLeaf_set hm hnode _ (fun hs => by simp at hs)
  | some f =>
    simp only at hnode1
    split_ifs at hnode1 with hlen
    simp only [Option.some.injEq] at hnode1
    subst hnode1
    refine measureLeaf_set hm hnode _ (fun _ => ?_)
    simp only [ne_eq, Decidable.not_not] at hlen
    exact List.length_eq_zero.mp hlen

theorem RNYGNodeInsertChild_measure_fatal (h : RNYGHeap) (node child : RNYGNodeRef) (index : Nat)
    (nodeData : RNYGHeapNode) (hnode : h.get node = some nodeData)
    (hmeas : nodeData.measure.isSome = true) : h.RNYGNodeInsertChild node child index = none := by
  unfold RNYGNodeInsertChild
  simp only [bind, hnode, Option.some_bind]
  cases h.get child with
  | none => rfl
  | some childData =>
    simp only [Option.some_bind, hmeas, if_true]
    split_ifs <;> rfl

theorem RNYGNodeSetMeasureFunc_children_fatal (h : RNYGHeap) (node : RNYGNodeRef)
    (f : RNYGMeasureFunc) (nodeData : RNYGHeapNode) (hnode : h.get node = some nodeData)
    (hchildren : nodeData.children ≠ []) : h.RNYGNodeSetMeasureFunc node (some f) = none := by
  have hlen : nodeData.children.length ≠ 0 := fun e => hchildren (List.length_eq_zero.mp e)
  unfold RNYGNodeSetMeasureFunc setMeasureFunc
  simp only [hnode, Option.some_bind, hlen, ne_eq, not_false_eq_true, if_true, Option.map_none']

theorem measureLeaf_of_reachable {h : RNYGHeap} (hr : h.ReachableByChildOps) :
    h.MeasureLeaf := by
  induction hr with
  | empty =>
    intro r n hget
    simp [get, emptyHeap] at hget
  | newNode h config _ ih => exact measureLeaf_alloc ih _ (fun hs => by simp [newNode] at hs)
  | insertChild h node child index h' _ hs ih =>
    exact RNYGNodeInsertChild_measure ih node child index h' hs
  | removeChild h parent excludedChild r _ hs ih =>
    exact RNYGNodeRemoveChild_measure ih parent excludedChild r hs
  | removeAllChildren h parent h' _ hs ih => exact RNYGNodeRemoveAllChildren_measure ih parent h' hs
  | setMeasureFunc h node measureFunc h' _ hs ih =>
    exact setMeasureFunc_measure ih node measureFunc h' hs

end RNYGHeap

/-- C13: in every heap reached from new nodes through `RNYGNodeInsertChild`,
`RNYGNodeRemoveChild`, `RNYGNodeRemoveAllChildren` and `RNYGNodeSetMeasureFunc`, no live node
has both a measure callback and a child; `RNYGNodeInsertChild` into a node with a measure
callback aborts, and `RNYGNodeSetMeasureFunc` with a callback on a node with children aborts. -/
theorem RNYGHeap.measure_excludes_children (h : RNYGHeap) (hr : h.ReachableByChildOps) :
    (∀ r n, h.get r = some n → n.measure.isSome = true → n.children = []) ∧
    (∀ node child index nodeData, h.get node = some nodeData →
      nodeData.measure.isSome = true → h.RNYGNodeInsertChild node child index = none) ∧
    (∀ node f nodeData, h.get node = some nodeData → nodeData.children ≠ [] →
      h.RNYGNodeSetMeasureFunc node (some f) = none) :=
  ⟨RNYGHeap.measureLeaf_of_reachable hr,
    fun node child index nodeData hnode hmeas =>
      RNYGHeap.RNYGNodeInsertChild_measure_fatal h node child index nodeData hnode hmeas,
    fun node f nodeData hnode hchildren =>
      RNYGHeap.RNYGNodeSetMeasureFunc_children_fatal h node f nodeData hnode hchildren⟩

theorem RNYGHeap.measuredNodeHeap_reachable : RNYGHeap.measuredNodeHeap.ReachableByChildOps :=
  RNYGHeap.ReachableByChildOps.setMeasureFunc
    (RNYGHeap.emptyHeap.alloc (RNYGHeap.newNode gYGConfigDefaults)).1 0 (some nanMeasure) _
    (RNYGHeap.ReachableByChildOps.newNode _ _ RNYGHeap.ReachableByChildOps.empty) rfl

theorem RNYGHeap.measure_excludes_children_witness :
    RNYGHeap.measuredNodeHeap.ReachableByChildOps ∧
    (∀ r n, RNYGHeap.measuredNodeHeap.get r = some n → n.measure.isSome = true →
      n.children = []) ∧
    (∀ node child index nodeData, RNYGHeap.measuredNodeHeap.get node = some nodeData →
      nodeData.measure.isSome = true →
      RNYGHeap.measuredNodeHeap.RNYGNodeInsertChild node child index = none) ∧
    (∀ node f nodeData, RNYGHeap.measuredNodeHeap.get node = some nodeData →
      nodeData.children ≠ [] →
      RNYGHeap.measuredNodeHeap.RNYGNodeSetMeasureFunc node (some f) = none) :=
  ⟨RNYGHeap.measuredNodeHeap_reachable,
    RNYGHeap.measure_excludes_children _ RNYGHeap.measuredNodeHeap_reachable⟩

/-! ### Freeing nodes -/

namespace RNYGHeap

theorem get_free_self (h : RNYGHeap) (r : RNYGNodeRef) : (h.free r).get r = none := by
  by_cases hlt : r < h.nodes.length
  · simp [get, free, List.getElem?_set, hlt]
  · simp [get, free, List.getElem?_set, hlt]

theorem get_free_of_ne (h : RNYGHeap) {r r' : RNYGNodeRef} (hne : r' ≠ r) :
    (h.free r).get r' = h.get r' := by
  unfold get free
  have hne' : ¬ (r = r') := fun e => hne e.symm
  simp only [List.getElem?_set, hne', if_false]

theorem freeChildrenLoop_spec :
    ∀ (l : List RNYGNodeRef) (h : RNYGHeap), (∀ c ∈ l, ∃ cd, h.get c = some cd) →
      ∃ h', freeChildrenLoop l h = some h' ∧
        (∀ r, r ∉ l → h'.get r = h.get r) ∧
        (∀ c ∈ l, ∀ cd, h.get c = some cd → h'.get c = some { cd with parent := none })
  | [], h, _ => ⟨h, rfl, fun _ _ => rfl, fun c hc => absurd hc (List.not_mem_nil c)⟩
  | c :: l, h, hlive => by
    obtain ⟨cd, hcd⟩ := hlive c (List.mem_cons_self c l)
    have hlive1 : ∀ x ∈ l, ∃ xd, (h.set c { cd with parent := none }).get x = some xd := by
      intro x hx
      by_cases hxc : x = c
      · subst hxc
        exact ⟨_, get_set_self hcd _⟩
      · rw [get_set_of_ne h hxc]
        exact hlive x (List.mem_cons_of_mem c hx)
    obtain ⟨h', hrun, hout, hin⟩ := freeChildrenLoop_spec l _ hlive1
    refine ⟨h', ?_, ?_, ?_⟩
    · unfold freeChildrenLoop
      rw [hcd]
      exact hrun
    · intro r hr
      have hrc : r ≠ c := fun e => hr (e ▸ List.mem_cons_self c l)
      have hrl : r ∉ l := fun e => hr (List.mem_cons_of_mem c e)
      rw [hout r hrl, get_set_of_ne h hrc]
    · intro x hx xd hxd
      by_cases hxc : x = c
      · subst hxc
        rw [hcd] at hxd
        simp only [Option.some.injEq] at hxd
        subst hxd
        by_cases hxl : x ∈ l
        · rw [hin x hxl _ (get_set_self hcd _)]
        · rw [hout x hxl]
          exact get_set_self hcd _
      · have hxl : x ∈ l := by
          rcases List.mem_cons.mp hx with e | e
          · exact absurd e hxc
          · exact e
        exact hin x hxl xd (by rw [get_set_of_ne h hxc]; exact hxd)

end RNYGHeap

namespace RNYGHeap

theorem isSome_get_set {h : RNYGHeap} {r : RNYGNodeRef} {old : RNYGHeapNode}
    (hg : h.get r = some old) (nd : RNYGHeapNode) (x : RNYGNodeRef)
    (hx : (h.get x).isSome = true) : ((h.set r nd).get x).isSome = true := by
  by_cases hxr : x = r
  · subst hxr
    rw [get_set_self hg]
    rfl
  · rw [get_set_of_ne h hxr]
    exact hx

theorem detachFromParent_spec {h : RNYGHeap} {node : RNYGNodeRef} {nd : RNYGHeapNode}
    (hnode : h.get node = some nd) (hp : ∀ p, nd.parent = some p → ∃ pd, h.get p = some pd) :
    ∃ h2 nd2, h.detachFromParent node = some h2 ∧ h2.get node = some nd2 ∧
      (∀ c ∈ nd.children, c ≠ node → c ∈ nd2.children) ∧
      (∀ c ∈ nd2.children, c ∈ nd.children) ∧
      (∀ r, r ≠ node → some r ≠ nd.parent → h2.get r = h.get r) ∧
      (∀ r, (h.get r).isSome = true → (h2.get r).isSome = true) := by
  unfold detachFromParent
  rw [hnode]
  simp only [Option.some_bind]
  cases hpar : nd.parent with
  | none => exact ⟨h, nd, rfl, hnode, fun c hc _ => hc, fun c hc => hc, fun r _ _ => rfl,
      fun r hr => hr⟩
  | some p =>
    obtain ⟨pd, hpd⟩ := hp p hpar
    simp only [hpd, Option.some_bind]
    by_cases hpn : node = p
    · subst hpn
      rw [hnode] at hpd
      simp only [Option.some.injEq] at hpd
      subst hpd
      have h1 := get_set_self hnode { nd with children := nd.children.erase node }
      rw [h1]
      refine ⟨_, _, rfl, get_set_self h1 _, ?_, ?_, ?_, ?_⟩
      · intro c hc hcn
        exact (List.mem_erase_of_ne hcn).mpr hc
      · intro c hc
        exact List.mem_of_mem_erase hc
      · intro r hr _
        rw [get_set_of_ne _ hr, get_set_of_ne _ hr]
      · intro r hr
        exact isSome_get_set h1 _ r (isSome_get_set hnode _ r hr)
    · have h1 : (h.set p { pd with children := pd.children.erase node }).get node = some nd := by
        rw [get_set_of_ne h hpn]
        exact hnode
      rw [h1]
      refine ⟨_, _, rfl, get_set_self h1 _, fun c hc _ => hc, fun c hc => hc, ?_, ?_⟩
      · intro r hr hrp
        have hrp' : r ≠ p := fun e => hrp (by rw [e])
        rw [get_set_of_ne _ hr, get_set_of_ne _ hrp']
      · intro r hr
        exact isSome_get_set h1 _ r (isSome_get_set hpd _ r hr)

/-- `RNYGNodeFree` on a live node whose parent and children are live. -/
theorem RNYGNodeFree_spec {h : RNYGHeap} {node : RNYGNodeRef} {nd : RNYGHeapNode}
    (hnode : h.get node = some nd) (hp : ∀ p, nd.parent = some p → ∃ pd, h.get p = some pd)
    (hlive : ∀ c ∈ nd.children, ∃ cd, h.get c = some cd) :
    ∃ h', h.RNYGNodeFree node = some h' ∧ h'.get node = none ∧
      (∀ r, r ≠ node → (h.get r).isSome = true → (h'.get r).isSome = true) ∧
      (∀ c ∈ nd.children, c ≠ node → some c ≠ nd.parent →
        ∀ cd, h.get c = some cd → h'.get c = some { cd with parent := none }) := by
  obtain ⟨h2, nd2, hdetach, hnode2, hkeep, hsub, hsame, hlive2⟩ := detachFromParent_spec hnode hp
  have hlive2' : ∀ c ∈ nd2.children, ∃ cd, h2.get c = some cd := by
    intro c hc
    obtain ⟨cd, hcd⟩ := hlive c (hsub c hc)
    exact Option.isSome_iff_exists.mp (hlive2 c (by rw [hcd]; rfl))
  obtain ⟨h3, hloop, hout, hin⟩ := freeChildrenLoop_spec nd2.children h2 hlive2'
  refine ⟨h3.free node, ?_, get_free_self h3 node, ?_, ?_⟩
  · unfold RNYGNodeFree
    rw [hdetach]
    simp only [Option.some_bind, hnode2, hloop, Option.map_some']
  · intro r hr hlr
    rw [get_free_of_ne h3 hr]
    have h2r := hlive2 r hlr
    obtain ⟨rd, hrd⟩ := Option.isSome_iff_exists.mp h2r
    by_cases hmem : r ∈ nd2.children
    · rw [hin r hmem rd hrd]
      rfl
    · rw [hout r hmem]
      exact h2r
  · intro c hc hcn hcp cd hcd
    rw [get_free_of_ne h3 hcn]
    exact hin c (hkeep c hc hcn) cd (by rw [hsame c hcn hcp]; exact hcd)

end RNYGHeap

/-- C15 (the code at the failing input): `RNYGNodeFreeRecursive` on a clone that shares its
child with the original frees the clone and no other node, and resets the parent pointer of the
shared child, which was the original; the original still lists the child. -/
theorem RNYGNodeFreeRecursive_resets_shared_parent :
    RNYGHeap.sharedChildHeap.parentOf 1 = some (some 0) ∧
    (RNYGHeap.sharedChildHeap.RNYGNodeFreeRecursive 2).map (fun h =>
        (h.isLive 2, h.isLive 1, h.parentOf 1, h.childrenOf 0))
      = some (false, true, some none, some [1]) := by
  decide!

/-- What `RNYGNodeFreeRecursive` does on shared children: on a live node with live parent and
children whose first child has its parent field pointing to a different node, it does not
recurse: it frees that node and no other, and every child (other than the node itself and its
parent) stays alive with its parent link reset to null and all its other fields unchanged. -/
theorem RNYGHeap.RNYGNodeFreeRecursive_shared_children (h : RNYGHeap) (root : RNYGNodeRef)
    (rootData : RNYGHeapNode) (first : RNYGNodeRef) (rest : List RNYGNodeRef)
    (firstData : RNYGHeapNode) (hroot : h.get root = some rootData)
    (hparent : ∀ p, rootData.parent = some p → ∃ pd, h.get p = some pd)
    (hchildren : rootData.children = first :: rest)
    (hlive : ∀ c ∈ rootData.children, ∃ cd, h.get c = some cd)
    (hfirst : h.get first = some firstData) (hshared : firstData.parent ≠ some root) :
    ∃ h', h.RNYGNodeFreeRecursive root = some h' ∧ h'.get root = none ∧
      (∀ r, r ≠ root → (h.get r).isSome = true → (h'.get r).isSome = true) ∧
      (∀ c ∈ rootData.children, c ≠ root → some c ≠ rootData.parent →
        ∀ cd, h.get c = some cd → h'.get c = some { cd with parent := none }) := by
  have e : h.RNYGNodeFreeRecursive root = h.RNYGNodeFree root := by
    unfold RNYGHeap.RNYGNodeFreeRecursive RNYGHeap.RNYGNodeFreeRecursiveAux
    simp only [hroot, Option.some_bind, hchildren, hfirst, ne_eq, hshared, not_false_eq_true,
      if_true]
  rw [e]
  exact RNYGHeap.RNYGNodeFree_spec hroot hparent hlive

theorem RNYGHeap.RNYGNodeFreeRecursive_shared_children_witness :
    ∃ h', RNYGHeap.sharedChildHeap.RNYGNodeFreeRecursive 2 = some h' ∧ h'.get 2 = none ∧
      (∀ r, r ≠ 2 → (RNYGHeap.sharedChildHeap.get r).isSome = true →
        (h'.get r).isSome = true) ∧
      (∀ c ∈ [1], c ≠ 2 → some c ≠ (none : Option RNYGNodeRef) →
        ∀ cd, RNYGHeap.sharedChildHeap.get c = some cd →
          h'.get c = some { cd with parent := none }) :=
  RNYGHeap.RNYGNodeFreeRecursive_shared_children RNYGHeap.sharedChildHeap 2
    { RNYGHeap.newNode gYGConfigDefaults with children := [1] } 1 []
    { RNYGHeap.newNode gYGConfigDefaults with parent := some 0 } rfl
    (fun p hp => absurd hp (by simp [RNYGHeap.newNode])) rfl
    (fun c hc => by
      simp only [List.mem_singleton] at hc
      subst hc
      exact ⟨_, rfl⟩)
    rfl (by simp)

/-! ### Copy on write -/

namespace RNYGHeap

/-- One iteration of the loop of `cloneChildrenIfNeeded`: the heap after the clone of
`oldChild`, `replaceChild` and `setParent`. -/
theorem cloneStep {h : RNYGHeap} {this oldChild : RNYGNodeRef} {nd cd : RNYGHeapNode}
    (hthis : h.get this = some nd) (hcd : h.get oldChild = some cd) (i : Nat) :
    ∃ h3, h3.nodes.length = h.nodes.length + 1 ∧
      h3.get this = some { nd with children := nd.children.set i h.nodes.length } ∧
      h3.get h.nodes.length = some { cd with parent := some this } ∧
      (∀ r, r < h.nodes.length → r ≠ this → h3.get r = h.get r) ∧
      h3.clonedLog = h.clonedLog ∧ h3.dirtiedLog = h.dirtiedLog ∧
      ∀ (cb : Bool) (rest : List RNYGNodeRef),
        cloneChildrenLoop this cb (oldChild :: rest) i h =
          cloneChildrenLoop this cb rest (i + 1)
            (if cb = true then
              { h3 with clonedLog := h3.clonedLog ++ [(oldChild, h.nodes.length, this, i)] }
            else h3) := by
  have hlt : (this : Nat) < h.nodes.length := lt_of_get hthis
  have hne : h.nodes.length ≠ this := fun e => by
    rw [e] at hlt
    exact absurd hlt (Nat.lt_irrefl _)
  have h1this : (h.alloc { cd with parent := none }).1.get this = some nd := by
    rw [get_alloc_of_lt h _ hlt]
    exact hthis
  have h2new : ((h.alloc { cd with parent := none }).1.set this
      { nd with children := nd.children.set i h.nodes.length }).get h.nodes.length =
        some { cd with parent := none } := by
    rw [get_set_of_ne _ hne]
    exact get_alloc_self h _
  refine ⟨((h.alloc { cd with parent := none }).1.set this
      { nd with children := nd.children.set i h.nodes.length }).set h.nodes.length
        { cd with parent := some this }, ?_, ?_, ?_, ?_, rfl, rfl, ?_⟩
  · rw [length_set, length_set, length_alloc]
  · rw [get_set_of_ne _ hne.symm]
    exact get_set_self h1this _
  · exact get_set_self h2new _
  · intro r hr hrt
    have hrn : r ≠ h.nodes.length := fun e => by
      rw [e] at hr
      exact absurd hr (Nat.lt_irrefl _)
    rw [get_set_of_ne _ hrn, get_set_of_ne _ hrt]
    exact get_alloc_of_lt h _ hr
  · intro cb rest
    conv_lhs => unfold cloneChildrenLoop
    simp only [RNYGNodeClone, hcd, bind, Option.some_bind]
    have e1 : (h.alloc { cd with parent := none }).2 = h.nodes.length := rfl
    simp only [e1, h1this, Option.some_bind, h2new]

end RNYGHeap

namespace RNYGHeap

theorem cloneChildrenLoop_spec (this : RNYGNodeRef) (cb : Bool) :
    ∀ (l : List RNYGNodeRef) (i : Nat) (h : RNYGHeap) (nd : RNYGHeapNode),
      h.get this = some nd → (∀ c ∈ l, ∃ cd, h.get c = some cd) →
      i + l.length ≤ nd.children.length →
      ∃ h' ch, cloneChildrenLoop this cb l i h = some h' ∧
        h'.nodes.length = h.nodes.length + l.length ∧
        h'.get this = some { nd with children := ch } ∧ ch.length = nd.children.length ∧
        (∀ j, j < l.length → ch[i + j]? = some (h.nodes.length + j)) ∧
        (∀ idx, (idx < i ∨ i + l.length ≤ idx) → ch[idx]? = nd.children[idx]?) ∧
        (∀ r, r < h.nodes.length → r ≠ this → h'.get r = h.get r) ∧
        (∀ j c cd, l[j]? = some c → h.get c = some cd →
          ∃ cd', h'.get (h.nodes.length + j) = some cd' ∧ cd'.parent = some this ∧
            cd'.style = cd.style ∧ cd'.layout = cd.layout) ∧
        h'.clonedLog =
          h.clonedLog ++ (if cb = true then clonedEntries this l i h.nodes.length else []) ∧
        h'.dirtiedLog = h.dirtiedLog
  | [], i, h, nd, hthis, _, _ => by
    refine ⟨h, nd.children, rfl, rfl, hthis, rfl, ?_, fun _ _ => rfl, fun _ _ _ => rfl, ?_, ?_,
      rfl⟩
    · intro j hj
      exact absurd hj (Nat.not_lt_zero j)
    · intro j c cd hj
      simp at hj
    · simp [clonedEntries]
  | oldChild :: rest, i, h, nd, hthis, hlive, hlen => by
    obtain ⟨cd0, hcd0⟩ := hlive oldChild (List.mem_cons_self oldChild rest)
    obtain ⟨h3, hlen3, hthis3, hnew3, hframe3, hclog3, hdlog3, hrun⟩ := cloneStep hthis hcd0 i
    rw [hrun cb rest]
    simp only [List.length_cons] at hlen
    have hlt : (this : Nat) < h.nodes.length := lt_of_get hthis
    -- the heap after the call of the callback
    obtain ⟨h4, he4, hn4, hc4, hd4⟩ : ∃ h4 : RNYGHeap,
        (if cb = true then
          { h3 with clonedLog := h3.clonedLog ++ [(oldChild, h.nodes.length, this, i)] }
        else h3) = h4 ∧ h4.nodes = h3.nodes ∧
        h4.clonedLog = h.clonedLog ++
          (if cb = true then [(oldChild, h.nodes.length, this, i)] else []) ∧
        h4.dirtiedLog = h.dirtiedLog := by
      cases cb with
      | false => exact ⟨h3, rfl, rfl, by simp [hclog3], hdlog3⟩
      | true => exact ⟨_, rfl, rfl, by simp [hclog3], hdlog3⟩
    rw [he4]
    have hlen4 : h4.nodes.length = h.nodes.length + 1 := by rw [hn4, hlen3]
    have hthis4 : h4.get this = some { nd with children := nd.children.set i h.nodes.length } := by
      rw [get_congr hn4]
      exact hthis3
    -- the data of an old node in `h4`: the same style and layout
    have hold4 : ∀ c cd, h.get c = some cd →
        ∃ cd4, h4.get c = some cd4 ∧ cd4.style = cd.style ∧ cd4.layout = cd.layout := by
      intro c cd hc
      by_cases hct : c = this
      · subst hct
        rw [hthis] at hc
        simp only [Option.some.injEq] at hc
        subst hc
        exact ⟨_, hthis4, rfl, rfl⟩
      · refine ⟨cd, ?_, rfl, rfl⟩
        rw [get_congr hn4, hframe3 c (lt_of_get hc) hct]
        exact hc
    have hlive4 : ∀ c ∈ rest, ∃ cd, h4.get c = some cd := by
      intro c hc
      obtain ⟨cd, hcd⟩ := hlive c (List.mem_cons_of_mem oldChild hc)
      obtain ⟨cd4, hcd4, -, -⟩ := hold4 c cd hcd
      exact ⟨cd4, hcd4⟩
    obtain ⟨h', ch, hloop, hlen', hthis', hchlen, hnewidx, hkeep, hframe, hclones, hclog, hdlog⟩ :=
      cloneChildrenLoop_spec this cb rest (i + 1) h4 _ hthis4 hlive4
        (by simp only [List.length_set]; omega)
    simp only [List.length_set] at hchlen
    refine ⟨h', ch, hloop, ?_, hthis', hchlen, ?_, ?_, ?_, ?_, ?_, ?_⟩
    · rw [hlen', hlen4, List.length_cons]
      omega
    · intro j hj
      cases j with
      | zero =>
        rw [hkeep (i + 0) (Or.inl (by omega))]
        simp only [Nat.add_zero, List.getElem?_set]
        have hi : i < nd.children.length := by omega
        simp [hi]
      | succ j =>
        simp only [List.length_cons] at hj
        have := hnewidx j (by omega)
        rw [hlen4] at this
        have e1 : i + (j + 1) = i + 1 + j := by omega
        have e2 : h.nodes.length + (j + 1) = h.nodes.length + 1 + j := by omega
        rw [e1, e2]
        exact this
    · intro idx hidx
      simp only [List.length_cons] at hidx
      rw [hkeep idx (by omega)]
      simp only [List.getElem?_set]
      have hne : ¬ (i = idx) := by omega
      simp [hne]
    · intro r hr hrt
      rw [hframe r (by omega) hrt, get_congr hn4, hframe3 r hr hrt]
    · intro j c cd hj hc
      cases j with
      | zero =>
        simp only [List.getElem?_cons_zero, Option.some.injEq] at hj
        subst hj
        rw [hcd0] at hc
        simp only [Option.some.injEq] at hc
        subst hc
        have hne : h.nodes.length ≠ this := fun e => by
          rw [e] at hlt
          exact absurd hlt (Nat.lt_irrefl _)
        refine ⟨{ cd0 with parent := some this }, ?_, rfl, rfl, rfl⟩
        rw [Nat.add_zero, hframe h.nodes.length (by omega) hne, get_congr hn4]
        exact hnew3
      | succ j =>
        simp only [List.getElem?_cons_succ] at hj
        obtain ⟨cd4, hcd4, hs4, hl4⟩ := hold4 c cd hc
        obtain ⟨cd', hcd', hp', hs', hl'⟩ := hclones j c cd4 hj hcd4
        rw [hlen4] at hcd'
        have e2 : h.nodes.length + (j + 1) = h.nodes.length + 1 + j := by omega
        rw [e2]
        exact ⟨cd', hcd', hp', hs'.trans hs4, hl'.trans hl4⟩
    · rw [hclog, hc4, hlen4]
      cases cb <;> simp [clonedEntries]
    · rw [hdlog, hd4]

end RNYGHeap

namespace RNYGHeap

theorem cloneChildrenIfNeeded_of_owner {h : RNYGHeap} {this first : RNYGNodeRef}
    {node fd : RNYGHeapNode} {rest : List RNYGNodeRef} (hthis : h.get this = some node)
    (hch : node.children = first :: rest) (hfd : h.get first = some fd)
    (hown : fd.parent = some this) : h.cloneChildrenIfNeeded this = some h := by
  unfold cloneChildrenIfNeeded
  simp only [bind, hthis, Option.some_bind]
  rw [hch]
  simp only [hfd, Option.some_bind, hown, if_true, pure]

theorem cloneChildrenIfNeeded_of_shared {h : RNYGHeap} {this first : RNYGNodeRef}
    {node fd : RNYGHeapNode} {rest : List RNYGNodeRef} (hthis : h.get this = some node)
    (hch : node.children = first :: rest) (hfd : h.get first = some fd)
    (hshared : fd.parent ≠ some this) :
    h.cloneChildrenIfNeeded this =
      cloneChildrenLoop this node.hasCloneNodeCallback node.children 0 h := by
  unfold cloneChildrenIfNeeded
  simp only [bind, hthis, Option.some_bind]
  rw [hch]
  simp only [hfd, Option.some_bind, hshared, if_false]

end RNYGHeap

/-- C16: on a live node with live children, `cloneChildrenIfNeeded` returns, and a second call
right after it changes nothing.  If the first child's parent is this node the heap is
unchanged.  If it is not, the child list has the same length and holds at every index `j` the
new node `h.nodes.length + j`, which is live with parent this node and with the style and
layout of the old child at index `j`; the clone callback, when the configuration has one, is
invoked once per child, in order, with (old child, new child, this node, index); and every
other old node is unchanged. -/
theorem RNYGHeap.cloneChildrenIfNeeded_copies (h : RNYGHeap) (this : RNYGNodeRef)
    (node : RNYGHeapNode) (hthis : h.get this = some node)
    (hlive : ∀ c ∈ node.children, ∃ cd, h.get c = some cd) :
    ∃ h', h.cloneChildrenIfNeeded this = some h' ∧ h'.cloneChildrenIfNeeded this = some h' ∧
      ∀ first rest fd, node.children = first :: rest → h.get first = some fd →
        (fd.parent = some this → h' = h) ∧
        (fd.parent ≠ some this →
          (∃ ch, h'.get this = some { node with children := ch } ∧
            ch.length = node.children.length ∧
            ∀ j, j < node.children.length → ch[j]? = some (h.nodes.length + j)) ∧
          (∀ j c cd, node.children[j]? = some c → h.get c = some cd →
            ∃ cd', h'.get (h.nodes.length + j) = some cd' ∧ cd'.parent = some this ∧
              cd'.style = cd.style ∧ cd'.layout = cd.layout) ∧
          h'.clonedLog = h.clonedLog ++
            (if node.hasCloneNodeCallback = true then
              RNYGHeap.clonedEntries this node.children 0 h.nodes.length else []) ∧
          ∀ r, r < h.nodes.length → r ≠ this → h'.get r = h.get r) := by
  cases hch : node.children with
  | nil =>
    have e : h.cloneChildrenIfNeeded this = some h := by
      unfold RNYGHeap.cloneChildrenIfNeeded
      simp only [bind, hthis, Option.some_bind]
      rw [hch]
      rfl
    exact ⟨h, e, e, fun first rest fd hc => absurd hc (by simp)⟩
  | cons first rest =>
    obtain ⟨fd, hfd⟩ := hlive first (by rw [hch]; exact List.mem_cons_self first rest)
    by_cases hown : fd.parent = some this
    · have e := RNYGHeap.cloneChildrenIfNeeded_of_owner hthis hch hfd hown
      refine ⟨h, e, e, fun first' rest' fd' hc hfd' => ⟨fun _ => rfl, fun hs => ?_⟩⟩
      simp only [List.cons.injEq] at hc
      obtain ⟨hf, -⟩ := hc
      subst hf
      rw [hfd] at hfd'
      simp only [Option.some.injEq] at hfd'
      subst hfd'
      exact absurd hown hs
    · obtain ⟨h', ch, hloop, -, hthis', hchlen, hnewidx, -, hframe, hclones, hclog, -⟩ :=
        RNYGHeap.cloneChildrenLoop_spec this node.hasCloneNodeCallback node.children 0 h node
          hthis hlive (by omega)
      have hrun : h.cloneChildrenIfNeeded this = some h' := by
        rw [RNYGHeap.cloneChildrenIfNeeded_of_shared hthis hch hfd hown]
        exact hloop
      -- the first child after the call is the clone in the first new slot
      have hfirst' : ∃ t, ch = h.nodes.length :: t := by
        have h0 := hnewidx 0 (by rw [hch]; simp)
        cases ch with
        | nil => simp at h0
        | cons c0 t =>
          simp only [Nat.add_zero, List.getElem?_cons_zero, Option.some.injEq] at h0
          exact ⟨t, by rw [h0]⟩
      obtain ⟨t, hcht⟩ := hfirst'
      obtain ⟨cd', hcd', hp', -, -⟩ := hclones 0 first fd (by rw [hch]; simp) hfd
      have hagain : h'.cloneChildrenIfNeeded this = some h' :=
        RNYGHeap.cloneChildrenIfNeeded_of_owner hthis' hcht hcd' hp'
      refine ⟨h', hrun, hagain, fun first' rest' fd' hc hfd' => ⟨fun ho => ?_, fun _ => ?_⟩⟩
      · simp only [List.cons.injEq] at hc
        obtain ⟨hf, -⟩ := hc
        subst hf
        rw [hfd] at hfd'
        simp only [Option.some.injEq] at hfd'
        subst hfd'
        exact absurd ho hown
      · rw [← hch]
        refine ⟨⟨ch, hthis', hchlen, fun j hj => ?_⟩, hclones, hclog, hframe⟩
        have := hnewidx j hj
        rw [Nat.zero_add] at this
        exact this

theorem RNYGHeap.cloneChildrenIfNeeded_copies_witness :
    ∃ h', RNYGHeap.sharedChildHeapWithCallback.cloneChildrenIfNeeded 2 = some h' ∧
      h'.cloneChildrenIfNeeded 2 = some h' ∧
      ∀ first rest fd, [1] = first :: rest →
        RNYGHeap.sharedChildHeapWithCallback.get first = some fd →
        (fd.parent = some 2 → h' = RNYGHeap.sharedChildHeapWithCallback) ∧
        (fd.parent ≠ some 2 →
          (∃ ch, h'.get 2 = some { RNYGHeap.newNode gYGConfigDefaults with
              children := ch, hasCloneNodeCallback := true } ∧
            ch.length = [1].length ∧
            ∀ j, j < [1].length → ch[j]? = some (3 + j)) ∧
          (∀ j c cd, [1][j]? = some c → RNYGHeap.sharedChildHeapWithCallback.get c = some cd →
            ∃ cd', h'.get (3 + j) = some cd' ∧ cd'.parent = some 2 ∧
              cd'.style = cd.style ∧ cd'.layout = cd.layout) ∧
          h'.clonedLog = [] ++
            (if true = true then RNYGHeap.clonedEntries 2 [1] 0 3 else []) ∧
          ∀ r, r < 3 → r ≠ 2 → h'.get r = RNYGHeap.sharedChildHeapWithCallback.get r) :=
  RNYGHeap.cloneChildrenIfNeeded_copies RNYGHeap.sharedChildHeapWithCallback 2
    { RNYGHeap.newNode gYGConfigDefaults with children := [1], hasCloneNodeCallback := true }
    rfl
    (fun c hc => by
      simp only [List.mem_singleton] at hc
      subst hc
      exact ⟨_, rfl⟩)

/-! ### The parent links -/

namespace RNYGHeap

theorem Owned.parentLinked {h : RNYGHeap} (ho : h.Owned) : h.ParentLinked := by
  intro n nd hn
  cases hp : nd.parent with
  | none =>
    refine Or.inl ⟨rfl, fun p pd hpd hmem => ?_⟩
    obtain ⟨cd, hcd, hcp⟩ := ho.1 p pd n hpd hmem
    rw [hn] at hcd
    simp only [Option.some.injEq] at hcd
    subst hcd
    rw [hp] at hcp
    exact absurd hcp (by simp)
  | some p =>
    obtain ⟨pd, hpd, hmem⟩ := ho.2.1 n nd p hn hp
    exact Or.inr ⟨p, pd, rfl, hpd, hmem⟩

/-- In a heap without sharing a node is in the child list of its parent only. -/
theorem Owned.unique_parent {h : RNYGHeap} (ho : h.Owned) {p q c : RNYGNodeRef}
    {pd qd : RNYGHeapNode} (hp : h.get p = some pd) (hq : h.get q = some qd)
    (hcp : c ∈ pd.children) (hcq : c ∈ qd.children) : p = q := by
  obtain ⟨cd, hcd, hpar⟩ := ho.1 p pd c hp hcp
  obtain ⟨cd', hcd', hpar'⟩ := ho.1 q qd c hq hcq
  rw [hcd] at hcd'
  simp only [Option.some.injEq] at hcd'
  subst hcd'
  rw [hpar] at hpar'
  simpa using hpar'

theorem Owned.owned_frame {h h' : RNYGHeap} (ho : h.Owned) (hf : h.MarkFrame h') :
    h'.Owned := by
  -- a live node of `h'` is a live node of `h` with the same parent and children
  have hback : ∀ r n', h'.get r = some n' →
      ∃ n, h.get r = some n ∧ n'.parent = n.parent ∧ n'.children = n.children := by
    intro r n' hr
    rcases hf.2.2 r with ⟨-, b⟩ | ⟨m, m', a, b, ⟨d, l, c⟩, -⟩
    · rw [hr] at b
      exact absurd b (by simp)
    · rw [hr] at b
      simp only [Option.some.injEq] at b
      subst b
      subst c
      exact ⟨m, a, rfl, rfl⟩
  have hforth : ∀ r n, h.get r = some n →
      ∃ n', h'.get r = some n' ∧ n'.parent = n.parent ∧ n'.children = n.children := by
    intro r n hr
    rcases hf.2.2 r with ⟨a, -⟩ | ⟨m, m', a, b, ⟨d, l, c⟩, -⟩
    · rw [hr] at a
      exact absurd a (by simp)
    · rw [hr] at a
      simp only [Option.some.injEq] at a
      subst a
      subst c
      exact ⟨_, b, rfl, rfl⟩
  refine ⟨?_, ?_, ?_⟩
  · intro p pd' c hp hc
    obtain ⟨pd, hpd, -, hch⟩ := hback p pd' hp
    rw [hch] at hc
    obtain ⟨cd, hcd, hpar⟩ := ho.1 p pd c hpd hc
    obtain ⟨cd', hcd', hpar', -⟩ := hforth c cd hcd
    exact ⟨cd', hcd', hpar'.trans hpar⟩
  · intro n nd' p hn hpar
    obtain ⟨nd, hnd, hp', -⟩ := hback n nd' hn
    rw [hp'] at hpar
    obtain ⟨pd, hpd, hmem⟩ := ho.2.1 n nd p hnd hpar
    obtain ⟨pd', hpd', -, hch⟩ := hforth p pd hpd
    exact ⟨pd', hpd', by rw [hch]; exact hmem⟩
  · intro p pd' hp
    obtain ⟨pd, hpd, -, hch⟩ := hback p pd' hp
    rw [hch]
    exact ho.2.2 p pd hpd

theorem cloneChildrenIfNeeded_of_owned {h h' : RNYGHeap} (ho : h.Owned) {this : RNYGNodeRef}
    (hl : h.cloneChildrenIfNeeded this = some h') : h' = h := by
  unfold cloneChildrenIfNeeded at hl
  simp only [bind, Option.bind_eq_some, pure] at hl
  obtain ⟨node, hnode, h2⟩ := hl
  split at h2
  · simp only [Option.some.injEq] at h2
    exact h2.symm
  · rename_i first rest hch
    simp only [Option.bind_eq_some] at h2
    obtain ⟨firstChild, hfirst, h3⟩ := h2
    obtain ⟨cd, hcd, hpar⟩ := ho.1 this node first hnode (by rw [hch]; exact List.mem_cons_self _ _)
    rw [hfirst] at hcd
    simp only [Option.some.injEq] at hcd
    subst hcd
    rw [if_pos hpar] at h3
    simp only [Option.some.injEq] at h3
    exact h3.symm

theorem RNYGNodeClone_parentLinked {h : RNYGHeap} (ho : h.Owned) {oldNode : RNYGNodeRef}
    {r : RNYGHeap × RNYGNodeRef} (hclone : h.RNYGNodeClone oldNode = some r) :
    r.1.ParentLinked := by
  unfold RNYGNodeClone at hclone
  split at hclone
  · exact absurd hclone (by simp)
  · rename_i node hnode
    simp only [Option.some.injEq] at hclone
    subst hclone
    -- the child lists of the new heap are child lists of the old heap
    have hlists : ∀ p pd, (h.alloc { node with parent := none }).1.get p = some pd →
        ∃ q qd, h.get q = some qd ∧ pd.children = qd.children ∧
          (p ≠ h.nodes.length → h.get p = some pd) := by
      intro p pd hp
      by_cases hpl : p = h.nodes.length
      · subst hpl
        have e : (h.alloc { node with parent := none }).1.get h.nodes.length =
            some { node with parent := none } := get_alloc_self h _
        rw [e] at hp
        simp only [Option.some.injEq] at hp
        subst hp
        exact ⟨oldNode, node, hnode, rfl, fun hne => absurd rfl hne⟩
      · rw [get_alloc_of_ne h _ hpl] at hp
        exact ⟨p, pd, hp, rfl, fun _ => hp⟩
    intro n nd hn
    by_cases hnl : n = h.nodes.length
    · subst hnl
      have e : (h.alloc { node with parent := none }).1.get h.nodes.length =
          some { node with parent := none } := get_alloc_self h _
      rw [e] at hn
      simp only [Option.some.injEq] at hn
      subst hn
      refine Or.inl ⟨rfl, fun p pd hp hmem => ?_⟩
      obtain ⟨q, qd, hq, hch, -⟩ := hlists p pd hp
      rw [hch] at hmem
      obtain ⟨cd, hcd, -⟩ := ho.1 q qd _ hq hmem
      exact absurd (lt_of_get hcd) (Nat.lt_irrefl _)
    · rw [get_alloc_of_ne h _ hnl] at hn
      rcases ho.parentLinked n nd hn with ⟨hnone, hno⟩ | ⟨p, pd, hpar, hpd, hmem⟩
      · refine Or.inl ⟨hnone, fun p pd hp hmem => ?_⟩
        obtain ⟨q, qd, hq, hch, -⟩ := hlists p pd hp
        rw [hch] at hmem
        exact hno q qd hq hmem
      · refine Or.inr ⟨p, pd, hpar, ?_, hmem⟩
        rw [get_alloc_of_lt h _ (lt_of_get hpd)]
        exact hpd

end RNYGHeap

namespace RNYGHeap

/-- The nodes of a heap after two writes through live pointers. -/
theorem get_set_set {h : RNYGHeap} {a b : RNYGNodeRef} {A B A0 B0 : RNYGHeapNode}
    (ha : h.get a = some A0) (hb : (h.set a A).get b = some B0) (r : RNYGNodeRef) :
    ((h.set a A).set b B).get r =
      if r = b then some B else if r = a then some A else h.get r := by
  by_cases hrb : r = b
  · subst hrb
    rw [if_pos rfl]
    exact get_set_self hb B
  · rw [if_neg hrb, get_set_of_ne _ hrb]
    by_cases hra : r = a
    · subst hra
      rw [if_pos rfl]
      exact get_set_self ha A
    · rw [if_neg hra, get_set_of_ne _ hra]

theorem get_set_eq {h : RNYGHeap} {a : RNYGNodeRef} {A A0 : RNYGHeapNode}
    (ha : h.get a = some A0) (r : RNYGNodeRef) :
    (h.set a A).get r = if r = a then some A else h.get r := by
  by_cases hra : r = a
  · subst hra
    rw [if_pos rfl]
    exact get_set_self ha A
  · rw [if_neg hra, get_set_of_ne _ hra]

theorem RNYGNodeInsertChild_owned {h : RNYGHeap} (ho : h.Owned) (node child : RNYGNodeRef)
    (index : Nat) (h' : RNYGHeap) (hs : h.RNYGNodeInsertChild node child index = some h') :
    h'.Owned := by
  unfold RNYGNodeInsertChild at hs
  simp only [bind, Option.bind_eq_some, pure] at hs
  obtain ⟨nodeData, hnode, childData, hchild, h2⟩ := hs
  split_ifs at h2 with hpar hmeas
  simp only [Option.bind_eq_some] at h2
  obtain ⟨h1, hclone, nodeData1, hnode1, h3⟩ := h2
  have e1 := (cloneChildrenIfNeeded_of_owned ho hclone).symm
  subst e1
  rw [hnode] at hnode1
  simp only [Option.some.injEq] at hnode1
  subst hnode1
  split_ifs at h3 with hidx
  simp only [Option.bind_eq_some, Option.some.injEq] at h3
  obtain ⟨childData1, hchild1, rfl⟩ := h3
  refine Owned.owned_frame ?_ (markDirtyAndPropogate_frame _ node)
  have hle : index ≤ nodeData.children.length := Nat.le_of_not_lt hidx
  have hcpar : childData.parent = none := by
    cases hp : childData.parent with
    | none => rfl
    | some p => simp [hp] at hpar
  -- the child is in no child list
  have hfree : ∀ p pd, h.get p = some pd → child ∉ pd.children := by
    intro p pd hp hmem
    obtain ⟨cd, hcd, hcp⟩ := ho.1 p pd child hp hmem
    rw [hchild] at hcd
    simp only [Option.some.injEq] at hcd
    subst hcd
    rw [hcpar] at hcp
    exact absurd hcp (by simp)
  have hget := get_set_set (B := { childData1 with parent := some node }) hnode hchild1
  have hchild1' := hchild1
  rw [get_set_eq hnode] at hchild1'
  -- the parent and the children of the nodes after the two writes
  have hback : ∀ r x, ((h.set node { nodeData with
        children := nodeData.children.insertIdx index child }).set child
          { childData1 with parent := some node }).get r = some x →
      ∃ y, h.get r = some y ∧
        x.children =
          (if r = node then nodeData.children.insertIdx index child else y.children) ∧
        x.parent = (if r = child then some node else y.parent) := by
    intro r x hx
    rw [hget r] at hx
    by_cases hrc : r = child
    · subst hrc
      simp only [if_true, Option.some.injEq] at hx
      subst hx
      refine ⟨childData, hchild, ?_, by simp⟩
      by_cases hrn : r = node
      · subst hrn
        simp only [if_true, Option.some.injEq] at hchild1'
        subst hchild1'
        simp
      · simp only [hrn, if_false] at hchild1'
        rw [hchild] at hchild1'
        simp only [Option.some.injEq] at hchild1'
        subst hchild1'
        simp [hrn]
    · simp only [hrc, if_false] at hx
      by_cases hrn : r = node
      · subst hrn
        simp only [if_true, Option.some.injEq] at hx
        subst hx
        exact ⟨nodeData, hnode, by simp, by simp [hrc]⟩
      · simp only [hrn, if_false] at hx
        exact ⟨x, hx, by simp [hrn], by simp [hrc]⟩
  have hforth : ∀ r y, h.get r = some y →
      ∃ x, ((h.set node { nodeData with
        children := nodeData.children.insertIdx index child }).set child
          { childData1 with parent := some node }).get r = some x ∧
        x.children =
          (if r = node then nodeData.children.insertIdx index child else y.children) ∧
        x.parent = (if r = child then some node else y.parent) := by
    intro r y hy
    have hlive : ∃ x, ((h.set node { nodeData with
        children := nodeData.children.insertIdx index child }).set child
          { childData1 with parent := some node }).get r = some x := by
      rw [hget r]
      by_cases hrc : r = child
      · exact ⟨_, by rw [if_pos hrc]⟩
      · by_cases hrn : r = node
        · exact ⟨_, by rw [if_neg hrc, if_pos hrn]⟩
        · exact ⟨y, by rw [if_neg hrc, if_neg hrn]; exact hy⟩
    obtain ⟨x, hx⟩ := hlive
    obtain ⟨y', hy', hc, hp⟩ := hback r x hx
    rw [hy] at hy'
    simp only [Option.some.injEq] at hy'
    subst hy'
    exact ⟨x, hx, hc, hp⟩
  refine ⟨?_, ?_, ?_⟩
  · intro p x c hp hc
    obtain ⟨y, hy, hch, -⟩ := hback p x hp
    rw [hch] at hc
    have hcases : c = child ∧ p = node ∨ c ≠ child ∧ c ∈ y.children := by
      by_cases hpn : p = node
      · subst hpn
        rw [if_pos rfl] at hc
        rw [hnode] at hy
        simp only [Option.some.injEq] at hy
        subst hy
        rcases (List.mem_insertIdx hle).mp hc with e | e
        · exact Or.inl ⟨e, rfl⟩
        · exact Or.inr ⟨fun e' => hfree p nodeData hnode (e' ▸ e), e⟩
      · rw [if_neg hpn] at hc
        exact Or.inr ⟨fun e' => hfree p y hy (e' ▸ hc), hc⟩
    rcases hcases with ⟨hcc, hpn⟩ | ⟨hcc, hmem⟩
    · subst hcc hpn
      obtain ⟨x', hx', -, hp'⟩ := hforth c childData hchild
      exact ⟨x', hx', by rw [hp']; simp⟩
    · obtain ⟨cd, hcd, hcp⟩ := ho.1 p y c hy hmem
      obtain ⟨x', hx', -, hp'⟩ := hforth c cd hcd
      exact ⟨x', hx', by rw [hp', if_neg hcc]; exact hcp⟩
  · intro n x p hn hp
    obtain ⟨y, hy, -, hpx⟩ := hback n x hn
    rw [hpx] at hp
    by_cases hnc : n = child
    · subst hnc
      simp only [if_true, Option.some.injEq] at hp
      subst hp
      obtain ⟨x', hx', hch', -⟩ := hforth node nodeData hnode
      refine ⟨x', hx', ?_⟩
      rw [hch', if_pos rfl]
      exact (List.mem_insertIdx hle).mpr (Or.inl rfl)
    · rw [if_neg hnc] at hp
      obtain ⟨pd, hpd, hmem⟩ := ho.2.1 n y p hy hp
      obtain ⟨x', hx', hch', -⟩ := hforth p pd hpd
      refine ⟨x', hx', ?_⟩
      rw [hch']
      by_cases hpn : p = node
      · subst hpn
        rw [hnode] at hpd
        simp only [Option.some.injEq] at hpd
        subst hpd
        rw [if_pos rfl]
        exact (List.mem_insertIdx hle).mpr (Or.inr hmem)
      · rw [if_neg hpn]
        exact hmem
  · intro p x hp
    obtain ⟨y, hy, hch, -⟩ := hback p x hp
    rw [hch]
    by_cases hpn : p = node
    · subst hpn
      rw [hnode] at hy
      simp only [Option.some.injEq] at hy
      subst hy
      rw [if_pos rfl]
      exact (List.perm_insertIdx child nodeData.children hle).nodup_iff.mpr
        (List.nodup_cons.mpr ⟨hfree p nodeData hnode, ho.2.2 p nodeData hnode⟩)
    · rw [if_neg hpn]
      exact ho.2.2 p y hy

end RNYGHeap

namespace RNYGHeap

/-- The parent and the children of the nodes after a write of the child list of `a` followed
by a write of `b` that keeps the child list of `b`. -/
theorem view_two_writes {h : RNYGHeap} {a b : RNYGNodeRef} {A0 B0 : RNYGHeapNode}
    (children : List RNYGNodeRef) (B : RNYGHeapNode) (ha : h.get a = some A0)
    (hb : (h.set a { A0 with children := children }).get b = some B0)
    (hB : B.children = B0.children) :
    (∀ r x, ((h.set a { A0 with children := children }).set b B).get r = some x →
      ∃ y, h.get r = some y ∧
        x.children = (if r = a then children else y.children) ∧
        x.parent = (if r = b then B.parent else y.parent)) ∧
    (∀ r y, h.get r = some y →
      ∃ x, ((h.set a { A0 with children := children }).set b B).get r = some x ∧
        x.children = (if r = a then children else y.children) ∧
        x.parent = (if r = b then B.parent else y.parent)) := by
  have hget := get_set_set (B := B) ha hb
  have hb' := hb
  rw [get_set_eq ha] at hb'
  have hback : ∀ r x, ((h.set a { A0 with children := children }).set b B).get r = some x →
      ∃ y, h.get r = some y ∧
        x.children = (if r = a then children else y.children) ∧
        x.parent = (if r = b then B.parent else y.parent) := by
    intro r x hx
    rw [hget r] at hx
    by_cases hrb : r = b
    · rw [if_pos hrb] at hx
      simp only [Option.some.injEq] at hx
      subst hx
      by_cases hba : b = a
      · rw [if_pos hba] at hb'
        simp only [Option.some.injEq] at hb'
        subst hb'
        refine ⟨A0, by rw [hrb, hba]; exact ha, ?_, by rw [if_pos hrb]⟩
        rw [if_pos (hrb.trans hba), hB]
      · rw [if_neg hba] at hb'
        refine ⟨B0, by rw [hrb]; exact hb', ?_, by rw [if_pos hrb]⟩
        rw [if_neg (fun e => hba (hrb.symm.trans e)), hB]
    · rw [if_neg hrb] at hx
      by_cases hra : r = a
      · rw [if_pos hra] at hx
        simp only [Option.some.injEq] at hx
        subst hx
        exact ⟨A0, by rw [hra]; exact ha, by rw [if_pos hra], by rw [if_neg hrb]⟩
      · rw [if_neg hra] at hx
        exact ⟨x, hx, by rw [if_neg hra], by rw [if_neg hrb]⟩
  refine ⟨hback, fun r y hy => ?_⟩
  have hlive : ∃ x, ((h.set a { A0 with children := children }).set b B).get r = some x := by
    rw [hget r]
    by_cases hrb : r = b
    · exact ⟨_, by rw [if_pos hrb]⟩
    · by_cases hra : r = a
      · exact ⟨_, by rw [if_neg hrb, if_pos hra]⟩
      · exact ⟨y, by rw [if_neg hrb, if_neg hra]; exact hy⟩
  obtain ⟨x, hx⟩ := hlive
  obtain ⟨y', hy', hc, hp⟩ := hback r x hx
  rw [hy] at hy'
  simp only [Option.some.injEq] at hy'
  subst hy'
  exact ⟨x, hx, hc, hp⟩

theorem RNYGNodeRemoveChild_owned {h : RNYGHeap} (ho : h.Owned)
    (parent excludedChild : RNYGNodeRef) (r : RNYGHeap × Bool)
    (hs : h.RNYGNodeRemoveChild parent excludedChild = some r) : r.1.Owned := by
  unfold RNYGNodeRemoveChild at hs
  simp only [bind, Option.bind_eq_some, pure] at hs
  obtain ⟨parentData, hparent, h2⟩ := hs
  split at h2
  · simp only [Option.some.injEq] at h2
    subst h2
    exact ho
  · rename_i first rest hch
    simp only [Option.bind_eq_some] at h2
    obtain ⟨firstChild, hfirst, h3⟩ := h2
    have hown : firstChild.parent = some parent := by
      obtain ⟨cd, hcd, hpar⟩ := ho.1 parent parentData first hparent
        (by rw [hch]; exact List.mem_cons_self _ _)
      rw [hfirst] at hcd
      simp only [Option.some.injEq] at hcd
      subst hcd
      exact hpar
    rw [if_pos hown] at h3
    by_cases hmem : excludedChild ∈ parentData.children
    · rw [if_pos hmem] at h3
      simp only [Option.bind_eq_some, Option.some.injEq] at h3
      obtain ⟨excludedData, hexcluded, rfl⟩ := h3
      refine Owned.owned_frame ?_ (markDirtyAndPropogate_frame _ parent)
      obtain ⟨hback, hforth⟩ := view_two_writes (parentData.children.erase excludedChild)
        { excludedData with layout := RNYGLayout.default, parent := none } hparent hexcluded rfl
      have hnodup := ho.2.2 parent parentData hparent
      refine ⟨?_, ?_, ?_⟩
      · intro p x c hp hc
        obtain ⟨y, hy, hchx, -⟩ := hback p x hp
        rw [hchx] at hc
        have hcy : c ∈ y.children ∧ c ≠ excludedChild := by
          by_cases hpp : p = parent
          · rw [if_pos hpp] at hc
            rw [hpp, hparent] at hy
            simp only [Option.some.injEq] at hy
            subst hy
            have := (hnodup.mem_erase_iff).mp hc
            exact ⟨this.2, this.1⟩
          · rw [if_neg hpp] at hc
            refine ⟨hc, fun e => hpp ?_⟩
            subst e
            exact ho.unique_parent hy hparent hc hmem
        obtain ⟨cd, hcd, hcp⟩ := ho.1 p y c hy hcy.1
        obtain ⟨x', hx', -, hp'⟩ := hforth c cd hcd
        exact ⟨x', hx', by rw [hp', if_neg hcy.2]; exact hcp⟩
      · intro n x p hn hp
        obtain ⟨y, hy, -, hpx⟩ := hback n x hn
        rw [hpx] at hp
        by_cases hne : n = excludedChild
        · rw [if_pos hne] at hp
          exact absurd hp (by simp)
        · rw [if_neg hne] at hp
          obtain ⟨pd, hpd, hmem'⟩ := ho.2.1 n y p hy hp
          obtain ⟨x', hx', hch', -⟩ := hforth p pd hpd
          refine ⟨x', hx', ?_⟩
          rw [hch']
          by_cases hpp : p = parent
          · rw [if_pos hpp]
            rw [hpp, hparent] at hpd
            simp only [Option.some.injEq] at hpd
            subst hpd
            exact (List.mem_erase_of_ne hne).mpr hmem'
          · rw [if_neg hpp]
            exact hmem'
      · intro p x hp
        obtain ⟨y, hy, hchx, -⟩ := hback p x hp
        rw [hchx]
        by_cases hpp : p = parent
        · rw [if_pos hpp]
          exact hnodup.erase _
        · rw [if_neg hpp]
          exact ho.2.2 p y hy
    · rw [if_neg hmem] at h3
      simp only [Option.some.injEq] at h3
      subst h3
      exact ho

end RNYGHeap

namespace RNYGHeap

theorem removeAllChildrenLoop_spec :
    ∀ (l : List RNYGNodeRef) (h : RNYGHeap), (∀ c ∈ l, ∃ cd, h.get c = some cd) →
      ∃ h', removeAllChildrenLoop l h = some h' ∧
        (∀ r, r ∉ l → h'.get r = h.get r) ∧
        (∀ c ∈ l, ∀ cd, h.get c = some cd →
          h'.get c = some { cd with layout := RNYGLayout.default, parent := none })
  | [], h, _ => ⟨h, rfl, fun _ _ => rfl, fun c hc => absurd hc (List.not_mem_nil c)⟩
  | c :: l, h, hlive => by
    obtain ⟨cd, hcd⟩ := hlive c (List.mem_cons_self c l)
    have hlive1 : ∀ x ∈ l, ∃ xd,
        (h.set c { cd with layout := RNYGLayout.default, parent := none }).get x = some xd := by
      intro x hx
      by_cases hxc : x = c
      · subst hxc
        exact ⟨_, get_set_self hcd _⟩
      · rw [get_set_of_ne h hxc]
        exact hlive x (List.mem_cons_of_mem c hx)
    obtain ⟨h', hrun, hout, hin⟩ := removeAllChildrenLoop_spec l _ hlive1
    refine ⟨h', ?_, ?_, ?_⟩
    · unfold removeAllChildrenLoop
      rw [hcd]
      exact hrun
    · intro r hr
      have hrc : r ≠ c := fun e => hr (e ▸ List.mem_cons_self c l)
      have hrl : r ∉ l := fun e => hr (List.mem_cons_of_mem c e)
      rw [hout r hrl, get_set_of_ne h hrc]
    · intro x hx xd hxd
      by_cases hxc : x = c
      · subst hxc
        rw [hcd] at hxd
        simp only [Option.some.injEq] at hxd
        subst hxd
        by_cases hxl : x ∈ l
        · rw [hin x hxl _ (get_set_self hcd _)]
        · rw [hout x hxl]
          exact get_set_self hcd _
      · have hxl : x ∈ l := by
          rcases List.mem_cons.mp hx with e | e
          · exact absurd e hxc
          · exact e
        exact hin x hxl xd (by rw [get_set_of_ne h hxc]; exact hxd)

/-- The parent and the children of the nodes of a heap `h1` that differs from `h` by a reset
of the parent of the nodes of `l`. -/
theorem view_reset {h h1 : RNYGHeap} {l : List RNYGNodeRef} (g : RNYGHeapNode → RNYGHeapNode)
    (hg : ∀ y, (g y).children = y.children ∧ (g y).parent = none)
    (hlive : ∀ c ∈ l, ∃ cd, h.get c = some cd)
    (hout : ∀ r, r ∉ l → h1.get r = h.get r)
    (hin : ∀ c ∈ l, ∀ cd, h.get c = some cd → h1.get c = some (g cd)) :
    (∀ r x, h1.get r = some x →
      ∃ y, h.get r = some y ∧ x.children = y.children ∧
        x.parent = (if r ∈ l then none else y.parent)) ∧
    (∀ r y, h.get r = some y →
      ∃ x, h1.get r = some x ∧ x.children = y.children ∧
        x.parent = (if r ∈ l then none else y.parent)) := by
  constructor
  · intro r x hx
    by_cases hr : r ∈ l
    · obtain ⟨y, hy⟩ := hlive r hr
      rw [hin r hr y hy] at hx
      simp only [Option.some.injEq] at hx
      subst hx
      exact ⟨y, hy, (hg y).1, by rw [if_pos hr]; exact (hg y).2⟩
    · rw [hout r hr] at hx
      exact ⟨x, hx, rfl, by rw [if_neg hr]⟩
  · intro r y hy
    by_cases hr : r ∈ l
    · exact ⟨g y, hin r hr y hy, (hg y).1, by rw [if_pos hr]; exact (hg y).2⟩
    · exact ⟨y, by rw [hout r hr]; exact hy, rfl, by rw [if_neg hr]⟩

theorem RNYGNodeRemoveAllChildren_owned {h : RNYGHeap} (ho : h.Owned) (parent : RNYGNodeRef)
    (h' : RNYGHeap) (hs : h.RNYGNodeRemoveAllChildren parent = some h') : h'.Owned := by
  unfold RNYGNodeRemoveAllChildren at hs
  simp only [Option.bind_eq_some] at hs
  obtain ⟨parentData, hparent, h2⟩ := hs
  split at h2
  · simp only [Option.some.injEq] at h2
    subst h2
    exact ho
  · rename_i first rest hch
    simp only [Option.bind_eq_some] at h2
    obtain ⟨firstChild, hfirst, h3⟩ := h2
    have hown : firstChild.parent = some parent := by
      obtain ⟨cd, hcd, hpar⟩ := ho.1 parent parentData first hparent
        (by rw [hch]; exact List.mem_cons_self _ _)
      rw [hfirst] at hcd
      simp only [Option.some.injEq] at hcd
      subst hcd
      exact hpar
    rw [if_pos hown] at h3
    simp only [Option.bind_eq_some, Option.map_eq_some'] at h3
    obtain ⟨h1, hloop, parentData1, hparent1, rfl⟩ := h3
    refine Owned.owned_frame ?_ (markDirtyAndPropogate_frame _ parent)
    have hlive : ∀ c ∈ parentData.children, ∃ cd, h.get c = some cd := by
      intro c hc
      obtain ⟨cd, hcd, -⟩ := ho.1 parent parentData c hparent hc
      exact ⟨cd, hcd⟩
    obtain ⟨h1', hloop', hout, hin⟩ := removeAllChildrenLoop_spec parentData.children h hlive
    rw [hloop] at hloop'
    simp only [Option.some.injEq] at hloop'
    subst hloop'
    obtain ⟨hback1, hforth1⟩ := view_reset
      (fun y => { y with layout := RNYGLayout.default, parent := none })
      (fun y => ⟨rfl, rfl⟩) hlive hout hin
    -- the nodes after the write of the empty child list
    have hget := get_set_eq (A := { parentData1 with children := [] }) hparent1
    have hback : ∀ r x, (h1.set parent { parentData1 with children := [] }).get r = some x →
        ∃ y, h.get r = some y ∧
          x.children = (if r = parent then [] else y.children) ∧
          x.parent = (if r ∈ parentData.children then none else y.parent) := by
      intro r x hx
      rw [hget r] at hx
      by_cases hrp : r = parent
      · rw [if_pos hrp] at hx
        simp only [Option.some.injEq] at hx
        subst hx
        obtain ⟨y, hy, -, hp⟩ := hback1 parent parentData1 hparent1
        exact ⟨y, by rw [hrp]; exact hy, by rw [if_pos hrp], by rw [hrp]; exact hp⟩
      · rw [if_neg hrp] at hx
        obtain ⟨y, hy, hc, hp⟩ := hback1 r x hx
        exact ⟨y, hy, by rw [if_neg hrp]; exact hc, hp⟩
    have hforth : ∀ r y, h.get r = some y →
        ∃ x, (h1.set parent { parentData1 with children := [] }).get r = some x ∧
          x.children = (if r = parent then [] else y.children) ∧
          x.parent = (if r ∈ parentData.children then none else y.parent) := by
      intro r y hy
      obtain ⟨x1, hx1, -, -⟩ := hforth1 r y hy
      have hlive2 : ∃ x, (h1.set parent { parentData1 with children := [] }).get r = some x := by
        rw [hget r]
        by_cases hrp : r = parent
        · exact ⟨_, by rw [if_pos hrp]⟩
        · exact ⟨x1, by rw [if_neg hrp]; exact hx1⟩
      obtain ⟨x, hx⟩ := hlive2
      obtain ⟨y', hy', hc, hp⟩ := hback r x hx
      rw [hy] at hy'
      simp only [Option.some.injEq] at hy'
      subst hy'
      exact ⟨x, hx, hc, hp⟩
    refine ⟨?_, ?_, ?_⟩
    · intro p x c hp hc
      obtain ⟨y, hy, hchx, -⟩ := hback p x hp
      rw [hchx] at hc
      by_cases hpp : p = parent
      · rw [if_pos hpp] at hc
        exact absurd hc (List.not_mem_nil c)
      · rw [if_neg hpp] at hc
        obtain ⟨cd, hcd, hcp⟩ := ho.1 p y c hy hc
        have hcl : c ∉ parentData.children := fun e =>
          hpp (ho.unique_parent hy hparent hc e)
        obtain ⟨x', hx', -, hp'⟩ := hforth c cd hcd
        exact ⟨x', hx', by rw [hp', if_neg hcl]; exact hcp⟩
    · intro n x p hn hp
      obtain ⟨y, hy, -, hpx⟩ := hback n x hn
      rw [hpx] at hp
      by_cases hnl : n ∈ parentData.children
      · rw [if_pos hnl] at hp
        exact absurd hp (by simp)
      · rw [if_neg hnl] at hp
        obtain ⟨pd, hpd, hmem'⟩ := ho.2.1 n y p hy hp
        have hpp : p ≠ parent := by
          intro e
          rw [e, hparent] at hpd
          simp only [Option.some.injEq] at hpd
          subst hpd
          exact hnl hmem'
        obtain ⟨x', hx', hch', -⟩ := hforth p pd hpd
        exact ⟨x', hx', by rw [hch', if_neg hpp]; exact hmem'⟩
    · intro p x hp
      obtain ⟨y, hy, hchx, -⟩ := hback p x hp
      rw [hchx]
      by_cases hpp : p = parent
      · rw [if_pos hpp]
        exact List.nodup_nil
      · rw [if_neg hpp]
        exact ho.2.2 p y hy

end RNYGHeap

namespace RNYGHeap

/-- The parent and the children of the nodes after the first statement of `RNYGNodeFree`. -/
theorem detachFromParent_view {h h2 : RNYGHeap} {node : RNYGNodeRef} {nd : RNYGHeapNode}
    (hnode : h.get node = some nd) (hd : h.detachFromParent node = some h2) :
    (∀ r x, h2.get r = some x →
      ∃ y, h.get r = some y ∧
        x.children = (if some r = nd.parent then y.children.erase node else y.children) ∧
        x.parent = (if r = node then none else y.parent)) ∧
    (∀ r y, h.get r = some y →
      ∃ x, h2.get r = some x ∧
        x.children = (if some r = nd.parent then y.children.erase node else y.children) ∧
        x.parent = (if r = node then none else y.parent)) := by
  unfold detachFromParent at hd
  rw [hnode] at hd
  simp only [Option.some_bind] at hd
  cases hpar : nd.parent with
  | none =>
    rw [hpar] at hd
    simp only [Option.some.injEq] at hd
    subst hd
    have hp : ∀ r y, h.get r = some y → y.parent = (if r = node then none else y.parent) := by
      intro r y hy
      by_cases hr : r = node
      · rw [if_pos hr]
        rw [hr, hnode] at hy
        simp only [Option.some.injEq] at hy
        subst hy
        exact hpar
      · rw [if_neg hr]
    constructor
    · intro r x hx
      exact ⟨x, hx, by simp, hp r x hx⟩
    · intro r y hy
      exact ⟨y, hy, by simp, hp r y hy⟩
  | some p =>
    rw [hpar] at hd
    simp only [Option.bind_eq_some, Option.map_eq_some'] at hd
    obtain ⟨pd, hpd, nd1, hnd1, rfl⟩ := hd
    obtain ⟨hback, hforth⟩ := view_two_writes (pd.children.erase node)
      { nd1 with parent := none } hpd hnd1 rfl
    constructor
    · intro r x hx
      obtain ⟨y, hy, hc, hp⟩ := hback r x hx
      refine ⟨y, hy, ?_, hp⟩
      rw [hc]
      by_cases hrp : r = p
      · rw [if_pos hrp, if_pos (by rw [hrp])]
        rw [hrp, hpd] at hy
        simp only [Option.some.injEq] at hy
        rw [hy]
      · rw [if_neg hrp, if_neg (by simpa using hrp)]
    · intro r y hy
      obtain ⟨x, hx, hc, hp⟩ := hforth r y hy
      refine ⟨x, hx, ?_, hp⟩
      rw [hc]
      by_cases hrp : r = p
      · rw [if_pos hrp, if_pos (by rw [hrp])]
        rw [hrp, hpd] at hy
        simp only [Option.some.injEq] at hy
        rw [hy]
      · rw [if_neg hrp, if_neg (by simpa using hrp)]

end RNYGHeap

namespace RNYGHeap

theorem RNYGNodeFree_owned {h : RNYGHeap} (ho : h.Owned) (node : RNYGNodeRef) (h' : RNYGHeap)
    (hs : h.RNYGNodeFree node = some h') : h'.Owned := by
  unfold RNYGNodeFree at hs
  simp only [Option.bind_eq_some, Option.map_eq_some'] at hs
  obtain ⟨h2, hdetach, nd2, hnd2, h3, hloop, rfl⟩ := hs
  -- the node is live before the call
  have hlive0 : ∃ nd, h.get node = some nd := by
    unfold detachFromParent at hdetach
    cases hg : h.get node with
    | none => rw [hg] at hdetach; exact absurd hdetach (by simp)
    | some nd => exact ⟨nd, rfl⟩
  obtain ⟨nd, hnode⟩ := hlive0
  obtain ⟨hback2, hforth2⟩ := detachFromParent_view hnode hdetach
  have hnodup := ho.2.2 node nd hnode
  -- the children of the node after the first statement
  have hL : ∀ c, c ∈ nd2.children ↔ c ∈ nd.children ∧ c ≠ node := by
    intro c
    obtain ⟨y, hy, hc, -⟩ := hback2 node nd2 hnd2
    rw [hnode] at hy
    simp only [Option.some.injEq] at hy
    subst hy
    rw [hc]
    by_cases hself : some node = nd.parent
    · rw [if_pos hself, hnodup.mem_erase_iff]
      exact and_comm
    · rw [if_neg hself]
      refine ⟨fun hmem => ⟨hmem, fun e => hself ?_⟩, fun hmem => hmem.1⟩
      subst e
      obtain ⟨cd, hcd, hcp⟩ := ho.1 c nd c hnode hmem
      rw [hnode] at hcd
      simp only [Option.some.injEq] at hcd
      subst hcd
      exact hcp.symm
  have hlive2 : ∀ c ∈ nd2.children, ∃ cd, h2.get c = some cd := by
    intro c hc
    obtain ⟨cd, hcd, -⟩ := ho.1 node nd c hnode ((hL c).mp hc).1
    obtain ⟨x, hx, -, -⟩ := hforth2 c cd hcd
    exact ⟨x, hx⟩
  obtain ⟨h3', hloop', hout, hin⟩ := freeChildrenLoop_spec nd2.children h2 hlive2
  rw [hloop] at hloop'
  simp only [Option.some.injEq] at hloop'
  subst hloop'
  obtain ⟨hback3, hforth3⟩ := view_reset (fun y => { y with parent := none })
    (fun y => ⟨rfl, rfl⟩) hlive2 hout hin
  -- the nodes after the call
  have hback : ∀ r x, (h3.free node).get r = some x →
      r ≠ node ∧ ∃ y, h.get r = some y ∧
        x.children = (if some r = nd.parent then y.children.erase node else y.children) ∧
        x.parent = (if r ∈ nd2.children then none else y.parent) := by
    intro r x hx
    have hrn : r ≠ node := by
      intro e
      rw [e, get_free_self] at hx
      exact absurd hx (by simp)
    rw [get_free_of_ne h3 hrn] at hx
    obtain ⟨x2, hx2, hc3, hp3⟩ := hback3 r x hx
    obtain ⟨y, hy, hc2, hp2⟩ := hback2 r x2 hx2
    refine ⟨hrn, y, hy, hc3.trans hc2, ?_⟩
    rw [hp3, hp2, if_neg hrn]
  have hforth : ∀ r y, r ≠ node → h.get r = some y →
      ∃ x, (h3.free node).get r = some x ∧
        x.children = (if some r = nd.parent then y.children.erase node else y.children) ∧
        x.parent = (if r ∈ nd2.children then none else y.parent) := by
    intro r y hrn hy
    obtain ⟨x2, hx2, hc2, hp2⟩ := hforth2 r y hy
    obtain ⟨x, hx, hc3, hp3⟩ := hforth3 r x2 hx2
    refine ⟨x, by rw [get_free_of_ne h3 hrn]; exact hx, hc3.trans hc2, ?_⟩
    rw [hp3, hp2, if_neg hrn]
  refine ⟨?_, ?_, ?_⟩
  · intro p x c hp hc
    obtain ⟨hpn, y, hy, hchx, -⟩ := hback p x hp
    rw [hchx] at hc
    have hcy : c ∈ y.children ∧ c ≠ node := by
      by_cases hpp : some p = nd.parent
      · rw [if_pos hpp] at hc
        have := ((ho.2.2 p y hy).mem_erase_iff).mp hc
        exact ⟨this.2, this.1⟩
      · rw [if_neg hpp] at hc
        refine ⟨hc, fun e => hpp ?_⟩
        subst e
        obtain ⟨cd, hcd, hcp⟩ := ho.1 p y c hy hc
        rw [hnode] at hcd
        simp only [Option.some.injEq] at hcd
        subst hcd
        exact hcp.symm
    have hcL : c ∉ nd2.children := fun e =>
      hpn (ho.unique_parent hy hnode hcy.1 ((hL c).mp e).1)
    obtain ⟨cd, hcd, hcp⟩ := ho.1 p y c hy hcy.1
    obtain ⟨x', hx', -, hp'⟩ := hforth c cd hcy.2 hcd
    exact ⟨x', hx', by rw [hp', if_neg hcL]; exact hcp⟩
  · intro n x p hn hp
    obtain ⟨hnn, y, hy, -, hpx⟩ := hback n x hn
    rw [hpx] at hp
    by_cases hnL : n ∈ nd2.children
    · rw [if_pos hnL] at hp
      exact absurd hp (by simp)
    · rw [if_neg hnL] at hp
      obtain ⟨pd, hpd, hmem'⟩ := ho.2.1 n y p hy hp
      have hpn : p ≠ node := by
        intro e
        rw [e, hnode] at hpd
        simp only [Option.some.injEq] at hpd
        subst hpd
        exact hnL ((hL n).mpr ⟨hmem', hnn⟩)
      obtain ⟨x', hx', hch', -⟩ := hforth p pd hpn hpd
      refine ⟨x', hx', ?_⟩
      rw [hch']
      by_cases hpp : some p = nd.parent
      · rw [if_pos hpp]
        exact (List.mem_erase_of_ne hnn).mpr hmem'
      · rw [if_neg hpp]
        exact hmem'
  · intro p x hp
    obtain ⟨-, y, hy, hchx, -⟩ := hback p x hp
    rw [hchx]
    by_cases hpp : some p = nd.parent
    · rw [if_pos hpp]
      exact (ho.2.2 p y hy).erase _
    · rw [if_neg hpp]
      exact ho.2.2 p y hy

end RNYGHeap

theorem RNYGHeap.familyHeap_owned : (RNYGHeap.familyHeap false).Owned := by
  have hlen : (RNYGHeap.familyHeap false).nodes.length = 2 := rfl
  have h0 : (RNYGHeap.familyHeap false).get 0 =
      some { RNYGHeap.newNode gYGConfigDefaults with children := [1] } := rfl
  have h1 : (RNYGHeap.familyHeap false).get 1 =
      some { RNYGHeap.newNode gYGConfigDefaults with parent := some 0, isDirty := false } := rfl
  refine ⟨?_, ?_, ?_⟩
  · intro p pd c hp hc
    have hlt := RNYGHeap.lt_of_get hp
    rw [hlen] at hlt
    interval_cases p
    · rw [h0] at hp
      simp only [Option.some.injEq] at hp
      subst hp
      simp only [List.mem_singleton] at hc
      subst hc
      exact ⟨_, h1, rfl⟩
    · rw [h1] at hp
      simp only [Option.some.injEq] at hp
      subst hp
      simp [RNYGHeap.newNode] at hc
  · intro n nd p hn hp
    have hlt := RNYGHeap.lt_of_get hn
    rw [hlen] at hlt
    interval_cases n
    · rw [h0] at hn
      simp only [Option.some.injEq] at hn
      subst hn
      simp [RNYGHeap.newNode] at hp
    · rw [h1] at hn
      simp only [Option.some.injEq] at hn
      subst hn
      simp only [Option.some.injEq] at hp
      subst hp
      exact ⟨_, h0, by simp⟩
  · intro p pd hp
    have hlt := RNYGHeap.lt_of_get hp
    rw [hlen] at hlt
    interval_cases p
    · rw [h0] at hp
      simp only [Option.some.injEq] at hp
      subst hp
      simp
    · rw [h1] at hp
      simp only [Option.some.injEq] at hp
      subst hp
      simp [RNYGHeap.newNode]

/-- C14, counterexample: in the heap reached by `RNYGNodeClone` of a root with one child the
invariant holds; `RNYGNodeRemoveChild` of the child from the root resets the parent of the
child, which is still in the child list of the clone, and the invariant fails. -/
theorem RNYGNodeRemoveChild_breaks_parentLinked :
    (RNYGHeap.familyHeap false).RNYGNodeClone 0 = some (RNYGHeap.sharedChildHeap, 2) ∧
    RNYGHeap.sharedChildHeap.ParentLinked ∧
    ∃ r, RNYGHeap.sharedChildHeap.RNYGNodeRemoveChild 0 1 = some r ∧ ¬ r.1.ParentLinked := by
  have hclone : (RNYGHeap.familyHeap false).RNYGNodeClone 0 =
      some (RNYGHeap.sharedChildHeap, 2) := rfl
  refine ⟨hclone, RNYGHeap.RNYGNodeClone_parentLinked RNYGHeap.familyHeap_owned hclone, ?_⟩
  have e : (RNYGHeap.sharedChildHeap.RNYGNodeRemoveChild 0 1).map (fun r =>
      (r.1.parentOf 1, r.1.childrenOf 2)) = some (some none, some [1]) := by decide!
  cases hr : RNYGHeap.sharedChildHeap.RNYGNodeRemoveChild 0 1 with
  | none =>
    rw [hr] at e
    exact absurd e (by simp)
  | some r =>
    rw [hr] at e
    simp only [Option.map_some', Option.some.injEq, Prod.mk.injEq, RNYGHeap.parentOf,
      RNYGHeap.childrenOf, Option.map_eq_some'] at e
    obtain ⟨⟨nd, hnd, hpar⟩, pd, hpd, hch⟩ := e
    refine ⟨r, rfl, fun hlinked => ?_⟩
    rcases hlinked 1 nd hnd with ⟨-, hno⟩ | ⟨p, pd', hp, -, -⟩
    · exact hno 2 pd hpd (by rw [hch]; simp)
    · rw [hpar] at hp
      exact absurd hp (by simp)

/-- C14, amended: in a heap without shared children (every entry of a child list is a live
node whose parent is the node of the list, every live node with a parent is in the child list
of this live parent, and no list has an entry twice) the invariant of the claim holds, and
`RNYGNodeInsertChild`, `RNYGNodeRemoveChild`, `RNYGNodeRemoveAllChildren` and `RNYGNodeFree`
lead to a heap without shared children again; `cloneChildrenIfNeeded` changes nothing there;
`RNYGNodeClone` leads to a heap where the invariant of the claim holds, in which the clone
shares its children. -/
theorem RNYGHeap.owned_preserved (h : RNYGHeap) (ho : h.Owned) :
    h.ParentLinked ∧
    (∀ node child index h', h.RNYGNodeInsertChild node child index = some h' → h'.Owned) ∧
    (∀ parent excludedChild r, h.RNYGNodeRemoveChild parent excludedChild = some r →
      r.1.Owned) ∧
    (∀ parent h', h.RNYGNodeRemoveAllChildren parent = some h' → h'.Owned) ∧
    (∀ node h', h.RNYGNodeFree node = some h' → h'.Owned) ∧
    (∀ this h', h.cloneChildrenIfNeeded this = some h' → h' = h) ∧
    (∀ oldNode r, h.RNYGNodeClone oldNode = some r → r.1.ParentLinked) :=
  ⟨ho.parentLinked,
    fun node child index h' hs => RNYGHeap.RNYGNodeInsertChild_owned ho node child index h' hs,
    fun parent excludedChild r hs =>
      RNYGHeap.RNYGNodeRemoveChild_owned ho parent excludedChild r hs,
    fun parent h' hs => RNYGHeap.RNYGNodeRemoveAllChildren_owned ho parent h' hs,
    fun node h' hs => RNYGHeap.RNYGNodeFree_owned ho node h' hs,
    fun _ _ hs => RNYGHeap.cloneChildrenIfNeeded_of_owned ho hs,
    fun _ _ hs => RNYGHeap.RNYGNodeClone_parentLinked ho hs⟩

theorem RNYGHeap.owned_preserved_witness :
    (RNYGHeap.familyHeap false).Owned ∧
    (RNYGHeap.familyHeap false).ParentLinked ∧
    (∀ node child index h',
      (RNYGHeap.familyHeap false).RNYGNodeInsertChild node child index = some h' → h'.Owned) ∧
    (∀ parent excludedChild r,
      (RNYGHeap.familyHeap false).RNYGNodeRemoveChild parent excludedChild = some r →
      r.1.Owned) ∧
    (∀ parent h', (RNYGHeap.familyHeap false).RNYGNodeRemoveAllChildren parent = some h' →
      h'.Owned) ∧
    (∀ node h', (RNYGHeap.familyHeap false).RNYGNodeFree node = some h' → h'.Owned) ∧
    (∀ this h', (RNYGHeap.familyHeap false).cloneChildrenIfNeeded this = some h' →
      h' = RNYGHeap.familyHeap false) ∧
    (∀ oldNode r, (RNYGHeap.familyHeap false).RNYGNodeClone oldNode = some r →
      r.1.ParentLinked) :=
  ⟨RNYGHeap.familyHeap_owned,
    RNYGHeap.owned_preserved (RNYGHeap.familyHeap false) RNYGHeap.familyHeap_owned⟩

/-! ### Requests with the measure mode undefined -/

theorem checkedLayoutFn_apply {D : Type} (onWidth onHeight : Bool) (f : RNYGLayoutFn D)
    (node : RNYGNode D) (aw ah : YGFloat) (dir : RNYGDirection) (wm hm : RNYGMeasureMode)
    (pw ph : YGFloat) (pl : Bool) (config : RNYGConfig)
    (hw : onWidth = true → undefinedModeHasUndefinedSize wm aw = true)
    (hh : onHeight = true → undefinedModeHasUndefinedSize hm ah = true) :
    checkedLayoutFn onWidth onHeight f node aw ah dir wm hm pw ph pl config =
      f node aw ah dir wm hm pw ph pl config := by
  unfold checkedLayoutFn
  cases onWidth <;> cases onHeight <;> simp_all

theorem RNYGConstrainMaxSizeForMode_undefinedMode {C : Type} (node : RNYGNode C)
    (axis : RNYGFlexDirection) (parentAxisSize parentWidth : YGFloat) (mode : RNYGMeasureMode)
    (size : YGFloat) (h : undefinedModeHasUndefinedSize mode size = true) :
    undefinedModeHasUndefinedSize
      (RNYGConstrainMaxSizeForMode node axis parentAxisSize parentWidth mode size).1
      (RNYGConstrainMaxSizeForMode node axis parentAxisSize parentWidth mode size).2 = true := by
  unfold RNYGConstrainMaxSizeForMode
  cases mode <;> simp only [] <;> (try split_ifs) <;>
    simp_all [undefinedModeHasUndefinedSize]

theorem undefinedMode_ite_pair (c : Prop) [Decidable c] (a b : YGFloat × RNYGMeasureMode)
    (ha : c → undefinedModeHasUndefinedSize a.2 a.1 = true)
    (hb : ¬ c → undefinedModeHasUndefinedSize b.2 b.1 = true) :
    undefinedModeHasUndefinedSize (if c then a else b).2 (if c then a else b).1 = true := by
  by_cases hc : c
  · rw [if_pos hc]
    exact ha hc
  · rw [if_neg hc]
    exact hb hc

theorem undefinedMode_ite_width (c : Prop) [Decidable c]
    (a b : YGFloat × RNYGMeasureMode × YGFloat × RNYGMeasureMode)
    (ha : c → undefinedModeHasUndefinedSize a.2.1 a.1 = true)
    (hb : ¬ c → undefinedModeHasUndefinedSize b.2.1 b.1 = true) :
    undefinedModeHasUndefinedSize (if c then a else b).2.1 (if c then a else b).1 = true := by
  by_cases hc : c
  · rw [if_pos hc]
    exact ha hc
  · rw [if_neg hc]
    exact hb hc

theorem undefinedMode_ite_height (c : Prop) [Decidable c]
    (a b : YGFloat × RNYGMeasureMode × YGFloat × RNYGMeasureMode)
    (ha : c → undefinedModeHasUndefinedSize a.2.2.2 a.2.2.1 = true)
    (hb : ¬ c → undefinedModeHasUndefinedSize b.2.2.2 b.2.2.1 = true) :
    undefinedModeHasUndefinedSize (if c then a else b).2.2.2 (if c then a else b).2.2.1 =
      true := by
  by_cases hc : c
  · rw [if_pos hc]
    exact ha hc
  · rw [if_neg hc]
    exact hb hc

theorem RNYGNodeComputeFlexBasisForChild_checked {C D : Type} (gen : Nat)
    (f : RNYGLayoutFn D) (node : RNYGNode C) (child : RNYGNode D) (width : YGFloat)
    (widthMode : RNYGMeasureMode) (height parentWidth parentHeight : YGFloat)
    (heightMode : RNYGMeasureMode) (direction : RNYGDirection) (config : RNYGConfig) :
    RNYGNodeComputeFlexBasisForChild gen (checkedLayoutFn true true f) node child width widthMode
      height parentWidth parentHeight heightMode direction config =
    RNYGNodeComputeFlexBasisForChild gen f node child width widthMode height parentWidth
      parentHeight heightMode direction config := by
  unfold RNYGNodeComputeFlexBasisForChild
  simp only []
  rw [checkedLayoutFn_apply]
  · intro _
    apply RNYGConstrainMaxSizeForMode_undefinedMode
    repeat' (first
      | exact rfl
      | (apply undefinedMode_ite_width <;> intro _)
      | (apply undefinedMode_ite_pair <;> intro _))
  · intro _
    apply RNYGConstrainMaxSizeForMode_undefinedMode
    repeat' (first
      | exact rfl
      | (apply undefinedMode_ite_height <;> intro _)
      | (apply undefinedMode_ite_pair <;> intro _))

theorem undefinedMode_of_definedness (x : YGFloat) :
    undefinedModeHasUndefinedSize
      (if RNYGFloatIsUndefined x = true then RNYGMeasureMode.Undefined
        else RNYGMeasureMode.Exactly) x = true := by
  cases x <;> rfl

theorem checkedLayoutFn_exactly {D : Type} (onWidth onHeight : Bool) (f : RNYGLayoutFn D)
    (node : RNYGNode D) (aw ah : YGFloat) (dir : RNYGDirection) (pw ph : YGFloat) (pl : Bool)
    (config : RNYGConfig) :
    checkedLayoutFn onWidth onHeight f node aw ah dir RNYGMeasureMode.Exactly
      RNYGMeasureMode.Exactly pw ph pl config =
    f node aw ah dir RNYGMeasureMode.Exactly RNYGMeasureMode.Exactly pw ph pl config := by
  unfold checkedLayoutFn
  cases onWidth <;> cases onHeight <;> rfl

theorem RNYGNodeAbsoluteLayoutChild_checked {C D : Type} (f : RNYGLayoutFn D)
    (node : RNYGNode C) (child : RNYGNode D) (width : YGFloat) (widthMode : RNYGMeasureMode)
    (height : YGFloat) (direction : RNYGDirection) (config : RNYGConfig) :
    RNYGNodeAbsoluteLayoutChild (checkedLayoutFn true true f) node child width widthMode height
      direction config =
    RNYGNodeAbsoluteLayoutChild f node child width widthMode height direction config := by
  unfold RNYGNodeAbsoluteLayoutChild
  simp only []
  rw [checkedLayoutFn_apply]
  · simp only [checkedLayoutFn_exactly]
  · intro _
    apply undefinedMode_ite_pair
    · intro _
      rfl
    · intro _
      exact undefinedMode_of_definedness _
  · intro _
    exact undefinedMode_of_definedness _

theorem RNYGNodelayoutImpl.crossAlignChild_checked {C D : Type} (f : RNYGLayoutFn D)
    (l : RNYGNodelayoutImpl.Locals) (node : RNYGNode C) (availableInnerMainDim : YGFloat)
    (crossDim containerCrossAxis totalLineCrossDim : YGFloat) (child : RNYGNode D) :
    RNYGNodelayoutImpl.crossAlignChild (checkedLayoutFn true true f) l node
      availableInnerMainDim crossDim containerCrossAxis totalLineCrossDim child =
    RNYGNodelayoutImpl.crossAlignChild f l node availableInnerMainDim crossDim
      containerCrossAxis totalLineCrossDim child := by
  unfold RNYGNodelayoutImpl.crossAlignChild
  simp only []
  rw [checkedLayoutFn_apply]
  · intro _
    exact undefinedMode_of_definedness _
  · intro _
    exact undefinedMode_of_definedness _

theorem RNYGNodelayoutImpl.alignContentChild_checked {C D : Type} (f : RNYGLayoutFn D)
    (baselineOfChild : RNYGNode D → Option YGFloat) (l : RNYGNodelayoutImpl.Locals)
    (node : RNYGNode C) (currentLead lineHeight maxAscentForCurrentLine : YGFloat)
    (child : RNYGNode D) :
    RNYGNodelayoutImpl.alignContentChild (checkedLayoutFn true true f) baselineOfChild l node
      currentLead lineHeight maxAscentForCurrentLine child =
    RNYGNodelayoutImpl.alignContentChild f baselineOfChild l node currentLead lineHeight
      maxAscentForCurrentLine child := by
  unfold RNYGNodelayoutImpl.alignContentChild
  simp only [checkedLayoutFn_exactly]

theorem RNYGNodeCalculateLayout.root_undefinedMode {C : Type} (node : RNYGNode C)
    (parentWidth parentHeight : YGFloat) :
    undefinedModeHasUndefinedSize (RNYGNodeCalculateLayout.rootWidth node parentWidth).2
      (RNYGNodeCalculateLayout.rootWidth node parentWidth).1 = true ∧
    undefinedModeHasUndefinedSize
      (RNYGNodeCalculateLayout.rootHeight node parentWidth parentHeight).2
      (RNYGNodeCalculateLayout.rootHeight node parentWidth parentHeight).1 = true := by
  unfold RNYGNodeCalculateLayout.rootWidth RNYGNodeCalculateLayout.rootHeight
  constructor
  · split_ifs <;> simp_all [undefinedModeHasUndefinedSize]
  · split_ifs <;> simp_all [undefinedModeHasUndefinedSize]

theorem undefinedMode_ite_bool (c : Bool) (m1 m2 : RNYGMeasureMode) (s1 s2 : YGFloat)
    (h1 : c = true → undefinedModeHasUndefinedSize m1 s1 = true)
    (h2 : c = false → undefinedModeHasUndefinedSize m2 s2 = true) :
    undefinedModeHasUndefinedSize (if c = true then m1 else m2) (if c = true then s1 else s2) =
      true := by
  cases c
  · exact h2 rfl
  · exact h1 rfl

theorem undefinedMode_of_definedness_atMost (x : YGFloat) :
    undefinedModeHasUndefinedSize
      (if RNYGFloatIsUndefined x = true then RNYGMeasureMode.Undefined
        else RNYGMeasureMode.AtMost) x = true := by
  cases x <;> rfl

theorem RNYGDistributeFreeSpaceSecondPass.body_checked_main {C D : Type} (f : RNYGLayoutFn D)
    (values : RNYGCollectFlexItemsRowValues) (mainAxis crossAxis : RNYGFlexDirection)
    (mainAxisParentSize availableInnerMainDim availableInnerCrossDim availableInnerWidth
      availableInnerHeight : YGFloat)
    (flexBasisOverflows : Bool) (measureModeCrossDim : RNYGMeasureMode) (performLayout : Bool)
    (config : RNYGConfig) (state : RNYGNode C × List (RNYGNode D) × YGFloat) (i : Nat) :
    RNYGDistributeFreeSpaceSecondPass.body
      (checkedLayoutFn (RNYGFlexDirectionIsRow mainAxis) (!RNYGFlexDirectionIsRow mainAxis) f)
      values mainAxis crossAxis mainAxisParentSize availableInnerMainDim availableInnerCrossDim
      availableInnerWidth availableInnerHeight flexBasisOverflows measureModeCrossDim
      performLayout config state i =
    RNYGDistributeFreeSpaceSecondPass.body f values mainAxis crossAxis mainAxisParentSize
      availableInnerMainDim availableInnerCrossDim availableInnerWidth availableInnerHeight
      flexBasisOverflows measureModeCrossDim performLayout config state i := by
  obtain ⟨node, children, delta⟩ := state
  unfold RNYGDistributeFreeSpaceSecondPass.body
  simp only []
  cases hc : children[i]? with
  | none => rfl
  | some child =>
    simp only []
    rw [checkedLayoutFn_apply]
    · intro hrow
      rw [if_pos hrow, if_pos hrow]
      exact RNYGConstrainMaxSizeForMode_undefinedMode _ _ _ _ _ _ rfl
    · intro hrow
      rw [if_pos hrow, if_pos hrow]
      exact RNYGConstrainMaxSizeForMode_undefinedMode _ _ _ _ _ _ rfl

theorem RNYGDistributeFreeSpaceSecondPass.body_checked {C D : Type} (f : RNYGLayoutFn D)
    (values : RNYGCollectFlexItemsRowValues) (mainAxis crossAxis : RNYGFlexDirection)
    (mainAxisParentSize availableInnerMainDim availableInnerCrossDim availableInnerWidth
      availableInnerHeight : YGFloat)
    (flexBasisOverflows : Bool) (measureModeCrossDim : RNYGMeasureMode) (performLayout : Bool)
    (config : RNYGConfig) (state : RNYGNode C × List (RNYGNode D) × YGFloat) (i : Nat)
    (hloose : ∀ c, state.2.1[i]? = some c →
      ((c.resolvedDimensions (dim crossAxis)).unit = RNYGUnit.Percent &&
        measureModeCrossDim ≠ RNYGMeasureMode.Exactly) = false) :
    RNYGDistributeFreeSpaceSecondPass.body (checkedLayoutFn true true f)
      values mainAxis crossAxis mainAxisParentSize availableInnerMainDim availableInnerCrossDim
      availableInnerWidth availableInnerHeight flexBasisOverflows measureModeCrossDim
      performLayout config state i =
    RNYGDistributeFreeSpaceSecondPass.body f values mainAxis crossAxis mainAxisParentSize
      availableInnerMainDim availableInnerCrossDim availableInnerWidth availableInnerHeight
      flexBasisOverflows measureModeCrossDim performLayout config state i := by
  obtain ⟨node, children, delta⟩ := state
  unfold RNYGDistributeFreeSpaceSecondPass.body
  simp only []
  cases hc : children[i]? with
  | none => rfl
  | some child =>
    have hl := hloose child hc
    simp only []
    have hcross : ∀ x : YGFloat,
        undefinedModeHasUndefinedSize
          (if (RNYGFloatIsUndefined x ||
              (decide ((child.resolvedDimensions (dim crossAxis)).unit = RNYGUnit.Percent) &&
                decide (measureModeCrossDim ≠ RNYGMeasureMode.Exactly))) = true
            then RNYGMeasureMode.Undefined else RNYGMeasureMode.Exactly) x = true := by
      intro x
      rw [hl]
      cases x <;> rfl
    rw [checkedLayoutFn_apply]
    · intro _
      apply undefinedMode_ite_bool
      · intro _
        exact RNYGConstrainMaxSizeForMode_undefinedMode _ _ _ _ _ _ rfl
      · intro _
        apply RNYGConstrainMaxSizeForMode_undefinedMode
        repeat' (first
          | exact rfl
          | exact undefinedMode_of_definedness _
          | exact undefinedMode_of_definedness_atMost _
          | exact hcross _
          | (apply undefinedMode_ite_pair <;> intro _))
    · intro _
      apply undefinedMode_ite_bool
      · intro _
        exact RNYGConstrainMaxSizeForMode_undefinedMode _ _ _ _ _ _ rfl
      · intro _
        apply RNYGConstrainMaxSizeForMode_undefinedMode
        repeat' (first
          | exact rfl
          | exact undefinedMode_of_definedness _
          | exact undefinedMode_of_definedness_atMost _
          | exact hcross _
          | (apply undefinedMode_ite_pair <;> intro _))

/-- C17, counterexample: in a row container with the inner cross size 100 and the cross
measure mode at-most, the second pass of the flexible-length resolution lays out a child of
height 50 percent with the request width 100 (exactly) and height 50 with the measure mode
undefined: the available height passed with the mode undefined is defined. -/
theorem RNYGDistributeFreeSpaceSecondPass_undefined_mode_defined_size :
    (RNYGDistributeFreeSpaceSecondPass.body
        (expectRequest (some 100) (some 50) RNYGMeasureMode.Exactly RNYGMeasureMode.Undefined)
        RNYGCollectFlexItemsRowValues.zero RNYGFlexDirection.Row RNYGFlexDirection.Column
        (some 300) (some 300) (some 100) (some 300) (some 100) false RNYGMeasureMode.AtMost true
        gYGConfigDefaults (rowContainer, [percentHeightChild], some 0) 0).isSome = true ∧
    undefinedModeHasUndefinedSize RNYGMeasureMode.Undefined (some 50) = false := by
  refine ⟨by decide!, by decide!⟩

/-- C17, amended: for every layout function `f`, the engine's calls behave the same when `f`
is replaced by the function that aborts on a request with the measure mode undefined and a
defined available size: in the flex-basis measure, in the absolute measure and layout, in the
stretch and the multi-line stretch; in the second pass of the flexible-length resolution on the
main axis, and on both axes when the child's cross dimension is not a percentage or the cross
measure mode is exactly.  The requests of the root have the property too. -/
theorem RNYGLayoutNodeInternal_calls_undefined_mode {C D : Type} (f : RNYGLayoutFn D) :
    (∀ gen (node : RNYGNode C) child width widthMode height parentWidth parentHeight heightMode
        direction config,
      RNYGNodeComputeFlexBasisForChild gen (checkedLayoutFn true true f) node child width
          widthMode height parentWidth parentHeight heightMode direction config =
        RNYGNodeComputeFlexBasisForChild gen f node child width widthMode height parentWidth
          parentHeight heightMode direction config) ∧
    (∀ (node : RNYGNode C) child width widthMode height direction config,
      RNYGNodeAbsoluteLayoutChild (checkedLayoutFn true true f) node child width widthMode
          height direction config =
        RNYGNodeAbsoluteLayoutChild f node child width widthMode height direction config) ∧
    (∀ l (node : RNYGNode C) availableInnerMainDim crossDim containerCrossAxis
        totalLineCrossDim child,
      RNYGNodelayoutImpl.crossAlignChild (checkedLayoutFn true true f) l node
          availableInnerMainDim crossDim containerCrossAxis totalLineCrossDim child =
        RNYGNodelayoutImpl.crossAlignChild f l node availableInnerMainDim crossDim
          containerCrossAxis totalLineCrossDim child) ∧
    (∀ baselineOfChild l (node : RNYGNode C) currentLead lineHeight maxAscentForCurrentLine
        child,
      RNYGNodelayoutImpl.alignContentChild (checkedLayoutFn true true f) baselineOfChild l node
          currentLead lineHeight maxAscentForCurrentLine child =
        RNYGNodelayoutImpl.alignContentChild f baselineOfChild l node currentLead lineHeight
          maxAscentForCurrentLine child) ∧
    (∀ values mainAxis crossAxis mainAxisParentSize availableInnerMainDim
        availableInnerCrossDim availableInnerWidth availableInnerHeight flexBasisOverflows
        measureModeCrossDim performLayout config
        (state : RNYGNode C × List (RNYGNode D) × YGFloat) i,
      RNYGDistributeFreeSpaceSecondPass.body
          (checkedLayoutFn (RNYGFlexDirectionIsRow mainAxis) (!RNYGFlexDirectionIsRow mainAxis)
            f)
          values mainAxis crossAxis mainAxisParentSize availableInnerMainDim
          availableInnerCrossDim availableInnerWidth availableInnerHeight flexBasisOverflows
          measureModeCrossDim performLayout config state i =
        RNYGDistributeFreeSpaceSecondPass.body f values mainAxis crossAxis mainAxisParentSize
          availableInnerMainDim availableInnerCrossDim availableInnerWidth availableInnerHeight
          flexBasisOverflows measureModeCrossDim performLayout config state i) ∧
    (∀ values mainAxis crossAxis mainAxisParentSize availableInnerMainDim
        availableInnerCrossDim availableInnerWidth availableInnerHeight flexBasisOverflows
        measureModeCrossDim performLayout config
        (state : RNYGNode C × List (RNYGNode D) × YGFloat) i,
      (∀ c, state.2.1[i]? = some c →
        ((c.resolvedDimensions (dim crossAxis)).unit = RNYGUnit.Percent &&
          measureModeCrossDim ≠ RNYGMeasureMode.Exactly) = false) →
      RNYGDistributeFreeSpaceSecondPass.body (checkedLayoutFn true true f)
          values mainAxis crossAxis mainAxisParentSize availableInnerMainDim
          availableInnerCrossDim availableInnerWidth availableInnerHeight flexBasisOverflows
          measureModeCrossDim performLayout config state i =
        RNYGDistributeFreeSpaceSecondPass.body f values mainAxis crossAxis mainAxisParentSize
          availableInnerMainDim availableInnerCrossDim availableInnerWidth availableInnerHeight
          flexBasisOverflows measureModeCrossDim performLayout config state i) ∧
    (∀ (node : RNYGNode C) parentWidth parentHeight,
      undefinedModeHasUndefinedSize (RNYGNodeCalculateLayout.rootWidth node parentWidth).2
        (RNYGNodeCalculateLayout.rootWidth node parentWidth).1 = true ∧
      undefinedModeHasUndefinedSize
        (RNYGNodeCalculateLayout.rootHeight node parentWidth parentHeight).2
        (RNYGNodeCalculateLayout.rootHeight node parentWidth parentHeight).1 = true) :=
  ⟨fun gen node child width widthMode height parentWidth parentHeight heightMode direction
      config =>
      RNYGNodeComputeFlexBasisForChild_checked gen f node child width widthMode height
        parentWidth parentHeight heightMode direction config,
    fun node child width widthMode height direction config =>
      RNYGNodeAbsoluteLayoutChild_checked f node child width widthMode height direction config,
    fun l node availableInnerMainDim crossDim containerCrossAxis totalLineCrossDim child =>
      RNYGNodelayoutImpl.crossAlignChild_checked f l node availableInnerMainDim crossDim
        containerCrossAxis totalLineCrossDim child,
    fun baselineOfChild l node currentLead lineHeight maxAscentForCurrentLine child =>
      RNYGNodelayoutImpl.alignContentChild_checked f baselineOfChild l node currentLead
        lineHeight maxAscentForCurrentLine child,
    fun values mainAxis crossAxis a1 a2 a3 a4 a5 fbo mm pl config state i =>
      RNYGDistributeFreeSpaceSecondPass.body_checked_main f values mainAxis crossAxis a1 a2 a3
        a4 a5 fbo mm pl config state i,
    fun values mainAxis crossAxis a1 a2 a3 a4 a5 fbo mm pl config state i hloose =>
      RNYGDistributeFreeSpaceSecondPass.body_checked f values mainAxis crossAxis a1 a2 a3 a4 a5
        fbo mm pl config state i hloose,
    fun node parentWidth parentHeight =>
      RNYGNodeCalculateLayout.root_undefinedMode node parentWidth parentHeight⟩

/-! ### Growing children -/

/-- C25, counterexample: for space-between on a line of 3 items with the remaining free space
-30 and no auto margin, the code uses `betweenMainDim = 0`, not `-30 / 2`. -/
theorem RNYGJustifyMainAxis_spaceBetween_negative_floored :
    RNYGJustifyMainAxis.leadingAndBetween RNYGJustify.SpaceBetween 0 (some (-30)) 3 =
      (some 0, some 0) ∧
    leadingAndBetweenAsClaimed RNYGJustify.SpaceBetween (-30) 3 = (0, -15) := by
  refine ⟨by decide!, by decide!⟩

/-- C25, amended: for a line of `n ≥ 1` items without auto margins and every remaining free
space `rem`, negative or not, `RNYGJustifyMainAxis` uses the pair of the claim, but for
space-between with more than one item `betweenMainDim = max(rem, 0) / (n - 1)`. -/
theorem RNYGJustifyMainAxis_leadingAndBetween_floored (justifyContent : RNYGJustify) (rem : ℚ)
    (n : Nat) (hn : 1 ≤ n) :
    RNYGJustifyMainAxis.leadingAndBetween justifyContent 0 (some rem) n =
      (some (leadingAndBetweenFloored justifyContent rem n).1,
        some (leadingAndBetweenFloored justifyContent rem n).2) := by
  have hn0 : (n : ℚ) ≠ 0 := by
    have : (0 : ℚ) < n := by exact_mod_cast hn
    exact ne_of_gt this
  have hn1 : ((n + 1 : Nat) : ℚ) ≠ 0 := by
    have : (0 : ℚ) < ((n + 1 : Nat) : ℚ) := by exact_mod_cast Nat.succ_pos n
    exact ne_of_gt this
  cases justifyContent
  · simp [RNYGJustifyMainAxis.leadingAndBetween, leadingAndBetweenFloored,
      leadingAndBetweenAsClaimed]
  · simp [RNYGJustifyMainAxis.leadingAndBetween, leadingAndBetweenFloored,
      leadingAndBetweenAsClaimed, fdiv]
  · simp [RNYGJustifyMainAxis.leadingAndBetween, leadingAndBetweenFloored,
      leadingAndBetweenAsClaimed]
  · by_cases h1 : n ≤ 1
    · have : ¬ n > 1 := by omega
      simp [RNYGJustifyMainAxis.leadingAndBetween, leadingAndBetweenFloored, h1, this]
    · have hgt : n > 1 := by omega
      have hsub : ((n - 1 : Nat) : ℚ) = (n : ℚ) - 1 := by
        rw [Nat.cast_sub (by omega)]
        simp
      have hne : (n : ℚ) - 1 ≠ 0 := by
        have : (1 : ℚ) < n := by exact_mod_cast hgt
        linarith
      simp [RNYGJustifyMainAxis.leadingAndBetween, leadingAndBetweenFloored, h1, hgt, hsub,
        fdiv, fmaxf, hne]
  · simp only [RNYGJustifyMainAxis.leadingAndBetween, leadingAndBetweenFloored,
      leadingAndBetweenAsClaimed, if_true, fdiv, hn0, if_false]
    simp only [Prod.mk.injEq, Option.some.injEq, and_true]
    norm_num
    field_simp
    exact Or.inl (mul_comm _ _)
  · simp only [RNYGJustifyMainAxis.leadingAndBetween, leadingAndBetweenFloored,
      leadingAndBetweenAsClaimed, if_true, fdiv, hn1, if_false]
    simp

theorem RNYGJustifyMainAxis_leadingAndBetween_floored_witness :
    RNYGJustifyMainAxis.leadingAndBetween RNYGJustify.SpaceBetween 0 (some 120) 2 =
      (some 0, some 120) ∧
    childBoxesAfterLayout spaceBetweenRow =
      some [[some 0, some 0, some 40, some 50], [some 160, some 0, some 40, some 50]] := by
  refine ⟨?_, by decide!⟩
  rw [RNYGJustifyMainAxis_leadingAndBetween_floored RNYGJustify.SpaceBetween 120 2 (by decide)]
  decide!

/-! ### The cross-axis offset of a child that is not stretched -/

theorem fadd_zero_right (a : YGFloat) : fadd a (some 0) = a := by
  cases a <;> simp [fadd]

/-- C30, counterexample: a child with the flex basis 50 percent and the computed flex basis 10
is measured in a row of width 100; the resolved flex basis is 50 and the main-axis size is
defined, and the computed flex basis after the call is still 10. -/
theorem RNYGNodeComputeFlexBasisForChild_keeps_defined_basis :
    RNYGResolveValue staleBasisChild.resolveFlexBasisPtr (some 100) = some 50 ∧
    (RNYGNodeComputeFlexBasisForChild 1 keepLayoutFn rowContainer staleBasisChild (some 100)
      RNYGMeasureMode.Exactly (some 50) (some 100) (some 50) RNYGMeasureMode.Exactly
      RNYGDirection.LTR gYGConfigDefaults).map (fun child => child.layout.computedFlexBasis) =
      some (some 10) := by
  refine ⟨by decide!, by decide!⟩

/-- C30, amended: whenever the child's resolved flexBasis (against the main-axis parent size)
and the main-axis size are both defined, `RNYGNodeComputeFlexBasisForChild` returns, and the
child's computedFlexBasis is max(resolved flexBasis, the child's padding+border on the main
axis) if computedFlexBasis was undefined before the call (or the experimental feature
web-flex-basis is on and the basis is of another generation), and is the value it held before
the call otherwise. -/
theorem RNYGNodeComputeFlexBasisForChild_resolved_basis {C D : Type} (gen : Nat)
    (f : RNYGLayoutFn D) (node : RNYGNode C) (child : RNYGNode D) (width : YGFloat)
    (widthMode : RNYGMeasureMode) (height parentWidth parentHeight : YGFloat)
    (heightMode : RNYGMeasureMode) (direction : RNYGDirection) (config : RNYGConfig)
    (basis size : ℚ)
    (hbasis : RNYGResolveValue child.resolveFlexBasisPtr
      (if RNYGFlexDirectionIsRow (RNYGResolveFlexDirection node.style.flexDirection direction)
        then parentWidth else parentHeight) = some basis)
    (hsize : (if RNYGFlexDirectionIsRow
        (RNYGResolveFlexDirection node.style.flexDirection direction)
      then width else height) = some size) :
    ∃ child', RNYGNodeComputeFlexBasisForChild gen f node child width widthMode height
        parentWidth parentHeight heightMode direction config = some child' ∧
      child'.layout.computedFlexBasis =
        (if flexBasisIsRecomputed gen child = true then
          fmaxf (some basis) (RNYGNodePaddingAndBorderForAxis child
            (RNYGResolveFlexDirection node.style.flexDirection direction) parentWidth)
        else child.layout.computedFlexBasis) := by
  unfold RNYGNodeComputeFlexBasisForChild
  simp only [hbasis, hsize, RNYGFloatIsUndefined, Option.isNone_some, Bool.not_false,
    Bool.and_self, if_true]
  by_cases hre : flexBasisIsRecomputed gen child = true
  · have hre' := hre
    unfold flexBasisIsRecomputed RNYGFloatIsUndefined at hre'
    simp only [hre', hre, if_true]
    exact ⟨_, rfl, rfl⟩
  · have hre' := hre
    unfold flexBasisIsRecomputed RNYGFloatIsUndefined at hre'
    simp only [hre', hre, if_false]
    exact ⟨_, rfl, rfl⟩

theorem RNYGNodeComputeFlexBasisForChild_resolved_basis_witness :
    ∃ child', RNYGNodeComputeFlexBasisForChild 1 keepLayoutFn rowContainer
        (staleBasisChild.setLayoutComputedFlexBasis RNYGUndefined) (some 100)
        RNYGMeasureMode.Exactly (some 50) (some 100) (some 50) RNYGMeasureMode.Exactly
        RNYGDirection.LTR gYGConfigDefaults = some child' ∧
      child'.layout.computedFlexBasis = some 50 := by
  obtain ⟨child', h1, h2⟩ := RNYGNodeComputeFlexBasisForChild_resolved_basis 1 keepLayoutFn
    rowContainer (staleBasisChild.setLayoutComputedFlexBasis RNYGUndefined) (some 100)
    RNYGMeasureMode.Exactly (some 50) (some 100) (some 50) RNYGMeasureMode.Exactly
    RNYGDirection.LTR gYGConfigDefaults 50 100 (by decide!) (by decide!)
  refine ⟨child', h1, ?_⟩
  rw [h2]
  decide!

/-! ### The first pass of the distribution of the free space -/

theorem fadd_assoc (a b c : YGFloat) : fadd (fadd a b) c = fadd a (fadd b c) := by
  cases a <;> cases b <;> cases c <;> simp [fadd, add_assoc]

theorem fadd_zero_left (a : YGFloat) : fadd (some 0) a = a := by
  cases a <;> simp [fadd]

theorem RNYGJustifyMainAxis.body_mainDim {C D : Type} (node : RNYGNode C)
    (mainAxis crossAxis : RNYGFlexDirection) (measureModeCrossDim : RNYGMeasureMode)
    (availableInnerMainDim availableInnerCrossDim availableInnerWidth : YGFloat)
    (performLayout : Bool) (remainingFreeSpace : YGFloat)
    (numberOfAutoMarginsOnCurrentLine : Nat) (leadingMainDim betweenMainDim : YGFloat)
    (child : RNYGNode D) (mainDim crossDim : YGFloat) :
    (RNYGJustifyMainAxis.body node mainAxis crossAxis measureModeCrossDim
      availableInnerMainDim availableInnerCrossDim availableInnerWidth performLayout
      remainingFreeSpace numberOfAutoMarginsOnCurrentLine leadingMainDim betweenMainDim child
      mainDim crossDim).2.1 =
      if isInFlow child = true then
        fadd mainDim (justifyContribution mainAxis availableInnerWidth
          (!performLayout && decide (measureModeCrossDim = RNYGMeasureMode.Exactly))
          remainingFreeSpace numberOfAutoMarginsOnCurrentLine betweenMainDim child)
      else mainDim := by
  unfold RNYGJustifyMainAxis.body isInFlow
  by_cases hd : child.style.display = RNYGDisplay.None
  · simp [hd]
  · cases hp : child.style.positionType with
    | Absolute =>
      simp only [hd, hp, if_false, decide_True, Bool.true_and, decide_False, Bool.and_false,
        Bool.false_eq_true, ne_eq, not_false_eq_true, reduceCtorEq]
      split_ifs <;> rfl
    | Relative =>
      have e1 : ∀ v e, (child.setLayoutPosition v e).marginTrailingValue mainAxis =
          child.marginTrailingValue mainAxis := fun _ _ => rfl
      have e2 : ∀ v e, RNYGNodeDimWithMargin (child.setLayoutPosition v e) mainAxis
          availableInnerWidth = RNYGNodeDimWithMargin child mainAxis availableInnerWidth :=
        fun _ _ => rfl
      have e3 : ∀ v e, (child.setLayoutPosition v e).getMarginForAxis mainAxis
          availableInnerWidth = child.getMarginForAxis mainAxis availableInnerWidth :=
        fun _ _ => rfl
      simp only [hd, hp, if_false, decide_True, Bool.true_and, Bool.and_true, if_true, ne_eq,
        not_false_eq_true, reduceCtorEq, decide_False, Bool.false_and, Bool.false_eq_true]
      unfold justifyContribution
      cases performLayout <;>
        by_cases hl : (child.marginLeadingValue mainAxis).unit = RNYGUnit.Auto <;>
        by_cases ht : (child.marginTrailingValue mainAxis).unit = RNYGUnit.Auto <;>
        by_cases hm : measureModeCrossDim = RNYGMeasureMode.Exactly <;>
        simp [hl, ht, hm, e1, e2, e3, fadd_assoc, fadd_zero_left, fadd_zero_right]

theorem RNYGJustifyMainAxis.loop_mainDim {C D : Type} (node : RNYGNode C)
    (mainAxis crossAxis : RNYGFlexDirection) (measureModeCrossDim : RNYGMeasureMode)
    (availableInnerMainDim availableInnerCrossDim availableInnerWidth : YGFloat)
    (performLayout : Bool) (remainingFreeSpace : YGFloat)
    (numberOfAutoMarginsOnCurrentLine : Nat) (leadingMainDim betweenMainDim : YGFloat) :
    ∀ (line : List (RNYGNode D)) (mainDim crossDim : YGFloat),
      (RNYGJustifyMainAxis.loop node mainAxis crossAxis measureModeCrossDim
        availableInnerMainDim availableInnerCrossDim availableInnerWidth performLayout
        remainingFreeSpace numberOfAutoMarginsOnCurrentLine leadingMainDim betweenMainDim line
        mainDim crossDim).2.1 =
        fadd mainDim (lineSpacedSum mainAxis availableInnerWidth
          (!performLayout && decide (measureModeCrossDim = RNYGMeasureMode.Exactly))
          remainingFreeSpace numberOfAutoMarginsOnCurrentLine betweenMainDim line)
  | [], mainDim, _ => by
    simp [RNYGJustifyMainAxis.loop, lineSpacedSum, fadd_zero_right]
  | child :: rest, mainDim, crossDim => by
    have hbody := RNYGJustifyMainAxis.body_mainDim node mainAxis crossAxis measureModeCrossDim
      availableInnerMainDim availableInnerCrossDim availableInnerWidth performLayout
      remainingFreeSpace numberOfAutoMarginsOnCurrentLine leadingMainDim betweenMainDim child
      mainDim crossDim
    unfold RNYGJustifyMainAxis.loop
    simp only []
    rw [RNYGJustifyMainAxis.loop_mainDim node mainAxis crossAxis measureModeCrossDim
      availableInnerMainDim availableInnerCrossDim availableInnerWidth performLayout
      remainingFreeSpace numberOfAutoMarginsOnCurrentLine leadingMainDim betweenMainDim rest,
      hbody]
    unfold lineSpacedSum
    rw [List.foldr_cons]
    by_cases hf : isInFlow child = true
    · rw [if_pos hf, if_pos hf, fadd_assoc]
    · rw [if_neg hf, if_neg hf]

theorem lineSpacedSum_eq_lineDimWithMarginSum {D : Type} (mainAxis : RNYGFlexDirection)
    (availableInnerWidth remainingFreeSpace : YGFloat) (numberOfAutoMarginsOnCurrentLine : Nat) :
    ∀ (line : List (RNYGNode D)),
      (∀ child ∈ line, isInFlow child = true →
        (child.marginLeadingValue mainAxis).unit ≠ RNYGUnit.Auto ∧
        (child.marginTrailingValue mainAxis).unit ≠ RNYGUnit.Auto) →
      lineSpacedSum mainAxis availableInnerWidth false remainingFreeSpace
        numberOfAutoMarginsOnCurrentLine (some 0) line =
        lineDimWithMarginSum mainAxis availableInnerWidth line
  | [], _ => rfl
  | child :: rest, h => by
    unfold lineSpacedSum lineDimWithMarginSum
    rw [List.foldr_cons, List.foldr_cons]
    have ih := lineSpacedSum_eq_lineDimWithMarginSum mainAxis availableInnerWidth
      remainingFreeSpace numberOfAutoMarginsOnCurrentLine rest
      (fun c hc => h c (List.mem_cons_of_mem _ hc))
    unfold lineSpacedSum lineDimWithMarginSum at ih
    rw [ih]
    by_cases hf : isInFlow child = true
    · obtain ⟨hl, ht⟩ := h child (List.mem_cons_self _ _) hf
      rw [if_pos hf, if_pos hf]
      simp [justifyContribution, hl, ht, fadd_zero_left]
    · rw [if_neg hf, if_neg hf]

/-- C26, counterexample: for a line of two items of width 40 in a row of width 200 with
justify center and the remaining free space 120, `RNYGJustifyMainAxis` computes
`mainDim = 140` (the leading space 60 is part of it); the sum of the claim is 80. -/
theorem RNYGJustifyMainAxis_mainDim_includes_spacing :
    (RNYGJustifyMainAxis centerRow measuredLine measuredLineValues 0 RNYGFlexDirection.Row
      RNYGFlexDirection.Column RNYGMeasureMode.Exactly RNYGMeasureMode.Exactly RNYGUndefined
      RNYGUndefined (some 200) (some 50) (some 200) true).2.mainDim = some 140 ∧
    mainDimAsClaimed centerRow RNYGFlexDirection.Row RNYGUndefined (some 200)
      (lineSegment measuredLine 0 measuredLineValues.endOfLineIndex) = some 80 := by
  refine ⟨by decide!, by decide!⟩

/-- C26, amended: for every line, the `mainDim` that `RNYGJustifyMainAxis` computes equals the
container's leading padding+border on the main axis, plus `leadingMainDim`, plus the sum over
the line's in-flow children of `betweenMainDim`, the shares of the free space of the child's
auto margins and `dimWithMargin(child, main axis)` (the margins and the computed flex basis when
the flex step was skipped), plus the trailing padding+border; when `leadingMainDim` and
`betweenMainDim` are 0, no in-flow child has an auto margin and the flex step was not skipped,
this is the sum of the claim. -/
theorem RNYGJustifyMainAxis_mainDim {C D : Type} (node : RNYGNode C)
    (children : List (RNYGNode D)) (values : RNYGCollectFlexItemsRowValues)
    (startOfLineIndex : Nat) (mainAxis crossAxis : RNYGFlexDirection)
    (measureModeMainDim measureModeCrossDim : RNYGMeasureMode)
    (mainAxisParentSize parentWidth availableInnerMainDim availableInnerCrossDim
      availableInnerWidth : YGFloat) (performLayout : Bool) :
    (RNYGJustifyMainAxis node children values startOfLineIndex mainAxis crossAxis
      measureModeMainDim measureModeCrossDim mainAxisParentSize parentWidth
      availableInnerMainDim availableInnerCrossDim availableInnerWidth performLayout).2.mainDim =
      fadd
        (fadd
          (fadd (node.getLeadingPaddingAndBorder mainAxis parentWidth)
            (RNYGJustifyMainAxis.leadingAndBetween node.style.justifyContent
              (RNYGJustifyMainAxis.countAutoMargins mainAxis
                (lineSegment children startOfLineIndex values.endOfLineIndex))
              (RNYGJustifyMainAxis node children values startOfLineIndex mainAxis crossAxis
                measureModeMainDim measureModeCrossDim mainAxisParentSize parentWidth
                availableInnerMainDim availableInnerCrossDim availableInnerWidth
                performLayout).2.remainingFreeSpace values.itemsOnLine).1)
          (lineSpacedSum mainAxis availableInnerWidth
            (!performLayout && decide (measureModeCrossDim = RNYGMeasureMode.Exactly))
            (RNYGJustifyMainAxis node children values startOfLineIndex mainAxis crossAxis
              measureModeMainDim measureModeCrossDim mainAxisParentSize parentWidth
              availableInnerMainDim availableInnerCrossDim availableInnerWidth
              performLayout).2.remainingFreeSpace
            (RNYGJustifyMainAxis.countAutoMargins mainAxis
              (lineSegment children startOfLineIndex values.endOfLineIndex))
            (RNYGJustifyMainAxis.leadingAndBetween node.style.justifyContent
              (RNYGJustifyMainAxis.countAutoMargins mainAxis
                (lineSegment children startOfLineIndex values.endOfLineIndex))
              (RNYGJustifyMainAxis node children values startOfLineIndex mainAxis crossAxis
                measureModeMainDim measureModeCrossDim mainAxisParentSize parentWidth
                availableInnerMainDim availableInnerCrossDim availableInnerWidth
                performLayout).2.remainingFreeSpace values.itemsOnLine).2
            (lineSegment children startOfLineIndex values.endOfLineIndex)))
        (node.getTrailingPaddingAndBorder mainAxis parentWidth) ∧
    (RNYGJustifyMainAxis.leadingAndBetween node.style.justifyContent
        (RNYGJustifyMainAxis.countAutoMargins mainAxis
          (lineSegment children startOfLineIndex values.endOfLineIndex))
        (RNYGJustifyMainAxis node children values startOfLineIndex mainAxis crossAxis
          measureModeMainDim measureModeCrossDim mainAxisParentSize parentWidth
          availableInnerMainDim availableInnerCrossDim availableInnerWidth
          performLayout).2.remainingFreeSpace values.itemsOnLine = (some 0, some 0) →
      (∀ child ∈ lineSegment children startOfLineIndex values.endOfLineIndex,
        isInFlow child = true →
          (child.marginLeadingValue mainAxis).unit ≠ RNYGUnit.Auto ∧
          (child.marginTrailingValue mainAxis).unit ≠ RNYGUnit.Auto) →
      (!performLayout && decide (measureModeCrossDim = RNYGMeasureMode.Exactly)) = false →
      (RNYGJustifyMainAxis node children values startOfLineIndex mainAxis crossAxis
        measureModeMainDim measureModeCrossDim mainAxisParentSize parentWidth
        availableInnerMainDim availableInnerCrossDim availableInnerWidth
        performLayout).2.mainDim =
        mainDimAsClaimed node mainAxis parentWidth availableInnerWidth
          (lineSegment children startOfLineIndex values.endOfLineIndex)) := by
  have hmain : (RNYGJustifyMainAxis node children values startOfLineIndex mainAxis crossAxis
      measureModeMainDim measureModeCrossDim mainAxisParentSize parentWidth
      availableInnerMainDim availableInnerCrossDim availableInnerWidth performLayout).2.mainDim =
      fadd
        (fadd
          (fadd (node.getLeadingPaddingAndBorder mainAxis parentWidth)
            (RNYGJustifyMainAxis.leadingAndBetween node.style.justifyContent
              (RNYGJustifyMainAxis.countAutoMargins mainAxis
                (lineSegment children startOfLineIndex values.endOfLineIndex))
              (RNYGJustifyMainAxis node children values startOfLineIndex mainAxis crossAxis
                measureModeMainDim measureModeCrossDim mainAxisParentSize parentWidth
                availableInnerMainDim availableInnerCrossDim availableInnerWidth
                performLayout).2.remainingFreeSpace values.itemsOnLine).1)
          (lineSpacedSum mainAxis availableInnerWidth
            (!performLayout && decide (measureModeCrossDim = RNYGMeasureMode.Exactly))
            (RNYGJustifyMainAxis node children values startOfLineIndex mainAxis crossAxis
              measureModeMainDim measureModeCrossDim mainAxisParentSize parentWidth
              availableInnerMainDim availableInnerCrossDim availableInnerWidth
              performLayout).2.remainingFreeSpace
            (RNYGJustifyMainAxis.countAutoMargins mainAxis
              (lineSegment children startOfLineIndex values.endOfLineIndex))
            (RNYGJustifyMainAxis.leadingAndBetween node.style.justifyContent
              (RNYGJustifyMainAxis.countAutoMargins mainAxis
                (lineSegment children startOfLineIndex values.endOfLineIndex))
              (RNYGJustifyMainAxis node children values startOfLineIndex mainAxis crossAxis
                measureModeMainDim measureModeCrossDim mainAxisParentSize parentWidth
                availableInnerMainDim availableInnerCrossDim availableInnerWidth
                performLayout).2.remainingFreeSpace values.itemsOnLine).2
            (lineSegment children startOfLineIndex values.endOfLineIndex)))
        (node.getTrailingPaddingAndBorder mainAxis parentWidth) := by
    unfold RNYGJustifyMainAxis
    simp only []
    rw [RNYGJustifyMainAxis.loop_mainDim]
  refine ⟨hmain, ?_⟩
  intro hlb hauto hskip
  rw [hmain, hlb, hskip]
  simp only []
  rw [lineSpacedSum_eq_lineDimWithMarginSum mainAxis availableInnerWidth _ _ _ hauto,
    fadd_zero_right]
  rfl

theorem RNYGJustifyMainAxis_mainDim_witness :
    (RNYGJustifyMainAxis startRow measuredLine measuredLineValues 0 RNYGFlexDirection.Row
      RNYGFlexDirection.Column RNYGMeasureMode.Exactly RNYGMeasureMode.Exactly RNYGUndefined
      RNYGUndefined (some 200) (some 50) (some 200) true).2.mainDim = some 80 := by
  rw [(RNYGJustifyMainAxis_mainDim startRow measuredLine measuredLineValues 0
    RNYGFlexDirection.Row RNYGFlexDirection.Column RNYGMeasureMode.Exactly
    RNYGMeasureMode.Exactly RNYGUndefined RNYGUndefined (some 200) (some 50) (some 200) true).2
    (by decide!) (by decide!) (by decide!)]
  decide!

/-! ### The end of a line in `RNYGCalculateCollectFlexItemsRowValues` -/

theorem fadd_comm (a b : YGFloat) : fadd a b = fadd b a := by
  cases a <;> cases b <;> simp [fadd, add_comm]

/-- The rule of the loop for an in-flow child: it ends the line exactly under the condition of
the specification, and is added to the line otherwise. -/
theorem RNYGCalculateCollectFlexItemsRowValues.loop_inFlow {D : Type}
    (mainAxis : RNYGFlexDirection) (isNodeFlexWrap : Bool)
    (mainAxisParentSize availableInnerWidth availableInnerMainDim : YGFloat) (lineCount : Nat)
    (child : RNYGNode D) (rest : List (RNYGNode D)) (endOfLineIndex : Nat)
    (sizeConsumed : YGFloat) (values : RNYGCollectFlexItemsRowValues)
    (hflow : isInFlow child = true) :
    RNYGCalculateCollectFlexItemsRowValues.loop mainAxis isNodeFlexWrap mainAxisParentSize
        availableInnerWidth availableInnerMainDim lineCount (child :: rest) endOfLineIndex
        sizeConsumed values =
      if endsLineAsClaimed isNodeFlexWrap values.itemsOnLine sizeConsumed
          (child.getMarginForAxis mainAxis availableInnerWidth)
          (RNYGNodeBoundAxisWithinMinAndMax child mainAxis child.layout.computedFlexBasis
            mainAxisParentSize) availableInnerMainDim = true then
        ((child.setLineIndex lineCount) :: rest, values, endOfLineIndex)
      else
        ((child.setLineIndex lineCount) ::
          (RNYGCalculateCollectFlexItemsRowValues.loop mainAxis isNodeFlexWrap
            mainAxisParentSize availableInnerWidth availableInnerMainDim lineCount rest
            (endOfLineIndex + 1)
            (fadd sizeConsumed
              (fadd (RNYGNodeBoundAxisWithinMinAndMax child mainAxis
                  child.layout.computedFlexBasis mainAxisParentSize)
                (child.getMarginForAxis mainAxis availableInnerWidth)))
            { (if child.isNodeFlexible then
                { values with
                  sizeConsumedOnCurrentLine := fadd values.sizeConsumedOnCurrentLine
                    (fadd (RNYGNodeBoundAxisWithinMinAndMax child mainAxis
                        child.layout.computedFlexBasis mainAxisParentSize)
                      (child.getMarginForAxis mainAxis availableInnerWidth))
                  itemsOnLine := values.itemsOnLine + 1
                  totalFlexGrowFactors :=
                    fadd values.totalFlexGrowFactors child.resolveFlexGrow
                  totalFlexShrinkScaledFactors := fadd values.totalFlexShrinkScaledFactors
                    (fmul (fneg child.resolveFlexShrink) child.layout.computedFlexBasis) }
              else
                { values with
                  sizeConsumedOnCurrentLine := fadd values.sizeConsumedOnCurrentLine
                    (fadd (RNYGNodeBoundAxisWithinMinAndMax child mainAxis
                        child.layout.computedFlexBasis mainAxisParentSize)
                      (child.getMarginForAxis mainAxis availableInnerWidth))
                  itemsOnLine := values.itemsOnLine + 1 }) with
              relativeChildren := values.relativeChildren ++ [endOfLineIndex] }).1,
          (RNYGCalculateCollectFlexItemsRowValues.loop mainAxis isNodeFlexWrap
            mainAxisParentSize availableInnerWidth availableInnerMainDim lineCount rest
            (endOfLineIndex + 1)
            (fadd sizeConsumed
              (fadd (RNYGNodeBoundAxisWithinMinAndMax child mainAxis
                  child.layout.computedFlexBasis mainAxisParentSize)
                (child.getMarginForAxis mainAxis availableInnerWidth)))
            { (if child.isNodeFlexible then
                { values with
                  sizeConsumedOnCurrentLine := fadd values.sizeConsumedOnCurrentLine
                    (fadd (RNYGNodeBoundAxisWithinMinAndMax child mainAxis
                        child.layout.computedFlexBasis mainAxisParentSize)
                      (child.getMarginForAxis mainAxis availableInnerWidth))
                  itemsOnLine := values.itemsOnLine + 1
                  totalFlexGrowFactors :=
                    fadd values.totalFlexGrowFactors child.resolveFlexGrow
                  totalFlexShrinkScaledFactors := fadd values.totalFlexShrinkScaledFactors
                    (fmul (fneg child.resolveFlexShrink) child.layout.computedFlexBasis) }
              else
                { values with
                  sizeConsumedOnCurrentLine := fadd values.sizeConsumedOnCurrentLine
                    (fadd (RNYGNodeBoundAxisWithinMinAndMax child mainAxis
                        child.layout.computedFlexBasis mainAxisParentSize)
                      (child.getMarginForAxis mainAxis availableInnerWidth))
                  itemsOnLine := values.itemsOnLine + 1 }) with
              relativeChildren := values.relativeChildren ++ [endOfLineIndex] }).2) := by
  unfold isInFlow at hflow
  simp only [Bool.and_eq_true, decide_eq_true_eq] at hflow
  obtain ⟨hd, hp⟩ := hflow
  have hcond : (fgt (fadd (fadd sizeConsumed
        (RNYGNodeBoundAxisWithinMinAndMax child mainAxis child.layout.computedFlexBasis
          mainAxisParentSize)) (child.getMarginForAxis mainAxis availableInnerWidth))
        availableInnerMainDim && isNodeFlexWrap && decide (values.itemsOnLine > 0)) =
      endsLineAsClaimed isNodeFlexWrap values.itemsOnLine sizeConsumed
        (child.getMarginForAxis mainAxis availableInnerWidth)
        (RNYGNodeBoundAxisWithinMinAndMax child mainAxis child.layout.computedFlexBasis
          mainAxisParentSize) availableInnerMainDim := by
    unfold endsLineAsClaimed
    rw [fadd_assoc, fadd_assoc,
      fadd_comm (child.getMarginForAxis mainAxis availableInnerWidth)]
    have : decide (values.itemsOnLine > 0) = decide (1 ≤ values.itemsOnLine) := by
      simp [Nat.succ_le_iff]
    rw [this]
    cases isNodeFlexWrap <;> cases decide (1 ≤ values.itemsOnLine) <;> simp
  have e1 : (child.setLineIndex lineCount).getMarginForAxis mainAxis availableInnerWidth =
      child.getMarginForAxis mainAxis availableInnerWidth := rfl
  have e2 : ∀ v, RNYGNodeBoundAxisWithinMinAndMax (child.setLineIndex lineCount) mainAxis v
      mainAxisParentSize = RNYGNodeBoundAxisWithinMinAndMax child mainAxis v
        mainAxisParentSize := fun _ => rfl
  have e3 : (child.setLineIndex lineCount).isNodeFlexible = child.isNodeFlexible := rfl
  have e4 : (child.setLineIndex lineCount).resolveFlexGrow = child.resolveFlexGrow := rfl
  have e5 : (child.setLineIndex lineCount).resolveFlexShrink = child.resolveFlexShrink := rfl
  have e6 : (child.setLineIndex lineCount).layout = child.layout := rfl
  rw [RNYGCalculateCollectFlexItemsRowValues.loop]
  simp only [hd, hp, e1, e2, e3, e4, e5, e6, hcond, decide_False, Bool.or_self,
    Bool.false_eq_true, if_false, reduceCtorEq]
  by_cases hend : endsLineAsClaimed isNodeFlexWrap values.itemsOnLine sizeConsumed
      (child.getMarginForAxis mainAxis availableInnerWidth)
      (RNYGNodeBoundAxisWithinMinAndMax child mainAxis child.layout.computedFlexBasis
        mainAxisParentSize) availableInnerMainDim = true
  · simp only [hend, if_true]
  · simp only [hend, if_false, Bool.false_eq_true]
    by_cases hflex : child.isNodeFlexible = true
    · simp only [hflex, if_true]
    · simp only [hflex, if_false, Bool.false_eq_true]

theorem RNYGCalculateCollectFlexItemsRowValues.loop_skip {D : Type}
    (mainAxis : RNYGFlexDirection) (isNodeFlexWrap : Bool)
    (mainAxisParentSize availableInnerWidth availableInnerMainDim : YGFloat) (lineCount : Nat)
    (child : RNYGNode D) (rest : List (RNYGNode D)) (endOfLineIndex : Nat)
    (sizeConsumed : YGFloat) (values : RNYGCollectFlexItemsRowValues)
    (hflow : isInFlow child = false) :
    (RNYGCalculateCollectFlexItemsRowValues.loop mainAxis isNodeFlexWrap mainAxisParentSize
        availableInnerWidth availableInnerMainDim lineCount (child :: rest) endOfLineIndex
        sizeConsumed values).2 =
      (RNYGCalculateCollectFlexItemsRowValues.loop mainAxis isNodeFlexWrap mainAxisParentSize
        availableInnerWidth availableInnerMainDim lineCount rest (endOfLineIndex + 1)
        sizeConsumed values).2 := by
  have hcond : (decide (child.style.display = RNYGDisplay.None) ||
      decide (child.style.positionType = RNYGPositionType.Absolute)) = true := by
    unfold isInFlow at hflow
    cases hp : child.style.positionType with
    | Absolute => simp
    | Relative =>
      rw [hp] at hflow
      simpa using hflow
  rw [RNYGCalculateCollectFlexItemsRowValues.loop]
  simp only [hcond, if_true]

theorem RNYGCalculateCollectFlexItemsRowValues.loop_stop_ge {D : Type}
    (mainAxis : RNYGFlexDirection) (isNodeFlexWrap : Bool)
    (mainAxisParentSize availableInnerWidth availableInnerMainDim : YGFloat) (lineCount : Nat) :
    ∀ (l : List (RNYGNode D)) (endOfLineIndex : Nat) (sizeConsumed : YGFloat)
      (values : RNYGCollectFlexItemsRowValues),
      endOfLineIndex ≤ (RNYGCalculateCollectFlexItemsRowValues.loop mainAxis isNodeFlexWrap
        mainAxisParentSize availableInnerWidth availableInnerMainDim lineCount l endOfLineIndex
        sizeConsumed values).2.2
  | [], _, _, _ => by
    simp [RNYGCalculateCollectFlexItemsRowValues.loop]
  | child :: rest, endOfLineIndex, sizeConsumed, values => by
    by_cases hflow : isInFlow child = true
    · rw [RNYGCalculateCollectFlexItemsRowValues.loop_inFlow mainAxis isNodeFlexWrap
        mainAxisParentSize availableInnerWidth availableInnerMainDim lineCount child rest
        endOfLineIndex sizeConsumed values hflow]
      by_cases hend : endsLineAsClaimed isNodeFlexWrap values.itemsOnLine sizeConsumed
          (child.getMarginForAxis mainAxis availableInnerWidth)
          (RNYGNodeBoundAxisWithinMinAndMax child mainAxis child.layout.computedFlexBasis
            mainAxisParentSize) availableInnerMainDim = true
      · rw [if_pos hend]
      · rw [if_neg hend]
        exact Nat.le_of_succ_le
          (RNYGCalculateCollectFlexItemsRowValues.loop_stop_ge mainAxis isNodeFlexWrap
            mainAxisParentSize availableInnerWidth availableInnerMainDim lineCount rest
            (endOfLineIndex + 1) _ _)
    · have hflow' : isInFlow child = false := by simpa using hflow
      rw [RNYGCalculateCollectFlexItemsRowValues.loop_skip mainAxis isNodeFlexWrap
        mainAxisParentSize availableInnerWidth availableInnerMainDim lineCount child rest
        endOfLineIndex sizeConsumed values hflow']
      exact Nat.le_of_succ_le
        (RNYGCalculateCollectFlexItemsRowValues.loop_stop_ge mainAxis isNodeFlexWrap
          mainAxisParentSize availableInnerWidth availableInnerMainDim lineCount rest
          (endOfLineIndex + 1) _ _)

theorem RNYGNode.setLayoutBorder_layoutEdges (node : RNYGNode C) (v : YGFloat) (e : RNYGEdge) :
    (node.setLayoutBorder v e).layoutEdges = node.layoutEdges := rfl

theorem RNYGNode.setLayoutPadding_layoutEdges (node : RNYGNode C) (v : YGFloat) (e : RNYGEdge) :
    (node.setLayoutPadding v e).layoutEdges = node.layoutEdges := rfl

theorem RNYGNode.setLayoutMeasuredDimension_layoutEdges (node : RNYGNode C) (v : YGFloat)
    (d : RNYGDimension) : (node.setLayoutMeasuredDimension v d).layoutEdges = node.layoutEdges :=
  rfl

theorem RNYGNode.setLayoutHadOverflow_layoutEdges (node : RNYGNode C) (b : Bool) :
    (node.setLayoutHadOverflow b).layoutEdges = node.layoutEdges := rfl

theorem RNYGNode.setLayoutDidUseLegacyFlag_layoutEdges (node : RNYGNode C) (b : Bool) :
    (node.setLayoutDidUseLegacyFlag b).layoutEdges = node.layoutEdges := rfl

theorem RNYGNodeWithMeasureFuncSetMeasuredDimensions_layoutEdges (node r : RNYGNode C)
    (aw ah : YGFloat) (wm hm : RNYGMeasureMode) (pw ph : YGFloat)
    (h : RNYGNodeWithMeasureFuncSetMeasuredDimensions node aw ah wm hm pw ph = some r) :
    r.layoutEdges = node.layoutEdges := by
  unfold RNYGNodeWithMeasureFuncSetMeasuredDimensions at h
  split at h
  · exact absurd h (by simp)
  · simp only at h
    split_ifs at h <;> simp only [Option.some.injEq] at h <;> rw [← h] <;> rfl

theorem RNYGNodeEmptyContainerSetMeasuredDimensions_layoutEdges (node : RNYGNode C)
    (aw ah : YGFloat) (wm hm : RNYGMeasureMode) (pw ph : YGFloat) :
    (RNYGNodeEmptyContainerSetMeasuredDimensions node aw ah wm hm pw ph).layoutEdges =
      node.layoutEdges := rfl

theorem RNYGNodeFixedSizeSetMeasuredDimensions_layoutEdges (node : RNYGNode C)
    (aw ah : YGFloat) (wm hm : RNYGMeasureMode) (pw ph : YGFloat) :
    (RNYGNodeFixedSizeSetMeasuredDimensions node aw ah wm hm pw ph).1.layoutEdges =
      node.layoutEdges := by
  unfold RNYGNodeFixedSizeSetMeasuredDimensions
  split_ifs <;> rfl

theorem RNYGNode.cloneChildrenIfNeeded_layoutEdges {D : Type} (node : RNYGNode (RNYGNode D)) :
    node.cloneChildrenIfNeeded.layoutEdges = node.layoutEdges := by
  unfold RNYGNode.cloneChildrenIfNeeded
  split
  · rfl
  · split_ifs <;> rfl

theorem RNYGNodelayoutImpl.leaf_layoutEdges (node r : RNYGNode PEmpty) (aw ah : YGFloat)
    (pd : RNYGDirection) (wm hm : RNYGMeasureMode) (pw ph : YGFloat)
    (h : RNYGNodelayoutImpl.leaf node aw ah pd wm hm pw ph = some r) :
    r.layoutEdges = (RNYGNodelayoutImpl.setup node pd pw).layoutEdges := by
  unfold RNYGNodelayoutImpl.leaf at h
  simp only at h
  split_ifs at h
  · rw [RNYGNodeWithMeasureFuncSetMeasuredDimensions_layoutEdges _ _ _ _ _ _ _ _ h]
  · simp only [Option.some.injEq] at h
    rw [← h]
    exact RNYGNodeEmptyContainerSetMeasuredDimensions_layoutEdges _ _ _ _ _ _ _

theorem RNYGDistributeFreeSpaceSecondPass.body_layoutEdges {D : Type}
    (layoutChild : RNYGLayoutFn D) (values : RNYGCollectFlexItemsRowValues)
    (mainAxis crossAxis : RNYGFlexDirection) (a1 a2 a3 a4 a5 : YGFloat) (fbo : Bool)
    (mm : RNYGMeasureMode) (pl : Bool) (config : RNYGConfig)
    (state state' : RNYGNode C × List (RNYGNode D) × YGFloat) (i : Nat)
    (h : RNYGDistributeFreeSpaceSecondPass.body layoutChild values mainAxis crossAxis a1 a2 a3
      a4 a5 fbo mm pl config state i = some state') :
    state'.1.layoutEdges = state.1.layoutEdges := by
  obtain ⟨node, children, d⟩ := state
  unfold RNYGDistributeFreeSpaceSecondPass.body at h
  simp only at h
  split at h
  · simp only [Option.some.injEq] at h
    rw [← h]
  · simp only [bind, Option.bind_eq_some, pure] at h
    obtain ⟨a, -, h2⟩ := h
    simp only [Option.some.injEq] at h2
    rw [← h2]
    rfl

theorem RNYGDistributeFreeSpaceSecondPass.foldlM_layoutEdges {D : Type}
    (f : RNYGNode C × List (RNYGNode D) × YGFloat → Nat →
      Option (RNYGNode C × List (RNYGNode D) × YGFloat))
    (hf : ∀ s i s', f s i = some s' → s'.1.layoutEdges = s.1.layoutEdges) :
    ∀ (l : List Nat) (s s' : RNYGNode C × List (RNYGNode D) × YGFloat),
      l.foldlM f s = some s' → s'.1.layoutEdges = s.1.layoutEdges
  | [], s, s', h => by
    simp only [List.foldlM, pure, Option.some.injEq] at h
    rw [← h]
  | i :: l, s, s', h => by
    simp only [List.foldlM, bind, Option.bind_eq_some] at h
    obtain ⟨s1, h1, h2⟩ := h
    rw [RNYGDistributeFreeSpaceSecondPass.foldlM_layoutEdges f hf l s1 s' h2, hf s i s1 h1]

theorem RNYGDistributeFreeSpaceSecondPass_layoutEdges {D : Type}
    (layoutChild : RNYGLayoutFn D) (values : RNYGCollectFlexItemsRowValues)
    (node : RNYGNode C) (children : List (RNYGNode D))
    (mainAxis crossAxis : RNYGFlexDirection) (a1 a2 a3 a4 a5 : YGFloat) (fbo : Bool)
    (mm : RNYGMeasureMode) (pl : Bool) (config : RNYGConfig)
    (r : RNYGNode C × List (RNYGNode D) × YGFloat)
    (h : RNYGDistributeFreeSpaceSecondPass layoutChild values node children mainAxis crossAxis
      a1 a2 a3 a4 a5 fbo mm pl config = some r) :
    r.1.layoutEdges = node.layoutEdges :=
  RNYGDistributeFreeSpaceSecondPass.foldlM_layoutEdges _
    (fun s i s' hs => RNYGDistributeFreeSpaceSecondPass.body_layoutEdges layoutChild values
      mainAxis crossAxis a1 a2 a3 a4 a5 fbo mm pl config s s' i hs)
    values.relativeChildren (node, children, some 0) r h

theorem RNYGResolveFlexibleLength_layoutEdges {D : Type}
    (layoutChild : RNYGLayoutFn D) (node : RNYGNode C) (children : List (RNYGNode D))
    (values : RNYGCollectFlexItemsRowValues)
    (mainAxis crossAxis : RNYGFlexDirection) (a1 a2 a3 a4 a5 : YGFloat) (fbo : Bool)
    (mm : RNYGMeasureMode) (pl : Bool) (config : RNYGConfig)
    (r : RNYGNode C × List (RNYGNode D) × RNYGCollectFlexItemsRowValues)
    (h : RNYGResolveFlexibleLength layoutChild node children values mainAxis crossAxis
      a1 a2 a3 a4 a5 fbo mm pl config = some r) :
    r.1.layoutEdges = node.layoutEdges := by
  unfold RNYGResolveFlexibleLength at h
  simp only [bind, Option.bind_eq_some, pure] at h
  obtain ⟨x, hx, h2⟩ := h
  simp only [Option.some.injEq] at h2
  rw [← h2]
  exact RNYGDistributeFreeSpaceSecondPass_layoutEdges _ _ _ _ _ _ _ _ _ _ _ _ _ _ _ _ hx

theorem RNYGNodelayoutImpl.lineBody_layoutEdges {D : Type} (layoutChild : RNYGLayoutFn D)
    (l : RNYGNodelayoutImpl.Locals) (s s' : RNYGNodelayoutImpl.LineState C D)
    (h : RNYGNodelayoutImpl.lineBody layoutChild l s = some s') :
    s'.node.layoutEdges = s.node.layoutEdges := by
  unfold RNYGNodelayoutImpl.lineBody at h
  simp only [bind, pure] at h
  by_cases hc : (!(!l.performLayout && decide (l.measureModeCrossDim = RNYGMeasureMode.Exactly)))
      = true
  · rw [if_pos hc] at h
    simp only [Option.bind_eq_some] at h
    obtain ⟨a, ha, h2⟩ := h
    have h3 := RNYGResolveFlexibleLength_layoutEdges _ _ _ _ _ _ _ _ _ _ _ _ _ _ _ _ ha
    have h4 : s'.node.layoutEdges = a.1.layoutEdges := by
      by_cases hp : l.performLayout = true
      · rw [if_pos hp] at h2
        simp only [Option.bind_eq_some, Option.some.injEq] at h2
        obtain ⟨_, -, _, -, rfl⟩ := h2
        rfl
      · rw [if_neg hp] at h2
        simp only [Option.bind_eq_some, Option.some.injEq] at h2
        obtain ⟨_, -, rfl⟩ := h2
        rfl
    refine h4.trans (h3.trans ?_)
    split_ifs <;> rfl
  · rw [if_neg hc] at h
    simp only [Option.bind_eq_some] at h
    obtain ⟨a, ha, h2⟩ := h
    simp only [Option.some.injEq] at ha
    have h4 : s'.node.layoutEdges = a.1.layoutEdges := by
      by_cases hp : l.performLayout = true
      · rw [if_pos hp] at h2
        simp only [Option.bind_eq_some, Option.some.injEq] at h2
        obtain ⟨_, -, _, -, rfl⟩ := h2
        rfl
      · rw [if_neg hp] at h2
        simp only [Option.bind_eq_some, Option.some.injEq] at h2
        obtain ⟨_, -, rfl⟩ := h2
        rfl
    refine h4.trans ?_
    rw [← ha]
    simp only
    split_ifs <;> rfl

theorem RNYGNodelayoutImpl.lineLoop_layoutEdges {D : Type} (layoutChild : RNYGLayoutFn D)
    (l : RNYGNodelayoutImpl.Locals) (childCount : Nat) :
    ∀ (fuel : Nat) (s s' : RNYGNodelayoutImpl.LineState C D),
      RNYGNodelayoutImpl.lineLoop layoutChild l childCount fuel s = some s' →
      s'.node.layoutEdges = s.node.layoutEdges
  | 0, s, s', h => by
    simp only [RNYGNodelayoutImpl.lineLoop, Option.some.injEq] at h
    rw [← h]
  | fuel + 1, s, s', h => by
    unfold RNYGNodelayoutImpl.lineLoop at h
    by_cases hlt : s.endOfLineIndex < childCount
    · rw [if_pos hlt] at h
      simp only [bind, Option.bind_eq_some] at h
      obtain ⟨s1, h1, h2⟩ := h
      rw [RNYGNodelayoutImpl.lineLoop_layoutEdges layoutChild l childCount fuel _ s' h2]
      exact RNYGNodelayoutImpl.lineBody_layoutEdges layoutChild l s s1 h1
    · rw [if_neg hlt] at h
      simp only [Option.some.injEq] at h
      rw [← h]

theorem RNYGNode.ite_layoutEdges (c : Prop) [Decidable c] (a b n : RNYGNode C)
    (ha : a.layoutEdges = n.layoutEdges) (hb : b.layoutEdges = n.layoutEdges) :
    (if c then a else b).layoutEdges = n.layoutEdges := by
  split_ifs
  · exact ha
  · exact hb

theorem RNYGNodelayoutImpl.finalDimensions_layoutEdges (l : RNYGNodelayoutImpl.Locals)
    (node : RNYGNode C) (a1 a2 a3 a4 a5 a6 a7 a8 a9 : YGFloat) :
    (RNYGNodelayoutImpl.finalDimensions l node a1 a2 a3 a4 a5 a6 a7 a8 a9).layoutEdges =
      node.layoutEdges := by
  unfold RNYGNodelayoutImpl.finalDimensions
  simp only
  repeat' first
    | apply RNYGNode.ite_layoutEdges
    | rw [RNYGNode.setLayoutMeasuredDimension_layoutEdges]

theorem RNYGNodelayoutImpl.container_layoutEdges {D : Type} (gen : Nat)
    (layoutChild : RNYGLayoutFn D) (zeroOutChild : RNYGNode D → RNYGNode D)
    (baselineOfChild : RNYGNode D → Option YGFloat) (node r : RNYGNode (RNYGNode D))
    (aw ah : YGFloat) (pd : RNYGDirection) (wm hm : RNYGMeasureMode) (pw ph : YGFloat)
    (pl : Bool) (config : RNYGConfig)
    (h : RNYGNodelayoutImpl.container gen layoutChild zeroOutChild baselineOfChild node aw ah pd
      wm hm pw ph pl config = some r) :
    r.layoutEdges = node.layoutEdges := by
  unfold RNYGNodelayoutImpl.container at h
  simp only [bind, Option.bind_eq_some, pure, Option.map_eq_some'] at h
  obtain ⟨x, hx, s1, hs1, c, hc, c2, -, rfl⟩ := h
  have hloop := RNYGNodelayoutImpl.lineLoop_layoutEdges _ _ _ _ _ _ hs1
  exact (RNYGNodelayoutImpl.finalDimensions_layoutEdges _ _ _ _ _ _ _ _ _ _ _).trans
    (hloop.trans ((RNYGNode.setLayoutHadOverflow_layoutEdges _ _).trans
      (RNYGNode.cloneChildrenIfNeeded_layoutEdges _)))

theorem RNYGNodelayoutImpl_layoutEdges {D : Type} (gen : Nat)
    (layoutChild : RNYGLayoutFn D) (zeroOutChild : RNYGNode D → RNYGNode D)
    (baselineOfChild : RNYGNode D → Option YGFloat) (node r : RNYGNode (RNYGNode D))
    (aw ah : YGFloat) (pd : RNYGDirection) (wm hm : RNYGMeasureMode) (pw ph : YGFloat)
    (pl : Bool) (config : RNYGConfig)
    (h : RNYGNodelayoutImpl gen layoutChild zeroOutChild baselineOfChild node aw ah pd
      wm hm pw ph pl config = some r) :
    r.layoutEdges = (RNYGNodelayoutImpl.setup node pd pw).layoutEdges := by
  unfold RNYGNodelayoutImpl at h
  simp only at h
  split_ifs at h
  · rw [RNYGNodeWithMeasureFuncSetMeasuredDimensions_layoutEdges _ _ _ _ _ _ _ _ h]
  · simp only [Option.some.injEq] at h
    rw [← h]
    exact RNYGNodeEmptyContainerSetMeasuredDimensions_layoutEdges _ _ _ _ _ _ _
  · simp only [Option.some.injEq] at h
    rw [← h]
    exact RNYGNodeFixedSizeSetMeasuredDimensions_layoutEdges _ _ _ _ _ _ _
  · rw [RNYGNodelayoutImpl.container_layoutEdges _ _ _ _ _ _ _ _ _ _ _ _ _ _ _ h]

theorem RNYGNodeLayoutGetMargin_of_setup {C : Type} (node r : RNYGNode C)
    (parentDirection : RNYGDirection) (parentWidth : YGFloat)
    (hedges : r.layoutEdges =
      (RNYGNodelayoutImpl.setup node parentDirection parentWidth).layoutEdges)
    (hstart : (node.style.margin RNYGEdge.Start).unit = RNYGUnit.Undefined)
    (hend : (node.style.margin RNYGEdge.End).unit = RNYGUnit.Undefined) :
    RNYGNodeLayoutGetMargin r RNYGEdge.Left = some (resolvedMargin node RNYGEdge.Left parentWidth) ∧
    RNYGNodeLayoutGetMargin r RNYGEdge.Right =
      some (resolvedMargin node RNYGEdge.Right parentWidth) := by
  have hdir : r.layout.direction = node.resolveDirection parentDirection :=
    congrArg Prod.fst hedges
  have hmargin : r.layout.margin =
      (RNYGNodelayoutImpl.setup node parentDirection parentWidth).layout.margin :=
    congrArg Prod.snd hedges
  unfold RNYGNodeLayoutGetMargin
  rw [hdir, hmargin]
  by_cases hrtl : node.resolveDirection parentDirection = RNYGDirection.RTL
  · simp [RNYGNodelayoutImpl.setup, RNYGNode.setLayoutMargin, RNYGNode.setLayoutBorder,
      RNYGNode.setLayoutPadding, RNYGNode.setLayoutDirection, hrtl, RNYGResolveFlexDirection,
      RNYGNode.getLeadingMargin, RNYGNode.getTrailingMargin, hstart, hend, leading, trailing,
      resolvedMargin, Function.update]
  · simp [RNYGNodelayoutImpl.setup, RNYGNode.setLayoutMargin, RNYGNode.setLayoutBorder,
      RNYGNode.setLayoutPadding, RNYGNode.setLayoutDirection, hrtl, RNYGResolveFlexDirection,
      RNYGNode.getLeadingMargin, RNYGNode.getTrailingMargin, hstart, hend, leading, trailing,
      resolvedMargin, Function.update]

/-- C24: for a node whose style has no start and no end margin, after `RNYGNodelayoutImpl`
has laid it out (with or without children), `RNYGNodeLayoutGetMargin(node, left)` returns the
left margin of the node resolved against the parent width and
`RNYGNodeLayoutGetMargin(node, right)` its resolved right margin, whatever the parent direction
and the direction of the node, LTR or RTL. -/
theorem RNYGNodeLayoutGetMargin_physical {D : Type} (parentDirection : RNYGDirection)
    (parentWidth : YGFloat) :
    (∀ (gen : Nat) (layoutChild : RNYGLayoutFn D) (zeroOutChild : RNYGNode D → RNYGNode D)
        (baselineOfChild : RNYGNode D → Option YGFloat) (node r : RNYGNode (RNYGNode D))
        (availableWidth availableHeight : YGFloat)
        (widthMeasureMode heightMeasureMode : RNYGMeasureMode) (parentHeight : YGFloat)
        (performLayout : Bool) (config : RNYGConfig),
      RNYGNodelayoutImpl gen layoutChild zeroOutChild baselineOfChild node availableWidth
        availableHeight parentDirection widthMeasureMode heightMeasureMode parentWidth
        parentHeight performLayout config = some r →
      (node.style.margin RNYGEdge.Start).unit = RNYGUnit.Undefined →
      (node.style.margin RNYGEdge.End).unit = RNYGUnit.Undefined →
      RNYGNodeLayoutGetMargin r RNYGEdge.Left =
        some (resolvedMargin node RNYGEdge.Left parentWidth) ∧
      RNYGNodeLayoutGetMargin r RNYGEdge.Right =
        some (resolvedMargin node RNYGEdge.Right parentWidth)) ∧
    (∀ (node r : RNYGNode PEmpty) (availableWidth availableHeight : YGFloat)
        (widthMeasureMode heightMeasureMode : RNYGMeasureMode) (parentHeight : YGFloat),
      RNYGNodelayoutImpl.leaf node availableWidth availableHeight parentDirection
        widthMeasureMode heightMeasureMode parentWidth parentHeight = some r →
      (node.style.margin RNYGEdge.Start).unit = RNYGUnit.Undefined →
      (node.style.margin RNYGEdge.End).unit = RNYGUnit.Undefined →
      RNYGNodeLayoutGetMargin r RNYGEdge.Left =
        some (resolvedMargin node RNYGEdge.Left parentWidth) ∧
      RNYGNodeLayoutGetMargin r RNYGEdge.Right =
        some (resolvedMargin node RNYGEdge.Right parentWidth)) := by
  constructor
  · intro gen layoutChild zeroOutChild baselineOfChild node r availableWidth availableHeight
      widthMeasureMode heightMeasureMode parentHeight performLayout config h hstart hend
    exact RNYGNodeLayoutGetMargin_of_setup node r parentDirection parentWidth
      (RNYGNodelayoutImpl_layoutEdges gen layoutChild zeroOutChild baselineOfChild node r
        availableWidth availableHeight parentDirection widthMeasureMode heightMeasureMode
        parentWidth parentHeight performLayout config h) hstart hend
  · intro node r availableWidth availableHeight widthMeasureMode heightMeasureMode
      parentHeight h hstart hend
    exact RNYGNodeLayoutGetMargin_of_setup node r parentDirection parentWidth
      (RNYGNodelayoutImpl.leaf_layoutEdges node r availableWidth availableHeight
        parentDirection widthMeasureMode heightMeasureMode parentWidth parentHeight h)
      hstart hend

theorem RNYGNodeLayoutGetMargin_physical_witness :
    (RNYGNodelayoutImpl.leaf rtlMarginRoot (some 130) (some 50) RNYGDirection.LTR
      RNYGMeasureMode.Exactly RNYGMeasureMode.Exactly RNYGUndefined RNYGUndefined).isSome =
      true ∧
    (∀ r, RNYGNodelayoutImpl.leaf rtlMarginRoot (some 130) (some 50) RNYGDirection.LTR
        RNYGMeasureMode.Exactly RNYGMeasureMode.Exactly RNYGUndefined RNYGUndefined = some r →
      r.layout.direction = RNYGDirection.RTL ∧
      RNYGNodeLayoutGetMargin r RNYGEdge.Left = some (some 10) ∧
      RNYGNodeLayoutGetMargin r RNYGEdge.Right = some (some 20)) ∧
    (RNYGNodeCalculateLayout (fun _ _ => true) 0 0 rtlMarginRoot RNYGUndefined RNYGUndefined
      RNYGDirection.LTR).map (fun r =>
        (r.1.layout.direction, RNYGNodeLayoutGetMargin r.1 RNYGEdge.Left,
          RNYGNodeLayoutGetMargin r.1 RNYGEdge.Right)) =
      some (RNYGDirection.RTL, some (some 10), some (some 20)) := by
  refine ⟨by decide!, ?_, by decide!⟩
  intro r hr
  have h := (RNYGNodeLayoutGetMargin_physical (D := PEmpty) RNYGDirection.LTR
    RNYGUndefined).2 rtlMarginRoot r (some 130) (some 50) RNYGMeasureMode.Exactly
    RNYGMeasureMode.Exactly RNYGUndefined hr (by decide) (by decide)
  refine ⟨?_, ?_, ?_⟩
  · have hd := congrArg Prod.fst (RNYGNodelayoutImpl.leaf_layoutEdges rtlMarginRoot r
      (some 130) (some 50) RNYGDirection.LTR RNYGMeasureMode.Exactly RNYGMeasureMode.Exactly
      RNYGUndefined RNYGUndefined hr)
    exact hd.trans (by decide!)
  · rw [h.1]
    decide!
  · rw [h.2]
    decide!

/-! ### `RNYGNodelayoutImpl` leaves the style of its node alone -/

theorem RNYGNode.setLayoutDirection_frameStyle (node : RNYGNode C) (d : RNYGDirection) :
    (node.setLayoutDirection d).frameStyle = node.frameStyle := rfl

theorem RNYGNode.setLayoutMargin_frameStyle (node : RNYGNode C) (v : YGFloat) (e : RNYGEdge) :
    (node.setLayoutMargin v e).frameStyle = node.frameStyle := rfl

theorem RNYGNode.setLayoutBorder_frameStyle (node : RNYGNode C) (v : YGFloat) (e : RNYGEdge) :
    (node.setLayoutBorder v e).frameStyle = node.frameStyle := rfl

theorem RNYGNode.setLayoutPadding_frameStyle (node : RNYGNode C) (v : YGFloat) (e : RNYGEdge) :
    (node.setLayoutPadding v e).frameStyle = node.frameStyle := rfl

theorem RNYGNode.setLayoutMeasuredDimension_frameStyle (node : RNYGNode C) (v : YGFloat)
    (d : RNYGDimension) : (node.setLayoutMeasuredDimension v d).frameStyle = node.frameStyle :=
  rfl

theorem RNYGNode.setLayoutHadOverflow_frameStyle (node : RNYGNode C) (b : Bool) :
    (node.setLayoutHadOverflow b).frameStyle = node.frameStyle := rfl

theorem RNYGNode.setLayoutDidUseLegacyFlag_frameStyle (node : RNYGNode C) (b : Bool) :
    (node.setLayoutDidUseLegacyFlag b).frameStyle = node.frameStyle := rfl

theorem RNYGNodelayoutImpl.setup_frameStyle (node : RNYGNode C) (pd : RNYGDirection)
    (pw : YGFloat) : (RNYGNodelayoutImpl.setup node pd pw).frameStyle = node.frameStyle := by
  simp only [RNYGNodelayoutImpl.setup, RNYGNode.setLayoutDirection_frameStyle,
    RNYGNode.setLayoutMargin_frameStyle, RNYGNode.setLayoutBorder_frameStyle,
    RNYGNode.setLayoutPadding_frameStyle]

theorem RNYGNodeWithMeasureFuncSetMeasuredDimensions_frameStyle (node r : RNYGNode C)
    (aw ah : YGFloat) (wm hm : RNYGMeasureMode) (pw ph : YGFloat)
    (h : RNYGNodeWithMeasureFuncSetMeasuredDimensions node aw ah wm hm pw ph = some r) :
    r.frameStyle = node.frameStyle := by
  unfold RNYGNodeWithMeasureFuncSetMeasuredDimensions at h
  split at h
  · exact absurd h (by simp)
  · simp only at h
    split_ifs at h <;> simp only [Option.some.injEq] at h <;> rw [← h] <;> rfl

theorem RNYGNodeEmptyContainerSetMeasuredDimensions_frameStyle (node : RNYGNode C)
    (aw ah : YGFloat) (wm hm : RNYGMeasureMode) (pw ph : YGFloat) :
    (RNYGNodeEmptyContainerSetMeasuredDimensions node aw ah wm hm pw ph).frameStyle =
      node.frameStyle := rfl

theorem RNYGNodeFixedSizeSetMeasuredDimensions_frameStyle (node : RNYGNode C)
    (aw ah : YGFloat) (wm hm : RNYGMeasureMode) (pw ph : YGFloat) :
    (RNYGNodeFixedSizeSetMeasuredDimensions node aw ah wm hm pw ph).1.frameStyle =
      node.frameStyle := by
  unfold RNYGNodeFixedSizeSetMeasuredDimensions
  split_ifs <;> rfl

theorem RNYGNode.cloneChildrenIfNeeded_frameStyle {D : Type} (node : RNYGNode (RNYGNode D)) :
    node.cloneChildrenIfNeeded.frameStyle = node.frameStyle := by
  unfold RNYGNode.cloneChildrenIfNeeded
  split
  · rfl
  · split_ifs <;> rfl

theorem RNYGNodelayoutImpl.leaf_frameStyle (node r : RNYGNode PEmpty) (aw ah : YGFloat)
    (pd : RNYGDirection) (wm hm : RNYGMeasureMode) (pw ph : YGFloat)
    (h : RNYGNodelayoutImpl.leaf node aw ah pd wm hm pw ph = some r) :
    r.frameStyle = node.frameStyle := by
  unfold RNYGNodelayoutImpl.leaf at h
  simp only at h
  split_ifs at h
  · rw [RNYGNodeWithMeasureFuncSetMeasuredDimensions_frameStyle _ _ _ _ _ _ _ _ h]
    exact RNYGNodelayoutImpl.setup_frameStyle _ _ _
  · simp only [Option.some.injEq] at h
    rw [← h]
    exact (RNYGNodeEmptyContainerSetMeasuredDimensions_frameStyle _ _ _ _ _ _ _).trans
      (RNYGNodelayoutImpl.setup_frameStyle _ _ _)

theorem RNYGDistributeFreeSpaceSecondPass.body_frameStyle {D : Type}
    (layoutChild : RNYGLayoutFn D) (values : RNYGCollectFlexItemsRowValues)
    (mainAxis crossAxis : RNYGFlexDirection) (a1 a2 a3 a4 a5 : YGFloat) (fbo : Bool)
    (mm : RNYGMeasureMode) (pl : Bool) (config : RNYGConfig)
    (state state' : RNYGNode C × List (RNYGNode D) × YGFloat) (i : Nat)
    (h : RNYGDistributeFreeSpaceSecondPass.body layoutChild values mainAxis crossAxis a1 a2 a3
      a4 a5 fbo mm pl config state i = some state') :
    state'.1.frameStyle = state.1.frameStyle := by
  obtain ⟨node, children, d⟩ := state
  unfold RNYGDistributeFreeSpaceSecondPass.body at h
  simp only at h
  split at h
  · simp only [Option.some.injEq] at h
    rw [← h]
  · simp only [bind, Option.bind_eq_some, pure] at h
    obtain ⟨a, -, h2⟩ := h
    simp only [Option.some.injEq] at h2
    rw [← h2]
    rfl

theorem RNYGDistributeFreeSpaceSecondPass.foldlM_frameStyle {D : Type}
    (f : RNYGNode C × List (RNYGNode D) × YGFloat → Nat →
      Option (RNYGNode C × List (RNYGNode D) × YGFloat))
    (hf : ∀ s i s', f s i = some s' → s'.1.frameStyle = s.1.frameStyle) :
    ∀ (l : List Nat) (s s' : RNYGNode C × List (RNYGNode D) × YGFloat),
      l.foldlM f s = some s' → s'.1.frameStyle = s.1.frameStyle
  | [], s, s', h => by
    simp only [List.foldlM, pure, Option.some.injEq] at h
    rw [← h]
  | i :: l, s, s', h => by
    simp only [List.foldlM, bind, Option.bind_eq_some] at h
    obtain ⟨s1, h1, h2⟩ := h
    rw [RNYGDistributeFreeSpaceSecondPass.foldlM_frameStyle f hf l s1 s' h2, hf s i s1 h1]

theorem RNYGDistributeFreeSpaceSecondPass_frameStyle {D : Type}
    (layoutChild : RNYGLayoutFn D) (values : RNYGCollectFlexItemsRowValues)
    (node : RNYGNode C) (children : List (RNYGNode D))
    (mainAxis crossAxis : RNYGFlexDirection) (a1 a2 a3 a4 a5 : YGFloat) (fbo : Bool)
    (mm : RNYGMeasureMode) (pl : Bool) (config : RNYGConfig)
    (r : RNYGNode C × List (RNYGNode D) × YGFloat)
    (h : RNYGDistributeFreeSpaceSecondPass layoutChild values node children mainAxis crossAxis
      a1 a2 a3 a4 a5 fbo mm pl config = some r) :
    r.1.frameStyle = node.frameStyle :=
  RNYGDistributeFreeSpaceSecondPass.foldlM_frameStyle _
    (fun s i s' hs => RNYGDistributeFreeSpaceSecondPass.body_frameStyle layoutChild values
      mainAxis crossAxis a1 a2 a3 a4 a5 fbo mm pl config s s' i hs)
    values.relativeChildren (node, children, some 0) r h

theorem RNYGResolveFlexibleLength_frameStyle {D : Type}
    (layoutChild : RNYGLayoutFn D) (node : RNYGNode C) (children : List (RNYGNode D))
    (values : RNYGCollectFlexItemsRowValues)
    (mainAxis crossAxis : RNYGFlexDirection) (a1 a2 a3 a4 a5 : YGFloat) (fbo : Bool)
    (mm : RNYGMeasureMode) (pl : Bool) (config : RNYGConfig)
    (r : RNYGNode C × List (RNYGNode D) × RNYGCollectFlexItemsRowValues)
    (h : RNYGResolveFlexibleLength layoutChild node children values mainAxis crossAxis
      a1 a2 a3 a4 a5 fbo mm pl config = some r) :
    r.1.frameStyle = node.frameStyle := by
  unfold RNYGResolveFlexibleLength at h
  simp only [bind, Option.bind_eq_some, pure] at h
  obtain ⟨x, hx, h2⟩ := h
  simp only [Option.some.injEq] at h2
  rw [← h2]
  exact RNYGDistributeFreeSpaceSecondPass_frameStyle _ _ _ _ _ _ _ _ _ _ _ _ _ _ _ _ hx

theorem RNYGNodelayoutImpl.lineBody_frameStyle {D : Type} (layoutChild : RNYGLayoutFn D)
    (l : RNYGNodelayoutImpl.Locals) (s s' : RNYGNodelayoutImpl.LineState C D)
    (h : RNYGNodelayoutImpl.lineBody layoutChild l s = some s') :
    s'.node.frameStyle = s.node.frameStyle := by
  unfold RNYGNodelayoutImpl.lineBody at h
  simp only [bind, pure] at h
  by_cases hc : (!(!l.performLayout && decide (l.measureModeCrossDim = RNYGMeasureMode.Exactly)))
      = true
  · rw [if_pos hc] at h
    simp only [Option.bind_eq_some] at h
    obtain ⟨a, ha, h2⟩ := h
    have h3 := RNYGResolveFlexibleLength_frameStyle _ _ _ _ _ _ _ _ _ _ _ _ _ _ _ _ ha
    have h4 : s'.node.frameStyle = a.1.frameStyle := by
      by_cases hp : l.performLayout = true
      · rw [if_pos hp] at h2
        simp only [Option.bind_eq_some, Option.some.injEq] at h2
        obtain ⟨_, -, _, -, rfl⟩ := h2
        rfl
      · rw [if_neg hp] at h2
        simp only [Option.bind_eq_some, Option.some.injEq] at h2
        obtain ⟨_, -, rfl⟩ := h2
        rfl
    refine h4.trans (h3.trans ?_)
    split_ifs <;> rfl
  · rw [if_neg hc] at h
    simp only [Option.bind_eq_some] at h
    obtain ⟨a, ha, h2⟩ := h
    simp only [Option.some.injEq] at ha
    have h4 : s'.node.frameStyle = a.1.frameStyle := by
      by_cases hp : l.performLayout = true
      · rw [if_pos hp] at h2
        simp only [Option.bind_eq_some, Option.some.injEq] at h2
        obtain ⟨_, -, _, -, rfl⟩ := h2
        rfl
      · rw [if_neg hp] at h2
        simp only [Option.bind_eq_some, Option.some.injEq] at h2
        obtain ⟨_, -, rfl⟩ := h2
        rfl
    refine h4.trans ?_
    rw [← ha]
    simp only
    split_ifs <;> rfl

theorem RNYGNodelayoutImpl.lineLoop_frameStyle {D : Type} (layoutChild : RNYGLayoutFn D)
    (l : RNYGNodelayoutImpl.Locals) (childCount : Nat) :
    ∀ (fuel : Nat) (s s' : RNYGNodelayoutImpl.LineState C D),
      RNYGNodelayoutImpl.lineLoop layoutChild l childCount fuel s = some s' →
      s'.node.frameStyle = s.node.frameStyle
  | 0, s, s', h => by
    simp only [RNYGNodelayoutImpl.lineLoop, Option.some.injEq] at h
    rw [← h]
  | fuel + 1, s, s', h => by
    unfold RNYGNodelayoutImpl.lineLoop at h
    by_cases hlt : s.endOfLineIndex < childCount
    · rw [if_pos hlt] at h
      simp only [bind, Option.bind_eq_some] at h
      obtain ⟨s1, h1, h2⟩ := h
      rw [RNYGNodelayoutImpl.lineLoop_frameStyle layoutChild l childCount fuel _ s' h2]
      exact RNYGNodelayoutImpl.lineBody_frameStyle layoutChild l s s1 h1
    · rw [if_neg hlt] at h
      simp only [Option.some.injEq] at h
      rw [← h]

theorem RNYGNode.ite_frameStyle (c : Prop) [Decidable c] (a b n : RNYGNode C)
    (ha : a.frameStyle = n.frameStyle) (hb : b.frameStyle = n.frameStyle) :
    (if c then a else b).frameStyle = n.frameStyle := by
  split_ifs
  · exact ha
  · exact hb

theorem RNYGNodelayoutImpl.finalDimensions_frameStyle (l : RNYGNodelayoutImpl.Locals)
    (node : RNYGNode C) (a1 a2 a3 a4 a5 a6 a7 a8 a9 : YGFloat) :
    (RNYGNodelayoutImpl.finalDimensions l node a1 a2 a3 a4 a5 a6 a7 a8 a9).frameStyle =
      node.frameStyle := by
  unfold RNYGNodelayoutImpl.finalDimensions
  simp only
  repeat' first
    | apply RNYGNode.ite_frameStyle
    | rw [RNYGNode.setLayoutMeasuredDimension_frameStyle]

theorem RNYGNodelayoutImpl.container_frameStyle {D : Type} (gen : Nat)
    (layoutChild : RNYGLayoutFn D) (zeroOutChild : RNYGNode D → RNYGNode D)
    (baselineOfChild : RNYGNode D → Option YGFloat) (node r : RNYGNode (RNYGNode D))
    (aw ah : YGFloat) (pd : RNYGDirection) (wm hm : RNYGMeasureMode) (pw ph : YGFloat)
    (pl : Bool) (config : RNYGConfig)
    (h : RNYGNodelayoutImpl.container gen layoutChild zeroOutChild baselineOfChild node aw ah pd
      wm hm pw ph pl config = some r) :
    r.frameStyle = node.frameStyle := by
  unfold RNYGNodelayoutImpl.container at h
  simp only [bind, Option.bind_eq_some, pure, Option.map_eq_some'] at h
  obtain ⟨x, hx, s1, hs1, c, hc, c2, -, rfl⟩ := h
  have hloop := RNYGNodelayoutImpl.lineLoop_frameStyle _ _ _ _ _ _ hs1
  exact (RNYGNodelayoutImpl.finalDimensions_frameStyle _ _ _ _ _ _ _ _ _ _ _).trans
    (hloop.trans ((RNYGNode.setLayoutHadOverflow_frameStyle _ _).trans
      (RNYGNode.cloneChildrenIfNeeded_frameStyle _)))

theorem RNYGNodelayoutImpl_frameStyle {D : Type} (gen : Nat)
    (layoutChild : RNYGLayoutFn D) (zeroOutChild : RNYGNode D → RNYGNode D)
    (baselineOfChild : RNYGNode D → Option YGFloat) (node r : RNYGNode (RNYGNode D))
    (aw ah : YGFloat) (pd : RNYGDirection) (wm hm : RNYGMeasureMode) (pw ph : YGFloat)
    (pl : Bool) (config : RNYGConfig)
    (h : RNYGNodelayoutImpl gen layoutChild zeroOutChild baselineOfChild node aw ah pd
      wm hm pw ph pl config = some r) :
    r.frameStyle = node.frameStyle := by
  unfold RNYGNodelayoutImpl at h
  simp only at h
  split_ifs at h
  · rw [RNYGNodeWithMeasureFuncSetMeasuredDimensions_frameStyle _ _ _ _ _ _ _ _ h]
    exact RNYGNodelayoutImpl.setup_frameStyle _ _ _
  · simp only [Option.some.injEq] at h
    rw [← h]
    exact (RNYGNodeEmptyContainerSetMeasuredDimensions_frameStyle _ _ _ _ _ _ _).trans
      (RNYGNodelayoutImpl.setup_frameStyle _ _ _)
  · simp only [Option.some.injEq] at h
    rw [← h]
    exact (RNYGNodeFixedSizeSetMeasuredDimensions_frameStyle _ _ _ _ _ _ _).trans
      (RNYGNodelayoutImpl.setup_frameStyle _ _ _)
  · rw [RNYGNodelayoutImpl.container_frameStyle _ _ _ _ _ _ _ _ _ _ _ _ _ _ _ h]
    exact RNYGNodelayoutImpl.setup_frameStyle _ _ _

/-! ### The measured dimension of an axis with the measure mode exactly -/

theorem RNYGNodeBoundAxis_style {C D : Type} (a : RNYGNode C) (b : RNYGNode D)
    (h : a.style = b.style) (axis : RNYGFlexDirection) (value axisSize widthSize : YGFloat) :
    RNYGNodeBoundAxis a axis value axisSize widthSize =
      RNYGNodeBoundAxis b axis value axisSize widthSize := by
  simp only [RNYGNodeBoundAxis, RNYGNodeBoundAxisWithinMinAndMax,
    RNYGNodePaddingAndBorderForAxis, RNYGNode.getLeadingPaddingAndBorder,
    RNYGNode.getTrailingPaddingAndBorder, RNYGNode.getLeadingPadding,
    RNYGNode.getTrailingPadding, RNYGNode.getLeadingBorder, RNYGNode.getTrailingBorder, h]

theorem RNYGNode.getMarginForAxis_style {C D : Type} (a : RNYGNode C) (b : RNYGNode D)
    (h : a.style = b.style) (axis : RNYGFlexDirection) (widthSize : YGFloat) :
    a.getMarginForAxis axis widthSize = b.getMarginForAxis axis widthSize := by
  simp only [RNYGNode.getMarginForAxis, RNYGNode.getLeadingMargin, RNYGNode.getTrailingMargin,
    h]

theorem RNYGNode.measured_set_same {C : Type} (n : RNYGNode C) (v : YGFloat)
    (d : RNYGDimension) : (n.setLayoutMeasuredDimension v d).layout.measuredDimensions d = v := by
  simp [RNYGNode.setLayoutMeasuredDimension]

theorem RNYGNode.measured_set_other {C : Type} (n : RNYGNode C) (v : YGFloat)
    (d e : RNYGDimension) (h : e ≠ d) :
    (n.setLayoutMeasuredDimension v d).layout.measuredDimensions e =
      n.layout.measuredDimensions e := by
  simp [RNYGNode.setLayoutMeasuredDimension, Function.update, h]

/-- One override of STEP 9: it leaves the dimension `e` alone when its conditions fail for
`e`. -/
theorem RNYGNodelayoutImpl.finalDimensions_step {C : Type} (n : RNYGNode C)
    (d e : RNYGDimension) (c1 c2 : Prop) [Decidable c1] [Decidable c2] (v w : YGFloat)
    (h1 : d = e → ¬ c1) (h2 : d = e → ¬ c2) :
    (if c1 then n.setLayoutMeasuredDimension v d
      else if c2 then n.setLayoutMeasuredDimension w d else n).layout.measuredDimensions e =
      n.layout.measuredDimensions e := by
  by_cases hd : d = e
  · rw [if_neg (h1 hd), if_neg (h2 hd)]
  · have hne : e ≠ d := fun h => hd h.symm
    split_ifs
    · exact RNYGNode.measured_set_other n v d e hne
    · exact RNYGNode.measured_set_other n w d e hne
    · rfl

theorem RNYGNodelayoutImpl.finalDimensions_exact_width {C : Type}
    (l : RNYGNodelayoutImpl.Locals) (node : RNYGNode C)
    (availableWidth availableHeight parentHeight marginAxisRow marginAxisColumn
      paddingAndBorderAxisMain availableInnerMainDim maxLineMainDim totalLineCrossDim : YGFloat)
    (hmain : dim l.mainAxis = RNYGDimension.Width →
      l.measureModeMainDim = RNYGMeasureMode.Exactly)
    (hcross : dim l.crossAxis = RNYGDimension.Width →
      l.measureModeCrossDim = RNYGMeasureMode.Exactly) :
    (RNYGNodelayoutImpl.finalDimensions l node availableWidth availableHeight parentHeight
      marginAxisRow marginAxisColumn paddingAndBorderAxisMain availableInnerMainDim
      maxLineMainDim totalLineCrossDim).layout.measuredDimensions RNYGDimension.Width =
      RNYGNodeBoundAxis node RNYGFlexDirection.Row (fsub availableWidth marginAxisRow)
        l.parentWidth l.parentWidth := by
  unfold RNYGNodelayoutImpl.finalDimensions
  simp only []
  rw [RNYGNodelayoutImpl.finalDimensions_step _ _ _ _ _ _ _
      (fun h => by simp [hcross h]) (fun h => by simp [hcross h]),
    RNYGNodelayoutImpl.finalDimensions_step _ _ _ _ _ _ _
      (fun h => by simp [hmain h]) (fun h => by simp [hmain h]),
    RNYGNode.measured_set_other _ _ _ _ (by decide), RNYGNode.measured_set_same]

theorem RNYGNodelayoutImpl.finalDimensions_exact_height {C : Type}
    (l : RNYGNodelayoutImpl.Locals) (node : RNYGNode C)
    (availableWidth availableHeight parentHeight marginAxisRow marginAxisColumn
      paddingAndBorderAxisMain availableInnerMainDim maxLineMainDim totalLineCrossDim : YGFloat)
    (hmain : dim l.mainAxis = RNYGDimension.Height →
      l.measureModeMainDim = RNYGMeasureMode.Exactly)
    (hcross : dim l.crossAxis = RNYGDimension.Height →
      l.measureModeCrossDim = RNYGMeasureMode.Exactly) :
    (RNYGNodelayoutImpl.finalDimensions l node availableWidth availableHeight parentHeight
      marginAxisRow marginAxisColumn paddingAndBorderAxisMain availableInnerMainDim
      maxLineMainDim totalLineCrossDim).layout.measuredDimensions RNYGDimension.Height =
      RNYGNodeBoundAxis node RNYGFlexDirection.Column (fsub availableHeight marginAxisColumn)
        parentHeight l.parentWidth := by
  unfold RNYGNodelayoutImpl.finalDimensions
  simp only []
  rw [RNYGNodelayoutImpl.finalDimensions_step _ _ _ _ _ _ _
      (fun h => by simp [hcross h]) (fun h => by simp [hcross h]),
    RNYGNodelayoutImpl.finalDimensions_step _ _ _ _ _ _ _
      (fun h => by simp [hmain h]) (fun h => by simp [hmain h]),
    RNYGNode.measured_set_same]
  rfl

theorem dim_width_isRow (axis : RNYGFlexDirection) (h : dim axis = RNYGDimension.Width) :
    RNYGFlexDirectionIsRow axis = true := by
  cases axis <;> simp_all [dim, RNYGFlexDirectionIsRow]

theorem dim_height_isRow (axis : RNYGFlexDirection) (h : dim axis = RNYGDimension.Height) :
    RNYGFlexDirectionIsRow axis = false := by
  cases axis <;> simp_all [dim, RNYGFlexDirectionIsRow]

theorem dim_cross_width (axis : RNYGFlexDirection) (d : RNYGDirection)
    (h : dim (RNYGFlexDirectionCross axis d) = RNYGDimension.Width) :
    RNYGFlexDirectionIsRow axis = false := by
  cases axis <;> cases d <;>
    simp_all [dim, RNYGFlexDirectionIsRow, RNYGFlexDirectionCross, RNYGFlexDirectionIsColumn,
      RNYGResolveFlexDirection]

theorem dim_cross_height (axis : RNYGFlexDirection) (d : RNYGDirection)
    (h : dim (RNYGFlexDirectionCross axis d) = RNYGDimension.Height) :
    RNYGFlexDirectionIsRow axis = true := by
  cases axis <;> cases d <;>
    simp_all [dim, RNYGFlexDirectionIsRow, RNYGFlexDirectionCross, RNYGFlexDirectionIsColumn,
      RNYGResolveFlexDirection]

/-- The container part of `RNYGNodelayoutImpl` sets the measured size of an axis whose measure
mode is exactly to the available size minus the margins of the node, bounded. -/
theorem RNYGNodelayoutImpl.container_exact {D : Type} (gen : Nat)
    (layoutChild : RNYGLayoutFn D) (zeroOutChild : RNYGNode D → RNYGNode D)
    (baselineOfChild : RNYGNode D → Option YGFloat) (node r : RNYGNode (RNYGNode D))
    (aw ah : YGFloat) (pd : RNYGDirection) (wm hm : RNYGMeasureMode) (pw ph : YGFloat)
    (pl : Bool) (config : RNYGConfig)
    (h : RNYGNodelayoutImpl.container gen layoutChild zeroOutChild baselineOfChild node aw ah pd
      wm hm pw ph pl config = some r) :
    (wm = RNYGMeasureMode.Exactly →
      r.layout.measuredDimensions RNYGDimension.Width =
        RNYGNodeBoundAxis node RNYGFlexDirection.Row
          (fsub aw (node.getMarginForAxis RNYGFlexDirection.Row pw)) pw pw) ∧
    (hm = RNYGMeasureMode.Exactly →
      r.layout.measuredDimensions RNYGDimension.Height =
        RNYGNodeBoundAxis node RNYGFlexDirection.Column
          (fsub ah (node.getMarginForAxis RNYGFlexDirection.Column pw)) ph pw) := by
  unfold RNYGNodelayoutImpl.container at h
  simp only [bind, Option.bind_eq_some, pure, Option.map_eq_some'] at h
  obtain ⟨x, hx, s1, hs1, c, hc, c2, -, rfl⟩ := h
  have hloop := RNYGNodelayoutImpl.lineLoop_frameStyle _ _ _ _ _ _ hs1
  have hstyle : s1.node.style = node.style :=
    hloop.trans ((RNYGNode.setLayoutHadOverflow_frameStyle _ _).trans
      (RNYGNode.cloneChildrenIfNeeded_frameStyle _))
  have hclone : (node.cloneChildrenIfNeeded.setLayoutHadOverflow false).style = node.style :=
    (RNYGNode.setLayoutHadOverflow_frameStyle _ _).trans
      (RNYGNode.cloneChildrenIfNeeded_frameStyle _)
  constructor
  · intro hw
    subst hw
    refine (RNYGNodelayoutImpl.finalDimensions_exact_width _ _ _ _ _ _ _ _ _ _ _ ?_ ?_).trans ?_
    · intro hd
      simp only [dim_width_isRow _ hd, if_true]
      split_ifs <;> rfl
    · intro hd
      simp only [dim_cross_width _ _ hd, Bool.false_eq_true, if_false]
    · simp only []
      rw [RNYGNodeBoundAxis_style _ _ hstyle,
        RNYGNode.getMarginForAxis_style _ _ hclone]
  · intro hh
    subst hh
    refine (RNYGNodelayoutImpl.finalDimensions_exact_height _ _ _ _ _ _ _ _ _ _ _ ?_ ?_).trans ?_
    · intro hd
      simp only [dim_height_isRow _ hd, Bool.false_eq_true, if_false]
      split_ifs <;> rfl
    · intro hd
      simp only [dim_cross_height _ _ hd, if_true]
    · simp only []
      rw [RNYGNodeBoundAxis_style _ _ hstyle,
        RNYGNode.getMarginForAxis_style _ _ hclone]

theorem RNYGNodeWithMeasureFuncSetMeasuredDimensions_exact (node r : RNYGNode C)
    (aw ah : YGFloat) (wm hm : RNYGMeasureMode) (pw ph : YGFloat)
    (h : RNYGNodeWithMeasureFuncSetMeasuredDimensions node aw ah wm hm pw ph = some r) :
    (wm = RNYGMeasureMode.Exactly →
      r.layout.measuredDimensions RNYGDimension.Width =
        RNYGNodeBoundAxis node RNYGFlexDirection.Row
          (fsub aw (node.getMarginForAxis RNYGFlexDirection.Row aw)) pw pw) ∧
    (hm = RNYGMeasureMode.Exactly →
      r.layout.measuredDimensions RNYGDimension.Height =
        RNYGNodeBoundAxis node RNYGFlexDirection.Column
          (fsub ah (node.getMarginForAxis RNYGFlexDirection.Column aw)) ph pw) := by
  unfold RNYGNodeWithMeasureFuncSetMeasuredDimensions at h
  cases hmeasure : node.measure with
  | none => simp [hmeasure] at h
  | some measure =>
    simp only [hmeasure] at h
    by_cases hboth : (decide (wm = RNYGMeasureMode.Exactly) &&
        decide (hm = RNYGMeasureMode.Exactly)) = true
    · rw [if_pos hboth] at h
      simp only [Option.some.injEq] at h
      subst h
      refine ⟨fun _ => ?_, fun _ => ?_⟩
      · rw [RNYGNode.measured_set_other _ _ _ _ (by decide), RNYGNode.measured_set_same]
      · rw [RNYGNode.measured_set_same]
        rfl
    · rw [if_neg hboth] at h
      simp only [Option.some.injEq] at h
      subst h
      refine ⟨fun hw => ?_, fun hh => ?_⟩
      · subst hw
        rw [RNYGNode.measured_set_other _ _ _ _ (by decide), RNYGNode.measured_set_same]
        rfl
      · subst hh
        rw [RNYGNode.measured_set_same]
        rfl

theorem RNYGNodeEmptyContainerSetMeasuredDimensions_exact (node : RNYGNode C)
    (aw ah : YGFloat) (wm hm : RNYGMeasureMode) (pw ph : YGFloat) :
    (wm = RNYGMeasureMode.Exactly →
      (RNYGNodeEmptyContainerSetMeasuredDimensions node aw ah wm hm pw
        ph).layout.measuredDimensions RNYGDimension.Width =
        RNYGNodeBoundAxis node RNYGFlexDirection.Row
          (fsub aw (node.getMarginForAxis RNYGFlexDirection.Row pw)) pw pw) ∧
    (hm = RNYGMeasureMode.Exactly →
      (RNYGNodeEmptyContainerSetMeasuredDimensions node aw ah wm hm pw
        ph).layout.measuredDimensions RNYGDimension.Height =
        RNYGNodeBoundAxis node RNYGFlexDirection.Column
          (fsub ah (node.getMarginForAxis RNYGFlexDirection.Column pw)) ph pw) := by
  unfold RNYGNodeEmptyContainerSetMeasuredDimensions
  refine ⟨fun hw => ?_, fun hh => ?_⟩
  · subst hw
    simp only []
    rw [RNYGNode.measured_set_other _ _ _ _ (by decide), RNYGNode.measured_set_same]
    rfl
  · subst hh
    simp only []
    rw [RNYGNode.measured_set_same]
    rfl

theorem RNYGNodeBoundAxis_frameStyle {C D : Type} (a : RNYGNode C) (b : RNYGNode D)
    (h : a.frameStyle = b.frameStyle) (axis : RNYGFlexDirection)
    (value axisSize widthSize : YGFloat) :
    RNYGNodeBoundAxis a axis value axisSize widthSize =
      RNYGNodeBoundAxis b axis value axisSize widthSize :=
  RNYGNodeBoundAxis_style a b h axis value axisSize widthSize

theorem RNYGNode.getMarginForAxis_frameStyle {C D : Type} (a : RNYGNode C) (b : RNYGNode D)
    (h : a.frameStyle = b.frameStyle) (axis : RNYGFlexDirection) (widthSize : YGFloat) :
    a.getMarginForAxis axis widthSize = b.getMarginForAxis axis widthSize :=
  RNYGNode.getMarginForAxis_style a b h axis widthSize

theorem RNYGNode.setLayoutDirection_measure (node : RNYGNode C) (d : RNYGDirection) :
    (node.setLayoutDirection d).measure = node.measure := rfl

theorem RNYGNode.setLayoutMargin_measure (node : RNYGNode C) (v : YGFloat) (e : RNYGEdge) :
    (node.setLayoutMargin v e).measure = node.measure := rfl

theorem RNYGNode.setLayoutBorder_measure (node : RNYGNode C) (v : YGFloat) (e : RNYGEdge) :
    (node.setLayoutBorder v e).measure = node.measure := rfl

theorem RNYGNode.setLayoutPadding_measure (node : RNYGNode C) (v : YGFloat) (e : RNYGEdge) :
    (node.setLayoutPadding v e).measure = node.measure := rfl

theorem RNYGNodelayoutImpl.setup_measure (node : RNYGNode C) (pd : RNYGDirection)
    (pw : YGFloat) : (RNYGNodelayoutImpl.setup node pd pw).measure = node.measure := by
  simp only [RNYGNodelayoutImpl.setup, RNYGNode.setLayoutDirection_measure,
    RNYGNode.setLayoutMargin_measure, RNYGNode.setLayoutBorder_measure,
    RNYGNode.setLayoutPadding_measure]

/-- A lay-out request with an exact measure mode gives the node, on that axis, the requested
size minus the margins of the node, bounded by `RNYGNodeBoundAxis`.  A node with a measure
callback resolves its margins against the requested width, the others against the width of the
parent. -/
theorem RNYGNodelayoutImpl_exact {D : Type} (gen : Nat)
    (layoutChild : RNYGLayoutFn D) (zeroOutChild : RNYGNode D → RNYGNode D)
    (baselineOfChild : RNYGNode D → Option YGFloat) (node r : RNYGNode (RNYGNode D))
    (aw ah : YGFloat) (pd : RNYGDirection) (wm hm : RNYGMeasureMode) (pw ph : YGFloat)
    (config : RNYGConfig)
    (h : RNYGNodelayoutImpl gen layoutChild zeroOutChild baselineOfChild node aw ah pd
      wm hm pw ph true config = some r) :
    (wm = RNYGMeasureMode.Exactly →
      r.layout.measuredDimensions RNYGDimension.Width =
        RNYGNodeBoundAxis node RNYGFlexDirection.Row
          (fsub aw (node.getMarginForAxis RNYGFlexDirection.Row
            (if node.measure.isSome then aw else pw))) pw pw) ∧
    (hm = RNYGMeasureMode.Exactly →
      r.layout.measuredDimensions RNYGDimension.Height =
        RNYGNodeBoundAxis node RNYGFlexDirection.Column
          (fsub ah (node.getMarginForAxis RNYGFlexDirection.Column
            (if node.measure.isSome then aw else pw))) ph pw) := by
  have hstyle := RNYGNodelayoutImpl.setup_frameStyle node pd pw
  unfold RNYGNodelayoutImpl at h
  simp only [Bool.not_true, Bool.false_and, Bool.false_eq_true, if_false] at h
  split_ifs at h with hassert hm1 hcount
  · rw [RNYGNodelayoutImpl.setup_measure] at hm1
    have := RNYGNodeWithMeasureFuncSetMeasuredDimensions_exact _ _ _ _ _ _ _ _ h
    rw [RNYGNodeBoundAxis_frameStyle _ _ hstyle, RNYGNodeBoundAxis_frameStyle _ node hstyle,
      RNYGNode.getMarginForAxis_frameStyle _ _ hstyle,
      RNYGNode.getMarginForAxis_frameStyle _ node hstyle] at this
    simpa only [hm1, if_true] using this
  · rw [RNYGNodelayoutImpl.setup_measure] at hm1
    simp only [Option.some.injEq] at h
    subst h
    have := RNYGNodeEmptyContainerSetMeasuredDimensions_exact
      (RNYGNodelayoutImpl.setup node pd pw) aw ah wm hm pw ph
    rw [RNYGNodeBoundAxis_frameStyle _ _ hstyle, RNYGNodeBoundAxis_frameStyle _ node hstyle,
      RNYGNode.getMarginForAxis_frameStyle _ _ hstyle,
      RNYGNode.getMarginForAxis_frameStyle _ node hstyle] at this
    simpa only [hm1, if_false] using this
  · rw [RNYGNodelayoutImpl.setup_measure] at hm1
    have := RNYGNodelayoutImpl.container_exact _ _ _ _ _ _ _ _ _ _ _ _ _ _ _ h
    rw [RNYGNodeBoundAxis_frameStyle _ _ hstyle, RNYGNodeBoundAxis_frameStyle _ node hstyle,
      RNYGNode.getMarginForAxis_frameStyle _ _ hstyle,
      RNYGNode.getMarginForAxis_frameStyle _ node hstyle] at this
    simpa only [hm1, if_false] using this

/-- A request that finds no cached result (the node must be visited, or the lookup returns
null) is computed by `impl` and returns true. -/
theorem RNYGLayoutNodeInternal.core_miss (gen : Nat)
    (impl : RNYGNode C → YGFloat → YGFloat → RNYGDirection → RNYGMeasureMode →
      RNYGMeasureMode → YGFloat → YGFloat → Bool → RNYGConfig → Option (RNYGNode C))
    (node : RNYGNode C) (aw ah : YGFloat) (pd : RNYGDirection) (wm hm : RNYGMeasureMode)
    (pw ph : YGFloat) (pl : Bool) (config : RNYGConfig)
    (hmiss : RNYGLayoutNodeInternal.needToVisitNode gen node pd = true ∨
      RNYGLayoutNodeInternal.lookup node node.layout aw ah wm hm pw pl config = none) :
    RNYGLayoutNodeInternal.core gen impl node aw ah pd wm hm pw ph pl config =
      (impl (if RNYGLayoutNodeInternal.needToVisitNode gen node pd = true then
          { node with layout := RNYGLayoutNodeInternal.invalidate node.layout } else node)
        aw ah pd wm hm pw ph pl config).map (fun b =>
          (RNYGLayoutNodeInternal.epilogue gen
            (RNYGLayoutNodeInternal.miss b none aw ah pd wm hm pl) pl, true)) := by
  unfold RNYGLayoutNodeInternal.core
  by_cases hv : RNYGLayoutNodeInternal.needToVisitNode gen node pd = true
  · have hv' := hv
    unfold RNYGLayoutNodeInternal.needToVisitNode at hv'
    simp only [hv', hv, if_true, RNYGLayoutNodeInternal.lookup_invalidate, Option.map_map,
      Bool.true_or]
    rfl
  · have hl := hmiss.resolve_left hv
    have hv' := hv
    unfold RNYGLayoutNodeInternal.needToVisitNode at hv'
    simp only [Bool.not_eq_true] at hv hv'
    simp only [hv', hv, Bool.false_eq_true, if_false, hl, Option.map_map, Bool.false_or,
      Option.isNone_none]
    rfl

theorem RNYGLayoutNodeInternal.epilogue_dimensions (gen : Nat) (node : RNYGNode C)
    (d : RNYGDimension) :
    (RNYGLayoutNodeInternal.epilogue gen node true).layout.dimensions d =
      node.layout.measuredDimensions d := by
  unfold RNYGLayoutNodeInternal.epilogue RNYGNode.setDirty RNYGNode.setHasNewLayout
    RNYGNode.setLayoutDimension
  cases d <;> simp only [if_true] <;> split_ifs <;> simp [Function.update]

theorem RNYGLayoutNodeInternal.miss_measuredDimensions (node : RNYGNode C)
    (c : Option RNYGCachedMeasurement) (aw ah : YGFloat) (pd : RNYGDirection)
    (wm hm : RNYGMeasureMode) (pl : Bool) :
    (RNYGLayoutNodeInternal.miss node c aw ah pd wm hm pl).layout.measuredDimensions =
      node.layout.measuredDimensions := by
  unfold RNYGLayoutNodeInternal.miss RNYGLayoutNodeInternal.store
  simp only []
  split_ifs <;> rfl

theorem RNYGNodelayoutImpl.leaf_exact (node r : RNYGNode PEmpty)
    (aw ah : YGFloat) (pd : RNYGDirection) (wm hm : RNYGMeasureMode) (pw ph : YGFloat)
    (h : RNYGNodelayoutImpl.leaf node aw ah pd wm hm pw ph = some r) :
    (wm = RNYGMeasureMode.Exactly →
      r.layout.measuredDimensions RNYGDimension.Width =
        RNYGNodeBoundAxis node RNYGFlexDirection.Row
          (fsub aw (node.getMarginForAxis RNYGFlexDirection.Row
            (if node.measure.isSome then aw else pw))) pw pw) ∧
    (hm = RNYGMeasureMode.Exactly →
      r.layout.measuredDimensions RNYGDimension.Height =
        RNYGNodeBoundAxis node RNYGFlexDirection.Column
          (fsub ah (node.getMarginForAxis RNYGFlexDirection.Column
            (if node.measure.isSome then aw else pw))) ph pw) := by
  have hstyle := RNYGNodelayoutImpl.setup_frameStyle node pd pw
  unfold RNYGNodelayoutImpl.leaf at h
  simp only at h
  split_ifs at h with hassert hm1
  · rw [RNYGNodelayoutImpl.setup_measure] at hm1
    have := RNYGNodeWithMeasureFuncSetMeasuredDimensions_exact _ _ _ _ _ _ _ _ h
    rw [RNYGNodeBoundAxis_frameStyle _ _ hstyle, RNYGNodeBoundAxis_frameStyle _ node hstyle,
      RNYGNode.getMarginForAxis_frameStyle _ _ hstyle,
      RNYGNode.getMarginForAxis_frameStyle _ node hstyle] at this
    simpa only [hm1, if_true] using this
  · rw [RNYGNodelayoutImpl.setup_measure] at hm1
    simp only [Option.some.injEq] at h
    subst h
    have := RNYGNodeEmptyContainerSetMeasuredDimensions_exact
      (RNYGNodelayoutImpl.setup node pd pw) aw ah wm hm pw ph
    rw [RNYGNodeBoundAxis_frameStyle _ _ hstyle, RNYGNodeBoundAxis_frameStyle _ node hstyle,
      RNYGNode.getMarginForAxis_frameStyle _ _ hstyle,
      RNYGNode.getMarginForAxis_frameStyle _ node hstyle] at this
    simpa only [hm1, if_false] using this

/-- A lay-out request (`performLayout` true) that no cached layout answers gives the node, on
an axis whose measure mode is exactly, the requested size minus the margins of the node,
bounded by `RNYGNodeBoundAxis`. -/
theorem RNYGLayoutNodeInternal_exact (gen n : Nat) (node : RNYGTree n)
    (aw ah : YGFloat) (pd : RNYGDirection) (wm hm : RNYGMeasureMode) (pw ph : YGFloat)
    (config : RNYGConfig) (p : RNYGTree n × Bool)
    (hmiss : RNYGLayoutNodeInternal.needToVisitNode gen node pd = true ∨
      RNYGLayoutNodeInternal.lookup node node.layout aw ah wm hm pw true config = none)
    (h : RNYGLayoutNodeInternal gen n node aw ah pd wm hm pw ph true config = some p) :
    (wm = RNYGMeasureMode.Exactly →
      p.1.layout.dimensions RNYGDimension.Width =
        RNYGNodeBoundAxis node RNYGFlexDirection.Row
          (fsub aw (node.getMarginForAxis RNYGFlexDirection.Row
            (if node.measure.isSome then aw else pw))) pw pw) ∧
    (hm = RNYGMeasureMode.Exactly →
      p.1.layout.dimensions RNYGDimension.Height =
        RNYGNodeBoundAxis node RNYGFlexDirection.Column
          (fsub ah (node.getMarginForAxis RNYGFlexDirection.Column
            (if node.measure.isSome then aw else pw))) ph pw) := by
  have hs : (if RNYGLayoutNodeInternal.needToVisitNode gen node pd = true then
      { node with layout := RNYGLayoutNodeInternal.invalidate node.layout }
      else node).frameStyle = node.frameStyle := by split_ifs <;> rfl
  have hm' : (if RNYGLayoutNodeInternal.needToVisitNode gen node pd = true then
      { node with layout := RNYGLayoutNodeInternal.invalidate node.layout }
      else node).measure = node.measure := by split_ifs <;> rfl
  cases n with
  | zero =>
    unfold RNYGLayoutNodeInternal at h
    rw [RNYGLayoutNodeInternal.core_miss gen _ node aw ah pd wm hm pw ph true config hmiss,
      Option.map_eq_some'] at h
    obtain ⟨b, hb, rfl⟩ := h
    have := RNYGNodelayoutImpl.leaf_exact _ _ _ _ _ _ _ _ _ hb
    simp only [RNYGLayoutNodeInternal.epilogue_dimensions,
      RNYGLayoutNodeInternal.miss_measuredDimensions]
    rw [RNYGNodeBoundAxis_frameStyle _ _ hs, RNYGNodeBoundAxis_frameStyle _ node hs,
      RNYGNode.getMarginForAxis_frameStyle _ _ hs,
      RNYGNode.getMarginForAxis_frameStyle _ node hs, hm'] at this
    exact this
  | succ n =>
    unfold RNYGLayoutNodeInternal at h
    rw [RNYGLayoutNodeInternal.core_miss gen _ node aw ah pd wm hm pw ph true config hmiss,
      Option.map_eq_some'] at h
    obtain ⟨b, hb, rfl⟩ := h
    have := RNYGNodelayoutImpl_exact _ _ _ _ _ _ _ _ _ _ _ _ _ _ hb
    simp only [RNYGLayoutNodeInternal.epilogue_dimensions,
      RNYGLayoutNodeInternal.miss_measuredDimensions]
    rw [RNYGNodeBoundAxis_frameStyle _ _ hs, RNYGNodeBoundAxis_frameStyle _ node hs,
      RNYGNode.getMarginForAxis_frameStyle _ _ hs,
      RNYGNode.getMarginForAxis_frameStyle _ node hs, hm'] at this
    exact this

/-! ### The cross size of a stretched child -/

theorem RNYGConstrainMaxSizeForMode_exactly_defined {C : Type} (node : RNYGNode C)
    (axis : RNYGFlexDirection) (parentAxisSize parentWidth size : YGFloat)
    (h : size ≠ none) :
    (RNYGConstrainMaxSizeForMode node axis parentAxisSize parentWidth RNYGMeasureMode.Exactly
      size).2 ≠ none := by
  unfold RNYGConstrainMaxSizeForMode
  simp only []
  split_ifs with hc
  · exact h
  · simp only [Bool.or_eq_true, not_or, RNYGFloatIsUndefined] at hc
    intro hnone
    rw [hnone] at hc
    simp at hc

/-- C23, counterexample: a child without dimensions whose maximum width is 50, stretched in a
column root of 100 by 100: the claim gives the width `100 - 0 = 100`, the code lays the child
out with the width 50. -/
theorem RNYGNodelayoutImpl_stretch_respects_max :
    childBoxesAfterLayout cappedWidthColumn = some [[some 0, some 0, some 50, some 0]] ∧
    RNYGNodeAlignItem cappedWidthColumn cappedWidthChild = RNYGAlign.Stretch ∧
    RNYGNodeIsStyleDimDefined cappedWidthChild RNYGFlexDirection.Row (some 100) = false ∧
    cappedWidthChild.style.aspectRatio = none ∧
    stretchedCrossSizeAsClaimed (some 100) (some 100) RNYGFlexDirection.Row cappedWidthChild =
      some 100 := by
  refine ⟨by decide!, by decide!, by decide!, by decide!, by decide!⟩

theorem stretchRequestMode_defined (size : YGFloat) (h : size ≠ none) :
    stretchRequestMode size = RNYGMeasureMode.Exactly := by
  cases size with
  | none => exact absurd rfl h
  | some v => rfl

/-- C23, amended: for every in-flow child whose effective alignment is stretch, that has no
definite cross dimension, no aspect ratio and no auto cross margins, on a line with a definite
cross size `crossDim` (for a single-line container with an exact cross size: its inner cross
size), when no cached layout answers the request, the cross-axis alignment lays the child out
exactly when the lay-out of the child returns, and the laid-out cross dimension of the child
is `crossDim`, capped at the maximum cross size of the child plus its cross margins, minus the
cross-axis margins of the child, bounded by the minimum and maximum cross size of the child
and floored at its padding and border. -/
theorem RNYGNodelayoutImpl_crossAlignChild_stretch {C : Type} (gen n : Nat)
    (l : RNYGNodelayoutImpl.Locals) (node : RNYGNode C)
    (availableInnerMainDim crossDim containerCrossAxis totalLineCrossDim : YGFloat)
    (child : RNYGTree n)
    (hdisplay : child.style.display ≠ RNYGDisplay.None)
    (hflow : child.style.positionType ≠ RNYGPositionType.Absolute)
    (hstretch : RNYGNodeAlignItem node child = RNYGAlign.Stretch)
    (hleading : (child.marginLeadingValue l.crossAxis).unit ≠ RNYGUnit.Auto)
    (htrailing : (child.marginTrailingValue l.crossAxis).unit ≠ RNYGUnit.Auto)
    (hdim : RNYGNodeIsStyleDimDefined child l.crossAxis l.availableInnerCrossDim = false)
    (haspect : child.style.aspectRatio = none)
    (hcross : crossDim ≠ none)
    (haxis : dim l.crossAxis =
      if l.isMainAxisRow then RNYGDimension.Height else RNYGDimension.Width)
    (hmiss : RNYGLayoutNodeInternal.needToVisitNode gen child l.direction = true ∨
      RNYGLayoutNodeInternal.lookup child child.layout
        (stretchRequest l availableInnerMainDim crossDim child).1
        (stretchRequest l availableInnerMainDim crossDim child).2
        (stretchRequestMode (stretchRequest l availableInnerMainDim crossDim child).1)
        (stretchRequestMode (stretchRequest l availableInnerMainDim crossDim child).2)
        l.availableInnerWidth true l.config = none) :
    (RNYGNodelayoutImpl.crossAlignChild (RNYGLayoutNodeInternal gen n) l node
      availableInnerMainDim crossDim containerCrossAxis totalLineCrossDim child).map
        (fun r => r.layout.dimensions (dim l.crossAxis)) =
      (RNYGLayoutNodeInternal gen n child
        (stretchRequest l availableInnerMainDim crossDim child).1
        (stretchRequest l availableInnerMainDim crossDim child).2 l.direction
        (stretchRequestMode (stretchRequest l availableInnerMainDim crossDim child).1)
        (stretchRequestMode (stretchRequest l availableInnerMainDim crossDim child).2)
        l.availableInnerWidth l.availableInnerHeight true l.config).map
        (fun _ => stretchedCrossSize l availableInnerMainDim crossDim child) := by
  have hreq := RNYGConstrainMaxSizeForMode_exactly_defined child l.crossAxis
    l.availableInnerCrossDim l.availableInnerWidth crossDim hcross
  have hcall : RNYGNodelayoutImpl.crossAlignChild (RNYGLayoutNodeInternal gen n) l node
      availableInnerMainDim crossDim containerCrossAxis totalLineCrossDim child =
      (RNYGLayoutNodeInternal gen n child
        (stretchRequest l availableInnerMainDim crossDim child).1
        (stretchRequest l availableInnerMainDim crossDim child).2 l.direction
        (stretchRequestMode (stretchRequest l availableInnerMainDim crossDim child).1)
        (stretchRequestMode (stretchRequest l availableInnerMainDim crossDim child).2)
        l.availableInnerWidth l.availableInnerHeight true l.config).map (fun p =>
          p.1.setLayoutPosition
            (fadd (fadd (p.1.layout.position (pos l.crossAxis)) totalLineCrossDim)
              l.leadingPaddingAndBorderCross) (pos l.crossAxis)) := by
    unfold RNYGNodelayoutImpl.crossAlignChild stretchRequest stretchRequestMode
    simp only [hdisplay, hflow, hstretch, hleading, htrailing, hdim, haspect, if_false,
      ne_eq, not_false_eq_true, decide_True, Bool.and_self, if_true, Bool.not_false,
      RNYGFloatIsUndefined, Option.isNone_none, Bool.not_true, Bool.false_eq_true]
    cases hres : RNYGLayoutNodeInternal gen n child _ _ l.direction _ _
      l.availableInnerWidth l.availableInnerHeight true l.config <;> rfl
  rw [hcall, Option.map_map]
  cases hres : RNYGLayoutNodeInternal gen n child
      (stretchRequest l availableInnerMainDim crossDim child).1
      (stretchRequest l availableInnerMainDim crossDim child).2 l.direction
      (stretchRequestMode (stretchRequest l availableInnerMainDim crossDim child).1)
      (stretchRequestMode (stretchRequest l availableInnerMainDim crossDim child).2)
      l.availableInnerWidth l.availableInnerHeight true l.config with
  | none => rfl
  | some p =>
    have hex := RNYGLayoutNodeInternal_exact gen n child _ _ _ _ _ _ _ _ p hmiss hres
    simp only [Option.map_some', Option.some.injEq, Function.comp]
    have hpos : ∀ (v : YGFloat) (e : RNYGEdge) (d : RNYGDimension),
        (p.1.setLayoutPosition v e).layout.dimensions d = p.1.layout.dimensions d :=
      fun _ _ _ => rfl
    rw [hpos, haxis]
    unfold stretchedCrossSize
    cases hrow : l.isMainAxisRow
    · have h1 : (stretchRequest l availableInnerMainDim crossDim child).1 ≠ none := by
        simpa only [stretchRequest, hrow, Bool.false_eq_true, if_false] using hreq
      simp only [Bool.false_eq_true, if_false]
      exact hex.1 (stretchRequestMode_defined _ h1)
    · have h2 : (stretchRequest l availableInnerMainDim crossDim child).2 ≠ none := by
        simpa only [stretchRequest, hrow, Bool.not_true, Bool.false_eq_true, if_false]
          using hreq
      simp only [if_true]
      exact hex.2 (stretchRequestMode_defined _ h2)

theorem RNYGNodelayoutImpl_crossAlignChild_stretch_witness :
    (RNYGNodelayoutImpl.crossAlignChild (RNYGLayoutNodeInternal 1 0) columnLocals
      (sizedRoot 100 100 []) (some 100) (some 100) (some 100) (some 0)
      cappedWidthChild).map (fun r => r.layout.dimensions RNYGDimension.Width) =
        some (some 50) ∧
    stretchedCrossSize columnLocals (some 100) (some 100) (sizedChild none none) = some 100 ∧
    childBoxesAfterLayout plainColumn = some [[some 0, some 0, some 100, some 0]] :=
  ⟨(RNYGNodelayoutImpl_crossAlignChild_stretch 1 0 columnLocals (sizedRoot 100 100 [])
      (some 100) (some 100) (some 100) (some 0) cappedWidthChild (by decide) (by decide)
      (by decide!) (by decide!) (by decide!) (by decide!) (by decide!) (by decide) (by decide)
      (Or.inl (by decide!))).trans (by decide!),
    by decide!, by decide!⟩

/-! ### `RNYGNodelayoutImpl` leaves the position of its node alone -/

theorem RNYGNode.setLayoutDirection_framePosition (node : RNYGNode C) (d : RNYGDirection) :
    (node.setLayoutDirection d).framePosition = node.framePosition := rfl

theorem RNYGNode.setLayoutMargin_framePosition (node : RNYGNode C) (v : YGFloat) (e : RNYGEdge) :
    (node.setLayoutMargin v e).framePosition = node.framePosition := rfl

theorem RNYGNode.setLayoutBorder_framePosition (node : RNYGNode C) (v : YGFloat) (e : RNYGEdge) :
    (node.setLayoutBorder v e).framePosition = node.framePosition := rfl

theorem RNYGNode.setLayoutPadding_framePosition (node : RNYGNode C) (v : YGFloat) (e : RNYGEdge) :
    (node.setLayoutPadding v e).framePosition = node.framePosition := rfl

theorem RNYGNode.setLayoutMeasuredDimension_framePosition (node : RNYGNode C) (v : YGFloat)
    (d : RNYGDimension) : (node.setLayoutMeasuredDimension v d).framePosition = node.framePosition :=
  rfl

theorem RNYGNode.setLayoutHadOverflow_framePosition (node : RNYGNode C) (b : Bool) :
    (node.setLayoutHadOverflow b).framePosition = node.framePosition := rfl

theorem RNYGNode.setLayoutDidUseLegacyFlag_framePosition (node : RNYGNode C) (b : Bool) :
    (node.setLayoutDidUseLegacyFlag b).framePosition = node.framePosition := rfl

theorem RNYGNodelayoutImpl.setup_framePosition (node : RNYGNode C) (pd : RNYGDirection)
    (pw : YGFloat) : (RNYGNodelayoutImpl.setup node pd pw).framePosition = node.framePosition := by
  simp only [RNYGNodelayoutImpl.setup, RNYGNode.setLayoutDirection_framePosition,
    RNYGNode.setLayoutMargin_framePosition, RNYGNode.setLayoutBorder_framePosition,
    RNYGNode.setLayoutPadding_framePosition]

theorem RNYGNodeWithMeasureFuncSetMeasuredDimensions_framePosition (node r : RNYGNode C)
    (aw ah : YGFloat) (wm hm : RNYGMeasureMode) (pw ph : YGFloat)
    (h : RNYGNodeWithMeasureFuncSetMeasuredDimensions node aw ah wm hm pw ph = some r) :
    r.framePosition = node.framePosition := by
  unfold RNYGNodeWithMeasureFuncSetMeasuredDimensions at h
  split at h
  · exact absurd h (by simp)
  · simp only at h
    split_ifs at h <;> simp only [Option.some.injEq] at h <;> rw [← h] <;> rfl

theorem RNYGNodeEmptyContainerSetMeasuredDimensions_framePosition (node : RNYGNode C)
    (aw ah : YGFloat) (wm hm : RNYGMeasureMode) (pw ph : YGFloat) :
    (RNYGNodeEmptyContainerSetMeasuredDimensions node aw ah wm hm pw ph).framePosition =
      node.framePosition := rfl

theorem RNYGNodeFixedSizeSetMeasuredDimensions_framePosition (node : RNYGNode C)
    (aw ah : YGFloat) (wm hm : RNYGMeasureMode) (pw ph : YGFloat) :
    (RNYGNodeFixedSizeSetMeasuredDimensions node aw ah wm hm pw ph).1.framePosition =
      node.framePosition := by
  unfold RNYGNodeFixedSizeSetMeasuredDimensions
  split_ifs <;> rfl

theorem RNYGNode.cloneChildrenIfNeeded_framePosition {D : Type} (node : RNYGNode (RNYGNode D)) :
    node.cloneChildrenIfNeeded.framePosition = node.framePosition := by
  unfold RNYGNode.cloneChildrenIfNeeded
  split
  · rfl
  · split_ifs <;> rfl

theorem RNYGNodelayoutImpl.leaf_framePosition (node r : RNYGNode PEmpty) (aw ah : YGFloat)
    (pd : RNYGDirection) (wm hm : RNYGMeasureMode) (pw ph : YGFloat)
    (h : RNYGNodelayoutImpl.leaf node aw ah pd wm hm pw ph = some r) :
    r.framePosition = node.framePosition := by
  unfold RNYGNodelayoutImpl.leaf at h
  simp only at h
  split_ifs at h
  · rw [RNYGNodeWithMeasureFuncSetMeasuredDimensions_framePosition _ _ _ _ _ _ _ _ h]
    exact RNYGNodelayoutImpl.setup_framePosition _ _ _
  · simp only [Option.some.injEq] at h
    rw [← h]
    exact (RNYGNodeEmptyContainerSetMeasuredDimensions_framePosition _ _ _ _ _ _ _).trans
      (RNYGNodelayoutImpl.setup_framePosition _ _ _)

theorem RNYGDistributeFreeSpaceSecondPass.body_framePosition {D : Type}
    (layoutChild : RNYGLayoutFn D) (values : RNYGCollectFlexItemsRowValues)
    (mainAxis crossAxis : RNYGFlexDirection) (a1 a2 a3 a4 a5 : YGFloat) (fbo : Bool)
    (mm : RNYGMeasureMode) (pl : Bool) (config : RNYGConfig)
    (state state' : RNYGNode C × List (RNYGNode D) × YGFloat) (i : Nat)
    (h : RNYGDistributeFreeSpaceSecondPass.body layoutChild values mainAxis crossAxis a1 a2 a3
      a4 a5 fbo mm pl config state i = some state') :
    state'.1.framePosition = state.1.framePosition := by
  obtain ⟨node, children, d⟩ := state
  unfold RNYGDistributeFreeSpaceSecondPass.body at h
  simp only at h
  split at h
  · simp only [Option.some.injEq] at h
    rw [← h]
  · simp only [bind, Option.bind_eq_some, pure] at h
    obtain ⟨a, -, h2⟩ := h
    simp only [Option.some.injEq] at h2
    rw [← h2]
    rfl

theorem RNYGDistributeFreeSpaceSecondPass.foldlM_framePosition {D : Type}
    (f : RNYGNode C × List (RNYGNode D) × YGFloat → Nat →
      Option (RNYGNode C × List (RNYGNode D) × YGFloat))
    (hf : ∀ s i s', f s i = some s' → s'.1.framePosition = s.1.framePosition) :
    ∀ (l : List Nat) (s s' : RNYGNode C × List (RNYGNode D) × YGFloat),
      l.foldlM f s = some s' → s'.1.framePosition = s.1.framePosition
  | [], s, s', h => by
    simp only [List.foldlM, pure, Option.some.injEq] at h
    rw [← h]
  | i :: l, s, s', h => by
    simp only [List.foldlM, bind, Option.bind_eq_some] at h
    obtain ⟨s1, h1, h2⟩ := h
    rw [RNYGDistributeFreeSpaceSecondPass.foldlM_framePosition f hf l s1 s' h2, hf s i s1 h1]

theorem RNYGDistributeFreeSpaceSecondPass_framePosition {D : Type}
    (layoutChild : RNYGLayoutFn D) (values : RNYGCollectFlexItemsRowValues)
    (node : RNYGNode C) (children : List (RNYGNode D))
    (mainAxis crossAxis : RNYGFlexDirection) (a1 a2 a3 a4 a5 : YGFloat) (fbo : Bool)
    (mm : RNYGMeasureMode) (pl : Bool) (config : RNYGConfig)
    (r : RNYGNode C × List (RNYGNode D) × YGFloat)
    (h : RNYGDistributeFreeSpaceSecondPass layoutChild values node children mainAxis crossAxis
      a1 a2 a3 a4 a5 fbo mm pl config = some r) :
    r.1.framePosition = node.framePosition :=
  RNYGDistributeFreeSpaceSecondPass.foldlM_framePosition _
    (fun s i s' hs => RNYGDistributeFreeSpaceSecondPass.body_framePosition layoutChild values
      mainAxis crossAxis a1 a2 a3 a4 a5 fbo mm pl config s s' i hs)
    values.relativeChildren (node, children, some 0) r h

theorem RNYGResolveFlexibleLength_framePosition {D : Type}
    (layoutChild : RNYGLayoutFn D) (node : RNYGNode C) (children : List (RNYGNode D))
    (values : RNYGCollectFlexItemsRowValues)
    (mainAxis crossAxis : RNYGFlexDirection) (a1 a2 a3 a4 a5 : YGFloat) (fbo : Bool)
    (mm : RNYGMeasureMode) (pl : Bool) (config : RNYGConfig)
    (r : RNYGNode C × List (RNYGNode D) × RNYGCollectFlexItemsRowValues)
    (h : RNYGResolveFlexibleLength layoutChild node children values mainAxis crossAxis
      a1 a2 a3 a4 a5 fbo mm pl config = some r) :
    r.1.framePosition = node.framePosition := by
  unfold RNYGResolveFlexibleLength at h
  simp only [bind, Option.bind_eq_some, pure] at h
  obtain ⟨x, hx, h2⟩ := h
  simp only [Option.some.injEq] at h2
  rw [← h2]
  exact RNYGDistributeFreeSpaceSecondPass_framePosition _ _ _ _ _ _ _ _ _ _ _ _ _ _ _ _ hx

theorem RNYGNodelayoutImpl.lineBody_framePosition {D : Type} (layoutChild : RNYGLayoutFn D)
    (l : RNYGNodelayoutImpl.Locals) (s s' : RNYGNodelayoutImpl.LineState C D)
    (h : RNYGNodelayoutImpl.lineBody layoutChild l s = some s') :
    s'.node.framePosition = s.node.framePosition := by
  unfold RNYGNodelayoutImpl.lineBody at h
  simp only [bind, pure] at h
  by_cases hc : (!(!l.performLayout && decide (l.measureModeCrossDim = RNYGMeasureMode.Exactly)))
      = true
  · rw [if_pos hc] at h
    simp only [Option.bind_eq_some] at h
    obtain ⟨a, ha, h2⟩ := h
    have h3 := RNYGResolveFlexibleLength_framePosition _ _ _ _ _ _ _ _ _ _ _ _ _ _ _ _ ha
    have h4 : s'.node.framePosition = a.1.framePosition := by
      by_cases hp : l.performLayout = true
      · rw [if_pos hp] at h2
        simp only [Option.bind_eq_some, Option.some.injEq] at h2
        obtain ⟨_, -, _, -, rfl⟩ := h2
        rfl
      · rw [if_neg hp] at h2
        simp only [Option.bind_eq_some, Option.some.injEq] at h2
        obtain ⟨_, -, rfl⟩ := h2
        rfl
    refine h4.trans (h3.trans ?_)
    split_ifs <;> rfl
  · rw [if_neg hc] at h
    simp only [Option.bind_eq_some] at h
    obtain ⟨a, ha, h2⟩ := h
    simp only [Option.some.injEq] at ha
    have h4 : s'.node.framePosition = a.1.framePosition := by
      by_cases hp : l.performLayout = true
      · rw [if_pos hp] at h2
        simp only [Option.bind_eq_some, Option.some.injEq] at h2
        obtain ⟨_, -, _, -, rfl⟩ := h2
        rfl
      · rw [if_neg hp] at h2
        simp only [Option.bind_eq_some, Option.some.injEq] at h2
        obtain ⟨_, -, rfl⟩ := h2
        rfl
    refine h4.trans ?_
    rw [← ha]
    simp only
    split_ifs <;> rfl

theorem RNYGNodelayoutImpl.lineLoop_framePosition {D : Type} (layoutChild : RNYGLayoutFn D)
    (l : RNYGNodelayoutImpl.Locals) (childCount : Nat) :
    ∀ (fuel : Nat) (s s' : RNYGNodelayoutImpl.LineState C D),
      RNYGNodelayoutImpl.lineLoop layoutChild l childCount fuel s = some s' →
      s'.node.framePosition = s.node.framePosition
  | 0, s, s', h => by
    simp only [RNYGNodelayoutImpl.lineLoop, Option.some.injEq] at h
    rw [← h]
  | fuel + 1, s, s', h => by
    unfold RNYGNodelayoutImpl.lineLoop at h
    by_cases hlt : s.endOfLineIndex < childCount
    · rw [if_pos hlt] at h
      simp only [bind, Option.bind_eq_some] at h
      obtain ⟨s1, h1, h2⟩ := h
      rw [RNYGNodelayoutImpl.lineLoop_framePosition layoutChild l childCount fuel _ s' h2]
      exact RNYGNodelayoutImpl.lineBody_framePosition layoutChild l s s1 h1
    · rw [if_neg hlt] at h
      simp only [Option.some.injEq] at h
      rw [← h]

theorem RNYGNode.ite_framePosition (c : Prop) [Decidable c] (a b n : RNYGNode C)
    (ha : a.framePosition = n.framePosition) (hb : b.framePosition = n.framePosition) :
    (if c then a else b).framePosition = n.framePosition := by
  split_ifs
  · exact ha
  · exact hb

theorem RNYGNodelayoutImpl.finalDimensions_framePosition (l : RNYGNodelayoutImpl.Locals)
    (node : RNYGNode C) (a1 a2 a3 a4 a5 a6 a7 a8 a9 : YGFloat) :
    (RNYGNodelayoutImpl.finalDimensions l node a1 a2 a3 a4 a5 a6 a7 a8 a9).framePosition =
      node.framePosition := by
  unfold RNYGNodelayoutImpl.finalDimensions
  simp only
  repeat' first
    | apply RNYGNode.ite_framePosition
    | rw [RNYGNode.setLayoutMeasuredDimension_framePosition]

theorem RNYGNodelayoutImpl.container_framePosition {D : Type} (gen : Nat)
    (layoutChild : RNYGLayoutFn D) (zeroOutChild : RNYGNode D → RNYGNode D)
    (baselineOfChild : RNYGNode D → Option YGFloat) (node r : RNYGNode (RNYGNode D))
    (aw ah : YGFloat) (pd : RNYGDirection) (wm hm : RNYGMeasureMode) (pw ph : YGFloat)
    (pl : Bool) (config : RNYGConfig)
    (h : RNYGNodelayoutImpl.container gen layoutChild zeroOutChild baselineOfChild node aw ah pd
      wm hm pw ph pl config = some r) :
    r.framePosition = node.framePosition := by
  unfold RNYGNodelayoutImpl.container at h
  simp only [bind, Option.bind_eq_some, pure, Option.map_eq_some'] at h
  obtain ⟨x, hx, s1, hs1, c, hc, c2, -, rfl⟩ := h
  have hloop := RNYGNodelayoutImpl.lineLoop_framePosition _ _ _ _ _ _ hs1
  exact (RNYGNodelayoutImpl.finalDimensions_framePosition _ _ _ _ _ _ _ _ _ _ _).trans
    (hloop.trans ((RNYGNode.setLayoutHadOverflow_framePosition _ _).trans
      (RNYGNode.cloneChildrenIfNeeded_framePosition _)))

theorem RNYGNodelayoutImpl_framePosition {D : Type} (gen : Nat)
    (layoutChild : RNYGLayoutFn D) (zeroOutChild : RNYGNode D → RNYGNode D)
    (baselineOfChild : RNYGNode D → Option YGFloat) (node r : RNYGNode (RNYGNode D))
    (aw ah : YGFloat) (pd : RNYGDirection) (wm hm : RNYGMeasureMode) (pw ph : YGFloat)
    (pl : Bool) (config : RNYGConfig)
    (h : RNYGNodelayoutImpl gen layoutChild zeroOutChild baselineOfChild node aw ah pd
      wm hm pw ph pl config = some r) :
    r.framePosition = node.framePosition := by
  unfold RNYGNodelayoutImpl at h
  simp only at h
  split_ifs at h
  · rw [RNYGNodeWithMeasureFuncSetMeasuredDimensions_framePosition _ _ _ _ _ _ _ _ h]
    exact RNYGNodelayoutImpl.setup_framePosition _ _ _
  · simp only [Option.some.injEq] at h
    rw [← h]
    exact (RNYGNodeEmptyContainerSetMeasuredDimensions_framePosition _ _ _ _ _ _ _).trans
      (RNYGNodelayoutImpl.setup_framePosition _ _ _)
  · simp only [Option.some.injEq] at h
    rw [← h]
    exact (RNYGNodeFixedSizeSetMeasuredDimensions_framePosition _ _ _ _ _ _ _).trans
      (RNYGNodelayoutImpl.setup_framePosition _ _ _)
  · rw [RNYGNodelayoutImpl.container_framePosition _ _ _ _ _ _ _ _ _ _ _ _ _ _ _ h]
    exact RNYGNodelayoutImpl.setup_framePosition _ _ _

theorem RNYGLayoutNodeInternal.core_framePosition (gen : Nat)
    (impl : RNYGNode C → YGFloat → YGFloat → RNYGDirection → RNYGMeasureMode →
      RNYGMeasureMode → YGFloat → YGFloat → Bool → RNYGConfig → Option (RNYGNode C))
    (himpl : ∀ n aw ah pd wm hm pw ph pl config b,
      impl n aw ah pd wm hm pw ph pl config = some b → b.framePosition = n.framePosition)
    (node : RNYGNode C) (aw ah : YGFloat) (pd : RNYGDirection) (wm hm : RNYGMeasureMode)
    (pw ph : YGFloat) (pl : Bool) (config : RNYGConfig) (p : RNYGNode C × Bool)
    (h : RNYGLayoutNodeInternal.core gen impl node aw ah pd wm hm pw ph pl config = some p) :
    p.1.framePosition = node.framePosition := by
  have hepi : ∀ x : RNYGNode C,
      (RNYGLayoutNodeInternal.epilogue gen x pl).framePosition = x.framePosition := by
    intro x
    unfold RNYGLayoutNodeInternal.epilogue RNYGNode.setDirty
    cases pl
    · rfl
    · simp only [if_true]
      split_ifs <;> rfl
  have hmiss : ∀ (x : RNYGNode C) (c : Option RNYGCachedMeasurement),
      (RNYGLayoutNodeInternal.miss x c aw ah pd wm hm pl).framePosition = x.framePosition := by
    intro x c
    unfold RNYGLayoutNodeInternal.miss RNYGLayoutNodeInternal.store
    simp only []
    split_ifs <;> rfl
  have hinv : (if ((node.isDirty && decide (node.layout.generationCount ≠ gen)) ||
        decide (node.layout.lastParentDirection ≠ some pd)) = true then
      { node with layout := RNYGLayoutNodeInternal.invalidate node.layout }
      else node).framePosition = node.framePosition := by split_ifs <;> rfl
  unfold RNYGLayoutNodeInternal.core at h
  simp only [Option.map_eq_some'] at h
  obtain ⟨a, ha, rfl⟩ := h
  simp only [hepi]
  split at ha
  · simp only [Option.some.injEq] at ha
    subst ha
    exact Eq.trans rfl hinv
  · simp only [Option.map_eq_some'] at ha
    obtain ⟨b, hb, rfl⟩ := ha
    rw [hmiss, himpl _ _ _ _ _ _ _ _ _ _ _ hb]
    exact hinv

theorem RNYGLayoutNodeInternal_framePosition (gen n : Nat) (node : RNYGTree n)
    (aw ah : YGFloat) (pd : RNYGDirection) (wm hm : RNYGMeasureMode) (pw ph : YGFloat)
    (pl : Bool) (config : RNYGConfig) (p : RNYGTree n × Bool)
    (h : RNYGLayoutNodeInternal gen n node aw ah pd wm hm pw ph pl config = some p) :
    p.1.framePosition = node.framePosition := by
  cases n with
  | zero =>
    unfold RNYGLayoutNodeInternal at h
    exact RNYGLayoutNodeInternal.core_framePosition gen _
      (fun n aw ah pd wm hm pw ph _ _ b hb =>
        RNYGNodelayoutImpl.leaf_framePosition n b aw ah pd wm hm pw ph hb)
      node aw ah pd wm hm pw ph pl config p h
  | succ n =>
    unfold RNYGLayoutNodeInternal at h
    exact RNYGLayoutNodeInternal.core_framePosition gen _
      (fun x aw ah pd wm hm pw ph pl config b hb =>
        RNYGNodelayoutImpl_framePosition gen _ _ _ x b aw ah pd wm hm pw ph pl config hb)
      node aw ah pd wm hm pw ph pl config p h

/-! ### `RNYGLayoutNodeInternal` leaves the style of its node alone -/

theorem RNYGLayoutNodeInternal.core_frameStyle (gen : Nat)
    (impl : RNYGNode C → YGFloat → YGFloat → RNYGDirection → RNYGMeasureMode →
      RNYGMeasureMode → YGFloat → YGFloat → Bool → RNYGConfig → Option (RNYGNode C))
    (himpl : ∀ n aw ah pd wm hm pw ph pl config b,
      impl n aw ah pd wm hm pw ph pl config = some b → b.frameStyle = n.frameStyle)
    (node : RNYGNode C) (aw ah : YGFloat) (pd : RNYGDirection) (wm hm : RNYGMeasureMode)
    (pw ph : YGFloat) (pl : Bool) (config : RNYGConfig) (p : RNYGNode C × Bool)
    (h : RNYGLayoutNodeInternal.core gen impl node aw ah pd wm hm pw ph pl config = some p) :
    p.1.frameStyle = node.frameStyle := by
  have hepi : ∀ x : RNYGNode C,
      (RNYGLayoutNodeInternal.epilogue gen x pl).frameStyle = x.frameStyle := by
    intro x
    unfold RNYGLayoutNodeInternal.epilogue RNYGNode.setDirty
    cases pl
    · rfl
    · simp only [if_true]
      split_ifs <;> rfl
  have hmiss : ∀ (x : RNYGNode C) (c : Option RNYGCachedMeasurement),
      (RNYGLayoutNodeInternal.miss x c aw ah pd wm hm pl).frameStyle = x.frameStyle := by
    intro x c
    unfold RNYGLayoutNodeInternal.miss RNYGLayoutNodeInternal.store
    simp only []
    split_ifs <;> rfl
  have hinv : (if ((node.isDirty && decide (node.layout.generationCount ≠ gen)) ||
        decide (node.layout.lastParentDirection ≠ some pd)) = true then
      { node with layout := RNYGLayoutNodeInternal.invalidate node.layout }
      else node).frameStyle = node.frameStyle := by split_ifs <;> rfl
  unfold RNYGLayoutNodeInternal.core at h
  simp only [Option.map_eq_some'] at h
  obtain ⟨a, ha, rfl⟩ := h
  simp only [hepi]
  split at ha
  · simp only [Option.some.injEq] at ha
    subst ha
    exact Eq.trans rfl hinv
  · simp only [Option.map_eq_some'] at ha
    obtain ⟨b, hb, rfl⟩ := ha
    rw [hmiss, himpl _ _ _ _ _ _ _ _ _ _ _ hb]
    exact hinv

theorem RNYGLayoutNodeInternal_frameStyle (gen n : Nat) (node : RNYGTree n)
    (aw ah : YGFloat) (pd : RNYGDirection) (wm hm : RNYGMeasureMode) (pw ph : YGFloat)
    (pl : Bool) (config : RNYGConfig) (p : RNYGTree n × Bool)
    (h : RNYGLayoutNodeInternal gen n node aw ah pd wm hm pw ph pl config = some p) :
    p.1.frameStyle = node.frameStyle := by
  cases n with
  | zero =>
    unfold RNYGLayoutNodeInternal at h
    exact RNYGLayoutNodeInternal.core_frameStyle gen _
      (fun n aw ah pd wm hm pw ph _ _ b hb =>
        RNYGNodelayoutImpl.leaf_frameStyle n b aw ah pd wm hm pw ph hb)
      node aw ah pd wm hm pw ph pl config p h
  | succ n =>
    unfold RNYGLayoutNodeInternal at h
    exact RNYGLayoutNodeInternal.core_frameStyle gen _
      (fun x aw ah pd wm hm pw ph pl config b hb =>
        RNYGNodelayoutImpl_frameStyle gen _ _ _ x b aw ah pd wm hm pw ph pl config hb)
      node aw ah pd wm hm pw ph pl config p h

/-! ### The size and the position of an absolute child -/

theorem RNYGNode.setLayoutPosition_dimensions {C : Type} (node : RNYGNode C) (v : YGFloat)
    (e : RNYGEdge) : (node.setLayoutPosition v e).layout.dimensions = node.layout.dimensions :=
  rfl

/-- The three-way position fix-up of `RNYGNodeAbsoluteLayoutChild` leaves the dimensions of
the layout alone. -/
theorem RNYGNodeAbsoluteLayoutChild.fixup_dimensions {C : Type} (x : RNYGNode C)
    (c1 c2 c3 : Prop) [Decidable c1] [Decidable c2] [Decidable c3] (v1 v2 v3 : YGFloat)
    (e : RNYGEdge) :
    (if c1 then x.setLayoutPosition v1 e else if c2 then x.setLayoutPosition v2 e
      else if c3 then x.setLayoutPosition v3 e else x).layout.dimensions =
      x.layout.dimensions := by
  split_ifs <;> rfl

theorem dim_row : dim RNYGFlexDirection.Row = RNYGDimension.Width := rfl

theorem dim_column : dim RNYGFlexDirection.Column = RNYGDimension.Height := rfl

theorem Option.map_bind_some {α β γ : Type} (o : Option α) (k : α → β) (g1 : β → γ)
    (g2 : α → γ) (h : ∀ a, o = some a → g1 (k a) = g2 a) :
    Option.map g1 (o.bind fun a => some (k a)) = Option.map g2 o := by
  cases o with
  | none => rfl
  | some a => simp [h a rfl]

/-- With both outer sizes known, `RNYGNodeAbsoluteLayoutChild` lays the child out once, with
both measure modes exactly, and the dimensions are those of that lay-out. -/
theorem RNYGNodeAbsoluteLayoutChild.dimensions_of_known {C D : Type} (f : RNYGLayoutFn D)
    (node : RNYGNode C) (child : RNYGNode D) (width height : YGFloat)
    (widthMode : RNYGMeasureMode) (direction : RNYGDirection) (config : RNYGConfig)
    (hwidth : absoluteOuterSize node child RNYGFlexDirection.Row width width ≠ none)
    (hheight : absoluteOuterSize node child RNYGFlexDirection.Column height width ≠ none) :
    (RNYGNodeAbsoluteLayoutChild f node child width widthMode height direction config).map
        (fun r => r.layout.dimensions) =
      (f child (absoluteOuterSize node child RNYGFlexDirection.Row width width)
        (absoluteOuterSize node child RNYGFlexDirection.Column height width) direction
        RNYGMeasureMode.Exactly RNYGMeasureMode.Exactly
        (absoluteOuterSize node child RNYGFlexDirection.Row width width)
        (absoluteOuterSize node child RNYGFlexDirection.Column height width) true config).map
        (fun p => p.1.layout.dimensions) := by
  have hw : RNYGFloatIsUndefined
      (absoluteOuterSize node child RNYGFlexDirection.Row width width) = false := by
    cases h : absoluteOuterSize node child RNYGFlexDirection.Row width width with
    | none => exact absurd h hwidth
    | some v => rfl
  have hh : RNYGFloatIsUndefined
      (absoluteOuterSize node child RNYGFlexDirection.Column height width) = false := by
    cases h : absoluteOuterSize node child RNYGFlexDirection.Column height width with
    | none => exact absurd h hheight
    | some v => rfl
  unfold absoluteOuterSize absoluteSpan at hw hh ⊢
  unfold RNYGNodeAbsoluteLayoutChild
  simp only [dim_row, dim_column] at hw hh ⊢
  simp only [hw, hh, Bool.xor_false, Bool.false_and, Bool.false_eq_true, if_false,
    Bool.or_self, bind, pure, Option.some_bind]
  refine Option.map_bind_some _ _ _ _ ?_
  intro a _
  rw [RNYGNodeAbsoluteLayoutChild.fixup_dimensions,
    RNYGNodeAbsoluteLayoutChild.fixup_dimensions]

theorem RNYGNode.isLeadingPositionDefined_frameStyle {C D : Type} (a : RNYGNode C)
    (b : RNYGNode D) (h : a.frameStyle = b.frameStyle) (axis : RNYGFlexDirection) :
    a.isLeadingPositionDefined axis = b.isLeadingPositionDefined axis := by
  have h' : a.style = b.style := h
  simp only [RNYGNode.isLeadingPositionDefined, h']

theorem RNYGNodeAbsoluteLayoutChild.fixup_frameStyle {C : Type} (x : RNYGNode C)
    (c1 c2 c3 : Prop) [Decidable c1] [Decidable c2] [Decidable c3] (v1 v2 v3 : YGFloat)
    (e : RNYGEdge) :
    (if c1 then x.setLayoutPosition v1 e else if c2 then x.setLayoutPosition v2 e
      else if c3 then x.setLayoutPosition v3 e else x).frameStyle = x.frameStyle := by
  split_ifs <;> rfl

theorem RNYGNodeAbsoluteLayoutChild.fixup_position {C : Type} (x : RNYGNode C)
    (c1 c2 c3 : Prop) [Decidable c1] [Decidable c2] [Decidable c3] (v1 v2 v3 : YGFloat)
    (e e' : RNYGEdge) (h : e ≠ e') :
    (if c1 then x.setLayoutPosition v1 e' else if c2 then x.setLayoutPosition v2 e'
      else if c3 then x.setLayoutPosition v3 e' else x).layout.position e =
      x.layout.position e := by
  split_ifs <;> simp [RNYGNode.setLayoutPosition, Function.update, h]

/-- When the leading position is defined on the axis, none of the three conditions of the
position fix-up holds. -/
theorem RNYGNodeAbsoluteLayoutChild.fixup_of_leading {C : Type} (x : RNYGNode C)
    (t c2 c3 : Bool) (v1 v2 v3 : YGFloat) (e : RNYGEdge) (axis : RNYGFlexDirection)
    (h : x.isLeadingPositionDefined axis = true) :
    (if (t && !x.isLeadingPositionDefined axis) = true then x.setLayoutPosition v1 e
      else if (!x.isLeadingPositionDefined axis && c2) = true then x.setLayoutPosition v2 e
      else if (!x.isLeadingPositionDefined axis && c3) = true then x.setLayoutPosition v3 e
      else x) = x := by
  simp [h]

theorem pos_ne_leading_cross (axis : RNYGFlexDirection) (d : RNYGDirection) :
    pos axis ≠ leading (RNYGFlexDirectionCross axis d) := by
  cases axis <;> cases d <;> decide

theorem pos_cross_ne_leading (axis : RNYGFlexDirection) (d : RNYGDirection) :
    pos (RNYGFlexDirectionCross axis d) ≠ leading axis := by
  cases axis <;> cases d <;> decide

theorem Option.ite_some_elim {β : Type} (c : Prop) [Decidable c] (x y : Option β) (r : β)
    (P : Prop) (hx : x = some r → P) (hy : y = some r → P)
    (h : (if c then x else y) = some r) : P := by
  by_cases hc : c
  · rw [if_pos hc] at h
    exact hx h
  · rw [if_neg hc] at h
    exact hy h

/-- `RNYGNodeAbsoluteLayoutChild` keeps the position of the child on an axis on which its
leading position is defined. -/
theorem RNYGNodeAbsoluteLayoutChild.position_kept {C D : Type} (f : RNYGLayoutFn D)
    (hf : ∀ x aw ah pd wm hm pw ph pl config p, f x aw ah pd wm hm pw ph pl config = some p →
      p.1.framePosition = x.framePosition ∧ p.1.frameStyle = x.frameStyle)
    (node : RNYGNode C) (child r : RNYGNode D) (width height : YGFloat)
    (widthMode : RNYGMeasureMode) (direction : RNYGDirection) (config : RNYGConfig)
    (h : RNYGNodeAbsoluteLayoutChild f node child width widthMode height direction config =
      some r) :
    (child.isLeadingPositionDefined
        (RNYGResolveFlexDirection node.style.flexDirection direction) = true →
      r.layout.position (pos (RNYGResolveFlexDirection node.style.flexDirection direction)) =
        child.layout.position
          (pos (RNYGResolveFlexDirection node.style.flexDirection direction))) ∧
    (child.isLeadingPositionDefined
        (RNYGFlexDirectionCross (RNYGResolveFlexDirection node.style.flexDirection direction)
          direction) = true →
      r.layout.position
          (pos (RNYGFlexDirectionCross
            (RNYGResolveFlexDirection node.style.flexDirection direction) direction)) =
        child.layout.position
          (pos (RNYGFlexDirectionCross
            (RNYGResolveFlexDirection node.style.flexDirection direction) direction))) := by
  unfold RNYGNodeAbsoluteLayoutChild at h
  simp only [bind, pure] at h
  refine Option.ite_some_elim _ _ _ _ _ ?_ ?_ h
  · intro hx
    obtain ⟨q, hq, h2⟩ := Option.bind_eq_some.mp hx
    obtain ⟨a, ha, h3⟩ := Option.bind_eq_some.mp h2
    obtain ⟨p, hp, h4⟩ := Option.bind_eq_some.mp h3
    clear hx h2 h3 h
    have hq' := hf _ _ _ _ _ _ _ _ _ _ _ hq
    have ha' : a.1.framePosition = child.framePosition ∧ a.1.frameStyle = child.frameStyle := by
      rw [← Option.some.inj ha]
      exact hq'
    have hp' := hf _ _ _ _ _ _ _ _ _ _ _ hp
    have hpos : p.1.layout.position = child.layout.position := hp'.1.trans ha'.1
    have hstyle : p.1.frameStyle = child.frameStyle := hp'.2.trans ha'.2
    have hr := Option.some.inj h4
    clear h4 hp
    rw [← hr]
    constructor
    · intro hlead
      rw [← RNYGNode.isLeadingPositionDefined_frameStyle _ _ hstyle] at hlead
      rw [RNYGNodeAbsoluteLayoutChild.fixup_position _ _ _ _ _ _ _ _ _
        (pos_ne_leading_cross _ _),
        RNYGNodeAbsoluteLayoutChild.fixup_of_leading _ _ _ _ _ _ _ _ _ hlead, hpos]
    · intro hlead
      rw [← RNYGNode.isLeadingPositionDefined_frameStyle _ _ hstyle] at hlead
      rw [RNYGNodeAbsoluteLayoutChild.fixup_of_leading,
        RNYGNodeAbsoluteLayoutChild.fixup_position _ _ _ _ _ _ _ _ _
          (pos_cross_ne_leading _ _), hpos]
      refine (RNYGNode.isLeadingPositionDefined_frameStyle _ p.1 ?_ _).trans hlead
      exact RNYGNodeAbsoluteLayoutChild.fixup_frameStyle _ _ _ _ _ _ _ _
  · intro hy
    obtain ⟨a, ha, h3⟩ := Option.bind_eq_some.mp hy
    obtain ⟨p, hp, h4⟩ := Option.bind_eq_some.mp h3
    clear hy h3 h
    have ha' : a.1.framePosition = child.framePosition ∧ a.1.frameStyle = child.frameStyle := by
      rw [← Option.some.inj ha]
      exact ⟨rfl, rfl⟩
    have hp' := hf _ _ _ _ _ _ _ _ _ _ _ hp
    have hpos : p.1.layout.position = child.layout.position := hp'.1.trans ha'.1
    have hstyle : p.1.frameStyle = child.frameStyle := hp'.2.trans ha'.2
    have hr := Option.some.inj h4
    clear h4 hp
    rw [← hr]
    constructor
    · intro hlead
      rw [← RNYGNode.isLeadingPositionDefined_frameStyle _ _ hstyle] at hlead
      rw [RNYGNodeAbsoluteLayoutChild.fixup_position _ _ _ _ _ _ _ _ _
        (pos_ne_leading_cross _ _),
        RNYGNodeAbsoluteLayoutChild.fixup_of_leading _ _ _ _ _ _ _ _ _ hlead, hpos]
    · intro hlead
      rw [← RNYGNode.isLeadingPositionDefined_frameStyle _ _ hstyle] at hlead
      rw [RNYGNodeAbsoluteLayoutChild.fixup_of_leading,
        RNYGNodeAbsoluteLayoutChild.fixup_position _ _ _ _ _ _ _ _ _
          (pos_cross_ne_leading _ _), hpos]
      refine (RNYGNode.isLeadingPositionDefined_frameStyle _ p.1 ?_ _).trans hlead
      exact RNYGNodeAbsoluteLayoutChild.fixup_frameStyle _ _ _ _ _ _ _ _

/-- C21, counterexample: an absolute child with left 10, right 20, top 5, bottom 15 and a left
margin of 5 in a root of 100 by 100: the claim gives the width `100 - 10 - 20 = 70`, the code
lays the child out with the width 65 (at left `10 + 0 + 5 = 15`, as claimed). -/
theorem RNYGNodeAbsoluteLayoutChild_size_excludes_margin :
    childBoxesAfterLayout (absoluteRoot (some 5)) =
      some [[some 15, some 5, some 65, some 80]] ∧
    absoluteSizeAsClaimed (withMeasuredDimensions (absoluteRoot (some 5)) (some 100) (some 100))
      (absoluteChild (some 5)) RNYGFlexDirection.Row (some 100) (some 100) = some 70 ∧
    RNYGNodeIsStyleDimDefined (absoluteChild (some 5)) RNYGFlexDirection.Row (some 100) =
      false ∧
    (absoluteChild (some 5)).isLeadingPositionDefined RNYGFlexDirection.Row = true ∧
    (absoluteChild (some 5)).isTrailingPosDefined RNYGFlexDirection.Row = true ∧
    (absoluteChild (some 5)).style.aspectRatio = none := by
  refine ⟨by decide!, by decide!, by decide!, by decide!, by decide!, by decide!⟩

/-- C21, amended: for an absolutely positioned child whose outer width and height
`RNYGNodeAbsoluteLayoutChild` knows from the style (a definite dimension, or both the leading
and the trailing position defined on the axis), when no cached layout answers the request:
the child is laid out exactly when its lay-out returns, and its size on each axis is the outer
size minus the margins of the child on that axis, clamped by the min/max of the child and its
padding and border; on an axis without definite dimension and with both positions defined the
outer size is (parent measured size - parent leading and trailing border - leading position -
trailing position), clamped by the min/max of the child and its padding and border.  On an
axis on which the leading position is defined, the child is placed at leading position +
parent leading border + child leading margin (by the main-axis justification and the
cross-axis alignment), and `RNYGNodeAbsoluteLayoutChild` keeps that position. -/
theorem RNYGNodeAbsoluteLayoutChild_size_and_position {C : Type} (gen n : Nat)
    (node : RNYGNode C) (child : RNYGTree n) (width height : YGFloat)
    (widthMode : RNYGMeasureMode) (direction : RNYGDirection) (config : RNYGConfig)
    (hwidth : absoluteOuterSize node child RNYGFlexDirection.Row width width ≠ none)
    (hheight : absoluteOuterSize node child RNYGFlexDirection.Column height width ≠ none)
    (hmiss : RNYGLayoutNodeInternal.needToVisitNode gen child direction = true ∨
      RNYGLayoutNodeInternal.lookup child child.layout
        (absoluteOuterSize node child RNYGFlexDirection.Row width width)
        (absoluteOuterSize node child RNYGFlexDirection.Column height width)
        RNYGMeasureMode.Exactly RNYGMeasureMode.Exactly
        (absoluteOuterSize node child RNYGFlexDirection.Row width width) true config = none) :
    (RNYGNodeAbsoluteLayoutChild (RNYGLayoutNodeInternal gen n) node child width widthMode
      height direction config).map (fun r =>
        (r.layout.dimensions RNYGDimension.Width, r.layout.dimensions RNYGDimension.Height)) =
      (RNYGLayoutNodeInternal gen n child
        (absoluteOuterSize node child RNYGFlexDirection.Row width width)
        (absoluteOuterSize node child RNYGFlexDirection.Column height width) direction
        RNYGMeasureMode.Exactly RNYGMeasureMode.Exactly
        (absoluteOuterSize node child RNYGFlexDirection.Row width width)
        (absoluteOuterSize node child RNYGFlexDirection.Column height width) true config).map
        (fun _ => absoluteSize node child width height) ∧
    (∀ (axis : RNYGFlexDirection) (axisSize : YGFloat),
      RNYGNodeIsStyleDimDefined child axis axisSize = false →
      child.isLeadingPositionDefined axis = true → child.isTrailingPosDefined axis = true →
      absoluteOuterSize node child axis axisSize width =
        absoluteSizeAsClaimed node child axis axisSize width) ∧
    (∀ r, RNYGNodeAbsoluteLayoutChild (RNYGLayoutNodeInternal gen n) node child width
        widthMode height direction config = some r →
      (child.isLeadingPositionDefined
          (RNYGResolveFlexDirection node.style.flexDirection direction) = true →
        r.layout.position
            (pos (RNYGResolveFlexDirection node.style.flexDirection direction)) =
          child.layout.position
            (pos (RNYGResolveFlexDirection node.style.flexDirection direction))) ∧
      (child.isLeadingPositionDefined
          (RNYGFlexDirectionCross
            (RNYGResolveFlexDirection node.style.flexDirection direction) direction) = true →
        r.layout.position
            (pos (RNYGFlexDirectionCross
              (RNYGResolveFlexDirection node.style.flexDirection direction) direction)) =
          child.layout.position
            (pos (RNYGFlexDirectionCross
              (RNYGResolveFlexDirection node.style.flexDirection direction) direction)))) ∧
    (∀ (mainAxis crossAxis : RNYGFlexDirection) (measureModeCrossDim : RNYGMeasureMode)
        (availableInnerMainDim availableInnerCrossDim availableInnerWidth remainingFreeSpace
          leadingMainDim betweenMainDim mainDim crossDim : YGFloat)
        (numberOfAutoMarginsOnCurrentLine : Nat),
      child.style.display ≠ RNYGDisplay.None →
      child.style.positionType = RNYGPositionType.Absolute →
      child.isLeadingPositionDefined mainAxis = true →
      RNYGJustifyMainAxis.body node mainAxis crossAxis measureModeCrossDim
          availableInnerMainDim availableInnerCrossDim availableInnerWidth true
          remainingFreeSpace numberOfAutoMarginsOnCurrentLine leadingMainDim betweenMainDim
          child mainDim crossDim =
        (child.setLayoutPosition
          (fadd
            (fadd (child.getLeadingPosition mainAxis availableInnerMainDim)
              (node.getLeadingBorder mainAxis))
            (child.getLeadingMargin mainAxis availableInnerWidth))
          (pos mainAxis), mainDim, crossDim)) ∧
    (∀ (f : RNYGLayoutFn (RNYGKids n)) (l : RNYGNodelayoutImpl.Locals)
        (availableInnerMainDim crossDim containerCrossAxis totalLineCrossDim : YGFloat),
      child.style.display ≠ RNYGDisplay.None →
      child.style.positionType = RNYGPositionType.Absolute →
      child.isLeadingPositionDefined l.crossAxis = true →
      fadd
          (fadd (child.getLeadingPosition l.crossAxis l.availableInnerCrossDim)
            (node.getLeadingBorder l.crossAxis))
          (child.getLeadingMargin l.crossAxis l.availableInnerWidth) ≠ none →
      RNYGNodelayoutImpl.crossAlignChild f l node availableInnerMainDim crossDim
          containerCrossAxis totalLineCrossDim child =
        some (child.setLayoutPosition
          (fadd
            (fadd (child.getLeadingPosition l.crossAxis l.availableInnerCrossDim)
              (node.getLeadingBorder l.crossAxis))
            (child.getLeadingMargin l.crossAxis l.availableInnerWidth))
          (pos l.crossAxis))) := by
  refine ⟨?_, ?_, ?_, ?_, ?_⟩
  · have hdims := RNYGNodeAbsoluteLayoutChild.dimensions_of_known (RNYGLayoutNodeInternal gen n)
      node child width height widthMode direction config hwidth hheight
    have hcomp : ∀ o : Option (RNYGTree n),
        o.map (fun r =>
          (r.layout.dimensions RNYGDimension.Width, r.layout.dimensions RNYGDimension.Height)) =
        (o.map (fun r => r.layout.dimensions)).map
          (fun d => (d RNYGDimension.Width, d RNYGDimension.Height)) := by
      intro o
      cases o <;> rfl
    rw [hcomp, hdims]
    cases hres : RNYGLayoutNodeInternal gen n child
        (absoluteOuterSize node child RNYGFlexDirection.Row width width)
        (absoluteOuterSize node child RNYGFlexDirection.Column height width) direction
        RNYGMeasureMode.Exactly RNYGMeasureMode.Exactly
        (absoluteOuterSize node child RNYGFlexDirection.Row width width)
        (absoluteOuterSize node child RNYGFlexDirection.Column height width) true config with
    | none => rfl
    | some p =>
      have hex := RNYGLayoutNodeInternal_exact gen n child _ _ _ _ _ _ _ _ p hmiss hres
      simp only [Option.map_some', Option.some.injEq, absoluteSize, Prod.mk.injEq]
      have h1 := hex.1 rfl
      have h2 := hex.2 rfl
      simp only [ite_self] at h1 h2
      exact ⟨h1, h2⟩
  · intro axis axisSize hdim hlead htrail
    simp [absoluteOuterSize, absoluteSizeAsClaimed, hdim, hlead, htrail]
  · intro r hr
    exact RNYGNodeAbsoluteLayoutChild.position_kept (RNYGLayoutNodeInternal gen n)
      (fun x aw ah pd wm hm pw ph pl config p hp =>
        ⟨RNYGLayoutNodeInternal_framePosition gen n x aw ah pd wm hm pw ph pl config p hp,
          RNYGLayoutNodeInternal_frameStyle gen n x aw ah pd wm hm pw ph pl config p hp⟩)
      node child r width height widthMode direction config hr
  · intro mainAxis crossAxis measureModeCrossDim availableInnerMainDim availableInnerCrossDim
      availableInnerWidth remainingFreeSpace leadingMainDim betweenMainDim mainDim crossDim
      numberOfAutoMarginsOnCurrentLine hdisplay habs hlead
    simp [RNYGJustifyMainAxis.body, hdisplay, habs, hlead]
  · intro f l availableInnerMainDim crossDim containerCrossAxis totalLineCrossDim hdisplay
      habs hlead hdef
    have hundef : RNYGFloatIsUndefined
        (fadd
          (fadd (child.getLeadingPosition l.crossAxis l.availableInnerCrossDim)
            (node.getLeadingBorder l.crossAxis))
          (child.getLeadingMargin l.crossAxis l.availableInnerWidth)) = false := by
      cases h : fadd
          (fadd (child.getLeadingPosition l.crossAxis l.availableInnerCrossDim)
            (node.getLeadingBorder l.crossAxis))
          (child.getLeadingMargin l.crossAxis l.availableInnerWidth) with
      | none => exact absurd h hdef
      | some v => rfl
    have hset : ∀ (x : RNYGNode (RNYGKids n)) (v : YGFloat) (e : RNYGEdge),
        (x.setLayoutPosition v e).layout.position e = v := by
      intro x v e
      simp [RNYGNode.setLayoutPosition]
    unfold RNYGNodelayoutImpl.crossAlignChild
    simp only [hdisplay, habs, hlead, if_false, if_true, pure, hset, hundef, Bool.not_true,
      Bool.false_or, Bool.false_eq_true]

theorem RNYGNodeAbsoluteLayoutChild_size_and_position_witness :
    (RNYGNodeAbsoluteLayoutChild (RNYGLayoutNodeInternal 1 0)
      (withMeasuredDimensions (absoluteRoot (some 5)) (some 100) (some 100))
      (absoluteChild (some 5)) (some 100) RNYGMeasureMode.Exactly (some 100)
      RNYGDirection.LTR gYGConfigDefaults).map (fun r =>
        (r.layout.dimensions RNYGDimension.Width, r.layout.dimensions RNYGDimension.Height)) =
      some (some 65, some 80) ∧
    childBoxesAfterLayout (absoluteRoot none) =
      some [[some 10, some 5, some 70, some 80]] :=
  ⟨(RNYGNodeAbsoluteLayoutChild_size_and_position 1 0
      (withMeasuredDimensions (absoluteRoot (some 5)) (some 100) (some 100))
      (absoluteChild (some 5)) (some 100) (some 100) RNYGMeasureMode.Exactly
      RNYGDirection.LTR gYGConfigDefaults (by decide!) (by decide!)
      (Or.inl (by decide!))).1.trans (by decide!),
    by decide!⟩

/-! ### The lefts of the children of an RTL row -/

theorem RNYGJustifyMainAxis.body_fixedBox {C D : Type} (node : RNYGNode C)
    (mainAxis crossAxis : RNYGFlexDirection) (measureModeCrossDim : RNYGMeasureMode)
    (availableInnerMainDim availableInnerCrossDim availableInnerWidth remainingFreeSpace
      leadingMainDim crossDim : YGFloat) (numberOfAutoMarginsOnCurrentLine : Nat)
    (child : RNYGNode D) (w m : ℚ)
    (h : isFixedBox mainAxis availableInnerWidth child w) :
    (RNYGJustifyMainAxis.body node mainAxis crossAxis measureModeCrossDim
      availableInnerMainDim availableInnerCrossDim availableInnerWidth true
      remainingFreeSpace numberOfAutoMarginsOnCurrentLine leadingMainDim (some 0) child
      (some m) crossDim).1 = child.setLayoutPosition (some m) (pos mainAxis) ∧
    (RNYGJustifyMainAxis.body node mainAxis crossAxis measureModeCrossDim
      availableInnerMainDim availableInnerCrossDim availableInnerWidth true
      remainingFreeSpace numberOfAutoMarginsOnCurrentLine leadingMainDim (some 0) child
      (some m) crossDim).2.1 = some (m + w) := by
  obtain ⟨hd, hp, hl, ht, hlm, htm, hw, hpos⟩ := h
  have e1 : ∀ v e, (child.setLayoutPosition v e).marginTrailingValue mainAxis =
      child.marginTrailingValue mainAxis := fun _ _ => rfl
  have e2 : ∀ v e, RNYGNodeDimWithMargin (child.setLayoutPosition v e) mainAxis
      availableInnerWidth = some w := by
    intro v e
    have : RNYGNodeDimWithMargin (child.setLayoutPosition v e) mainAxis availableInnerWidth =
        RNYGNodeDimWithMargin child mainAxis availableInnerWidth := rfl
    rw [this]
    unfold RNYGNodeDimWithMargin
    rw [hw, hlm, htm]
    simp [fadd]
  unfold RNYGJustifyMainAxis.body
  simp only [hd, hp, hl, ht, e1, e2, hpos, if_false, if_true, reduceCtorEq, decide_False,
    Bool.false_and, Bool.false_eq_true, Bool.not_true, fadd_zero_left]
  exact ⟨trivial, by simp [fadd]⟩

/-- The second loop of `RNYGJustifyMainAxis` places fixed boxes one after the other: each
child at the running offset, which grows by the size of the child. -/
theorem RNYGJustifyMainAxis.loop_fixedBox {C D : Type} (node : RNYGNode C)
    (mainAxis crossAxis : RNYGFlexDirection) (measureModeCrossDim : RNYGMeasureMode)
    (availableInnerMainDim availableInnerCrossDim availableInnerWidth remainingFreeSpace
      leadingMainDim : YGFloat) (numberOfAutoMarginsOnCurrentLine : Nat)
    (final : RNYGNode C) (W : ℚ)
    (hW : final.layout.measuredDimensions (dim mainAxis) = some W) :
    ∀ (line : List (RNYGNode D)) (ws : List ℚ) (m : ℚ) (crossDim : YGFloat),
      List.Forall₂ (isFixedBox mainAxis availableInnerWidth) line ws →
      (RNYGJustifyMainAxis.loop node mainAxis crossAxis measureModeCrossDim
        availableInnerMainDim availableInnerCrossDim availableInnerWidth true
        remainingFreeSpace numberOfAutoMarginsOnCurrentLine leadingMainDim (some 0) line
        (some m) crossDim).1.map (fun child =>
          (RNYGNodeSetChildTrailingPosition final child mainAxis).layout.position
            (trailing mainAxis)) = (rtlLefts W m ws).map some
  | [], ws, m, crossDim, h => by
    cases h
    rfl
  | child :: rest, ws, m, crossDim, h => by
    cases h with
    | cons hc hrest =>
      rename_i w ws'
      have hb := RNYGJustifyMainAxis.body_fixedBox node mainAxis crossAxis measureModeCrossDim
        availableInnerMainDim availableInnerCrossDim availableInnerWidth remainingFreeSpace
        leadingMainDim crossDim numberOfAutoMarginsOnCurrentLine child w m hc
      have ih := fun cd => RNYGJustifyMainAxis.loop_fixedBox node mainAxis crossAxis
        measureModeCrossDim availableInnerMainDim availableInnerCrossDim availableInnerWidth
        remainingFreeSpace leadingMainDim numberOfAutoMarginsOnCurrentLine final W hW rest ws'
        (m + w) cd hrest
      unfold RNYGJustifyMainAxis.loop
      simp only [List.map_cons, rtlLefts]
      rw [hb.1, hb.2, ih]
      congr 1
      have hmeas : (child.setLayoutPosition (some m) (pos mainAxis)).layout.measuredDimensions
          (dim mainAxis) = some w := hc.2.2.2.2.2.2.1
      have hpos : (child.setLayoutPosition (some m) (pos mainAxis)).layout.position
          (pos mainAxis) = some m := by
        simp [RNYGNode.setLayoutPosition]
      unfold RNYGNodeSetChildTrailingPosition
      simp only [hmeas, hpos, hW]
      simp [RNYGNode.setLayoutPosition, fsub]

theorem rtlLefts_eq_range (W : ℚ) :
    ∀ (ws : List ℚ) (offset : ℚ),
      rtlLefts W offset ws =
        (List.range ws.length).map (fun k => W - offset - (ws.take (k + 1)).sum)
  | [], offset => rfl
  | w :: ws, offset => by
    rw [rtlLefts, rtlLefts_eq_range W ws (offset + w), List.length_cons,
      List.range_succ_eq_map, List.map_cons, List.map_map]
    congr 1
    · simp
      ring
    · apply List.map_congr_left
      intro k _
      simp
      ring

theorem lineSegment_all {α : Type} (children : List α) :
    lineSegment children 0 children.length = children := by
  simp [lineSegment]

theorem replaceSegment_all {α : Type} (children segment : List α) :
    replaceSegment children 0 children.length segment = segment := by
  simp [replaceSegment]

theorem RNYGJustifyMainAxis.leadingAndBetween_flexStart (n : Nat) (rem : YGFloat)
    (items : Nat) :
    RNYGJustifyMainAxis.leadingAndBetween RNYGJustify.FlexStart n rem items =
      (some 0, some 0) := by
  unfold RNYGJustifyMainAxis.leadingAndBetween
  split_ifs <;> rfl

/-- C22, counterexample: a root of 100 by 50 with direction RTL, flex direction row and a right
padding of 10, with two children of width 30: the claim gives the lefts 70 and 40, the code
lays the children out at the lefts 60 and 30. -/
theorem RNYGNodelayoutImpl_rtl_lefts_respect_padding :
    childBoxesAfterLayout (rtlRow (some 10)) =
      some [[some 60, some 0, some 30, some 50], [some 30, some 0, some 30, some 50]] ∧
    rtlLeftsAsClaimed 100 [30, 30] = [70, 40] := by
  refine ⟨by decide!, by decide!⟩

/-- C22, amended: in a container of measured width W whose resolved direction is RTL, with
flex direction row (main axis row-reverse), justifyContent flex-start, whose leading (right)
padding and border is p, and whose line holds n displayed relative children of measured widths
w1..wn without margins and without position offsets, the main-axis justification followed by
the setting of the trailing positions gives the k-th child the layout left
`W - p - (w1 + ... + wk)` for every k; for p = 0 this is the left of the claim. -/
theorem RNYGJustifyMainAxis_rtl_lefts {C D : Type} (node final : RNYGNode C)
    (children : List (RNYGNode D)) (values : RNYGCollectFlexItemsRowValues)
    (crossAxis : RNYGFlexDirection) (measureModeMainDim measureModeCrossDim : RNYGMeasureMode)
    (mainAxisParentSize parentWidth availableInnerMainDim availableInnerCrossDim
      availableInnerWidth : YGFloat) (W p : ℚ) (ws : List ℚ)
    (hjustify : node.style.justifyContent = RNYGJustify.FlexStart)
    (hline : values.endOfLineIndex = children.length)
    (hpadding : node.getLeadingPaddingAndBorder RNYGFlexDirection.RowReverse parentWidth =
      some p)
    (hwidth : final.layout.measuredDimensions RNYGDimension.Width = some W)
    (hboxes : List.Forall₂ (isFixedBox RNYGFlexDirection.RowReverse availableInnerWidth)
      children ws) :
    (RNYGJustifyMainAxis node children values 0 RNYGFlexDirection.RowReverse crossAxis
      measureModeMainDim measureModeCrossDim mainAxisParentSize parentWidth
      availableInnerMainDim availableInnerCrossDim availableInnerWidth true).1.map
        (fun child =>
          (RNYGNodeSetChildTrailingPosition final child
            RNYGFlexDirection.RowReverse).layout.position RNYGEdge.Left) =
      (rtlLefts W p ws).map some ∧
    rtlLefts W 0 ws = rtlLeftsAsClaimed W ws ∧
    RNYGResolveFlexDirection RNYGFlexDirection.Row RNYGDirection.RTL =
      RNYGFlexDirection.RowReverse := by
  refine ⟨?_, ?_, rfl⟩
  · unfold RNYGJustifyMainAxis
    simp only [hjustify, hline, lineSegment_all, replaceSegment_all,
      RNYGJustifyMainAxis.leadingAndBetween_flexStart, hpadding]
    have h0 : fadd (some p) (some 0) = some p := by simp [fadd]
    rw [h0]
    exact RNYGJustifyMainAxis.loop_fixedBox node RNYGFlexDirection.RowReverse crossAxis
      measureModeCrossDim availableInnerMainDim availableInnerCrossDim availableInnerWidth _
      (some 0) _ final W hwidth children ws p (some 0) hboxes
  · rw [rtlLefts_eq_range]
    unfold rtlLeftsAsClaimed
    apply List.map_congr_left
    intro k _
    ring

theorem RNYGJustifyMainAxis_rtl_lefts_witness :
    (RNYGJustifyMainAxis (rtlRow (some 10)) rtlLine rtlLineValues 0
      RNYGFlexDirection.RowReverse RNYGFlexDirection.Column RNYGMeasureMode.Exactly
      RNYGMeasureMode.Exactly RNYGUndefined RNYGUndefined (some 90) (some 50) (some 90)
      true).1.map (fun child =>
        (RNYGNodeSetChildTrailingPosition
          (withMeasuredDimensions (rtlRow (some 10)) (some 100) (some 50)) child
          RNYGFlexDirection.RowReverse).layout.position RNYGEdge.Left) =
      [some 60, some 30] ∧
    childBoxesAfterLayout (rtlRow none) =
      some [[some 70, some 0, some 30, some 50], [some 40, some 0, some 30, some 50]] :=
  ⟨(RNYGJustifyMainAxis_rtl_lefts (rtlRow (some 10))
      (withMeasuredDimensions (rtlRow (some 10)) (some 100) (some 50)) rtlLine rtlLineValues
      RNYGFlexDirection.Column RNYGMeasureMode.Exactly RNYGMeasureMode.Exactly RNYGUndefined
      RNYGUndefined (some 90) (some 50) (some 90) 100 10 [30, 30] (by decide) (by decide)
      (by decide!) (by decide!)
      (List.Forall₂.cons
        ⟨by decide, by decide, by decide!, by decide!, by decide!, by decide!, by decide!,
          by decide!⟩
        (List.Forall₂.cons
          ⟨by decide, by decide, by decide!, by decide!, by decide!, by decide!, by decide!,
            by decide!⟩
          List.Forall₂.nil))).1.trans (by decide!),
    by decide!⟩

/-! ### The leading and trailing position of a node -/

/-- C31: for a node whose position edges have left 10 and horizontal 20 and no start slot,
`getLeadingPosition(row, 100)` returns 20: the lookup of the start edge falls through to
horizontal before the left edge is read, and the child is laid out at left 20.  The claim gives
the effective value of the left edge, 10, which is what `getLeadingMargin` returns for the same
edges.  The same holds for `getTrailingPosition` on the axis row-reverse, whose trailing edge is
left. -/
theorem RNYGNode_getLeadingPosition_horizontal_before_left :
    (leftAndHorizontalChild.style.position RNYGEdge.Start).unit = RNYGUnit.Undefined ∧
    leftAndHorizontalChild.getLeadingPosition RNYGFlexDirection.Row (some 100) = some 20 ∧
    leadingPositionAsClaimed leftAndHorizontalChild RNYGFlexDirection.Row (some 100) =
      some 10 ∧
    leftAndHorizontalMarginChild.getLeadingMargin RNYGFlexDirection.Row (some 100) =
      some 10 ∧
    (leftAndHorizontalChild.style.position RNYGEdge.End).unit = RNYGUnit.Undefined ∧
    leftAndHorizontalChild.getTrailingPosition RNYGFlexDirection.RowReverse (some 100) =
      some 20 ∧
    trailingPositionAsClaimed leftAndHorizontalChild RNYGFlexDirection.RowReverse (some 100) =
      some 10 ∧
    childBoxesAfterLayout (sizedRoot 100 100 [leftAndHorizontalChild]) =
      some [[some 20, some 0, some 30, some 30]] ∧
    childBoxesAfterLayout (sizedRoot 100 100 [leftAndHorizontalMarginChild]) =
      some [[some 10, some 0, some 30, some 30]] := by
  refine ⟨by decide, by decide!, by decide!, by decide!, by decide, by decide!, by decide!,
    by decide!, by decide!⟩

/-! ### `RNYGNodeBoundAxis` -/

theorem RNYGNodeBoundAxisWithinMinAndMax_eq_clamp {C : Type} (node : RNYGNode C)
    (axis : RNYGFlexDirection) (value axisSize : YGFloat) :
    RNYGNodeBoundAxisWithinMinAndMax node axis value axisSize =
      clampToMin (RNYGResolveValue (node.style.minDimensions (dim axis)) axisSize)
        (clampToMax (RNYGResolveValue (node.style.maxDimensions (dim axis)) axisSize)
          value) := by
  cases axis <;> rfl

theorem clampToMax_some (max : YGFloat) (v : ℚ) :
    ∃ x, clampToMax max (some v) = some x ∧ x ≤ v ∧
      (∀ M, max = some M → 0 ≤ M → x ≤ M) ∧ (x = v ∨ (max = some x ∧ 0 ≤ x ∧ x < v)) := by
  rcases max with _ | M
  · exact ⟨v, rfl, le_refl _, (fun M h => by cases h), Or.inl rfl⟩
  · by_cases h : 0 ≤ M ∧ M < v
    · refine ⟨M, ?_, le_of_lt h.2, fun M' h' _ => ?_, Or.inr ⟨rfl, h.1, h.2⟩⟩
      · simp [clampToMax, RNYGFloatIsUndefined, fge, fle, fgt, flt, h.1, h.2]
      · cases h'
        exact le_refl _
    · refine ⟨v, ?_, le_refl _, fun M' h' h0 => ?_, Or.inl rfl⟩
      · simp only [clampToMax, RNYGFloatIsUndefined, fge, fle, fgt, flt, Option.isNone_some,
          Bool.not_false, Bool.true_and, Bool.and_eq_true, decide_eq_true_eq, h, if_false]
      · cases h'
        exact not_lt.mp (fun hlt => h ⟨h0, hlt⟩)

theorem clampToMin_some (min : YGFloat) (x : ℚ) :
    ∃ c, clampToMin min (some x) = some c ∧ x ≤ c ∧
      (∀ m, min = some m → 0 ≤ m → m ≤ c) ∧ (c = x ∨ (min = some c ∧ 0 ≤ c ∧ x < c)) := by
  rcases min with _ | m
  · exact ⟨x, rfl, le_refl _, (fun m h => by cases h), Or.inl rfl⟩
  · by_cases h : 0 ≤ m ∧ x < m
    · refine ⟨m, ?_, le_of_lt h.2, fun m' h' _ => ?_, Or.inr ⟨rfl, h.1, h.2⟩⟩
      · simp [clampToMin, RNYGFloatIsUndefined, fge, fle, flt, h.1, h.2]
      · cases h'
        exact le_refl _
    · refine ⟨x, ?_, le_refl _, fun m' h' h0 => ?_, Or.inl rfl⟩
      · simp only [clampToMin, RNYGFloatIsUndefined, fge, fle, flt, Option.isNone_some,
          Bool.not_false, Bool.true_and, Bool.and_eq_true, decide_eq_true_eq, h, if_false]
      · cases h'
        exact not_lt.mp (fun hlt => h ⟨h0, hlt⟩)

/-- A value that is not below the minimum (when the minimum applies) is not raised by the
clamp. -/
theorem clamp_le (min max : YGFloat) (q : ℚ) (hq : ∀ m, min = some m → 0 ≤ m → m ≤ q) :
    ∃ c, clampToMin min (clampToMax max (some q)) = some c ∧ c ≤ q := by
  obtain ⟨x, hx, hxq, -, -⟩ := clampToMax_some max q
  obtain ⟨c, hc, -, -, hcase⟩ := clampToMin_some min x
  refine ⟨c, by rw [hx, hc], ?_⟩
  rcases hcase with rfl | ⟨hm, h0, -⟩
  · exact hxq
  · exact hq c hm h0

/-- The clamp of a defined value is defined, not below the minimum (when the minimum applies),
and a fixed point of the clamp. -/
theorem clamp_fixed (min max : YGFloat) (v : ℚ) :
    ∃ c, clampToMin min (clampToMax max (some v)) = some c ∧
      (∀ m, min = some m → 0 ≤ m → m ≤ c) ∧
      clampToMin min (clampToMax max (some c)) = some c := by
  obtain ⟨x, hx, -, hxM, -⟩ := clampToMax_some max v
  obtain ⟨c, hc, hxc, hmc, hcase⟩ := clampToMin_some min x
  refine ⟨c, by rw [hx, hc], hmc, ?_⟩
  obtain ⟨x', hx', hx'c, -, hcase'⟩ := clampToMax_some max c
  obtain ⟨c', hc', hx'c', hmc', hcase''⟩ := clampToMin_some min x'
  rw [hx', hc']
  congr 1
  rcases hcase with hcx | ⟨hm, h0, hlt⟩
  · -- the minimum did not apply: the value is the clamp to the maximum
    have hx'eq : x' = c := by
      rcases hcase' with h | ⟨hM, hM0, hMlt⟩
      · exact h
      · exact absurd (hcx ▸ hxM x' hM hM0) (not_le.mpr hMlt)
    rcases hcase'' with h | ⟨hm', hm0, hlt'⟩
    · rw [h, hx'eq]
    · exact absurd (hmc c' hm' hm0) (not_le.mpr (lt_of_le_of_lt (le_of_eq hx'eq.symm) hlt'))
  · -- the minimum applied: the value is the minimum
    rcases hcase'' with h | ⟨hm', -, -⟩
    · rw [h]
      exact le_antisymm hx'c (by rw [← h]; exact hmc' c hm h0)
    · rw [hm] at hm'
      exact (Option.some.inj hm').symm

/-- Bounding a defined value twice gives the value of bounding it once. -/
theorem clamp_idempotent (min max p : YGFloat) (v : ℚ) :
    fmaxf (clampToMin min (clampToMax max
        (fmaxf (clampToMin min (clampToMax max (some v))) p))) p =
      fmaxf (clampToMin min (clampToMax max (some v))) p := by
  obtain ⟨c, hc, hmc, hfix⟩ := clamp_fixed min max v
  rw [hc]
  rcases p with _ | p
  · simp only [fmaxf]
    rw [hfix]
  · by_cases hle : p ≤ c
    · have : fmaxf (some c) (some p) = some c := by simp [fmaxf, hle]
      rw [this, hfix, this]
    · have hlt : c < p := not_le.mp hle
      have : fmaxf (some c) (some p) = some p := by simp [fmaxf, le_of_lt hlt]
      rw [this]
      obtain ⟨c', hc', hc'p⟩ := clamp_le min max p
        (fun m hm h0 => le_trans (hmc m hm h0) (le_of_lt hlt))
      rw [hc']
      simp [fmaxf, hc'p]

/-- When the minimum is above a maximum that applies, the clamp of a defined value is the
minimum. -/
theorem clamp_min_wins (m M v : ℚ) (hM : 0 ≤ M) (hlt : M < m) :
    clampToMin (some m) (clampToMax (some M) (some v)) = some m := by
  obtain ⟨x, hx, -, hxM, -⟩ := clampToMax_some (some M) v
  obtain ⟨c, hc, -, -, hcase⟩ := clampToMin_some (some m) x
  rw [hx, hc]
  rcases hcase with h | ⟨h, -, -⟩
  · have hxlt : x < m := lt_of_le_of_lt (hxM M rfl hM) hlt
    have : clampToMin (some m) (some x) = some m := by
      simp [clampToMin, RNYGFloatIsUndefined, fge, fle, flt, hxlt, le_trans hM (le_of_lt hlt)]
    rw [this] at hc
    exact hc.symm
  · exact h.symm

/-- C32, as stated, fails: bounding is not idempotent on an undefined value.  A node without
padding and border and with minimum width 20 bounds the undefined value to 0 (its padding and
border), and bounds 0 to 20. -/
theorem RNYGNodeBoundAxis_undefined_not_idempotent :
    RNYGNodeBoundAxis minWidthNode RNYGFlexDirection.Row RNYGUndefined (some 100) (some 100)
        = some 0 ∧
      RNYGNodeBoundAxis minWidthNode RNYGFlexDirection.Row
        (RNYGNodeBoundAxis minWidthNode RNYGFlexDirection.Row RNYGUndefined (some 100)
          (some 100)) (some 100) (some 100) = some 20 ∧
      ¬ (RNYGNodeBoundAxis minWidthNode RNYGFlexDirection.Row
          (RNYGNodeBoundAxis minWidthNode RNYGFlexDirection.Row RNYGUndefined (some 100)
            (some 100)) (some 100) (some 100) =
        RNYGNodeBoundAxis minWidthNode RNYGFlexDirection.Row RNYGUndefined (some 100)
          (some 100)) := by
  refine ⟨by decide!, by decide!, by decide!⟩

/-- C32, amended: for every node, axis and value `RNYGNodeBoundAxis` returns
`max(c, padding+border)`, where `c` is the value clamped first to the resolved maximum and then
to the resolved minimum of the axis (each applied only when defined and not negative); when the
minimum is above an applicable maximum the clamp of a defined value is the minimum; bounding is
idempotent on every defined value; and the undefined value is bounded to the padding and
border of the axis. -/
theorem RNYGNodeBoundAxis_clamp_idempotent {C : Type} (node : RNYGNode C)
    (axis : RNYGFlexDirection) (value axisSize widthSize : YGFloat) (v : ℚ) :
    RNYGNodeBoundAxis node axis value axisSize widthSize =
        boundAxisAsClaimed node axis value axisSize widthSize ∧
      (∀ m M : ℚ,
        RNYGResolveValue (node.style.minDimensions (dim axis)) axisSize = some m →
        RNYGResolveValue (node.style.maxDimensions (dim axis)) axisSize = some M →
        0 ≤ M → M < m →
          RNYGNodeBoundAxisWithinMinAndMax node axis (some v) axisSize = some m) ∧
      RNYGNodeBoundAxis node axis (RNYGNodeBoundAxis node axis (some v) axisSize widthSize)
          axisSize widthSize =
        RNYGNodeBoundAxis node axis (some v) axisSize widthSize ∧
      RNYGNodeBoundAxis node axis RNYGUndefined axisSize widthSize =
        RNYGNodePaddingAndBorderForAxis node axis widthSize := by
  refine ⟨?_, ?_, ?_, ?_⟩
  · simp only [RNYGNodeBoundAxis, boundAxisAsClaimed, RNYGNodeBoundAxisWithinMinAndMax_eq_clamp]
  · intro m M hm hM h0 hlt
    rw [RNYGNodeBoundAxisWithinMinAndMax_eq_clamp, hm, hM]
    exact clamp_min_wins m M v h0 hlt
  · simp only [RNYGNodeBoundAxis, RNYGNodeBoundAxisWithinMinAndMax_eq_clamp]
    exact clamp_idempotent _ _ _ v
  · simp only [RNYGNodeBoundAxis, RNYGNodeBoundAxisWithinMinAndMax_eq_clamp]
    have : ∀ min max : YGFloat, clampToMin min (clampToMax max RNYGUndefined) = none := by
      intro min max
      rcases min with _ | m <;> rcases max with _ | M <;>
        simp [clampToMin, clampToMax, RNYGUndefined, RNYGFloatIsUndefined, fgt, flt]
    rw [this]
    rfl

theorem RNYGNodeBoundAxis_clamp_idempotent_witness :
    RNYGNodeBoundAxisWithinMinAndMax minAboveMaxNode RNYGFlexDirection.Row (some 5) (some 100)
      = some 20 :=
  (RNYGNodeBoundAxis_clamp_idempotent minAboveMaxNode RNYGFlexDirection.Row (some 5)
    (some 100) (some 100) 5).2.1 20 10 (by decide!) (by decide!) (by norm_num) (by norm_num)

/-! ### `RNYGNodeIsStyleDimDefined` -/

/-- C33, as stated, fails: a width of 50 % against the parent size -100 resolves to -50, a
negative number, and `RNYGNodeIsStyleDimDefined` is true. -/
theorem RNYGNodeIsStyleDimDefined_negative_parentSize :
    (halfWidthNode.resolvedDimensions RNYGDimension.Width)
        = { value := some 50, unit := RNYGUnit.Percent } ∧
      RNYGResolveValue (halfWidthNode.resolvedDimensions RNYGDimension.Width) (some (-100))
        = some (-50) ∧
      RNYGNodeIsStyleDimDefined halfWidthNode RNYGFlexDirection.Row (some (-100)) = true ∧
      isStyleDimDefinedAsClaimed halfWidthNode RNYGFlexDirection.Row (some (-100)) = false := by
  refine ⟨by decide!, by decide!, by decide!, by decide!⟩

/-- C33, amended: for every node, axis and parent size `RNYGNodeIsStyleDimDefined` is true
exactly when the unit of the resolved dimension is point and its value is not below zero, or
the unit is percent, the value is not below zero and the parent size is defined; when the value
of the dimension is defined and the parent size is undefined or above zero, that is exactly
when the dimension resolves against the parent size to a defined number that is not
negative. -/
theorem RNYGNodeIsStyleDimDefined_iff {C : Type} (node : RNYGNode C)
    (axis : RNYGFlexDirection) (parentSize : YGFloat) :
    (RNYGNodeIsStyleDimDefined node axis parentSize = true ↔
        ((node.resolvedDimensions (dim axis)).unit = RNYGUnit.Point ∧
            flt (node.resolvedDimensions (dim axis)).value (some 0) = false) ∨
          ((node.resolvedDimensions (dim axis)).unit = RNYGUnit.Percent ∧
            flt (node.resolvedDimensions (dim axis)).value (some 0) = false ∧
            RNYGFloatIsUndefined parentSize = false)) ∧
      (RNYGFloatIsUndefined (node.resolvedDimensions (dim axis)).value = false →
        fle parentSize (some 0) = false →
          RNYGNodeIsStyleDimDefined node axis parentSize =
            isStyleDimDefinedAsClaimed node axis parentSize) := by
  simp only [RNYGNodeIsStyleDimDefined, isStyleDimDefinedAsClaimed]
  generalize node.resolvedDimensions (dim axis) = d
  obtain ⟨value, unit⟩ := d
  constructor
  · cases unit <;> simp
  · intro hv hp
    rcases value with _ | v
    · simp [RNYGFloatIsUndefined] at hv
    · rcases parentSize with _ | p
      · cases unit <;>
          simp [RNYGResolveValue, RNYGUndefined, RNYGFloatIsUndefined, fge, fle, flt, fmul, fdiv]
        by_cases h : v < 0
        · simp [h, not_le.mpr h]
        · simp [h, not_lt.mp h]
      · have hp0 : 0 < p := by simpa [fle] using hp
        cases unit <;>
          simp [RNYGResolveValue, RNYGUndefined, RNYGFloatIsUndefined, fge, fle, flt, fmul,
            fdiv]
        · by_cases h : v < 0
          · simp [h, not_le.mpr h]
          · simp [h, not_lt.mp h]
        · have h100 : (0 : ℚ) < 100 := by norm_num
          by_cases h : v < 0
          · have : ¬ (0 ≤ v * p / 100) :=
              not_le.mpr (div_neg_of_neg_of_pos (mul_neg_of_neg_of_pos h hp0) h100)
            simp [h, this]
          · have : 0 ≤ v * p / 100 :=
              div_nonneg (mul_nonneg (not_lt.mp h) (le_of_lt hp0)) (le_of_lt h100)
            simp [h, this]

theorem RNYGNodeIsStyleDimDefined_iff_witness :
    RNYGNodeIsStyleDimDefined halfWidthNode RNYGFlexDirection.Row (some 100) =
      isStyleDimDefinedAsClaimed halfWidthNode RNYGFlexDirection.Row (some 100) :=
  (RNYGNodeIsStyleDimDefined_iff halfWidthNode RNYGFlexDirection.Row (some 100)).2
    (by decide!) (by decide!)

/-! ### The single flexible child of `RNYGNodeComputeFlexBasisForChildren` -/

/-- The search for the single flexible child does not look at the children before the
candidate: in a row of exact width 100 whose children have the widths 20 and 40, the first with
flex-grow 1 only and the second with flex-grow 1 and flex-shrink 1, the second child gets the
computed flex basis 0 although the first is flexible, and the children get the widths 60 and
40; with the children in the other order no shortcut is taken and the child of width 40 gets
the width 60. -/
theorem RNYGNodeComputeFlexBasisForChildren_flexible_child_before_candidate :
    (flexChild 20 1 0).isNodeFlexible = true ∧
      RNYGNodeComputeFlexBasisForChildren.findSingleFlexChild
        [flexChild 20 1 0, flexChild 40 1 1] 0 none = some 1 ∧
      childFlexBasesAfterLayout (flexRow [flexChild 20 1 0, flexChild 40 1 1])
        = some [some 20, some 0] ∧
      childBoxesAfterLayout (flexRow [flexChild 20 1 0, flexChild 40 1 1])
        = some [[some 0, some 0, some 60, some 50], [some 60, some 0, some 40, some 50]] ∧
      RNYGNodeComputeFlexBasisForChildren.findSingleFlexChild
        [flexChild 40 1 1, flexChild 20 1 0] 0 none = none ∧
      childFlexBasesAfterLayout (flexRow [flexChild 40 1 1, flexChild 20 1 0])
        = some [some 40, some 20] ∧
      childBoxesAfterLayout (flexRow [flexChild 40 1 1, flexChild 20 1 0])
        = some [[some 0, some 0, some 60, some 50], [some 60, some 0, some 40, some 50]] := by
  refine ⟨by decide!, by decide!, by decide!, by decide!, by decide!, by decide!, by decide!⟩

/-- C39: the code does not do what the claim says.  On a new node, which is clean and whose
flex, flex-grow, flex-shrink and aspect ratio are undefined, each of the four scalar setters
called with the undefined value finds the stored value different from the argument (the
operator `!=` on two undefined values), writes the style and marks the node dirty, while the
stored value stays undefined.  The setter of the minimum width, whose macro tests the unit of
the argument, leaves the node clean on the same call. -/
theorem RNYGNodeStyleSet_scalar_undefined_marks_dirty :
    RNYGHeap.singleNodeHeap.dirtyFlag 0 = some false ∧
      (RNYGHeap.singleNodeHeap.get 0).map
          (fun n => (n.style.flex, n.style.flexGrow, n.style.flexShrink, n.style.aspectRatio))
        = some (RNYGUndefined, RNYGUndefined, RNYGUndefined, RNYGUndefined) ∧
      (RNYGHeap.singleNodeHeap.RNYGNodeStyleSet 0 (.Flex RNYGUndefined)).bind
          (fun h => (h.get 0).map (fun n => (n.isDirty, n.style.flex)))
        = some (true, RNYGUndefined) ∧
      (RNYGHeap.singleNodeHeap.RNYGNodeStyleSet 0 (.FlexGrow RNYGUndefined)).bind
          (fun h => (h.get 0).map (fun n => (n.isDirty, n.style.flexGrow)))
        = some (true, RNYGUndefined) ∧
      (RNYGHeap.singleNodeHeap.RNYGNodeStyleSet 0 (.FlexShrink RNYGUndefined)).bind
          (fun h => (h.get 0).map (fun n => (n.isDirty, n.style.flexShrink)))
        = some (true, RNYGUndefined) ∧
      (RNYGHeap.singleNodeHeap.RNYGNodeStyleSet 0 (.AspectRatio RNYGUndefined)).bind
          (fun h => (h.get 0).map (fun n => (n.isDirty, n.style.aspectRatio)))
        = some (true, RNYGUndefined) ∧
      (RNYGHeap.singleNodeHeap.RNYGNodeStyleSet 0
          (.MinDimension RNYGDimension.Width RNYGUndefined)).bind
          (fun h => (h.get 0).map (fun n => (n.isDirty, (n.style.minDimensions
            RNYGDimension.Width).unit)))
        = some (false, RNYGUnit.Undefined) := by
  refine ⟨by decide!, by decide!, by decide!, by decide!, by decide!, by decide!, by decide!⟩

/-! ### Rounding a rounded value -/

theorem erase_insertIdx_of_not_mem {α : Type} [DecidableEq α] (a : α) :
    ∀ (l : List α) (i : Nat), i ≤ l.length → a ∉ l → (l.insertIdx i a).erase a = l
  | l, 0, _, _ => by simp [List.insertIdx_zero]
  | [], i + 1, hi, _ => by simp at hi
  | b :: l, i + 1, hi, hn => by
    have hne : b ≠ a := fun e => hn (e ▸ List.mem_cons_self _ _)
    have hn' : a ∉ l := fun hm => hn (List.mem_cons_of_mem _ hm)
    rw [List.insertIdx_succ_cons, List.erase_cons_tail (by simpa using hne),
      erase_insertIdx_of_not_mem a l i (by simpa using hi) hn']

theorem getElem_insertIdx_self_of_le {α : Type} (a : α) :
    ∀ (l : List α) (i : Nat), i ≤ l.length → (l.insertIdx i a)[i]? = some a
  | l, 0, _ => by simp [List.insertIdx_zero]
  | [], i + 1, hi => by simp at hi
  | b :: l, i + 1, hi => by
    rw [List.insertIdx_succ_cons, List.getElem?_cons_succ]
    exact getElem_insertIdx_self_of_le a l i (by simpa using hi)

theorem eraseIdx_insertIdx_self {α : Type} (a : α) :
    ∀ (l : List α) (i : Nat), (l.insertIdx i a).eraseIdx i = l
  | l, 0 => by simp [List.insertIdx_zero]
  | [], i + 1 => by simp [List.insertIdx]
  | b :: l, i + 1 => by
    rw [List.insertIdx_succ_cons, List.eraseIdx_cons_succ, eraseIdx_insertIdx_self a l i]

namespace RNYGHeap

/-- What `markDirtyAndPropogate` keeps of a live node. -/
theorem markDirtyAndPropogate_get {h : RNYGHeap} (this r : RNYGNodeRef) {n : RNYGHeapNode}
    (hg : h.get r = some n) :
    ∃ n', (h.markDirtyAndPropogate this).get r = some n' ∧ n'.children = n.children ∧
      n'.parent = n.parent ∧ n'.measure = n.measure := by
  obtain ⟨-, -, hf⟩ := markDirtyAndPropogate_frame h this
  rcases hf r with ⟨hnone, -⟩ | ⟨m, m', hm, hm', ⟨d, l, he⟩, -⟩
  · rw [hg] at hnone
    cases hnone
  · rw [hg] at hm
    cases hm
    exact ⟨m', hm', by rw [he], by rw [he], by rw [he]⟩

end RNYGHeap

namespace RNYGHeap

theorem cloneChildrenIfNeeded_ownsChildren {h : RNYGHeap} {node : RNYGNodeRef}
    {nd : RNYGHeapNode} (hnode : h.get node = some nd) (hown : h.OwnsChildren node) :
    h.cloneChildrenIfNeeded node = some h := by
  cases hch : nd.children with
  | nil =>
    unfold cloneChildrenIfNeeded
    simp only [bind, hnode, Option.some_bind]
    rw [hch]
    rfl
  | cons first rest =>
    obtain ⟨fd, hfd, hp⟩ := hown nd first hnode (by rw [hch]; exact List.mem_cons_self _ _)
    exact cloneChildrenIfNeeded_of_owner hnode hch hfd hp

/-- The result of `RNYGNodeInsertChild` on a node without a measure callback that owns its
children, for a parentless child and an index within the child list. -/
theorem RNYGNodeInsertChild_ownsChildren {h : RNYGHeap} {node child : RNYGNodeRef}
    {index : Nat} {nd cd : RNYGHeapNode} (hnode : h.get node = some nd)
    (hmeas : nd.measure = none) (hown : h.OwnsChildren node)
    (hchild : h.get child = some cd) (hparent : cd.parent = none)
    (hidx : index ≤ nd.children.length) :
    ∃ h1 nd1 cd1, h.RNYGNodeInsertChild node child index = some h1 ∧
      h1.get node = some nd1 ∧ nd1.children = nd.children.insertIdx index child ∧
      h1.get child = some cd1 ∧ cd1.parent = some node ∧
      ∀ r n, r ≠ child → h.get r = some n →
        ∃ n', h1.get r = some n' ∧ n'.parent = n.parent := by
  have hclone := cloneChildrenIfNeeded_ownsChildren hnode hown
  have hA : ∃ cdA, (h.set node
      { nd with children := nd.children.insertIdx index child }).get child = some cdA ∧
      (child = node → cdA.children = nd.children.insertIdx index child) := by
    rw [get_set_eq hnode]
    by_cases hc : child = node
    · rw [if_pos hc]
      exact ⟨_, rfl, fun _ => rfl⟩
    · rw [if_neg hc]
      exact ⟨cd, hchild, fun e => absurd e hc⟩
  obtain ⟨cdA, hcdA, hcdAch⟩ := hA
  have hres : h.RNYGNodeInsertChild node child index =
      some (((h.set node { nd with children := nd.children.insertIdx index child }).set child
        { cdA with parent := some node }).markDirtyAndPropogate node) := by
    have hm : nd.measure.isSome = false := by rw [hmeas]; rfl
    unfold RNYGNodeInsertChild
    simp only [bind, hnode, hchild, Option.some_bind, hparent, Option.isSome_none,
      Bool.false_eq_true, if_false, hm, hclone, gt_iff_lt, not_lt.mpr hidx, hcdA, pure]
  have hget : ∀ r, ((h.set node { nd with children := nd.children.insertIdx index child }).set
      child { cdA with parent := some node }).get r =
        if r = child then some { cdA with parent := some node }
        else if r = node then some { nd with children := nd.children.insertIdx index child }
        else h.get r := get_set_set hnode hcdA
  have hnode2 : ∃ x, ((h.set node { nd with children := nd.children.insertIdx index child }).set
      child { cdA with parent := some node }).get node = some x ∧
        x.children = nd.children.insertIdx index child := by
    rw [hget]
    by_cases hc : node = child
    · rw [if_pos hc]
      exact ⟨_, rfl, hcdAch hc.symm⟩
    · rw [if_neg hc, if_pos rfl]
      exact ⟨_, rfl, rfl⟩
  obtain ⟨x, hx, hxch⟩ := hnode2
  obtain ⟨nd1, hnd1, hch1, -, -⟩ := markDirtyAndPropogate_get node node hx
  obtain ⟨cd1, hcd1, -, hp1, -⟩ := markDirtyAndPropogate_get node child
    ((hget child).trans (if_pos rfl))
  refine ⟨_, nd1, cd1, hres, hnd1, hch1.trans hxch, hcd1, hp1, fun r n hr hg => ?_⟩
  have hr2 : ∃ y, ((h.set node { nd with children := nd.children.insertIdx index child }).set
      child { cdA with parent := some node }).get r = some y ∧ y.parent = n.parent := by
    rw [hget, if_neg hr]
    by_cases hrn : r = node
    · rw [if_pos hrn]
      subst hrn
      rw [hnode] at hg
      cases hg
      exact ⟨_, rfl, rfl⟩
    · rw [if_neg hrn]
      exact ⟨n, hg, rfl⟩
  obtain ⟨y, hy, hyp⟩ := hr2
  obtain ⟨n', hn', -, hp', -⟩ := markDirtyAndPropogate_get node r hy
  exact ⟨n', hn', hp'.trans hyp⟩

end RNYGHeap

namespace RNYGHeap

/-- The result of `RNYGNodeRemoveChild` for a child that is in the child list of a parent whose
first child has the parent as its parent. -/
theorem RNYGNodeRemoveChild_found {h : RNYGHeap} {parent child first : RNYGNodeRef}
    {rest : List RNYGNodeRef} {pd fd cd : RNYGHeapNode} (hparent : h.get parent = some pd)
    (hch : pd.children = first :: rest) (hfd : h.get first = some fd)
    (hown : fd.parent = some parent) (hmem : child ∈ pd.children)
    (hchild : h.get child = some cd) :
    ∃ h2 pd2 cd2, h.RNYGNodeRemoveChild parent child = some (h2, true) ∧
      h2.get parent = some pd2 ∧ pd2.children = pd.children.erase child ∧
      h2.get child = some cd2 ∧ cd2.parent = none := by
  have hA : ∃ cdA, (h.set parent
      { pd with children := pd.children.erase child }).get child = some cdA ∧
      (child = parent → cdA.children = pd.children.erase child) := by
    rw [get_set_eq hparent]
    by_cases hc : child = parent
    · rw [if_pos hc]
      exact ⟨_, rfl, fun _ => rfl⟩
    · rw [if_neg hc]
      exact ⟨cd, hchild, fun e => absurd e hc⟩
  obtain ⟨cdA, hcdA, hcdAch⟩ := hA
  have hres : h.RNYGNodeRemoveChild parent child =
      some (((h.set parent { pd with children := pd.children.erase child }).set child
        { cdA with layout := RNYGLayout.default, parent := none }).markDirtyAndPropogate
          parent, true) := by
    unfold RNYGNodeRemoveChild
    simp only [bind, hparent, Option.some_bind]
    split
    · rename_i hnil
      rw [hch] at hnil
      cases hnil
    · rename_i f r hcons
      have hf : f = first := by
        rw [hch] at hcons
        exact (List.cons.inj hcons).1.symm
      subst hf
      simp only [hfd, Option.some_bind, hown, if_true, hmem, hcdA, pure]
  have hget : ∀ r, ((h.set parent { pd with children := pd.children.erase child }).set
      child { cdA with layout := RNYGLayout.default, parent := none }).get r =
        if r = child then some { cdA with layout := RNYGLayout.default, parent := none }
        else if r = parent then some { pd with children := pd.children.erase child }
        else h.get r := get_set_set hparent hcdA
  have hparent2 : ∃ x, ((h.set parent { pd with children := pd.children.erase child }).set
      child { cdA with layout := RNYGLayout.default, parent := none }).get parent = some x ∧
        x.children = pd.children.erase child := by
    rw [hget]
    by_cases hc : parent = child
    · rw [if_pos hc]
      exact ⟨_, rfl, hcdAch hc.symm⟩
    · rw [if_neg hc, if_pos rfl]
      exact ⟨_, rfl, rfl⟩
  obtain ⟨x, hx, hxch⟩ := hparent2
  obtain ⟨pd2, hpd2, hch2, -, -⟩ := markDirtyAndPropogate_get parent parent hx
  obtain ⟨cd2, hcd2, -, hp2, -⟩ := markDirtyAndPropogate_get parent child
    ((hget child).trans (if_pos rfl))
  exact ⟨_, pd2, cd2, hres, hpd2, hch2.trans hxch, hcd2, hp2⟩

end RNYGHeap

/-- C38, as stated, fails: a node with a measure callback has no children, so it owns its
children, and `RNYGNodeInsertChild` of a new, parentless node at index 0 runs into the
assertion that a node with a measure callback cannot have children, which is fatal. -/
theorem RNYGNodeInsertChild_measure_parent_fatal :
    RNYGHeap.measureAndOrphanHeap.OwnsChildren 0 ∧
      RNYGHeap.measureAndOrphanHeap.childrenOf 0 = some [] ∧
      RNYGHeap.measureAndOrphanHeap.parentOf 1 = some none ∧
      (RNYGHeap.measureAndOrphanHeap.get 0).map (fun n => n.measure.isSome) = some true ∧
      RNYGHeap.measureAndOrphanHeap.RNYGNodeInsertChild 0 1 0 = none := by
  refine ⟨?_, rfl, rfl, rfl, rfl⟩
  intro nd c hnd hc
  have hget : RNYGHeap.measureAndOrphanHeap.get 0 = some
      { RNYGHeap.newNode gYGConfigDefaults with
        measure := some nanMeasure, nodeType := RNYGNodeType.Text } := rfl
  rw [hget] at hnd
  cases hnd
  cases hc

namespace RNYGHeap

theorem familyAndOrphanHeap_ownsChildren : familyAndOrphanHeap.OwnsChildren 0 := by
  intro nd c hnd hc
  have hget : familyAndOrphanHeap.get 0 = some
      { newNode gYGConfigDefaults with children := [1, 2] } := rfl
  rw [hget] at hnd
  cases hnd
  change c ∈ [1, 2] at hc
  simp only [List.mem_cons, List.mem_singleton, List.not_mem_nil, or_false] at hc
  rcases hc with rfl | rfl
  · exact ⟨_, rfl, rfl⟩
  · exact ⟨_, rfl, rfl⟩

/-- C38, amended: for a node without a measure callback that owns its children, a parentless
child and an index up to the child count, `RNYGNodeInsertChild` returns, the child list of the
node is then the old list with the child inserted at the index (the child is at the index and
the list without this entry is the old list), and a following `RNYGNodeRemoveChild` of the
child returns, finds the child, leaves the node with exactly the old child list and leaves the
child with a null parent. -/
theorem insertChild_removeChild_restores (h : RNYGHeap) (node child : RNYGNodeRef)
    (index : Nat) (nd cd : RNYGHeapNode) (hnode : h.get node = some nd)
    (hmeas : nd.measure = none) (hown : h.OwnsChildren node)
    (hchild : h.get child = some cd) (hparent : cd.parent = none)
    (hidx : index ≤ nd.children.length) :
    ∃ h1, h.RNYGNodeInsertChild node child index = some h1 ∧
      h1.childrenOf node = some (nd.children.insertIdx index child) ∧
      (nd.children.insertIdx index child)[index]? = some child ∧
      (nd.children.insertIdx index child).eraseIdx index = nd.children ∧
      h1.parentOf child = some (some node) ∧
      ∃ h2, h1.RNYGNodeRemoveChild node child = some (h2, true) ∧
        h2.childrenOf node = some nd.children ∧
        h2.parentOf child = some none := by
  obtain ⟨h1, nd1, cd1, hins, hnd1, hch1, hcd1, hp1, hframe⟩ :=
    RNYGNodeInsertChild_ownsChildren hnode hmeas hown hchild hparent hidx
  have hat : (nd.children.insertIdx index child)[index]? = some child :=
    getElem_insertIdx_self_of_le child nd.children index hidx
  have hnotmem : child ∉ nd.children := by
    intro hm
    obtain ⟨cd', hcd', hp'⟩ := hown nd child hnode hm
    rw [hchild] at hcd'
    cases hcd'
    rw [hparent] at hp'
    cases hp'
  have hmem : child ∈ nd1.children := by
    rw [hch1]
    exact List.getElem?_mem hat
  refine ⟨h1, hins, by simp [childrenOf, hnd1, hch1], hat,
    eraseIdx_insertIdx_self child nd.children index, by simp [parentOf, hcd1, hp1], ?_⟩
  cases hcons : nd1.children with
  | nil =>
    rw [hcons] at hmem
    cases hmem
  | cons first rest =>
    have hfirst : ∃ fd, h1.get first = some fd ∧ fd.parent = some node := by
      by_cases hfc : first = child
      · subst hfc
        exact ⟨cd1, hcd1, hp1⟩
      · have hin : first ∈ nd.children.insertIdx index child := by
          rw [← hch1, hcons]
          exact List.mem_cons_self _ _
        have hold : first ∈ nd.children := by
          rcases (List.mem_insertIdx hidx).mp hin with e | hm
          · exact absurd e hfc
          · exact hm
        obtain ⟨fd, hfd, hfp⟩ := hown nd first hnode hold
        obtain ⟨fd', hfd', hfp'⟩ := hframe first fd hfc hfd
        exact ⟨fd', hfd', hfp'.trans hfp⟩
    obtain ⟨fd, hfd, hfp⟩ := hfirst
    obtain ⟨h2, pd2, cd2, hrem, hpd2, hch2, hcd2, hp2⟩ :=
      RNYGNodeRemoveChild_found hnd1 hcons hfd hfp hmem hcd1
    refine ⟨h2, hrem, ?_, by simp [parentOf, hcd2, hp2]⟩
    simp only [childrenOf, hpd2, Option.map_some', Option.some.injEq]
    rw [hch2, hch1]
    exact erase_insertIdx_of_not_mem child nd.children index hidx hnotmem

theorem insertChild_removeChild_restores_witness :
    ∃ h1, familyAndOrphanHeap.RNYGNodeInsertChild 0 3 1 = some h1 ∧
      h1.childrenOf 0 = some [1, 3, 2] ∧
      ([1, 2].insertIdx 1 3)[1]? = some 3 ∧
      ([1, 2].insertIdx 1 3).eraseIdx 1 = [1, 2] ∧
      h1.parentOf 3 = some (some 0) ∧
      ∃ h2, h1.RNYGNodeRemoveChild 0 3 = some (h2, true) ∧
        h2.childrenOf 0 = some [1, 2] ∧
        h2.parentOf 3 = some none :=
  insertChild_removeChild_restores familyAndOrphanHeap 0 3 1
    { newNode gYGConfigDefaults with children := [1, 2] } (newNode gYGConfigDefaults) rfl rfl
    familyAndOrphanHeap_ownsChildren rfl rfl (by decide)

end RNYGHeap

/-! ### The bound of `nextCachedMeasurementsIndex` -/

theorem RNYGLayoutNodeInternal.storeIndex_lt (gen : Nat) (node : RNYGNode C)
    (pd : RNYGDirection)
    (h : node.layout.nextCachedMeasurementsIndex ≤ RNYG_MAX_CACHED_RESULT_COUNT) :
    RNYGLayoutNodeInternal.storeIndex gen node pd < RNYG_MAX_CACHED_RESULT_COUNT := by
  unfold RNYGLayoutNodeInternal.storeIndex
  simp only [RNYG_MAX_CACHED_RESULT_COUNT] at h ⊢
  split_ifs <;> omega

/-- A call of `RNYGLayoutNodeInternal` that returns the flag false was served by a cache entry
and leaves the cache of the node as it is. -/
theorem RNYGLayoutNodeInternal.core_hit (gen : Nat)
    (impl : RNYGNode C → YGFloat → YGFloat → RNYGDirection → RNYGMeasureMode →
      RNYGMeasureMode → YGFloat → YGFloat → Bool → RNYGConfig → Option (RNYGNode C))
    (node : RNYGNode C) (aw ah : YGFloat) (pd : RNYGDirection) (wm hm : RNYGMeasureMode)
    (pw ph : YGFloat) (pl : Bool) (config : RNYGConfig) (r : RNYGNode C)
    (h : RNYGLayoutNodeInternal.core gen impl node aw ah pd wm hm pw ph pl config =
      some (r, false)) :
    r.cacheState = node.cacheState := by
  unfold RNYGLayoutNodeInternal.core at h
  simp only [Option.map_eq_some', Prod.mk.injEq] at h
  obtain ⟨a, ha, hr, hflag⟩ := h
  by_cases hv : RNYGLayoutNodeInternal.needToVisitNode gen node pd = true
  · unfold RNYGLayoutNodeInternal.needToVisitNode at hv
    simp only [hv, Bool.true_or] at hflag
    cases hflag
  · have hv' := hv
    unfold RNYGLayoutNodeInternal.needToVisitNode at hv'
    simp only [Bool.not_eq_true] at hv'
    simp only [hv', Bool.false_eq_true, if_false, Bool.false_or] at ha hflag
    cases hl : RNYGLayoutNodeInternal.lookup node node.layout aw ah wm hm pw pl config with
    | none =>
      rw [hl] at hflag
      cases hflag
    | some cached =>
      rw [hl] at ha
      simp only [Option.some.injEq] at ha
      rw [← hr, ← ha, (RNYGLayoutNodeInternal.epilogue_layout gen _ pl).1]
      rfl

/-- What a call of `RNYGLayoutNodeInternal` that returns does to the measurement entries and
to `nextCachedMeasurementsIndex` of its node: nothing, or the index is set to the store index
`i`, or the entry `i` is written and the index is set to `i + 1`. -/
theorem RNYGLayoutNodeInternal_cache_step (gen n : Nat) (node : RNYGTree n)
    (aw ah : YGFloat) (pd : RNYGDirection) (wm hm : RNYGMeasureMode) (pw ph : YGFloat)
    (pl : Bool) (config : RNYGConfig) (r : RNYGTree n) (flag : Bool)
    (h : RNYGLayoutNodeInternal gen n node aw ah pd wm hm pw ph pl config = some (r, flag)) :
    (r.layout.cachedMeasurements = node.layout.cachedMeasurements ∧
      (r.layout.nextCachedMeasurementsIndex = node.layout.nextCachedMeasurementsIndex ∨
        r.layout.nextCachedMeasurementsIndex =
          RNYGLayoutNodeInternal.storeIndex gen node pd)) ∨
    (r.layout.cachedMeasurements =
        Function.update node.layout.cachedMeasurements
          (RNYGLayoutNodeInternal.storeIndex gen node pd)
          (RNYGLayoutNodeInternal.newCacheEntry aw ah wm hm r) ∧
      r.layout.nextCachedMeasurementsIndex =
        RNYGLayoutNodeInternal.storeIndex gen node pd + 1) := by
  cases flag with
  | false =>
    have hc : r.cacheState = node.cacheState := by
      cases n with
      | zero => exact RNYGLayoutNodeInternal.core_hit gen _ node _ _ _ _ _ _ _ _ _ r h
      | succ k => exact RNYGLayoutNodeInternal.core_hit gen _ node _ _ _ _ _ _ _ _ _ r h
    simp only [RNYGNode.cacheState, Prod.mk.injEq] at hc
    exact Or.inl ⟨hc.2.1, Or.inl hc.2.2⟩
  | true =>
    have hs : (pl = true →
          r.layout.cachedLayout = RNYGLayoutNodeInternal.newCacheEntry aw ah wm hm r ∧
          r.layout.cachedMeasurements = node.layout.cachedMeasurements ∧
          r.layout.nextCachedMeasurementsIndex =
            RNYGLayoutNodeInternal.storeIndex gen node pd) ∧
        (pl = false →
          r.layout.cachedMeasurements =
            Function.update node.layout.cachedMeasurements
              (RNYGLayoutNodeInternal.storeIndex gen node pd)
              (RNYGLayoutNodeInternal.newCacheEntry aw ah wm hm r) ∧
          r.layout.nextCachedMeasurementsIndex =
            RNYGLayoutNodeInternal.storeIndex gen node pd + 1 ∧
          r.layout.cachedLayout =
            if RNYGLayoutNodeInternal.needToVisitNode gen node pd = true then
              (RNYGLayoutNodeInternal.invalidate node.layout).cachedLayout
            else node.layout.cachedLayout) := by
      cases n with
      | zero =>
        exact RNYGLayoutNodeInternal.core_store gen _
          (fun _ _ _ _ _ _ _ _ _ _ _ hb =>
            RNYGNodelayoutImpl.leaf_cacheState _ _ _ _ _ _ _ _ _ hb)
          node _ _ _ _ _ _ _ _ _ r h
      | succ k =>
        exact RNYGLayoutNodeInternal.core_store gen _
          (fun _ _ _ _ _ _ _ _ _ _ _ hb =>
            RNYGNodelayoutImpl_cacheState _ _ _ _ _ _ _ _ _ _ _ _ _ _ _ hb)
          node _ _ _ _ _ _ _ _ _ r h
    cases pl with
    | true =>
      obtain ⟨-, h2, h3⟩ := hs.1 rfl
      exact Or.inl ⟨h2, Or.inr h3⟩
    | false =>
      obtain ⟨h1, h2, -⟩ := hs.2 rfl
      exact Or.inr ⟨h1, h2⟩

theorem RNYGLayoutNodeInternal.Reachable.index_le {n : Nat} {node : RNYGTree n}
    (h : RNYGLayoutNodeInternal.Reachable n node) :
    node.layout.nextCachedMeasurementsIndex ≤ RNYG_MAX_CACHED_RESULT_COUNT := by
  induction h with
  | fresh n config => exact Nat.zero_le _
  | other n node node' _ hstep ih =>
    rcases hstep with e | e
    · rw [e]
      exact ih
    · rw [e]
      exact Nat.zero_le _
  | call gen n node aw ah pd wm hm pw ph pl config r flag _ hcall ih =>
    have hlt := RNYGLayoutNodeInternal.storeIndex_lt gen node pd ih
    rcases RNYGLayoutNodeInternal_cache_step gen n node aw ah pd wm hm pw ph pl config r flag
      hcall with ⟨-, e | e⟩ | ⟨-, e⟩
    · rw [e]
      exact ih
    · rw [e]
      exact le_of_lt hlt
    · rw [e]
      exact hlt

/-- C36: in every state of a node that is reached from a newly constructed node through calls
of `RNYGLayoutNodeInternal` (and through the other operations, which leave
`nextCachedMeasurementsIndex` as it is or set it to 0), `nextCachedMeasurementsIndex` is at most
16, and a call of `RNYGLayoutNodeInternal` on the node in such a state that returns either
leaves the measurement entries of the node as they are or writes exactly one of them, at an
index strictly below 16. -/
theorem RNYGLayoutNodeInternal_cache_index_bounded (n : Nat) (node : RNYGTree n)
    (hreach : RNYGLayoutNodeInternal.Reachable n node) :
    node.layout.nextCachedMeasurementsIndex ≤ RNYG_MAX_CACHED_RESULT_COUNT ∧
      RNYG_MAX_CACHED_RESULT_COUNT = 16 ∧
      ∀ (gen : Nat) (availableWidth availableHeight : YGFloat) (parentDirection : RNYGDirection)
        (widthMeasureMode heightMeasureMode : RNYGMeasureMode)
        (parentWidth parentHeight : YGFloat) (performLayout : Bool) (config : RNYGConfig)
        (r : RNYGTree n) (flag : Bool),
        RNYGLayoutNodeInternal gen n node availableWidth availableHeight parentDirection
          widthMeasureMode heightMeasureMode parentWidth parentHeight performLayout config
            = some (r, flag) →
        r.layout.nextCachedMeasurementsIndex ≤ RNYG_MAX_CACHED_RESULT_COUNT ∧
          (r.layout.cachedMeasurements = node.layout.cachedMeasurements ∨
            ∃ i, i < RNYG_MAX_CACHED_RESULT_COUNT ∧
              r.layout.cachedMeasurements =
                Function.update node.layout.cachedMeasurements i
                  (RNYGLayoutNodeInternal.newCacheEntry availableWidth availableHeight
                    widthMeasureMode heightMeasureMode r)) := by
  refine ⟨hreach.index_le, rfl, ?_⟩
  intro gen aw ah pd wm hm pw ph pl config r flag hcall
  refine ⟨(RNYGLayoutNodeInternal.Reachable.call gen n node aw ah pd wm hm pw ph pl config r
    flag hreach hcall).index_le, ?_⟩
  rcases RNYGLayoutNodeInternal_cache_step gen n node aw ah pd wm hm pw ph pl config r flag
    hcall with ⟨e, -⟩ | ⟨e, -⟩
  · exact Or.inl e
  · exact Or.inr ⟨_, RNYGLayoutNodeInternal.storeIndex_lt gen node pd hreach.index_le, e⟩

theorem measureRepeatedly_reachable :
    ∀ (count : Nat) (node r : RNYGTree 0), RNYGLayoutNodeInternal.Reachable 0 node →
      measureRepeatedly count node = some r → RNYGLayoutNodeInternal.Reachable 0 r
  | 0, node, r, hreach, h => by
    simp only [measureRepeatedly, Option.some.injEq] at h
    rw [← h]
    exact hreach
  | count + 1, node, r, hreach, h => by
    simp only [measureRepeatedly, Option.bind_eq_some] at h
    obtain ⟨p, hp, hrest⟩ := h
    exact measureRepeatedly_reachable count p.1 r
      (RNYGLayoutNodeInternal.Reachable.call _ 0 node _ _ _ _ _ _ _ _ _ p.1 p.2 hreach hp) hrest

theorem RNYGLayoutNodeInternal_cache_index_bounded_witness :
    (measureRepeatedly 16 freshLeaf).map (fun node => node.layout.nextCachedMeasurementsIndex)
      = some 16 ∧
    ((measureRepeatedly 16 freshLeaf).bind (fun node =>
      RNYGLayoutNodeInternal 1 0 node (some 50) (some 10) RNYGDirection.LTR
        RNYGMeasureMode.Exactly RNYGMeasureMode.Exactly (some 100) (some 100) false
        gYGConfigDefaults)).map
      (fun p => decide (p.1.layout.nextCachedMeasurementsIndex ≤ RNYG_MAX_CACHED_RESULT_COUNT))
      = some true :=
  ⟨by decide!, Option.map_eq_some_of_forall _ _ _ (by decide!) (fun p hp => by
    obtain ⟨node, hnode, hcall⟩ := Option.bind_eq_some.mp hp
    exact decide_eq_true
      (((RNYGLayoutNodeInternal_cache_index_bounded 0 node
        (measureRepeatedly_reachable 16 freshLeaf node
          (RNYGLayoutNodeInternal.Reachable.fresh 0 gYGConfigDefaults) hnode)).2.2
        1 _ _ _ _ _ _ _ _ _ p.1 p.2 hcall).1))⟩

/-! ### Progress of the line collection -/

theorem RNYGCalculateCollectFlexItemsRowValues.loop_skip_child {D : Type}
    (mainAxis : RNYGFlexDirection) (isNodeFlexWrap : Bool)
    (mainAxisParentSize availableInnerWidth availableInnerMainDim : YGFloat) (lineCount : Nat)
    (child : RNYGNode D) (rest : List (RNYGNode D)) (endOfLineIndex : Nat)
    (sizeConsumed : YGFloat) (values : RNYGCollectFlexItemsRowValues)
    (hflow : isInFlow child = false) :
    (RNYGCalculateCollectFlexItemsRowValues.loop mainAxis isNodeFlexWrap mainAxisParentSize
        availableInnerWidth availableInnerMainDim lineCount (child :: rest) endOfLineIndex
        sizeConsumed values).1 =
      child :: (RNYGCalculateCollectFlexItemsRowValues.loop mainAxis isNodeFlexWrap
        mainAxisParentSize availableInnerWidth availableInnerMainDim lineCount rest
        (endOfLineIndex + 1) sizeConsumed values).1 := by
  have hcond : (decide (child.style.display = RNYGDisplay.None) ||
      decide (child.style.positionType = RNYGPositionType.Absolute)) = true := by
    unfold isInFlow at hflow
    cases hp : child.style.positionType with
    | Absolute => simp
    | Relative =>
      rw [hp] at hflow
      simpa using hflow
  rw [RNYGCalculateCollectFlexItemsRowValues.loop]
  simp only [hcond, if_true]

/-- The collection loop returns as many children as it was given, stops at an index that is
at most the number of children, and, when it starts on an empty line with a child left, stops
after that child. -/
theorem RNYGCalculateCollectFlexItemsRowValues.loop_progress {D : Type}
    (mainAxis : RNYGFlexDirection) (isNodeFlexWrap : Bool)
    (mainAxisParentSize availableInnerWidth availableInnerMainDim : YGFloat) (lineCount : Nat) :
    ∀ (l : List (RNYGNode D)) (endOfLineIndex : Nat) (sizeConsumed : YGFloat)
      (values : RNYGCollectFlexItemsRowValues),
      (RNYGCalculateCollectFlexItemsRowValues.loop mainAxis isNodeFlexWrap mainAxisParentSize
        availableInnerWidth availableInnerMainDim lineCount l endOfLineIndex sizeConsumed
        values).1.length = l.length ∧
      (RNYGCalculateCollectFlexItemsRowValues.loop mainAxis isNodeFlexWrap mainAxisParentSize
        availableInnerWidth availableInnerMainDim lineCount l endOfLineIndex sizeConsumed
        values).2.2 ≤ endOfLineIndex + l.length ∧
      (l ≠ [] → values.itemsOnLine = 0 →
        endOfLineIndex < (RNYGCalculateCollectFlexItemsRowValues.loop mainAxis isNodeFlexWrap
          mainAxisParentSize availableInnerWidth availableInnerMainDim lineCount l
          endOfLineIndex sizeConsumed values).2.2)
  | [], _, _, _ => by
    simp [RNYGCalculateCollectFlexItemsRowValues.loop]
  | child :: rest, endOfLineIndex, sizeConsumed, values => by
    by_cases hflow : isInFlow child = true
    · rw [RNYGCalculateCollectFlexItemsRowValues.loop_inFlow mainAxis isNodeFlexWrap
        mainAxisParentSize availableInnerWidth availableInnerMainDim lineCount child rest
        endOfLineIndex sizeConsumed values hflow]
      by_cases hend : endsLineAsClaimed isNodeFlexWrap values.itemsOnLine sizeConsumed
          (child.getMarginForAxis mainAxis availableInnerWidth)
          (RNYGNodeBoundAxisWithinMinAndMax child mainAxis child.layout.computedFlexBasis
            mainAxisParentSize) availableInnerMainDim = true
      · rw [if_pos hend]
        refine ⟨rfl, Nat.le_add_right _ _, fun _ hzero => ?_⟩
        unfold endsLineAsClaimed at hend
        rw [hzero] at hend
        simp at hend
      · rw [if_neg hend]
        obtain ⟨h1, h2, -⟩ := RNYGCalculateCollectFlexItemsRowValues.loop_progress mainAxis
          isNodeFlexWrap mainAxisParentSize availableInnerWidth availableInnerMainDim lineCount
          rest (endOfLineIndex + 1)
          (fadd sizeConsumed
            (fadd (RNYGNodeBoundAxisWithinMinAndMax child mainAxis
                child.layout.computedFlexBasis mainAxisParentSize)
              (child.getMarginForAxis mainAxis availableInnerWidth)))
          { (if child.isNodeFlexible then
              { values with
                sizeConsumedOnCurrentLine := fadd values.sizeConsumedOnCurrentLine
                  (fadd (RNYGNodeBoundAxisWithinMinAndMax child mainAxis
                      child.layout.computedFlexBasis mainAxisParentSize)
                    (child.getMarginForAxis mainAxis availableInnerWidth))
                itemsOnLine := values.itemsOnLine + 1
                totalFlexGrowFactors :=
                  fadd values.totalFlexGrowFactors child.resolveFlexGrow
                totalFlexShrinkScaledFactors := fadd values.totalFlexShrinkScaledFactors
                  (fmul (fneg child.resolveFlexShrink) child.layout.computedFlexBasis) }
            else
              { values with
                sizeConsumedOnCurrentLine := fadd values.sizeConsumedOnCurrentLine
                  (fadd (RNYGNodeBoundAxisWithinMinAndMax child mainAxis
                      child.layout.computedFlexBasis mainAxisParentSize)
                    (child.getMarginForAxis mainAxis availableInnerWidth))
                itemsOnLine := values.itemsOnLine + 1 }) with
            relativeChildren := values.relativeChildren ++ [endOfLineIndex] }
        have h3 := RNYGCalculateCollectFlexItemsRowValues.loop_stop_ge mainAxis isNodeFlexWrap
          mainAxisParentSize availableInnerWidth availableInnerMainDim lineCount rest
          (endOfLineIndex + 1)
          (fadd sizeConsumed
            (fadd (RNYGNodeBoundAxisWithinMinAndMax child mainAxis
                child.layout.computedFlexBasis mainAxisParentSize)
              (child.getMarginForAxis mainAxis availableInnerWidth)))
          { (if child.isNodeFlexible then
              { values with
                sizeConsumedOnCurrentLine := fadd values.sizeConsumedOnCurrentLine
                  (fadd (RNYGNodeBoundAxisWithinMinAndMax child mainAxis
                      child.layout.computedFlexBasis mainAxisParentSize)
                    (child.getMarginForAxis mainAxis availableInnerWidth))
                itemsOnLine := values.itemsOnLine + 1
                totalFlexGrowFactors :=
                  fadd values.totalFlexGrowFactors child.resolveFlexGrow
                totalFlexShrinkScaledFactors := fadd values.totalFlexShrinkScaledFactors
                  (fmul (fneg child.resolveFlexShrink) child.layout.computedFlexBasis) }
            else
              { values with
                sizeConsumedOnCurrentLine := fadd values.sizeConsumedOnCurrentLine
                  (fadd (RNYGNodeBoundAxisWithinMinAndMax child mainAxis
                      child.layout.computedFlexBasis mainAxisParentSize)
                    (child.getMarginForAxis mainAxis availableInnerWidth))
                itemsOnLine := values.itemsOnLine + 1 }) with
            relativeChildren := values.relativeChildren ++ [endOfLineIndex] }
        exact ⟨congrArg (· + 1) h1,
          Nat.le_trans h2 (by simp only [List.length_cons]; omega),
          fun _ _ => Nat.lt_of_succ_le h3⟩
    · have hflow' : isInFlow child = false := by simpa using hflow
      obtain ⟨h1, h2, -⟩ := RNYGCalculateCollectFlexItemsRowValues.loop_progress mainAxis
        isNodeFlexWrap mainAxisParentSize availableInnerWidth availableInnerMainDim lineCount
        rest (endOfLineIndex + 1) sizeConsumed values
      have h3 := RNYGCalculateCollectFlexItemsRowValues.loop_stop_ge mainAxis isNodeFlexWrap
        mainAxisParentSize availableInnerWidth availableInnerMainDim lineCount rest
        (endOfLineIndex + 1) sizeConsumed values
      rw [RNYGCalculateCollectFlexItemsRowValues.loop_skip_child mainAxis isNodeFlexWrap
          mainAxisParentSize availableInnerWidth availableInnerMainDim lineCount child rest
          endOfLineIndex sizeConsumed values hflow',
        RNYGCalculateCollectFlexItemsRowValues.loop_skip mainAxis isNodeFlexWrap
          mainAxisParentSize availableInnerWidth availableInnerMainDim lineCount child rest
          endOfLineIndex sizeConsumed values hflow']
      exact ⟨congrArg (· + 1) h1,
        Nat.le_trans h2 (by simp only [List.length_cons]; omega),
        fun _ _ => Nat.lt_of_succ_le h3⟩

theorem RNYGCalculateCollectFlexItemsRowValues_eq_loop {C D : Type} (node : RNYGNode C)
    (children : List (RNYGNode D)) (parentDirection : RNYGDirection)
    (mainAxisParentSize availableInnerWidth availableInnerMainDim : YGFloat)
    (startOfLineIndex lineCount : Nat) :
    (RNYGCalculateCollectFlexItemsRowValues node children parentDirection mainAxisParentSize
        availableInnerWidth availableInnerMainDim startOfLineIndex lineCount).1 =
      children.take startOfLineIndex ++
        (RNYGCalculateCollectFlexItemsRowValues.loop
          (RNYGResolveFlexDirection node.style.flexDirection
            (node.resolveDirection parentDirection))
          (decide (node.style.flexWrap ≠ RNYGWrap.NoWrap)) mainAxisParentSize
          availableInnerWidth availableInnerMainDim lineCount (children.drop startOfLineIndex)
          startOfLineIndex (some 0) RNYGCollectFlexItemsRowValues.zero).1 ∧
    (RNYGCalculateCollectFlexItemsRowValues node children parentDirection mainAxisParentSize
        availableInnerWidth availableInnerMainDim startOfLineIndex lineCount).2.endOfLineIndex =
      (RNYGCalculateCollectFlexItemsRowValues.loop
        (RNYGResolveFlexDirection node.style.flexDirection
          (node.resolveDirection parentDirection))
        (decide (node.style.flexWrap ≠ RNYGWrap.NoWrap)) mainAxisParentSize
        availableInnerWidth availableInnerMainDim lineCount (children.drop startOfLineIndex)
        startOfLineIndex (some 0) RNYGCollectFlexItemsRowValues.zero).2.2 := by
  unfold RNYGCalculateCollectFlexItemsRowValues
  exact ⟨rfl, rfl⟩

/-- A call of `RNYGCalculateCollectFlexItemsRowValues` keeps the number of children; with
`startOfLineIndex` below the child count it returns an `endOfLineIndex` strictly above
`startOfLineIndex` and at most the child count. -/
theorem RNYGCalculateCollectFlexItemsRowValues_progress {C D : Type} (node : RNYGNode C)
    (children : List (RNYGNode D)) (parentDirection : RNYGDirection)
    (mainAxisParentSize availableInnerWidth availableInnerMainDim : YGFloat)
    (startOfLineIndex lineCount : Nat) :
    (RNYGCalculateCollectFlexItemsRowValues node children parentDirection mainAxisParentSize
        availableInnerWidth availableInnerMainDim startOfLineIndex lineCount).1.length =
      children.length ∧
    (startOfLineIndex < children.length →
      startOfLineIndex <
        (RNYGCalculateCollectFlexItemsRowValues node children parentDirection
          mainAxisParentSize availableInnerWidth availableInnerMainDim startOfLineIndex
          lineCount).2.endOfLineIndex ∧
      (RNYGCalculateCollectFlexItemsRowValues node children parentDirection
          mainAxisParentSize availableInnerWidth availableInnerMainDim startOfLineIndex
          lineCount).2.endOfLineIndex ≤ children.length) := by
  obtain ⟨e1, e2⟩ := RNYGCalculateCollectFlexItemsRowValues_eq_loop node children
    parentDirection mainAxisParentSize availableInnerWidth availableInnerMainDim
    startOfLineIndex lineCount
  obtain ⟨h1, h2, h3⟩ := RNYGCalculateCollectFlexItemsRowValues.loop_progress
    (RNYGResolveFlexDirection node.style.flexDirection (node.resolveDirection parentDirection))
    (decide (node.style.flexWrap ≠ RNYGWrap.NoWrap)) mainAxisParentSize availableInnerWidth
    availableInnerMainDim lineCount (children.drop startOfLineIndex) startOfLineIndex (some 0)
    RNYGCollectFlexItemsRowValues.zero
  rw [e1, e2]
  constructor
  · rw [List.length_append, h1, List.length_take, List.length_drop]
    omega
  · intro hlt
    constructor
    · refine h3 ?_ rfl
      intro hnil
      have := congrArg List.length hnil
      rw [List.length_drop] at this
      simp only [List.length_nil] at this
      omega
    · refine Nat.le_trans h2 ?_
      rw [List.length_drop]
      omega

/-! ### The child count through a line of `RNYGNodelayoutImpl` -/

theorem mapM_some_length {α β : Type} (f : α → Option β) :
    ∀ (l : List α) (r : List β), l.mapM f = some r → r.length = l.length
  | [], r, h => by
    simp only [List.mapM_nil, pure, Option.some.injEq] at h
    subst h
    rfl
  | a :: l, r, h => by
    simp only [List.mapM_cons, bind, Option.bind_eq_some, pure, Option.some.injEq] at h
    obtain ⟨b, -, bs, hbs, rfl⟩ := h
    simp only [List.length_cons, mapM_some_length f l bs hbs]

theorem replaceSegment_length {α : Type} (children segment : List α) (start stop : Nat)
    (h : segment.length = (lineSegment children start stop).length) :
    (replaceSegment children start stop segment).length = children.length := by
  unfold replaceSegment
  unfold lineSegment at h
  simp only [List.length_append, List.length_take, List.length_drop, h]
  omega

theorem RNYGJustifyMainAxis.loop_length {C D : Type} (node : RNYGNode C)
    (mainAxis crossAxis : RNYGFlexDirection) (mm : RNYGMeasureMode) (a1 a2 a3 : YGFloat)
    (pl : Bool) (rem : YGFloat) (k : Nat) (lead between : YGFloat) :
    ∀ (l : List (RNYGNode D)) (mainDim crossDim : YGFloat),
      (RNYGJustifyMainAxis.loop node mainAxis crossAxis mm a1 a2 a3 pl rem k lead between l
        mainDim crossDim).1.length = l.length
  | [], _, _ => rfl
  | child :: rest, mainDim, crossDim => by
    rw [RNYGJustifyMainAxis.loop]
    exact congrArg (· + 1) (RNYGJustifyMainAxis.loop_length node mainAxis crossAxis mm a1 a2 a3
      pl rem k lead between rest _ _)

theorem RNYGJustifyMainAxis_length {C D : Type} (node : RNYGNode C)
    (children : List (RNYGNode D)) (values : RNYGCollectFlexItemsRowValues) (start : Nat)
    (mainAxis crossAxis : RNYGFlexDirection) (mm1 mm2 : RNYGMeasureMode)
    (a1 a2 a3 a4 a5 : YGFloat) (pl : Bool) :
    (RNYGJustifyMainAxis node children values start mainAxis crossAxis mm1 mm2 a1 a2 a3 a4 a5
      pl).1.length = children.length := by
  unfold RNYGJustifyMainAxis
  exact replaceSegment_length _ _ _ _ (RNYGJustifyMainAxis.loop_length _ _ _ _ _ _ _ _ _ _ _ _
    _ _ _)

theorem RNYGDistributeFreeSpaceSecondPass.body_length {C D : Type}
    (layoutChild : RNYGLayoutFn D) (values : RNYGCollectFlexItemsRowValues)
    (mainAxis crossAxis : RNYGFlexDirection) (a1 a2 a3 a4 a5 : YGFloat) (fbo : Bool)
    (mm : RNYGMeasureMode) (pl : Bool) (config : RNYGConfig)
    (state state' : RNYGNode C × List (RNYGNode D) × YGFloat) (i : Nat)
    (h : RNYGDistributeFreeSpaceSecondPass.body layoutChild values mainAxis crossAxis a1 a2 a3
      a4 a5 fbo mm pl config state i = some state') :
    state'.2.1.length = state.2.1.length := by
  obtain ⟨node, children, d⟩ := state
  unfold RNYGDistributeFreeSpaceSecondPass.body at h
  simp only at h
  split at h
  · simp only [Option.some.injEq] at h
    rw [← h]
  · simp only [bind, Option.bind_eq_some, pure] at h
    obtain ⟨a, -, h2⟩ := h
    simp only [Option.some.injEq] at h2
    rw [← h2]
    exact List.length_set _ _ _

theorem RNYGDistributeFreeSpaceSecondPass.foldlM_length {C D : Type}
    (f : RNYGNode C × List (RNYGNode D) × YGFloat → Nat →
      Option (RNYGNode C × List (RNYGNode D) × YGFloat))
    (hf : ∀ s i s', f s i = some s' → s'.2.1.length = s.2.1.length) :
    ∀ (l : List Nat) (s s' : RNYGNode C × List (RNYGNode D) × YGFloat),
      l.foldlM f s = some s' → s'.2.1.length = s.2.1.length
  | [], s, s', h => by
    simp only [List.foldlM, pure, Option.some.injEq] at h
    rw [← h]
  | i :: l, s, s', h => by
    simp only [List.foldlM, bind, Option.bind_eq_some] at h
    obtain ⟨s1, h1, h2⟩ := h
    rw [RNYGDistributeFreeSpaceSecondPass.foldlM_length f hf l s1 s' h2, hf s i s1 h1]

theorem RNYGResolveFlexibleLength_length {C D : Type}
    (layoutChild : RNYGLayoutFn D) (node : RNYGNode C) (children : List (RNYGNode D))
    (values : RNYGCollectFlexItemsRowValues)
    (mainAxis crossAxis : RNYGFlexDirection) (a1 a2 a3 a4 a5 : YGFloat) (fbo : Bool)
    (mm : RNYGMeasureMode) (pl : Bool) (config : RNYGConfig)
    (r : RNYGNode C × List (RNYGNode D) × RNYGCollectFlexItemsRowValues)
    (h : RNYGResolveFlexibleLength layoutChild node children values mainAxis crossAxis
      a1 a2 a3 a4 a5 fbo mm pl config = some r) :
    r.2.1.length = children.length := by
  unfold RNYGResolveFlexibleLength at h
  simp only [bind, Option.bind_eq_some, pure] at h
  obtain ⟨x, hx, h2⟩ := h
  simp only [Option.some.injEq] at h2
  rw [← h2]
  unfold RNYGDistributeFreeSpaceSecondPass at hx
  exact RNYGDistributeFreeSpaceSecondPass.foldlM_length _
    (fun s i s' hs => RNYGDistributeFreeSpaceSecondPass.body_length layoutChild _
      mainAxis crossAxis a1 a2 a3 a4 a5 fbo mm pl config s s' i hs) _ _ x hx

/-- A line of `RNYGNodelayoutImpl` keeps the number of children, the start of the line and the
line count, and ends the line where `RNYGCalculateCollectFlexItemsRowValues` ends it. -/
theorem RNYGNodelayoutImpl.lineBody_progress {C D : Type} (layoutChild : RNYGLayoutFn D)
    (l : RNYGNodelayoutImpl.Locals) (s s' : RNYGNodelayoutImpl.LineState C D)
    (h : RNYGNodelayoutImpl.lineBody layoutChild l s = some s') :
    s'.children.length = s.children.length ∧
      s'.endOfLineIndex =
        (RNYGCalculateCollectFlexItemsRowValues s.node s.children l.parentDirection
          l.mainAxisParentSize l.availableInnerWidth s.availableInnerMainDim s.startOfLineIndex
          s.lineCount).2.endOfLineIndex ∧
      s'.startOfLineIndex = s.startOfLineIndex ∧ s'.lineCount = s.lineCount := by
  have hcollect := (RNYGCalculateCollectFlexItemsRowValues_progress s.node s.children
    l.parentDirection l.mainAxisParentSize l.availableInnerWidth s.availableInnerMainDim
    s.startOfLineIndex s.lineCount).1
  unfold RNYGNodelayoutImpl.lineBody at h
  simp only [bind, pure] at h
  by_cases hc : (!(!l.performLayout && decide (l.measureModeCrossDim = RNYGMeasureMode.Exactly)))
      = true
  · rw [if_pos hc] at h
    simp only [Option.bind_eq_some] at h
    obtain ⟨a, ha, h2⟩ := h
    have h3 := RNYGResolveFlexibleLength_length _ _ _ _ _ _ _ _ _ _ _ _ _ _ _ _ ha
    by_cases hp : l.performLayout = true
    · rw [if_pos hp] at h2
      simp only [Option.bind_eq_some, Option.some.injEq] at h2
      obtain ⟨line, hline, ch, hch, rfl⟩ := h2
      refine ⟨?_, rfl, rfl, rfl⟩
      simp only
      rw [← hch, replaceSegment_length _ _ _ _ (mapM_some_length _ _ _ hline),
        RNYGJustifyMainAxis_length, h3, hcollect]
    · rw [if_neg hp] at h2
      simp only [Option.bind_eq_some, Option.some.injEq] at h2
      obtain ⟨ch, hch, rfl⟩ := h2
      refine ⟨?_, rfl, rfl, rfl⟩
      simp only
      rw [← hch, RNYGJustifyMainAxis_length, h3, hcollect]
  · rw [if_neg hc] at h
    simp only [Option.bind_eq_some] at h
    obtain ⟨a, ha, h2⟩ := h
    simp only [Option.some.injEq] at ha
    have h3 : a.2.1.length = s.children.length := by
      rw [← ha]
      exact hcollect
    by_cases hp : l.performLayout = true
    · rw [if_pos hp] at h2
      simp only [Option.bind_eq_some, Option.some.injEq] at h2
      obtain ⟨line, hline, ch, hch, rfl⟩ := h2
      refine ⟨?_, rfl, rfl, rfl⟩
      simp only
      rw [← hch, replaceSegment_length _ _ _ _ (mapM_some_length _ _ _ hline),
        RNYGJustifyMainAxis_length, h3]
    · rw [if_neg hp] at h2
      simp only [Option.bind_eq_some, Option.some.injEq] at h2
      obtain ⟨ch, hch, rfl⟩ := h2
      refine ⟨?_, rfl, rfl, rfl⟩
      simp only
      rw [← hch, RNYGJustifyMainAxis_length, h3]

/-- The line loop with enough fuel: from a state at the start of a line whose remaining
children are at most `fuel`, more fuel gives the same result, and a result has the end index
`childCount` or the end index of the start state, at most as many new lines as children were
left, and the same number of children. -/
theorem RNYGNodelayoutImpl.lineLoop_fuel {C D : Type} (layoutChild : RNYGLayoutFn D)
    (l : RNYGNodelayoutImpl.Locals) (childCount : Nat) :
    ∀ (fuel : Nat) (s : RNYGNodelayoutImpl.LineState C D),
      s.children.length = childCount → s.startOfLineIndex = s.endOfLineIndex →
      childCount - s.endOfLineIndex ≤ fuel →
      (∀ extra, RNYGNodelayoutImpl.lineLoop layoutChild l childCount (fuel + extra) s =
        RNYGNodelayoutImpl.lineLoop layoutChild l childCount fuel s) ∧
      ∀ s', RNYGNodelayoutImpl.lineLoop layoutChild l childCount fuel s = some s' →
        childCount ≤ s'.endOfLineIndex ∧
        (s.endOfLineIndex ≤ childCount → s'.endOfLineIndex = childCount) ∧
        s'.lineCount + (childCount - s'.endOfLineIndex) ≤
          s.lineCount + (childCount - s.endOfLineIndex) ∧
        s'.children.length = childCount
  | 0, s, hlen, hstart, hfuel => by
    have hge : ¬ s.endOfLineIndex < childCount := by omega
    constructor
    · intro extra
      cases extra with
      | zero => rfl
      | succ e =>
        rw [Nat.zero_add]
        unfold RNYGNodelayoutImpl.lineLoop
        rw [if_neg hge]
    · intro s' h
      simp only [RNYGNodelayoutImpl.lineLoop, Option.some.injEq] at h
      subst h
      exact ⟨by omega, fun hle => by omega, le_refl _, hlen⟩
  | fuel + 1, s, hlen, hstart, hfuel => by
    by_cases hlt : s.endOfLineIndex < childCount
    · have hunfold : ∀ k, RNYGNodelayoutImpl.lineLoop layoutChild l childCount (k + 1) s =
          (RNYGNodelayoutImpl.lineBody layoutChild l s).bind (fun s1 =>
            RNYGNodelayoutImpl.lineLoop layoutChild l childCount k
              { s1 with lineCount := s1.lineCount + 1, startOfLineIndex := s1.endOfLineIndex })
          := by
        intro k
        rw [RNYGNodelayoutImpl.lineLoop, if_pos hlt]
        rfl
      cases hbody : RNYGNodelayoutImpl.lineBody layoutChild l s with
      | none =>
        constructor
        · intro extra
          rw [Nat.add_right_comm, hunfold, hunfold, hbody]
          rfl
        · intro s' h
          rw [hunfold, hbody] at h
          cases h
      | some s1 =>
        obtain ⟨h1, h2, h3, h4⟩ := RNYGNodelayoutImpl.lineBody_progress layoutChild l s s1 hbody
        obtain ⟨hgt, hle⟩ := (RNYGCalculateCollectFlexItemsRowValues_progress s.node s.children
          l.parentDirection l.mainAxisParentSize l.availableInnerWidth s.availableInnerMainDim
          s.startOfLineIndex s.lineCount).2 (by rw [hlen, hstart]; exact hlt)
        rw [← h2] at hgt hle
        rw [hlen] at hle
        rw [hstart] at hgt
        obtain ⟨ih1, ih2⟩ := RNYGNodelayoutImpl.lineLoop_fuel layoutChild l childCount fuel
          { s1 with lineCount := s1.lineCount + 1, startOfLineIndex := s1.endOfLineIndex }
          (h1.trans hlen) rfl (by simp only; omega)
        constructor
        · intro extra
          rw [Nat.add_right_comm, hunfold, hunfold, hbody]
          exact ih1 extra
        · intro s' h
          rw [hunfold, hbody] at h
          obtain ⟨g1, g2, g3, g4⟩ := ih2 s' h
          simp only at g2 g3
          refine ⟨g1, fun _ => g2 hle, ?_, g4⟩
          rw [h4] at g3
          omega
    · constructor
      · intro extra
        rw [Nat.add_right_comm]
        unfold RNYGNodelayoutImpl.lineLoop
        rw [if_neg hlt, if_neg hlt]
      · intro s' h
        unfold RNYGNodelayoutImpl.lineLoop at h
        rw [if_neg hlt] at h
        simp only [Option.some.injEq] at h
        subst h
        exact ⟨by omega, fun hle => by omega, le_refl _, hlen⟩

/-- C35: the line-collection loop of `RNYGNodelayoutImpl` terminates for every node.  Each call
of `RNYGCalculateCollectFlexItemsRowValues` with `startOfLineIndex` below the child count
returns an `endOfLineIndex` strictly above `startOfLineIndex` and at most the child count.  The
line loop, started like `RNYGNodelayoutImpl` starts it (at index 0 with line count 0) and run
for at most `childCount` iterations, gives the result of every longer run; when it returns, it
has left by its condition with `endOfLineIndex` equal to the child count, the line count is at
most the child count, and the node has as many children as before. -/
theorem RNYGNodelayoutImpl_lineLoop_terminates {C D : Type} (layoutChild : RNYGLayoutFn D)
    (l : RNYGNodelayoutImpl.Locals) (node : RNYGNode C) (children : List (RNYGNode D))
    (availableInnerMainDim : YGFloat) :
    (∀ (parentDirection : RNYGDirection)
        (mainAxisParentSize availableInnerWidth availableInnerMainDim : YGFloat)
        (startOfLineIndex lineCount : Nat), startOfLineIndex < children.length →
        startOfLineIndex <
          (RNYGCalculateCollectFlexItemsRowValues node children parentDirection
            mainAxisParentSize availableInnerWidth availableInnerMainDim startOfLineIndex
            lineCount).2.endOfLineIndex ∧
        (RNYGCalculateCollectFlexItemsRowValues node children parentDirection
            mainAxisParentSize availableInnerWidth availableInnerMainDim startOfLineIndex
            lineCount).2.endOfLineIndex ≤ children.length) ∧
      (∀ extra, RNYGNodelayoutImpl.lineLoop layoutChild l children.length
          (children.length + extra)
          { node := node, children := children, availableInnerMainDim := availableInnerMainDim,
            startOfLineIndex := 0, endOfLineIndex := 0, lineCount := 0,
            totalLineCrossDim := some 0, maxLineMainDim := some 0 } =
        RNYGNodelayoutImpl.lineLoop layoutChild l children.length children.length
          { node := node, children := children, availableInnerMainDim := availableInnerMainDim,
            startOfLineIndex := 0, endOfLineIndex := 0, lineCount := 0,
            totalLineCrossDim := some 0, maxLineMainDim := some 0 }) ∧
      ∀ s', RNYGNodelayoutImpl.lineLoop layoutChild l children.length children.length
          { node := node, children := children, availableInnerMainDim := availableInnerMainDim,
            startOfLineIndex := 0, endOfLineIndex := 0, lineCount := 0,
            totalLineCrossDim := some 0, maxLineMainDim := some 0 } = some s' →
        s'.endOfLineIndex = children.length ∧ s'.lineCount ≤ children.length ∧
          s'.children.length = children.length := by
  obtain ⟨h1, h2⟩ := RNYGNodelayoutImpl.lineLoop_fuel layoutChild l children.length
    children.length
    { node := node, children := children, availableInnerMainDim := availableInnerMainDim,
      startOfLineIndex := 0, endOfLineIndex := 0, lineCount := 0,
      totalLineCrossDim := some 0, maxLineMainDim := some 0 } rfl rfl (Nat.sub_le _ _)
  refine ⟨fun pd a1 a2 a3 start lineCount hlt =>
    (RNYGCalculateCollectFlexItemsRowValues_progress node children pd a1 a2 a3 start
      lineCount).2 hlt, h1, fun s' hs => ?_⟩
  obtain ⟨-, g2, g3, g4⟩ := h2 s' hs
  have g2' := g2 (Nat.zero_le _)
  simp only [Nat.zero_add, Nat.sub_zero] at g3
  exact ⟨g2', by omega, g4⟩

theorem RNYGNodelayoutImpl_lineLoop_terminates_witness :
    1 < (RNYGCalculateCollectFlexItemsRowValues wrapRow
          [basis60Child, basis60Child, basis60Child] RNYGDirection.LTR (some 100) (some 100)
          (some 100) 1 1).2.endOfLineIndex ∧
      (RNYGCalculateCollectFlexItemsRowValues wrapRow
          [basis60Child, basis60Child, basis60Child] RNYGDirection.LTR (some 100) (some 100)
          (some 100) 1 1).2.endOfLineIndex ≤ [basis60Child, basis60Child, basis60Child].length :=
  (RNYGNodelayoutImpl_lineLoop_terminates keepLayoutFn columnLocals wrapRow
    [basis60Child, basis60Child, basis60Child] (some 100)).1 RNYGDirection.LTR (some 100)
    (some 100) (some 100) 1 1 (by decide)
